import Mathlib

/-! ASRenderer: pixel compositor and linear interpolation engine.

A shallow embedding of `Application/Graphics/Canvas.cpp` and
`Application/Geometry/LinearInterpolationIterator.h`.

* C++ `int` values are mathematical integers (`Int`); signed overflow is
  undefined behaviour in C++ and lies outside the model.  The one place where
  the source relies on wrap-around, `static_cast<unsigned int>` in
  `Canvas::_Set`, is modelled explicitly modulo `2 ^ 32`.
* `float` channels are modelled over exact rationals.
* Member functions that mutate `*this` return the new object.
-/

set_option autoImplicit false

/-! ## Graphics: images and the canvas -/

namespace Graphics

/-- Pixel type `itk::RGBPixel<unsigned char>`: three 8-bit components. -/
structure Color where
  r : Fin 256
  g : Fin 256
  b : Fin 256
  deriving DecidableEq, Repr

/-- Model of `Graphics::Image<TPixel>`, a thin wrapper around `itk::Image`:
the size of the largest possible region and the pixel store, addressed by the
index handed to `GetPixel` / `SetPixel`. -/
structure Image (TPixel : Type) where
  width : Nat
  height : Nat
  pixels : Int → Int → TPixel

/-- `Image::Get(i_x, i_y)`: the pixel at index `(i_x, i_y)`. -/
def Image.Get {TPixel : Type} (img : Image TPixel) (i_x i_y : Int) : TPixel :=
  img.pixels i_x i_y

/-- `Image::Set(i_x, i_y, i_c)`: overwrite the pixel at index `(i_x, i_y)`. -/
def Image.Set {TPixel : Type} (img : Image TPixel) (i_x i_y : Int) (i_c : TPixel) :
    Image TPixel :=
  { img with pixels := fun x y => if x = i_x ∧ y = i_y then i_c else img.pixels x y }

/-- `Image::GetWidth()`. -/
def Image.GetWidth {TPixel : Type} (img : Image TPixel) : Nat := img.width

/-- `Image::GetHeight()`. -/
def Image.GetHeight {TPixel : Type} (img : Image TPixel) : Nat := img.height

/-- `Image::Fill(i_value)`: every pixel becomes `i_value`. -/
def Image.Fill {TPixel : Type} (img : Image TPixel) (i_value : TPixel) : Image TPixel :=
  { img with pixels := fun _ _ => i_value }

/-- Smallest value of a 32-bit C++ `int`. -/
def INT_MIN : Int := -2147483648

/-- Largest value of a 32-bit C++ `int`. -/
def INT_MAX : Int := 2147483647

/-- The value is representable as a 32-bit C++ `int`. -/
def IsInt32 (v : Int) : Prop := INT_MIN ≤ v ∧ v ≤ INT_MAX

instance (v : Int) : Decidable (IsInt32 v) := by
  unfold IsInt32; exact inferInstance

/-- `static_cast<unsigned int>(v)` for a 32-bit `int`: reduction modulo `2 ^ 32`. -/
def static_cast_unsigned_int (v : Int) : Nat := (v % 4294967296).toNat

/-- Data members of `Graphics::Canvas`.  `Normal` is `Vector<float, 3>`, kept as
three rationals. -/
structure Canvas where
  m_image : Image Color
  m_texture_image : Image Color
  m_z_buffer : Image Int
  m_light_direction : ℚ × ℚ × ℚ

/-- `Canvas::_Set(int i_x, int i_y, int i_z, Color const& i_color)`: the returned
flag together with the canvas after the call. -/
def Canvas._Set (cv : Canvas) (i_x i_y i_z : Int) (i_color : Color) : Bool × Canvas :=
  if static_cast_unsigned_int i_x ≥ cv.m_image.GetWidth
      ∨ static_cast_unsigned_int i_y ≥ cv.m_image.GetHeight then
    (false, cv)
  else
    let z_item := cv.m_z_buffer.Get i_x i_y
    if i_z < z_item then
      (false, cv)
    else
      (true, { cv with
        m_image := cv.m_image.Set i_x i_y i_color
        m_z_buffer := cv.m_z_buffer.Set i_x i_y i_z })

/-- A 4 by 3 canvas, black, with depth 5 everywhere. -/
def sampleCanvas : Canvas :=
  { m_image := ⟨4, 3, fun _ _ => ⟨0, 0, 0⟩⟩
    m_texture_image := ⟨0, 0, fun _ _ => ⟨0, 0, 0⟩⟩
    m_z_buffer := ⟨4, 3, fun _ _ => 5⟩
    m_light_direction := (0, 0, 1) }

end Graphics

/-! ## Geometry: the linear interpolation iterator -/

namespace Geometry

/-- Value of one channel of a point tuple: an integral channel (`int`) or a
floating-point channel (`float`, kept as an exact rational). -/
inductive Scalar where
  | int (v : Int)
  | real (v : ℚ)
  deriving DecidableEq, Repr

/-- Read a channel at an integral static type.  The floating-point branch is
never taken for well-typed tuples. -/
def Scalar.asInt : Scalar → Int
  | .int v => v
  | .real _ => 0

/-- Read a channel at a floating-point static type. -/
def Scalar.asReal : Scalar → ℚ
  | .int v => (v : ℚ)
  | .real v => v

/-- The channel has an integral static type (`std::is_integral`). -/
def Scalar.isIntegral : Scalar → Bool
  | .int _ => true
  | .real _ => false

/-- Value-initialised scalar of the same static type. -/
def Scalar.zeroLike : Scalar → Scalar
  | .int _ => .int 0
  | .real _ => .real 0

/-- A point: the ordered tuple of its channels (`TPointType`). -/
abbrev PointType := List Scalar

/-- `std::get<N>(i_point)`. -/
def std_get (N : Nat) (i_point : PointType) : Scalar := i_point.getD N (Scalar.int 0)

/-- Two points have the same tuple type: same size, same static type per channel. -/
def SameTupleType (p q : PointType) : Prop :=
  p.map Scalar.isIntegral = q.map Scalar.isIntegral

instance (p q : PointType) : Decidable (SameTupleType p q) := by
  unfold SameTupleType; exact inferInstance

/-- Every channel of the point is integral. -/
def AllIntegral (p : PointType) : Prop := ∀ s ∈ p, Scalar.isIntegral s = true

instance (p : PointType) : Decidable (AllIntegral p) := by
  unfold AllIntegral; exact inferInstance

namespace LinearInterpolationIterator

/-- Data members of `_Impl::_IntegralDirection<T>`. -/
structure _IntegralDirection where
  m_fractional_shift : Int
  m_fractional_step : Int
  m_fractional_counter : Int
  m_integral_part : Int
  m_position : Int
  deriving DecidableEq, Repr

/-- Data members of `_Impl::_FloatingPointDirection<T>`. -/
structure _FloatingPointDirection where
  m_integral_part : ℚ
  m_position : ℚ
  deriving DecidableEq, Repr

/-- One element of the tuple `_AcrossData<AcrossType>::Type`: the type chosen by
`_DirectionTypeQualifier<T, std::is_floating_point<T>::value>`. -/
inductive DTQualifier where
  | integral (d : _IntegralDirection)
  | floating (d : _FloatingPointDirection)
  deriving DecidableEq, Repr

/-- Data members of `LinearInterpolationIterator::_Impl`. -/
structure _Impl where
  m_across_data : List DTQualifier
  m_pt_from : PointType
  m_pt_to : PointType
  m_along_fractional_half_step : Int
  m_along_fractional_step : Int
  m_along : Int
  deriving DecidableEq, Repr

/-- The iterator object: it owns its `_Impl` through `mp_impl`. -/
structure Self where
  mp_impl : _Impl
  deriving DecidableEq, Repr

/-- Values of the `AlongType` members of `_Impl` that its constructor leaves
uninitialised (`m_along_fractional_half_step`, `m_along_fractional_step`,
`m_along`): whatever the fresh allocation happens to hold. -/
structure Indeterminate where
  half_step : Int
  step : Int
  along : Int
  deriving DecidableEq, Repr

/-! ### `_IntegralDirection` -/

/-- `_IntegralDirection::Initialise(i_d_across, i_d_along)`; `/` and `%` are the
truncating C++ operators. -/
def _IntegralDirection.Initialise (s : _IntegralDirection) (i_d_across i_d_along : Int) :
    _IntegralDirection :=
  let across_fractional_half_step : Int := |Int.tmod i_d_across i_d_along|
  { s with
    m_integral_part := Int.tdiv i_d_across i_d_along
    m_fractional_shift := if i_d_across > 0 then 1 else -1
    m_fractional_step := across_fractional_half_step * 2 }

/-- `_IntegralDirection::Reset(i_position)`. -/
def _IntegralDirection.Reset (s : _IntegralDirection) (i_position : Int) : _IntegralDirection :=
  { s with m_position := i_position, m_fractional_counter := 0 }

/-- `_IntegralDirection::Increment(i_impl)`. -/
def _IntegralDirection.Increment (s : _IntegralDirection) (i_impl : _Impl) : _IntegralDirection :=
  let s1 : _IntegralDirection :=
    { s with
      m_position := s.m_position + s.m_integral_part
      m_fractional_counter := s.m_fractional_counter + s.m_fractional_step }
  if s1.m_fractional_counter ≥ i_impl.m_along_fractional_half_step then
    { s1 with
      m_position := s1.m_position + s1.m_fractional_shift
      m_fractional_counter := s1.m_fractional_counter - i_impl.m_along_fractional_step }
  else
    s1

/-- `_IntegralDirection::Decrement(i_impl)`. -/
def _IntegralDirection.Decrement (s : _IntegralDirection) (i_impl : _Impl) : _IntegralDirection :=
  let s1 : _IntegralDirection :=
    { s with
      m_position := s.m_position - s.m_integral_part
      m_fractional_counter := s.m_fractional_counter - s.m_fractional_step }
  if s1.m_fractional_counter < i_impl.m_along_fractional_half_step then
    { s1 with
      m_position := s1.m_position - s1.m_fractional_shift
      m_fractional_counter := s1.m_fractional_counter + i_impl.m_along_fractional_step }
  else
    s1

/-! ### `_FloatingPointDirection` -/

/-- `_FloatingPointDirection::Initialise(i_d_across, i_d_along)`. -/
def _FloatingPointDirection.Initialise (s : _FloatingPointDirection) (i_d_across : ℚ)
    (i_d_along : Int) : _FloatingPointDirection :=
  { s with m_integral_part := i_d_across / (i_d_along : ℚ) }

/-- `_FloatingPointDirection::Reset(i_position)`. -/
def _FloatingPointDirection.Reset (s : _FloatingPointDirection) (i_position : ℚ) :
    _FloatingPointDirection :=
  { s with m_position := i_position }

/-- `_FloatingPointDirection::Increment(i_impl)`. -/
def _FloatingPointDirection.Increment (s : _FloatingPointDirection) (_i_impl : _Impl) :
    _FloatingPointDirection :=
  { s with m_position := s.m_position + s.m_integral_part }

/-- `_FloatingPointDirection::Decrement(i_impl)`. -/
def _FloatingPointDirection.Decrement (s : _FloatingPointDirection) (_i_impl : _Impl) :
    _FloatingPointDirection :=
  { s with m_position := s.m_position - s.m_integral_part }

/-! ### Dispatch on the element type of the across tuple -/

/-- Value-initialised tuple element for a channel of the given static type
(`std::tuple` value-initialises its elements). -/
def DTQualifier.valueInit (channel : Scalar) : DTQualifier :=
  match channel with
  | .int _ => .integral ⟨0, 0, 0, 0, 0⟩
  | .real _ => .floating ⟨0, 0⟩

/-- `.Initialise(d_across, i_d_along)` on a tuple element, with
`d_across = to - from` computed in the channel type of the element. -/
def DTQualifier.Initialise (item : DTQualifier) (i_to i_from : Scalar) (i_d_along : Int) :
    DTQualifier :=
  match item with
  | .integral d => .integral (d.Initialise (i_to.asInt - i_from.asInt) i_d_along)
  | .floating d => .floating (d.Initialise (i_to.asReal - i_from.asReal) i_d_along)

/-- `.Reset(i_position)` on a tuple element. -/
def DTQualifier.Reset (item : DTQualifier) (i_position : Scalar) : DTQualifier :=
  match item with
  | .integral d => .integral (d.Reset i_position.asInt)
  | .floating d => .floating (d.Reset i_position.asReal)

/-- `.Increment(i_impl)` on a tuple element. -/
def DTQualifier.Increment (item : DTQualifier) (i_impl : _Impl) : DTQualifier :=
  match item with
  | .integral d => .integral (d.Increment i_impl)
  | .floating d => .floating (d.Increment i_impl)

/-- `.Decrement(i_impl)` on a tuple element. -/
def DTQualifier.Decrement (item : DTQualifier) (i_impl : _Impl) : DTQualifier :=
  match item with
  | .integral d => .integral (d.Decrement i_impl)
  | .floating d => .floating (d.Decrement i_impl)

/-- `.m_position` of a tuple element. -/
def DTQualifier.m_position (item : DTQualifier) : Scalar :=
  match item with
  | .integral d => .int d.m_position
  | .floating d => .real d.m_position

/-- `std::get<N>(m_across_data)`. -/
def std_get_across (N : Nat) (data : List DTQualifier) : DTQualifier :=
  data.getD N (.integral ⟨0, 0, 0, 0, 0⟩)

/-! ### `_Impl` -/

/-- `_Impl::GetAlongCoord(i_point)`: `std::get<Direction>(i_point)`; the along
type is integral (`static_assert`). -/
def _Impl.GetAlongCoord (Direction : Nat) (i_point : PointType) : Int :=
  (std_get Direction i_point).asInt

/-- `_PointAcrossItem<N>::Get<IsLess>(ip_impl, i_point)`. -/
def _PointAcrossItem.Get (N : Nat) ( IsLess : Bool) (i_point : PointType) : Scalar :=
  match IsLess with
  | true => std_get (N + 1) i_point
  | false => std_get N i_point

/-- `_Impl::GetAcrossCoord<N>(i_point)`. -/
def _Impl.GetAcrossCoord (Direction N : Nat) (i_point : PointType) : Scalar :=
  _PointAcrossItem.Get N (decide (Direction ≤ N)) i_point

/-- `_CurrentPointItem<N>::Get<IsLess, IsGreater>(ip_impl)`.  The source has no
specialisation for `<true, true>`; it cannot be instantiated. -/
def _CurrentPointItem.Get (N : Nat) ( IsLess IsGreater : Bool) (ip_impl : _Impl) : Scalar :=
  match IsLess, IsGreater with
  | false, false => .int ip_impl.m_along
  | true, false => (std_get_across (N - 1) ip_impl.m_across_data).m_position
  | false, true => (std_get_across N ip_impl.m_across_data).m_position
  | true, true => .int ip_impl.m_along

/-- `_Impl::Get<N>()`. -/
def _Impl.Get (Direction N : Nat) (impl : _Impl) : Scalar :=
  _CurrentPointItem.Get N (decide (Direction < N)) (decide (Direction > N)) impl

/-- `_Impl::_Impl(i_pt_from, i_pt_to)`: the endpoints are copied, the across tuple
is value-initialised, the three `AlongType` members are left uninitialised. -/
def _Impl.ctor (Direction : Nat) (i_pt_from i_pt_to : PointType) (u : Indeterminate) : _Impl :=
  { m_across_data :=
      (List.range (i_pt_from.length - 1)).map
        (fun N => DTQualifier.valueInit (_Impl.GetAcrossCoord Direction N i_pt_from))
    m_pt_from := i_pt_from
    m_pt_to := i_pt_to
    m_along_fractional_half_step := u.half_step
    m_along_fractional_step := u.step
    m_along := u.along }

/-! ### `_RecursiveImpl` -/

/-- `_RecursiveImpl::FillPoint<NDirection>(i_impl, i_point)`. -/
def _RecursiveImpl.FillPoint (Direction : Nat) :
    (NDirection : Nat) → _Impl → PointType → PointType
  | 0, _, i_point => i_point
  | NDirectionNext + 1, i_impl, i_point =>
    let i_point := _RecursiveImpl.FillPoint Direction NDirectionNext i_impl i_point
    i_point.set NDirectionNext (i_impl.Get Direction NDirectionNext)

/-- `_RecursiveImpl::Initialise<NDirection>(i_impl, i_d_along)`. -/
def _RecursiveImpl.Initialise (Direction : Nat) : (NDirection : Nat) → _Impl → Int → _Impl
  | 0, i_impl, i_d_along =>
    let half_step : Int := |i_d_along|
    { i_impl with
      m_along_fractional_half_step := half_step
      m_along_fractional_step := half_step * 2 }
  | NDirectionNext + 1, i_impl, i_d_along =>
    let i_impl := _RecursiveImpl.Initialise Direction NDirectionNext i_impl i_d_along
    { i_impl with
      m_across_data :=
        List.modify
          (fun item => item.Initialise
            (_Impl.GetAcrossCoord Direction NDirectionNext i_impl.m_pt_to)
            (_Impl.GetAcrossCoord Direction NDirectionNext i_impl.m_pt_from)
            i_d_along)
          NDirectionNext i_impl.m_across_data }

/-- `_RecursiveImpl::ResetIteratorToPoint<NDirection>(i_impl, i_point)`. -/
def _RecursiveImpl.ResetIteratorToPoint (Direction : Nat) :
    (NDirection : Nat) → _Impl → PointType → _Impl
  | 0, i_impl, i_point => { i_impl with m_along := _Impl.GetAlongCoord Direction i_point }
  | NDirectionNext + 1, i_impl, i_point =>
    let i_impl := _RecursiveImpl.ResetIteratorToPoint Direction NDirectionNext i_impl i_point
    { i_impl with
      m_across_data :=
        List.modify
          (fun item => item.Reset (_Impl.GetAcrossCoord Direction NDirectionNext i_point))
          NDirectionNext i_impl.m_across_data }

/-- `_RecursiveImpl::Increment<NDirection>(i_impl)`. -/
def _RecursiveImpl.Increment : (NDirection : Nat) → _Impl → _Impl
  | 0, i_impl => { i_impl with m_along := i_impl.m_along + 1 }
  | NDirectionNext + 1, i_impl =>
    let i_impl := _RecursiveImpl.Increment NDirectionNext i_impl
    { i_impl with
      m_across_data :=
        List.modify (fun item => item.Increment i_impl) NDirectionNext i_impl.m_across_data }

/-- `_RecursiveImpl::Decrement<NDirection>(i_impl)`. -/
def _RecursiveImpl.Decrement : (NDirection : Nat) → _Impl → _Impl
  | 0, i_impl => { i_impl with m_along := i_impl.m_along - 1 }
  | NDirectionNext + 1, i_impl =>
    let i_impl := _RecursiveImpl.Decrement NDirectionNext i_impl
    { i_impl with
      m_across_data :=
        List.modify (fun item => item.Decrement i_impl) NDirectionNext i_impl.m_across_data }

/-! ### The public interface of `LinearInterpolationIterator<TPointType, NDirection>` -/

/-- `Dimension = std::tuple_size<PointType>::value`. -/
def Dimension (it : Self) : Nat := it.mp_impl.m_pt_from.length

/-- `AcrossDimension = Dimension - 1`. -/
def AcrossDimension (it : Self) : Nat := Dimension it - 1

/-- The constructor `LinearInterpolationIterator(i_pt_from, i_pt_to)`. -/
def ctor (Direction : Nat) (i_pt_from i_pt_to : PointType) (u : Indeterminate) : Self :=
  let mp_impl := _Impl.ctor Direction i_pt_from i_pt_to u
  let d_along := _Impl.GetAlongCoord Direction i_pt_to - _Impl.GetAlongCoord Direction i_pt_from
  if d_along = 0 then
    ⟨mp_impl⟩
  else
    ⟨_RecursiveImpl.Initialise Direction (i_pt_from.length - 1) mp_impl d_along⟩

/-- `GoToBegin()`. -/
def GoToBegin (Direction : Nat) (it : Self) : Self :=
  ⟨_RecursiveImpl.ResetIteratorToPoint Direction (AcrossDimension it) it.mp_impl
    it.mp_impl.m_pt_from⟩

/-- `GoToEnd()`. -/
def GoToEnd (Direction : Nat) (it : Self) : Self :=
  ⟨_RecursiveImpl.ResetIteratorToPoint Direction (AcrossDimension it) it.mp_impl
    it.mp_impl.m_pt_to⟩

/-- `IsAtBegin()`. -/
def IsAtBegin (Direction : Nat) (it : Self) : Bool :=
  it.mp_impl.m_along == _Impl.GetAlongCoord Direction it.mp_impl.m_pt_from

/-- `IsAtEnd()`. -/
def IsAtEnd (Direction : Nat) (it : Self) : Bool :=
  it.mp_impl.m_along == _Impl.GetAlongCoord Direction it.mp_impl.m_pt_to

/-- The prefix `operator++()`. -/
def operator_increment (it : Self) : Self :=
  ⟨_RecursiveImpl.Increment (AcrossDimension it) it.mp_impl⟩

/-- The prefix `operator--()`. -/
def operator_decrement (it : Self) : Self :=
  ⟨_RecursiveImpl.Decrement (AcrossDimension it) it.mp_impl⟩

/-- `operator*()`: a default-constructed point filled by `FillPoint<Dimension>`. -/
def operator_deref (Direction : Nat) (it : Self) : PointType :=
  let point : PointType := it.mp_impl.m_pt_from.map Scalar.zeroLike
  _RecursiveImpl.FillPoint Direction (Dimension it) it.mp_impl point

/-- `Get<N>()`. -/
def Get (Direction N : Nat) (it : Self) : Scalar := it.mp_impl.Get Direction N

/-- The template instantiates for these endpoints: both have the same tuple type,
`Direction < Dimension` and the along type is integral (the two `static_assert`s
of the class). -/
def Instantiable (Direction : Nat) (i_pt_from i_pt_to : PointType) : Prop :=
  SameTupleType i_pt_from i_pt_to ∧ Direction < i_pt_from.length ∧
    (std_get Direction i_pt_from).isIntegral = true

instance (Direction : Nat) (i_pt_from i_pt_to : PointType) :
    Decidable (Instantiable Direction i_pt_from i_pt_to) := by
  unfold Instantiable; exact inferInstance

/-! ### Traversal loops

The loop shape used by every caller in `Canvas.cpp`
(`for(it.GoToBegin(); ; ++it) { visit(*it); if(it.IsAtEnd()) break; }`) and its
mirror image from the end.  `none` means that the fuel ran out before the loop
left through its `break`. -/

/-- Body of the forward loop from the current position: the list of visited
points. -/
def visitForward (Direction : Nat) : (fuel : Nat) → Self → Option (List PointType)
  | 0, _ => none
  | fuel + 1, it =>
    if IsAtEnd Direction it then
      some [operator_deref Direction it]
    else
      (visitForward Direction fuel (operator_increment it)).map
        (fun rest => operator_deref Direction it :: rest)

/-- `GoToBegin`, then visit and `++` until `IsAtEnd`. -/
def collectForward (Direction : Nat) (fuel : Nat) (it : Self) : Option (List PointType) :=
  visitForward Direction fuel (GoToBegin Direction it)

/-- Body of the backward loop from the current position. -/
def visitBackward (Direction : Nat) : (fuel : Nat) → Self → Option (List PointType)
  | 0, _ => none
  | fuel + 1, it =>
    if IsAtBegin Direction it then
      some [operator_deref Direction it]
    else
      (visitBackward Direction fuel (operator_decrement it)).map
        (fun rest => operator_deref Direction it :: rest)

/-- `GoToEnd`, then visit and `--` until `IsAtBegin`. -/
def collectBackward (Direction : Nat) (fuel : Nat) (it : Self) : Option (List PointType) :=
  visitBackward Direction fuel (GoToEnd Direction it)

end LinearInterpolationIterator

end Geometry

/-! ## `std::RemoveItem` (Global/TupleExtends.h) -/

namespace std

open Geometry

/-- `Details::_RemoveItemHelper<TTo, TFrom, N, I, IsIGreaterN>::CopyItem`.  The
specialisation `<N, 0, false>` ends the recursion; `I = 0` is never instantiated
with `IsIGreaterN = true`. -/
def _RemoveItemHelper.CopyItem (N : Nat) :
    (I : Nat) → ( IsIGreaterN : Bool) → PointType → PointType → PointType
  | 0, _, o_tuple_to, _ => o_tuple_to
  | I + 1, true, o_tuple_to, i_tuple_from =>
    let o_tuple_to := _RemoveItemHelper.CopyItem N I (decide (I > N)) o_tuple_to i_tuple_from
    o_tuple_to.set I (std_get (I + 1) i_tuple_from)
  | I + 1, false, o_tuple_to, i_tuple_from =>
    let o_tuple_to := _RemoveItemHelper.CopyItem N I false o_tuple_to i_tuple_from
    o_tuple_to.set I (std_get I i_tuple_from)

/-- `std::RemoveItem<N>(i_tuple)`: a default-constructed value of
`RemoveTypeByIndex<T, N>::Type` (the tuple type without its `N`-th element) filled
by `CopyItem`. -/
def RemoveItem (N : Nat) (i_tuple : PointType) : PointType :=
  let Size := i_tuple.length
  let I := Size - 1
  let res : PointType := (i_tuple.eraseIdx N).map Scalar.zeroLike
  _RemoveItemHelper.CopyItem N I (decide (I > N)) res i_tuple

end std

/-! ## Graphics: drawing on the canvas -/

namespace Graphics

open Geometry Geometry.LinearInterpolationIterator

/-- Arguments of one call of `Canvas::_Set`. -/
structure SetCall where
  i_x : Int
  i_y : Int
  i_z : Int
  i_color : Color
  deriving DecidableEq, Repr

/-- A canvas together with the record of the `_Set` calls made on it so far, in
call order. -/
structure TracedCanvas where
  canvas : Canvas
  calls : List SetCall

/-- How a drawing routine can fail to return: an `assert` of the source does not
hold, or the loop did not leave within the fuel given to the model. -/
inductive Abort where
  | assertion_failed
  | out_of_fuel
  deriving DecidableEq, Repr

/-- The color functor `F i_color_getter` handed to `_DrawHLine`: it may capture
`this` (to read the texture image and the light direction) and is applied to the
span iterator. -/
abbrev ColorGetter := Canvas → Self → Color

/-- The content of a freshly allocated image buffer and the other members that
`Canvas::Canvas` leaves as they are: `Allocate(false)` does not initialise the
pixels, `m_texture_image` is a default-constructed `Image`, and `Vector()` does not
initialise `m_light_direction`. -/
structure CanvasIndeterminate where
  image_storage : Int → Int → Color
  z_storage : Int → Int → Int
  texture_image : Image Color
  light_direction : ℚ × ℚ × ℚ

/-- `Image::Image(i_x, i_y, false)`: a region of the given size over a buffer whose
pixels are not initialised. -/
def Image.ctor {TPixel : Type} (i_x i_y : Nat) (storage : Int → Int → TPixel) : Image TPixel :=
  { width := i_x, height := i_y, pixels := storage }

/-- `Canvas::Canvas(i_w, i_h)`. -/
def Canvas.ctor (i_w i_h : Nat) (u : CanvasIndeterminate) : Canvas :=
  let m_image : Image Color := Image.ctor i_w i_h u.image_storage
  let m_z_buffer : Image Int := Image.ctor i_w i_h u.z_storage
  let black : Color := ⟨0, 0, 0⟩
  { m_image := m_image.Fill black
    m_texture_image := u.texture_image
    m_z_buffer := m_z_buffer.Fill INT_MIN
    m_light_direction := u.light_direction }

/-- `Canvas::_Set(i_x, i_y, i_z, i_color)` called as a statement: the canvas is
updated, the returned flag is dropped, the call is recorded. -/
def TracedCanvas._Set (t : TracedCanvas) (i_x i_y i_z : Int) (i_color : Color) : TracedCanvas :=
  { canvas := (t.canvas._Set i_x i_y i_z i_color).2
    calls := t.calls ++ [⟨i_x, i_y, i_z, i_color⟩] }

/-- `Canvas::_Set(Point const& i_pt, Color const& i_color)`. -/
def TracedCanvas._SetPoint (t : TracedCanvas) (i_pt : PointType) (i_color : Color) :
    TracedCanvas :=
  t._Set (std_get 0 i_pt).asInt (std_get 1 i_pt).asInt (std_get 2 i_pt).asInt i_color

/-- Conversion of a `float` to `unsigned char` (`Color::ComponentType`):
truncation towards zero; a truncated value outside `0..255` is undefined in C++
and reduced modulo 256 here. -/
def float_to_unsigned_char (v : ℚ) : Fin 256 :=
  let truncated : Int := if 0 ≤ v then ⌊v⌋ else ⌈v⌉
  ⟨(truncated % 256).toNat, by omega⟩

/-- `Vector<float, 3>::operator*(Self const&)`: the dot product. -/
def Vector_dot (a b : ℚ × ℚ × ℚ) : ℚ :=
  0 + a.1 * b.1 + a.2.1 * b.2.1 + a.2.2 * b.2.2

/-- `Canvas::_GetIntensityFromNormal(i_normal)`. -/
def Canvas._GetIntensityFromNormal (cv : Canvas) (i_normal : ℚ × ℚ × ℚ) : ℚ :=
  let intensity := Vector_dot cv.m_light_direction i_normal
  if intensity < 0 then 0 else intensity

/-- `Canvas::_Sort3PointsInDirection<NDirection>(ip_pt1, ip_pt2, ip_pt3)`: three
compare-and-swap steps on the pointers.  The channels compared (`0`, `1`, `2`) are
`int` in every instantiation. -/
def Canvas._Sort3PointsInDirection (NDirection : Nat)
    (p : PointType × PointType × PointType) : PointType × PointType × PointType :=
  let (ip_pt1, ip_pt2, ip_pt3) := p
  let (ip_pt1, ip_pt2) :=
    if (std_get NDirection ip_pt1).asInt > (std_get NDirection ip_pt2).asInt then
      (ip_pt2, ip_pt1) else (ip_pt1, ip_pt2)
  let (ip_pt1, ip_pt3) :=
    if (std_get NDirection ip_pt1).asInt > (std_get NDirection ip_pt3).asInt then
      (ip_pt3, ip_pt1) else (ip_pt1, ip_pt3)
  let (ip_pt2, ip_pt3) :=
    if (std_get NDirection ip_pt2).asInt > (std_get NDirection ip_pt3).asInt then
      (ip_pt3, ip_pt2) else (ip_pt2, ip_pt3)
  (ip_pt1, ip_pt2, ip_pt3)

/-- The loop of `Canvas::_DrawHLine`:
`for(it_line.GoToBegin(); ; ++it_line) { _Set(...); if(it_line.IsAtEnd()) break; }`,
entered with `it_line` at its current position. -/
def Canvas._DrawHLine.loop (y : Int) (i_color_getter : ColorGetter) :
    (fuel : Nat) → Self → TracedCanvas → Except Abort TracedCanvas
  | 0, _, _ => .error .out_of_fuel
  | fuel + 1, it_line, t =>
    let t := t._Set (Get 0 0 it_line).asInt y (Get 0 1 it_line).asInt
      (i_color_getter t.canvas it_line)
    if IsAtEnd 0 it_line then
      .ok t
    else
      Canvas._DrawHLine.loop y i_color_getter fuel (operator_increment it_line) t

/-- `Canvas::_DrawHLine(i_pt1, i_pt2, i_color_getter)`. -/
def Canvas._DrawHLine (u : Indeterminate) (fuel : Nat) (t : TracedCanvas)
    (i_pt1 i_pt2 : PointType) (i_color_getter : ColorGetter) : Except Abort TracedCanvas :=
  if ¬ (std_get 0 i_pt1).asInt ≤ (std_get 0 i_pt2).asInt then
    .error .assertion_failed
  else if ¬ (std_get 1 i_pt1).asInt = (std_get 1 i_pt2).asInt then
    .error .assertion_failed
  else
    let y : Int := (std_get 1 i_pt1).asInt
    let shrinked_pt1 := std.RemoveItem 1 i_pt1
    let shrinked_pt2 := std.RemoveItem 1 i_pt2
    let it_line := LinearInterpolationIterator.ctor 0 shrinked_pt1 shrinked_pt2 u
    Canvas._DrawHLine.loop y i_color_getter fuel (GoToBegin 0 it_line) t

/-- One span of `_DrawFilledTriangle` between the current points of a short edge
(`1-2` or `2-3`) and of the long edge `1-3`: `_DrawHLine(*short, *long)` in the
branch where the short edges are on the left, `_DrawHLine(*long, *short)` in the
other branch. -/
def Canvas._DrawFilledTriangle.span (u : Indeterminate) (fuel : Nat)
    (i_color_getter : ColorGetter) (shortIsLeft : Bool) (it_short it_long : Self)
    (t : TracedCanvas) : Except Abort TracedCanvas :=
  if shortIsLeft then
    Canvas._DrawHLine u fuel t (operator_deref 1 it_short) (operator_deref 1 it_long)
      i_color_getter
  else
    Canvas._DrawHLine u fuel t (operator_deref 1 it_long) (operator_deref 1 it_short)
      i_color_getter

/-- The first loop of `_DrawFilledTriangle`,
`for(; !it_bottom.IsAtEnd(); ++it_bottom, ++it_long) _DrawHLine(...)`: it returns
the long-edge iterator, which the second loop goes on with. -/
def Canvas._DrawFilledTriangle.bottom (u : Indeterminate) (fuel : Nat)
    (i_color_getter : ColorGetter) (shortIsLeft : Bool) :
    (steps : Nat) → Self → Self → TracedCanvas → Except Abort (Self × TracedCanvas)
  | 0, _, _, _ => .error .out_of_fuel
  | steps + 1, it_bottom, it_long, t =>
    if IsAtEnd 1 it_bottom then
      .ok (it_long, t)
    else
      match Canvas._DrawFilledTriangle.span u fuel i_color_getter shortIsLeft it_bottom it_long t with
      | .error e => .error e
      | .ok t =>
        Canvas._DrawFilledTriangle.bottom u fuel i_color_getter shortIsLeft steps
          (operator_increment it_bottom) (operator_increment it_long) t

/-- The second loop of `_DrawFilledTriangle`,
`for(; ; ++it_top, ++it_long) { _DrawHLine(...); if(it_top.IsAtEnd()) break; }`. -/
def Canvas._DrawFilledTriangle.top (u : Indeterminate) (fuel : Nat)
    (i_color_getter : ColorGetter) (shortIsLeft : Bool) :
    (steps : Nat) → Self → Self → TracedCanvas → Except Abort TracedCanvas
  | 0, _, _, _ => .error .out_of_fuel
  | steps + 1, it_top, it_long, t =>
    match Canvas._DrawFilledTriangle.span u fuel i_color_getter shortIsLeft it_top it_long t with
    | .error e => .error e
    | .ok t =>
      if IsAtEnd 1 it_top then
        .ok t
      else
        Canvas._DrawFilledTriangle.top u fuel i_color_getter shortIsLeft steps
          (operator_increment it_top) (operator_increment it_long) t

/-- `Canvas::_DrawFilledTriangle(ip_pt1, ip_pt2, ip_pt3, i_color_getter)`.  Every
loop of the call gets the same `fuel`. -/
def Canvas._DrawFilledTriangle (u : Indeterminate) (fuel : Nat) (t : TracedCanvas)
    (ip_pt1 ip_pt2 ip_pt3 : PointType) (i_color_getter : ColorGetter) :
    Except Abort TracedCanvas :=
  let (ip_pt1, ip_pt2, ip_pt3) := Canvas._Sort3PointsInDirection 1 (ip_pt1, ip_pt2, ip_pt3)
  if (std_get 1 ip_pt1).asInt = (std_get 1 ip_pt3).asInt then
    let (ip_pt1, ip_pt2, ip_pt3) := Canvas._Sort3PointsInDirection 0 (ip_pt1, ip_pt2, ip_pt3)
    if (std_get 0 ip_pt1).asInt = (std_get 0 ip_pt3).asInt then
      let (_, _, ip_pt3) := Canvas._Sort3PointsInDirection 2 (ip_pt1, ip_pt2, ip_pt3)
      Canvas._DrawHLine u fuel t ip_pt3 ip_pt3 i_color_getter
    else
      let z13_x2 : Int := (std_get 2 ip_pt1).asInt
        + Int.tdiv (((std_get 2 ip_pt3).asInt - (std_get 2 ip_pt1).asInt)
            * ((std_get 0 ip_pt2).asInt - (std_get 0 ip_pt1).asInt))
          ((std_get 0 ip_pt3).asInt - (std_get 0 ip_pt1).asInt)
      if z13_x2 ≥ (std_get 2 ip_pt2).asInt then
        Canvas._DrawHLine u fuel t ip_pt1 ip_pt3 i_color_getter
      else
        match Canvas._DrawHLine u fuel t ip_pt1 ip_pt2 i_color_getter with
        | .error e => .error e
        | .ok t => Canvas._DrawHLine u fuel t ip_pt2 ip_pt3 i_color_getter
  else
    let dx12 : Int := (std_get 0 ip_pt2).asInt - (std_get 0 ip_pt1).asInt
    let dx13 : Int := (std_get 0 ip_pt3).asInt - (std_get 0 ip_pt1).asInt
    let dy12 : Int := (std_get 1 ip_pt2).asInt - (std_get 1 ip_pt1).asInt
    let dy13 : Int := (std_get 1 ip_pt3).asInt - (std_get 1 ip_pt1).asInt
    let shortIsLeft : Bool := decide (dx12 * dy13 < dx13 * dy12)
    let it_bottom := GoToBegin 1 (LinearInterpolationIterator.ctor 1 ip_pt1 ip_pt2 u)
    let it_top := GoToBegin 1 (LinearInterpolationIterator.ctor 1 ip_pt2 ip_pt3 u)
    let it_long := GoToBegin 1 (LinearInterpolationIterator.ctor 1 ip_pt1 ip_pt3 u)
    match Canvas._DrawFilledTriangle.bottom u fuel i_color_getter shortIsLeft fuel
        it_bottom it_long t with
    | .error e => .error e
    | .ok (it_long, t) =>
      Canvas._DrawFilledTriangle.top u fuel i_color_getter shortIsLeft fuel it_top it_long t

/-- The loop of `Canvas::DrawLine`:
`for(it_line.GoToBegin(); ; ++it_line) { _Set(*it_line, i_color); if(it_line.IsAtEnd()) break; }`. -/
def Canvas.DrawLine.loop (Direction : Nat) (i_color : Color) :
    (fuel : Nat) → Self → TracedCanvas → Except Abort TracedCanvas
  | 0, _, _ => .error .out_of_fuel
  | fuel + 1, it_line, t =>
    let t := t._SetPoint (operator_deref Direction it_line) i_color
    if IsAtEnd Direction it_line then
      .ok t
    else
      Canvas.DrawLine.loop Direction i_color fuel (operator_increment it_line) t

/-- `Canvas::DrawLine(i_pt1, i_pt2, i_color)`. -/
def Canvas.DrawLine (u : Indeterminate) (fuel : Nat) (t : TracedCanvas)
    (i_pt1 i_pt2 : PointType) (i_color : Color) : Except Abort TracedCanvas :=
  let dx : Int := (std_get 0 i_pt2).asInt - (std_get 0 i_pt1).asInt
  let dy : Int := (std_get 1 i_pt2).asInt - (std_get 1 i_pt1).asInt
  let abs_dx : Int := |dx|
  let abs_dy : Int := |dy|
  let (i_pt1, i_pt2) :=
    if (abs_dx ≥ abs_dy ∧ dx < 0) ∨ (abs_dx < abs_dy ∧ dy < 0) then (i_pt2, i_pt1)
    else (i_pt1, i_pt2)
  if abs_dx ≥ abs_dy then
    Canvas.DrawLine.loop 0 i_color fuel (GoToBegin 0 (LinearInterpolationIterator.ctor 0 i_pt1 i_pt2 u)) t
  else
    Canvas.DrawLine.loop 1 i_color fuel (GoToBegin 1 (LinearInterpolationIterator.ctor 1 i_pt1 i_pt2 u)) t

/-- `Canvas::DrawTriangle(i_pt1, i_pt2, i_pt3, i_color)`. -/
def Canvas.DrawTriangle (u : Indeterminate) (fuel : Nat) (t : TracedCanvas)
    (i_pt1 i_pt2 i_pt3 : PointType) (i_color : Color) : Except Abort TracedCanvas :=
  match Canvas.DrawLine u fuel t i_pt1 i_pt2 i_color with
  | .error e => .error e
  | .ok t =>
    match Canvas.DrawLine u fuel t i_pt2 i_pt3 i_color with
    | .error e => .error e
    | .ok t => Canvas.DrawLine u fuel t i_pt3 i_pt1 i_color

/-- `Canvas::DrawFilledTriangle(i_pt1, i_pt2, i_pt3, i_color)`: the flat color
functor ignores the iterator. -/
def Canvas.DrawFilledTriangle (u : Indeterminate) (fuel : Nat) (t : TracedCanvas)
    (i_pt1 i_pt2 i_pt3 : PointType) (i_color : Color) : Except Abort TracedCanvas :=
  let f : ColorGetter := fun _ _i_iter => i_color
  Canvas._DrawFilledTriangle u fuel t i_pt1 i_pt2 i_pt3 f

/-- The color functor of `Canvas::DrawFilledTrianglePhong` (normals only): the
three extra channels are read from the span iterator as a `Normal`. -/
def Canvas.DrawFilledTrianglePhong.f : ColorGetter := fun this i_iter =>
  let normal : ℚ × ℚ × ℚ :=
    ((Get 0 2 i_iter).asReal, (Get 0 3 i_iter).asReal, (Get 0 4 i_iter).asReal)
  let intensity := this._GetIntensityFromNormal normal
  let component := float_to_unsigned_char (intensity * 255)
  ⟨component, component, component⟩

/-- `Canvas::DrawFilledTrianglePhong(i_pt1, i_pt2, i_pt3, i_n1, i_n2, i_n3)`. -/
def Canvas.DrawFilledTrianglePhong (u : Indeterminate) (fuel : Nat) (t : TracedCanvas)
    (i_pt1 i_pt2 i_pt3 : PointType) (i_n1 i_n2 i_n3 : ℚ × ℚ × ℚ) :
    Except Abort TracedCanvas :=
  let pt1 : PointType := [std_get 0 i_pt1, std_get 1 i_pt1, std_get 2 i_pt1,
    .real i_n1.1, .real i_n1.2.1, .real i_n1.2.2]
  let pt2 : PointType := [std_get 0 i_pt2, std_get 1 i_pt2, std_get 2 i_pt2,
    .real i_n2.1, .real i_n2.2.1, .real i_n2.2.2]
  let pt3 : PointType := [std_get 0 i_pt3, std_get 1 i_pt3, std_get 2 i_pt3,
    .real i_n3.1, .real i_n3.2.1, .real i_n3.2.2]
  Canvas._DrawFilledTriangle u fuel t pt1 pt2 pt3 Canvas.DrawFilledTrianglePhong.f

end Graphics

/-! ## Closed forms of the drawing loops -/

namespace Geometry

namespace LinearInterpolationIterator

/-- Closed form of the position of an integral across axis with start value `a`
and delta `d`, `k` steps into a walk of along delta `n` (see
`begin_increment_integral_position`). -/
def roundedPosition (a d n : Int) (k : Nat) : Int :=
  a + Int.sign d * ((2 * |d| * k + n) / (2 * n))

end LinearInterpolationIterator

end Geometry

namespace Graphics

open Geometry Geometry.LinearInterpolationIterator

/-- Unrolled form of `Canvas::_DrawHLine` for a span with `x1 ≤ x2`: one `_Set`
per step `j = 0, ..., x2 - x1` of the span iterator, at `x = x1 + j`. -/
def Canvas._DrawHLine.unrolled (u : Indeterminate) (t : TracedCanvas)
    (i_pt1 i_pt2 : PointType) (i_color_getter : ColorGetter) : TracedCanvas :=
  (List.range (Int.toNat ((std_get 0 i_pt2).asInt - (std_get 0 i_pt1).asInt) + 1)).foldl
    (fun (t : TracedCanvas) (j : Nat) =>
      t._Set ((std_get 0 i_pt1).asInt + (j : Int)) (std_get 1 i_pt1).asInt
        (Get 0 1 (operator_increment^[j] (GoToBegin 0
          (LinearInterpolationIterator.ctor 0 (std.RemoveItem 1 i_pt1) (std.RemoveItem 1 i_pt2)
            u)))).asInt
        (i_color_getter t.canvas (operator_increment^[j] (GoToBegin 0
          (LinearInterpolationIterator.ctor 0 (std.RemoveItem 1 i_pt1) (std.RemoveItem 1 i_pt2)
            u)))))
    t

end Graphics

namespace Graphics

open Geometry Geometry.LinearInterpolationIterator

/-- The point is a value of the tuple type `T` (its channels listed as
`std::is_integral`), and `T` is a point type `_DrawFilledTriangle` is instantiated
with: at least three channels, of which `x`, `y` and the depth are `int`. -/
def IsTPoint (T : List Bool) (p : PointType) : Prop :=
  p.map Scalar.isIntegral = T ∧ T.take 3 = [true, true, true]

instance (T : List Bool) (p : PointType) : Decidable (IsTPoint T p) := by
  unfold IsTPoint; exact inferInstance

/-- Sum of the pairwise coordinate differences of three vertices in `x` and `y`:
a bound on the number of iterations of every loop of one triangle. -/
def Canvas.extent (a b c : PointType) : Int :=
  |(std_get 0 a).asInt - (std_get 0 b).asInt| + |(std_get 0 a).asInt - (std_get 0 c).asInt|
    + |(std_get 0 b).asInt - (std_get 0 c).asInt|
    + |(std_get 1 a).asInt - (std_get 1 b).asInt| + |(std_get 1 a).asInt - (std_get 1 c).asInt|
    + |(std_get 1 b).asInt - (std_get 1 c).asInt|

/-- Unrolled form of one span of `_DrawFilledTriangle` (see
`_DrawFilledTriangle.span`). -/
def Canvas._DrawFilledTriangle.spanUnrolled (u : Indeterminate)
    (i_color_getter : ColorGetter) (shortIsLeft : Bool) (it_short it_long : Self)
    (t : TracedCanvas) : TracedCanvas :=
  if shortIsLeft then
    Canvas._DrawHLine.unrolled u t (operator_deref 1 it_short) (operator_deref 1 it_long)
      i_color_getter
  else
    Canvas._DrawHLine.unrolled u t (operator_deref 1 it_long) (operator_deref 1 it_short)
      i_color_getter

/-- Unrolled form of the general case of `_DrawFilledTriangle` for vertices
already sorted by `y`: the rows `y1, ..., y2 - 1` between the edges `1-2` and `1-3`,
then the rows `y2, ..., y3` between the edges `2-3` and `1-3`. -/
def Canvas._DrawFilledTriangle.unrolled (u : Indeterminate) (t : TracedCanvas)
    (ip_pt1 ip_pt2 ip_pt3 : PointType) (i_color_getter : ColorGetter) : TracedCanvas :=
  let dx12 : Int := (std_get 0 ip_pt2).asInt - (std_get 0 ip_pt1).asInt
  let dx13 : Int := (std_get 0 ip_pt3).asInt - (std_get 0 ip_pt1).asInt
  let dy12 : Int := (std_get 1 ip_pt2).asInt - (std_get 1 ip_pt1).asInt
  let dy13 : Int := (std_get 1 ip_pt3).asInt - (std_get 1 ip_pt1).asInt
  let dy23 : Int := (std_get 1 ip_pt3).asInt - (std_get 1 ip_pt2).asInt
  let shortIsLeft : Bool := decide (dx12 * dy13 < dx13 * dy12)
  let it_bottom := GoToBegin 1 (LinearInterpolationIterator.ctor 1 ip_pt1 ip_pt2 u)
  let it_top := GoToBegin 1 (LinearInterpolationIterator.ctor 1 ip_pt2 ip_pt3 u)
  let it_long := GoToBegin 1 (LinearInterpolationIterator.ctor 1 ip_pt1 ip_pt3 u)
  let t := (List.range dy12.toNat).foldl
    (fun (t : TracedCanvas) (k : Nat) =>
      Canvas._DrawFilledTriangle.spanUnrolled u i_color_getter shortIsLeft
        (operator_increment^[k] it_bottom) (operator_increment^[k] it_long) t)
    t
  (List.range (dy23.toNat + 1)).foldl
    (fun (t : TracedCanvas) (j : Nat) =>
      Canvas._DrawFilledTriangle.spanUnrolled u i_color_getter shortIsLeft
        (operator_increment^[j] it_top) (operator_increment^[dy12.toNat + j] it_long) t)
    t

end Graphics

namespace Graphics

open Geometry Geometry.LinearInterpolationIterator

/-- The pixel coordinate `(x, y)` a `_Set` call addresses. -/
def SetCall.position (c : SetCall) : Int × Int := (c.i_x, c.i_y)

/-- Loop-free form of `Canvas::_DrawFilledTriangle`: the same case analysis with
every `_DrawHLine` call and both edge loops replaced by their unrolled forms. -/
def Canvas._DrawFilledTriangle.closedForm (u : Indeterminate) (t : TracedCanvas)
    (ip_pt1 ip_pt2 ip_pt3 : PointType) (i_color_getter : ColorGetter) : TracedCanvas :=
  let (ip_pt1, ip_pt2, ip_pt3) := Canvas._Sort3PointsInDirection 1 (ip_pt1, ip_pt2, ip_pt3)
  if (std_get 1 ip_pt1).asInt = (std_get 1 ip_pt3).asInt then
    let (ip_pt1, ip_pt2, ip_pt3) := Canvas._Sort3PointsInDirection 0 (ip_pt1, ip_pt2, ip_pt3)
    if (std_get 0 ip_pt1).asInt = (std_get 0 ip_pt3).asInt then
      let (_, _, ip_pt3) := Canvas._Sort3PointsInDirection 2 (ip_pt1, ip_pt2, ip_pt3)
      Canvas._DrawHLine.unrolled u t ip_pt3 ip_pt3 i_color_getter
    else
      let z13_x2 : Int := (std_get 2 ip_pt1).asInt
        + Int.tdiv (((std_get 2 ip_pt3).asInt - (std_get 2 ip_pt1).asInt)
            * ((std_get 0 ip_pt2).asInt - (std_get 0 ip_pt1).asInt))
          ((std_get 0 ip_pt3).asInt - (std_get 0 ip_pt1).asInt)
      if z13_x2 ≥ (std_get 2 ip_pt2).asInt then
        Canvas._DrawHLine.unrolled u t ip_pt1 ip_pt3 i_color_getter
      else
        Canvas._DrawHLine.unrolled u
          (Canvas._DrawHLine.unrolled u t ip_pt1 ip_pt2 i_color_getter)
          ip_pt2 ip_pt3 i_color_getter
  else
    Canvas._DrawFilledTriangle.unrolled u t ip_pt1 ip_pt2 ip_pt3 i_color_getter

end Graphics

namespace Graphics

open Geometry Geometry.LinearInterpolationIterator

/-- The pixel coordinates `(x1, y), (x1 + 1, y), ..., (x2, y)`, left to right (one
coordinate when `x2 ≤ x1`). -/
def spanPositions (x1 x2 y : Int) : List (Int × Int) :=
  (List.range (Int.toNat (x2 - x1) + 1)).map (fun j : Nat => (x1 + (j : Int), y))

/-- The pixel coordinates of the span `_DrawHLine(i_pt1, i_pt2, ...)`. -/
def Canvas._DrawHLine.positions (s : PointType × PointType) : List (Int × Int) :=
  spanPositions (std_get 0 s.1).asInt (std_get 0 s.2).asInt (std_get 1 s.1).asInt

/-- The argument pair of one `_DrawHLine` call of the edge loops (see
`_DrawFilledTriangle.span`). -/
def Canvas._DrawFilledTriangle.spanArgs (shortIsLeft : Bool) (it_short it_long : Self) :
    PointType × PointType :=
  if shortIsLeft then (operator_deref 1 it_short, operator_deref 1 it_long)
  else (operator_deref 1 it_long, operator_deref 1 it_short)

/-- The argument pairs `(i_pt1, i_pt2)` of the `_DrawHLine` calls of one
`_DrawFilledTriangle` call, in call order (when no `assert` fails and every loop
ends, see `_DrawFilledTriangle_eq_closedForm`). -/
def Canvas._DrawFilledTriangle.spans (u : Indeterminate) (ip_pt1 ip_pt2 ip_pt3 : PointType) :
    List (PointType × PointType) :=
  let (ip_pt1, ip_pt2, ip_pt3) := Canvas._Sort3PointsInDirection 1 (ip_pt1, ip_pt2, ip_pt3)
  if (std_get 1 ip_pt1).asInt = (std_get 1 ip_pt3).asInt then
    let (ip_pt1, ip_pt2, ip_pt3) := Canvas._Sort3PointsInDirection 0 (ip_pt1, ip_pt2, ip_pt3)
    if (std_get 0 ip_pt1).asInt = (std_get 0 ip_pt3).asInt then
      let (_, _, ip_pt3) := Canvas._Sort3PointsInDirection 2 (ip_pt1, ip_pt2, ip_pt3)
      [(ip_pt3, ip_pt3)]
    else
      let z13_x2 : Int := (std_get 2 ip_pt1).asInt
        + Int.tdiv (((std_get 2 ip_pt3).asInt - (std_get 2 ip_pt1).asInt)
            * ((std_get 0 ip_pt2).asInt - (std_get 0 ip_pt1).asInt))
          ((std_get 0 ip_pt3).asInt - (std_get 0 ip_pt1).asInt)
      if z13_x2 ≥ (std_get 2 ip_pt2).asInt then
        [(ip_pt1, ip_pt3)]
      else
        [(ip_pt1, ip_pt2), (ip_pt2, ip_pt3)]
  else
    let dx12 : Int := (std_get 0 ip_pt2).asInt - (std_get 0 ip_pt1).asInt
    let dx13 : Int := (std_get 0 ip_pt3).asInt - (std_get 0 ip_pt1).asInt
    let dy12 : Int := (std_get 1 ip_pt2).asInt - (std_get 1 ip_pt1).asInt
    let dy13 : Int := (std_get 1 ip_pt3).asInt - (std_get 1 ip_pt1).asInt
    let dy23 : Int := (std_get 1 ip_pt3).asInt - (std_get 1 ip_pt2).asInt
    let shortIsLeft : Bool := decide (dx12 * dy13 < dx13 * dy12)
    let it_bottom := GoToBegin 1 (LinearInterpolationIterator.ctor 1 ip_pt1 ip_pt2 u)
    let it_top := GoToBegin 1 (LinearInterpolationIterator.ctor 1 ip_pt2 ip_pt3 u)
    let it_long := GoToBegin 1 (LinearInterpolationIterator.ctor 1 ip_pt1 ip_pt3 u)
    (List.range dy12.toNat).map (fun k : Nat =>
        Canvas._DrawFilledTriangle.spanArgs shortIsLeft
          (operator_increment^[k] it_bottom) (operator_increment^[k] it_long))
      ++ (List.range (dy23.toNat + 1)).map (fun j : Nat =>
        Canvas._DrawFilledTriangle.spanArgs shortIsLeft
          (operator_increment^[j] it_top) (operator_increment^[dy12.toNat + j] it_long))

end Graphics

namespace Graphics

/-- What a sequence of `_Set` calls of one color `c` does: the record grows by calls
of color `c`, and every frame-buffer pixel keeps its color or becomes `c`. -/
def PaintsWith (c : Color) (t t' : TracedCanvas) : Prop :=
  (∃ extra : List SetCall, t'.calls = t.calls ++ extra ∧ ∀ s ∈ extra, s.i_color = c) ∧
  ∀ x y : Int, t'.canvas.m_image.Get x y = t.canvas.m_image.Get x y
    ∨ t'.canvas.m_image.Get x y = c

end Graphics

namespace Graphics

open Geometry Geometry.LinearInterpolationIterator

/-- Unrolled form of the loop of `Canvas::DrawLine` along `Direction` from
`i_pt1` to `i_pt2`: one `_Set(*it_line, i_color)` per step. -/
def Canvas.DrawLine.unrolled (Direction : Nat) (u : Indeterminate) (t : TracedCanvas)
    (i_pt1 i_pt2 : PointType) (i_color : Color) : TracedCanvas :=
  (List.range (Int.toNat ((std_get Direction i_pt2).asInt - (std_get Direction i_pt1).asInt)
      + 1)).foldl
    (fun (t : TracedCanvas) (j : Nat) =>
      t._SetPoint (operator_deref Direction (operator_increment^[j]
        (GoToBegin Direction (LinearInterpolationIterator.ctor Direction i_pt1 i_pt2 u))))
        i_color)
    t

/-- Loop-free form of `Canvas::DrawLine`: the same choice of direction and
orientation with the loop replaced by its unrolled form. -/
def Canvas.DrawLine.closedForm (u : Indeterminate) (t : TracedCanvas)
    (i_pt1 i_pt2 : PointType) (i_color : Color) : TracedCanvas :=
  let dx : Int := (std_get 0 i_pt2).asInt - (std_get 0 i_pt1).asInt
  let dy : Int := (std_get 1 i_pt2).asInt - (std_get 1 i_pt1).asInt
  let abs_dx : Int := |dx|
  let abs_dy : Int := |dy|
  let (i_pt1, i_pt2) :=
    if (abs_dx ≥ abs_dy ∧ dx < 0) ∨ (abs_dx < abs_dy ∧ dy < 0) then (i_pt2, i_pt1)
    else (i_pt1, i_pt2)
  if abs_dx ≥ abs_dy then
    Canvas.DrawLine.unrolled 0 u t i_pt1 i_pt2 i_color
  else
    Canvas.DrawLine.unrolled 1 u t i_pt1 i_pt2 i_color

/-- The pixel coordinates of a line walked along `x` from `(x1, y1)` to `(x2, y2)`. -/
def Canvas.DrawLine.alongX (x1 y1 x2 y2 : Int) : List (Int × Int) :=
  (List.range (Int.toNat (x2 - x1) + 1)).map
    (fun j : Nat => (x1 + (j : Int), roundedPosition y1 (y2 - y1) (x2 - x1) j))

/-- The pixel coordinates of a line walked along `y` from `(x1, y1)` to `(x2, y2)`. -/
def Canvas.DrawLine.alongY (x1 y1 x2 y2 : Int) : List (Int × Int) :=
  (List.range (Int.toNat (y2 - y1) + 1)).map
    (fun j : Nat => (roundedPosition x1 (x2 - x1) (y2 - y1) j, y1 + (j : Int)))

/-- The pixel coordinates `Canvas::DrawLine` writes between `(x1, y1)` and
`(x2, y2)`, in call order: along the axis of the larger extent, from the end with
the smaller coordinate on that axis. -/
def Canvas.DrawLine.pixels (x1 y1 x2 y2 : Int) : List (Int × Int) :=
  if |x2 - x1| ≥ |y2 - y1| then
    if x2 - x1 < 0 then Canvas.DrawLine.alongX x2 y2 x1 y1
    else Canvas.DrawLine.alongX x1 y1 x2 y2
  else
    if y2 - y1 < 0 then Canvas.DrawLine.alongY x2 y2 x1 y1
    else Canvas.DrawLine.alongY x1 y1 x2 y2

/-- The pixel coordinates of the line between two points. -/
def Canvas.DrawLine.positions (i_pt1 i_pt2 : PointType) : List (Int × Int) :=
  Canvas.DrawLine.pixels (std_get 0 i_pt1).asInt (std_get 1 i_pt1).asInt
    (std_get 0 i_pt2).asInt (std_get 1 i_pt2).asInt

end Graphics

namespace Graphics

open Geometry Geometry.LinearInterpolationIterator

/-- The span `_DrawHLine(s.1, s.2)` runs left to right and its first and its last
pixel coordinate satisfy `Q`. -/
def Canvas._DrawHLine.EndsIn (Q : Int × Int → Prop) (s : PointType × PointType) : Prop :=
  (std_get 0 s.1).asInt ≤ (std_get 0 s.2).asInt ∧
  Q ((std_get 0 s.1).asInt, (std_get 1 s.1).asInt) ∧
  Q ((std_get 0 s.2).asInt, (std_get 1 s.1).asInt)

end Graphics

/-! ## Sequences of compositor calls -/

namespace Graphics

/-- A finite sequence of `_Set` calls made one after the other on a canvas: the
canvas after the last call. -/
def Canvas._SetAll (cv : Canvas) : List SetCall → Canvas
  | [] => cv
  | c :: cs => Canvas._SetAll (cv._Set c.i_x c.i_y c.i_z c.i_color).2 cs

/-- The calls of such a sequence for which `_Set` returned `true`, in call order. -/
def Canvas.acceptedOf (cv : Canvas) : List SetCall → List SetCall
  | [] => []
  | c :: cs =>
    (if (cv._Set c.i_x c.i_y c.i_z c.i_color).1 then [c] else [])
      ++ Canvas.acceptedOf (cv._Set c.i_x c.i_y c.i_z c.i_color).2 cs

end Graphics

namespace Graphics

open Geometry Geometry.LinearInterpolationIterator

/-- The traced canvas after the first `k` compositor calls of the span
`_DrawHLine(i_pt1, i_pt2, i_color_getter)` (see `_DrawHLine.unrolled`, which is the
canvas after all `x2 - x1 + 1` calls). -/
def Canvas._DrawHLine.afterCalls (u : Indeterminate) (t : TracedCanvas)
    (i_pt1 i_pt2 : PointType) (i_color_getter : ColorGetter) (k : Nat) : TracedCanvas :=
  (List.range k).foldl
    (fun (t : TracedCanvas) (j : Nat) =>
      t._Set ((std_get 0 i_pt1).asInt + (j : Int)) (std_get 1 i_pt1).asInt
        (Get 0 1 (operator_increment^[j] (GoToBegin 0
          (LinearInterpolationIterator.ctor 0 (std.RemoveItem 1 i_pt1) (std.RemoveItem 1 i_pt2)
            u)))).asInt
        (i_color_getter t.canvas (operator_increment^[j] (GoToBegin 0
          (LinearInterpolationIterator.ctor 0 (std.RemoveItem 1 i_pt1) (std.RemoveItem 1 i_pt2)
            u)))))
    t

end Graphics

/-! ## Geometry: `Matrix` (Geometry/Matrix.h) -/

namespace Geometry

/-- `Geometry::Matrix<TValueType, NRowsCount, NColumnsCount>` for an integer value
type: the two template parameters and the data member
`std::array<ValueType, RowsCount * ColumnsCount> m_data`.  Values are unbounded
integers (signed overflow is undefined in C++). -/
structure Matrix where
  RowsCount : Nat
  ColumnsCount : Nat
  m_data : List Int
  deriving DecidableEq, Repr

/-- `Matrix::operator()(i_row, i_column) const`, read access:
`m_data[i_row * NRowsCount + i_column]`.  An index outside the array is undefined
behaviour in C++ and reads as `0` here; it does not occur for a square matrix and
`i_row < RowsCount`, `i_column < ColumnsCount`. -/
def Matrix.operator_call (m : Matrix) (i_row i_column : Nat) : Int :=
  m.m_data.getD (i_row * m.RowsCount + i_column) 0

/-- The statement `m(i_row, i_column) = i_value;`: write access through the
reference returned by `Matrix::operator()(i_row, i_column)`. -/
def Matrix.operator_call_assign (m : Matrix) (i_row i_column : Nat) (i_value : Int) : Matrix :=
  { m with m_data := m.m_data.set (i_row * m.RowsCount + i_column) i_value }

/-- `Matrix::operator*(Matrix<ValueType, ColumnsCount, NColumnsCountNew> const& i_matrix) const`.
The local `res` is not initialised by its declaration: `res_storage` is what its
array holds then. -/
def Matrix.operator_mul (self i_matrix : Matrix) (res_storage : List Int) : Matrix :=
  let res : Matrix := ⟨self.RowsCount, i_matrix.ColumnsCount, res_storage⟩
  (List.range self.RowsCount).foldl
    (fun (res : Matrix) (row : Nat) =>
      (List.range i_matrix.ColumnsCount).foldl
        (fun (res : Matrix) (column : Nat) =>
          let res := res.operator_call_assign row column 0
          (List.range self.ColumnsCount).foldl
            (fun (res : Matrix) (inner : Nat) =>
              res.operator_call_assign row column
                (self.operator_call row inner * i_matrix.operator_call inner column))
            res)
        res)
    res

/-- `Matrix::MakeIdentity()` (instantiated for `RowsCount == ColumnsCount` only,
by its `static_assert`). -/
def Matrix.MakeIdentity (m : Matrix) : Matrix :=
  let m : Matrix :=
    (List.range m.m_data.length).foldl
      (fun (m : Matrix) (i : Nat) => { m with m_data := m.m_data.set i 0 }) m
  (List.range m.RowsCount).foldl
    (fun (m : Matrix) (i : Nat) => m.operator_call_assign i i 1) m

/-- The matrix product of the specification: entry `(i, j)` of `A * B` is the sum
over `k` of `A(i, k) * B(k, j)`. -/
def Matrix.specProductEntry (A B : Matrix) (i j : Nat) : Int :=
  ((List.range A.ColumnsCount).map
    (fun k => A.operator_call i k * B.operator_call k j)).sum

end Geometry

/-! # Properties -/

/-! ## The pixel compositor `Canvas::_Set` -/

namespace Graphics

theorem static_cast_unsigned_int_of_in_bounds (v : Int) (n : Nat) (h0 : 0 ≤ v) (h1 : v < n) :
    ¬ static_cast_unsigned_int v ≥ n := by
  unfold static_cast_unsigned_int
  omega

/-- The call passes the bounds guard: what `_Set` does after it. -/
theorem Canvas._Set_of_in_bounds (cv : Canvas) (x y z : Int) (c : Color)
    (hx0 : 0 ≤ x) (hx1 : x < cv.m_image.width) (hy0 : 0 ≤ y) (hy1 : y < cv.m_image.height) :
    cv._Set x y z c =
      if z < cv.m_z_buffer.Get x y then (false, cv)
      else (true, { cv with
        m_image := cv.m_image.Set x y c
        m_z_buffer := cv.m_z_buffer.Set x y z }) := by
  have hx := static_cast_unsigned_int_of_in_bounds x cv.m_image.width hx0 hx1
  have hy := static_cast_unsigned_int_of_in_bounds y cv.m_image.height hy0 hy1
  unfold Canvas._Set Image.GetWidth Image.GetHeight
  rw [if_neg (by tauto)]

theorem Image.Get_Set_same {TPixel : Type} (img : Image TPixel) (x y : Int) (c : TPixel) :
    (img.Set x y c).Get x y = c := by
  simp [Image.Get, Image.Set]

/-- C1: for an in-bounds pixel, `_Set` returns `true` exactly when `z` is at least
the stored depth; on `true` the frame buffer holds `c` and the depth buffer holds
`z` at `(x, y)`; on `false` the canvas is unchanged. -/
theorem C1_Set_depth_test (cv : Canvas) (x y z : Int) (c : Color)
    (hx0 : 0 ≤ x) (hx1 : x < cv.m_image.width) (hy0 : 0 ≤ y) (hy1 : y < cv.m_image.height) :
    ((cv._Set x y z c).1 = true ↔ z ≥ cv.m_z_buffer.Get x y) ∧
    ((cv._Set x y z c).1 = true →
      (cv._Set x y z c).2.m_image.Get x y = c ∧ (cv._Set x y z c).2.m_z_buffer.Get x y = z) ∧
    ((cv._Set x y z c).1 = false → (cv._Set x y z c).2 = cv) := by
  rw [Canvas._Set_of_in_bounds cv x y z c hx0 hx1 hy0 hy1]
  by_cases hz : z < cv.m_z_buffer.Get x y
  · rw [if_pos hz]
    refine ⟨?_, ?_, ?_⟩
    · constructor
      · intro h; cases h
      · intro h; omega
    · intro h; cases h
    · intro _; rfl
  · rw [if_neg hz]
    refine ⟨?_, ?_, ?_⟩
    · constructor
      · intro _; omega
      · intro _; rfl
    · intro _; exact ⟨Image.Get_Set_same _ _ _ _, Image.Get_Set_same _ _ _ _⟩
    · intro h; cases h

theorem C1_Set_depth_test_witness :
    ((sampleCanvas._Set 1 2 7 ⟨255, 0, 0⟩).1 = true ↔ (7 : Int) ≥ sampleCanvas.m_z_buffer.Get 1 2) ∧
    ((sampleCanvas._Set 1 2 7 ⟨255, 0, 0⟩).1 = true →
      (sampleCanvas._Set 1 2 7 ⟨255, 0, 0⟩).2.m_image.Get 1 2 = ⟨255, 0, 0⟩ ∧
      (sampleCanvas._Set 1 2 7 ⟨255, 0, 0⟩).2.m_z_buffer.Get 1 2 = 7) ∧
    ((sampleCanvas._Set 1 2 7 ⟨255, 0, 0⟩).1 = false →
      (sampleCanvas._Set 1 2 7 ⟨255, 0, 0⟩).2 = sampleCanvas) :=
  C1_Set_depth_test sampleCanvas 1 2 7 ⟨255, 0, 0⟩ (by decide) (by decide) (by decide) (by decide)

/-- C3: depth ties are overwritten by the latest write.  A write at the stored
depth is accepted and replaces the stored color; and of two writes of equal depth
at the same in-bounds pixel the second gets the verdict of the first, and when
they pass the depth test the color stored afterwards is the second one's. -/
theorem C3_Set_depth_tie (cv : Canvas) (x y : Int)
    (hx0 : 0 ≤ x) (hx1 : x < cv.m_image.width) (hy0 : 0 ≤ y) (hy1 : y < cv.m_image.height) :
    (∀ c : Color,
      (cv._Set x y (cv.m_z_buffer.Get x y) c).1 = true ∧
      (cv._Set x y (cv.m_z_buffer.Get x y) c).2.m_image.Get x y = c) ∧
    (∀ (z : Int) (c1 c2 : Color),
      ((cv._Set x y z c1).2._Set x y z c2).1 = (cv._Set x y z c1).1 ∧
      ((cv._Set x y z c1).1 = true →
        ((cv._Set x y z c1).2._Set x y z c2).2.m_image.Get x y = c2)) := by
  constructor
  · intro c
    rw [Canvas._Set_of_in_bounds cv x y _ c hx0 hx1 hy0 hy1, if_neg (lt_irrefl _)]
    exact ⟨rfl, Image.Get_Set_same _ _ _ _⟩
  · intro z c1 c2
    rw [Canvas._Set_of_in_bounds cv x y z c1 hx0 hx1 hy0 hy1]
    by_cases hz : z < cv.m_z_buffer.Get x y
    · rw [if_pos hz]
      simp only
      rw [Canvas._Set_of_in_bounds cv x y z c2 hx0 hx1 hy0 hy1, if_pos hz]
      exact ⟨rfl, fun h => by cases h⟩
    · rw [if_neg hz]
      have h2 := Canvas._Set_of_in_bounds
        { cv with m_image := cv.m_image.Set x y c1, m_z_buffer := cv.m_z_buffer.Set x y z }
        x y z c2 hx0 hx1 hy0 hy1
      rw [Image.Get_Set_same, if_neg (lt_irrefl z)] at h2
      simp only
      rw [h2]
      exact ⟨rfl, fun _ => Image.Get_Set_same _ _ _ _⟩

theorem C3_Set_depth_tie_witness :
    (∀ c : Color,
      (sampleCanvas._Set 1 2 (sampleCanvas.m_z_buffer.Get 1 2) c).1 = true ∧
      (sampleCanvas._Set 1 2 (sampleCanvas.m_z_buffer.Get 1 2) c).2.m_image.Get 1 2 = c) ∧
    (∀ (z : Int) (c1 c2 : Color),
      ((sampleCanvas._Set 1 2 z c1).2._Set 1 2 z c2).1 = (sampleCanvas._Set 1 2 z c1).1 ∧
      ((sampleCanvas._Set 1 2 z c1).1 = true →
        ((sampleCanvas._Set 1 2 z c1).2._Set 1 2 z c2).2.m_image.Get 1 2 = c2)) :=
  C3_Set_depth_tie sampleCanvas 1 2 (by decide) (by decide) (by decide) (by decide)

end Graphics

/-! ## The interpolation engine: structure of the recursive helpers -/

namespace Geometry

namespace LinearInterpolationIterator

theorem DTQualifier.Increment_congr (item : DTQualifier) (i1 i2 : _Impl)
    (h1 : i1.m_along_fractional_half_step = i2.m_along_fractional_half_step)
    (h2 : i1.m_along_fractional_step = i2.m_along_fractional_step) :
    item.Increment i1 = item.Increment i2 := by
  cases item <;>
    simp [DTQualifier.Increment, _IntegralDirection.Increment,
      _FloatingPointDirection.Increment, h1, h2]

theorem DTQualifier.Decrement_congr (item : DTQualifier) (i1 i2 : _Impl)
    (h1 : i1.m_along_fractional_half_step = i2.m_along_fractional_half_step)
    (h2 : i1.m_along_fractional_step = i2.m_along_fractional_step) :
    item.Decrement i1 = item.Decrement i2 := by
  cases item <;>
    simp [DTQualifier.Decrement, _IntegralDirection.Decrement,
      _FloatingPointDirection.Decrement, h1, h2]

theorem _RecursiveImpl.Increment_fields (n : Nat) (impl : _Impl) :
    (_RecursiveImpl.Increment n impl).m_pt_from = impl.m_pt_from ∧
    (_RecursiveImpl.Increment n impl).m_pt_to = impl.m_pt_to ∧
    (_RecursiveImpl.Increment n impl).m_along_fractional_half_step
      = impl.m_along_fractional_half_step ∧
    (_RecursiveImpl.Increment n impl).m_along_fractional_step = impl.m_along_fractional_step ∧
    (_RecursiveImpl.Increment n impl).m_along = impl.m_along + 1 ∧
    (_RecursiveImpl.Increment n impl).m_across_data.length = impl.m_across_data.length := by
  induction n with
  | zero => simp [_RecursiveImpl.Increment]
  | succ n ih => simpa [_RecursiveImpl.Increment, List.length_modify] using ih

theorem _RecursiveImpl.Increment_across (n : Nat) (impl : _Impl) (j : Nat) :
    (_RecursiveImpl.Increment n impl).m_across_data[j]? =
      if j < n then (impl.m_across_data[j]?).map (fun item => item.Increment impl)
      else impl.m_across_data[j]? := by
  induction n with
  | zero => simp [_RecursiveImpl.Increment]
  | succ n ih =>
    obtain ⟨-, -, hh, hs, -, -⟩ := _RecursiveImpl.Increment_fields n impl
    simp only [_RecursiveImpl.Increment]
    rw [List.getElem?_modify, ih]
    by_cases hjn : n = j
    · subst hjn
      simp only [lt_irrefl, if_false, if_true, Nat.lt_succ_self, Option.map_eq_map]
      cases impl.m_across_data[n]? with
      | none => rfl
      | some item => simp [DTQualifier.Increment_congr item _ impl hh hs]
    · by_cases hlt : j < n
      · have : j < n + 1 := by omega
        simp [hjn, hlt, this]
      · have : ¬ j < n + 1 := by omega
        simp [hjn, hlt, this]

theorem _RecursiveImpl.Decrement_fields (n : Nat) (impl : _Impl) :
    (_RecursiveImpl.Decrement n impl).m_pt_from = impl.m_pt_from ∧
    (_RecursiveImpl.Decrement n impl).m_pt_to = impl.m_pt_to ∧
    (_RecursiveImpl.Decrement n impl).m_along_fractional_half_step
      = impl.m_along_fractional_half_step ∧
    (_RecursiveImpl.Decrement n impl).m_along_fractional_step = impl.m_along_fractional_step ∧
    (_RecursiveImpl.Decrement n impl).m_along = impl.m_along - 1 ∧
    (_RecursiveImpl.Decrement n impl).m_across_data.length = impl.m_across_data.length := by
  induction n with
  | zero => simp [_RecursiveImpl.Decrement]
  | succ n ih => simpa [_RecursiveImpl.Decrement, List.length_modify] using ih

theorem _RecursiveImpl.Decrement_across (n : Nat) (impl : _Impl) (j : Nat) :
    (_RecursiveImpl.Decrement n impl).m_across_data[j]? =
      if j < n then (impl.m_across_data[j]?).map (fun item => item.Decrement impl)
      else impl.m_across_data[j]? := by
  induction n with
  | zero => simp [_RecursiveImpl.Decrement]
  | succ n ih =>
    obtain ⟨-, -, hh, hs, -, -⟩ := _RecursiveImpl.Decrement_fields n impl
    simp only [_RecursiveImpl.Decrement]
    rw [List.getElem?_modify, ih]
    by_cases hjn : n = j
    · subst hjn
      simp only [lt_irrefl, if_false, if_true, Nat.lt_succ_self, Option.map_eq_map]
      cases impl.m_across_data[n]? with
      | none => rfl
      | some item => simp [DTQualifier.Decrement_congr item _ impl hh hs]
    · by_cases hlt : j < n
      · have : j < n + 1 := by omega
        simp [hjn, hlt, this]
      · have : ¬ j < n + 1 := by omega
        simp [hjn, hlt, this]

theorem _RecursiveImpl.ResetIteratorToPoint_fields (D n : Nat) (impl : _Impl) (p : PointType) :
    (_RecursiveImpl.ResetIteratorToPoint D n impl p).m_pt_from = impl.m_pt_from ∧
    (_RecursiveImpl.ResetIteratorToPoint D n impl p).m_pt_to = impl.m_pt_to ∧
    (_RecursiveImpl.ResetIteratorToPoint D n impl p).m_along_fractional_half_step
      = impl.m_along_fractional_half_step ∧
    (_RecursiveImpl.ResetIteratorToPoint D n impl p).m_along_fractional_step
      = impl.m_along_fractional_step ∧
    (_RecursiveImpl.ResetIteratorToPoint D n impl p).m_along = _Impl.GetAlongCoord D p ∧
    (_RecursiveImpl.ResetIteratorToPoint D n impl p).m_across_data.length
      = impl.m_across_data.length := by
  induction n with
  | zero => simp [_RecursiveImpl.ResetIteratorToPoint]
  | succ n ih => simpa [_RecursiveImpl.ResetIteratorToPoint, List.length_modify] using ih

theorem _RecursiveImpl.ResetIteratorToPoint_across (D n : Nat) (impl : _Impl) (p : PointType)
    (j : Nat) :
    (_RecursiveImpl.ResetIteratorToPoint D n impl p).m_across_data[j]? =
      if j < n then
        (impl.m_across_data[j]?).map (fun item => item.Reset (_Impl.GetAcrossCoord D j p))
      else impl.m_across_data[j]? := by
  induction n with
  | zero => simp [_RecursiveImpl.ResetIteratorToPoint]
  | succ n ih =>
    simp only [_RecursiveImpl.ResetIteratorToPoint]
    rw [List.getElem?_modify, ih]
    by_cases hjn : n = j
    · subst hjn
      simp only [lt_irrefl, if_false, if_true, Nat.lt_succ_self, Option.map_eq_map]
    · by_cases hlt : j < n
      · have : j < n + 1 := by omega
        simp [hjn, hlt, this]
      · have : ¬ j < n + 1 := by omega
        simp [hjn, hlt, this]

theorem _RecursiveImpl.Initialise_fields (D n : Nat) (impl : _Impl) (d : Int) :
    (_RecursiveImpl.Initialise D n impl d).m_pt_from = impl.m_pt_from ∧
    (_RecursiveImpl.Initialise D n impl d).m_pt_to = impl.m_pt_to ∧
    (_RecursiveImpl.Initialise D n impl d).m_along_fractional_half_step = |d| ∧
    (_RecursiveImpl.Initialise D n impl d).m_along_fractional_step = |d| * 2 ∧
    (_RecursiveImpl.Initialise D n impl d).m_along = impl.m_along ∧
    (_RecursiveImpl.Initialise D n impl d).m_across_data.length
      = impl.m_across_data.length := by
  induction n with
  | zero => simp [_RecursiveImpl.Initialise]
  | succ n ih => simpa [_RecursiveImpl.Initialise, List.length_modify] using ih

theorem _RecursiveImpl.Initialise_across (D n : Nat) (impl : _Impl) (d : Int) (j : Nat) :
    (_RecursiveImpl.Initialise D n impl d).m_across_data[j]? =
      if j < n then
        (impl.m_across_data[j]?).map (fun item => item.Initialise
          (_Impl.GetAcrossCoord D j impl.m_pt_to) (_Impl.GetAcrossCoord D j impl.m_pt_from) d)
      else impl.m_across_data[j]? := by
  induction n with
  | zero => simp [_RecursiveImpl.Initialise]
  | succ n ih =>
    obtain ⟨hf, ht, -, -, -, -⟩ := _RecursiveImpl.Initialise_fields D n impl d
    simp only [_RecursiveImpl.Initialise]
    rw [List.getElem?_modify, ih, hf, ht]
    by_cases hjn : n = j
    · subst hjn
      simp only [lt_irrefl, if_false, if_true, Nat.lt_succ_self, Option.map_eq_map]
    · by_cases hlt : j < n
      · have : j < n + 1 := by omega
        simp [hjn, hlt, this]
      · have : ¬ j < n + 1 := by omega
        simp [hjn, hlt, this]

theorem _Impl.ctor_across_data (D : Nat) (pf pt : PointType) (u : Indeterminate) (j : Nat) :
    (_Impl.ctor D pf pt u).m_across_data[j]? =
      if j < pf.length - 1 then some (DTQualifier.valueInit (_Impl.GetAcrossCoord D j pf))
      else none := by
  unfold _Impl.ctor
  simp only [List.getElem?_map]
  by_cases h : j < pf.length - 1
  · rw [List.getElem?_range h, if_pos h]; rfl
  · rw [if_neg h, List.getElem?_eq_none (by simpa using h)]; rfl

/-! ## Arithmetic of one integral across axis -/

theorem tdiv_tmod_abs (d n : Int) (hn : 0 < n) :
    Int.tdiv d n = Int.sign d * (|d| / n) ∧ |Int.tmod d n| = |d| % n := by
  rcases lt_trichotomy d 0 with hd | hd | hd
  · obtain ⟨e, rfl⟩ : ∃ e : Int, d = -e := ⟨-d, by ring⟩
    have he : 0 < e := by omega
    have h1 : (-e).tdiv n = -(e / n) := by
      rw [Int.neg_tdiv, Int.tdiv_eq_ediv he.le hn.le]
    have h2 : (-e).tmod n = -(e % n) := by
      rw [Int.tmod_def, h1]
      have := Int.emod_add_ediv e n
      linarith
    have h3 : 0 ≤ e % n := Int.emod_nonneg e (by omega)
    rw [h1, h2, Int.sign_eq_neg_one_of_neg (by omega), abs_neg, abs_of_pos he, abs_neg,
      abs_of_nonneg h3]
    exact ⟨by ring, rfl⟩
  · subst hd
    simp
  · have h3 : 0 ≤ d % n := Int.emod_nonneg d (by omega)
    rw [Int.tdiv_eq_ediv hd.le hn.le, Int.tmod_eq_emod hd.le hn.le,
      Int.sign_eq_one_of_pos hd, abs_of_pos hd, abs_of_nonneg h3]
    exact ⟨by ring, rfl⟩

/-- Invariant of repeated `Increment` on one integral axis: the number `c` of
unit shifts made so far keeps the fractional counter in `[-n, n)`. -/
theorem _IntegralDirection.Increment_iterate_inv (impl : _Impl) (n : Int) (hn : 0 < n)
    (hh : impl.m_along_fractional_half_step = n) (hs : impl.m_along_fractional_step = n * 2)
    (s : _IntegralDirection) (hc : s.m_fractional_counter = 0)
    (hr0 : 0 ≤ s.m_fractional_step) (hrn : s.m_fractional_step < n * 2) (k : Nat) :
    ((fun x : _IntegralDirection => x.Increment impl)^[k] s).m_integral_part
      = s.m_integral_part ∧
    ((fun x : _IntegralDirection => x.Increment impl)^[k] s).m_fractional_step
      = s.m_fractional_step ∧
    ((fun x : _IntegralDirection => x.Increment impl)^[k] s).m_fractional_shift
      = s.m_fractional_shift ∧
    ∃ c : Int,
      ((fun x : _IntegralDirection => x.Increment impl)^[k] s).m_position
        = s.m_position + s.m_integral_part * k + s.m_fractional_shift * c ∧
      ((fun x : _IntegralDirection => x.Increment impl)^[k] s).m_fractional_counter
        = s.m_fractional_step * k - n * 2 * c ∧
      -n ≤ ((fun x : _IntegralDirection => x.Increment impl)^[k] s).m_fractional_counter ∧
      ((fun x : _IntegralDirection => x.Increment impl)^[k] s).m_fractional_counter < n := by
  induction k with
  | zero =>
    refine ⟨rfl, rfl, rfl, 0, ?_, ?_, ?_, ?_⟩ <;> simp [hc] <;> omega
  | succ k ih =>
    obtain ⟨h1, h2, h3, c, h4, h5, h6, h7⟩ := ih
    rw [Function.iterate_succ_apply']
    generalize (fun x : _IntegralDirection => x.Increment impl)^[k] s = t at *
    unfold _IntegralDirection.Increment
    simp only [hh, hs, h1, h2, h3]
    by_cases hge : t.m_fractional_counter + s.m_fractional_step ≥ n
    · rw [if_pos hge]
      refine ⟨rfl, rfl, rfl, c + 1, ?_, ?_, ?_, ?_⟩
      · simp only [h4]; push_cast; ring
      · simp only [h5]; push_cast; ring
      · simp only; omega
      · simp only; omega
    · rw [if_neg hge]
      refine ⟨rfl, rfl, rfl, c, ?_, ?_, ?_, ?_⟩
      · simp only [h4]; push_cast; ring
      · simp only [h5]; push_cast; ring
      · simp only; omega
      · simp only; omega

theorem ediv_two_mul_unique (x n c : Int) (hn : 0 < n) (h1 : n * 2 * c ≤ x)
    (h2 : x < n * 2 * c + n * 2) : x / (2 * n) = c := by
  have h := (Int.ediv_emod_unique (a := x) (b := 2 * n) (r := x - n * 2 * c) (q := c)
    (by omega)).2 ⟨by ring, by omega, by omega⟩
  exact h.1

/-- Closed form of one integral axis after `Initialise`, `Reset` and `k` calls of
`Increment`, for a positive along delta `n`. -/
theorem _IntegralDirection.Increment_iterate_closed (impl : _Impl) (n : Int) (hn : 0 < n)
    (hh : impl.m_along_fractional_half_step = n) (hs : impl.m_along_fractional_step = n * 2)
    (s0 : _IntegralDirection) (d a : Int) (k : Nat) :
    ((fun x : _IntegralDirection => x.Increment impl)^[k]
        ((s0.Initialise d n).Reset a)).m_position
      = a + Int.sign d * ((2 * |d| * k + n) / (2 * n)) ∧
    ((fun x : _IntegralDirection => x.Increment impl)^[k]
        ((s0.Initialise d n).Reset a)).m_fractional_counter
      = (2 * |d| * k + n) % (2 * n) - n := by
  obtain ⟨hq, hr⟩ := tdiv_tmod_abs d n hn
  have hR0 : 0 ≤ |d| % n := Int.emod_nonneg _ (by omega)
  have hRn : |d| % n < n := Int.emod_lt_of_pos _ hn
  have hsplit : |d| = n * (|d| / n) + |d| % n := (Int.ediv_add_emod _ _).symm
  set s := (s0.Initialise d n).Reset a with hsdef
  have e1 : s.m_position = a := rfl
  have e2 : s.m_fractional_counter = 0 := rfl
  have e3 : s.m_integral_part = Int.sign d * (|d| / n) := by
    rw [← hq]; rfl
  have e4 : s.m_fractional_step = (|d| % n) * 2 := by
    rw [← hr]; rfl
  have e5 : s.m_fractional_shift = if d > 0 then 1 else -1 := rfl
  obtain ⟨-, -, -, c, h4, h5, h6, h7⟩ :=
    _IntegralDirection.Increment_iterate_inv impl n hn hh hs s e2 (by omega) (by omega) k
  rw [h5] at h6 h7
  rw [e4] at h5 h6 h7
  have hQ0 : 0 ≤ |d| / n := Int.ediv_nonneg (abs_nonneg d) hn.le
  generalize |d| % n = R at *
  generalize |d| / n = Q at *
  have hc : (2 * |d| * k + n) / (2 * n) = Q * k + c := by
    apply ediv_two_mul_unique _ _ _ hn
    · rw [hsplit]; nlinarith
    · rw [hsplit]; nlinarith
  have hmod : (2 * |d| * k + n) % (2 * n) = 2 * |d| * k + n - 2 * n * (Q * k + c) := by
    have := Int.emod_add_ediv (2 * |d| * k + n) (2 * n)
    rw [hc] at this
    linarith
  refine ⟨?_, ?_⟩
  · rw [h4, hc, e1, e3, e5]
    rcases lt_trichotomy d 0 with hd | hd | hd
    · rw [Int.sign_eq_neg_one_of_neg hd, if_neg (by omega)]; ring
    · subst hd
      rw [abs_zero] at hsplit
      have hnQ : 0 ≤ n * Q := mul_nonneg hn.le hQ0
      have hR : R = 0 := by omega
      subst hR
      have hc0 : c = 0 := by
        rcases lt_trichotomy c 0 with h | h | h
        · have h8 : n * c ≤ n * (-1) := mul_le_mul_of_nonneg_left (by omega) hn.le
          linarith
        · exact h
        · have h8 : n * 1 ≤ n * c := mul_le_mul_of_nonneg_left (by omega) hn.le
          linarith
      subst hc0
      simp
    · rw [Int.sign_eq_one_of_pos hd, if_pos hd]; ring
  · rw [h5, hmod, hsplit]; ring

/-! ## The engine as a whole -/

theorem ctor_fields (D : Nat) (pf pt : PointType) (u : Indeterminate) :
    (ctor D pf pt u).mp_impl.m_pt_from = pf ∧ (ctor D pf pt u).mp_impl.m_pt_to = pt ∧
    (ctor D pf pt u).mp_impl.m_across_data.length = pf.length - 1 := by
  unfold ctor
  simp only
  split
  · simp [_Impl.ctor]
  · obtain ⟨h1, h2, -, -, -, h6⟩ := _RecursiveImpl.Initialise_fields D (pf.length - 1)
      (_Impl.ctor D pf pt u)
      (_Impl.GetAlongCoord D pt - _Impl.GetAlongCoord D pf)
    refine ⟨h1, h2, ?_⟩
    rw [h6]
    simp [_Impl.ctor]

theorem ctor_steps (D : Nat) (pf pt : PointType) (u : Indeterminate)
    (hd : _Impl.GetAlongCoord D pt - _Impl.GetAlongCoord D pf ≠ 0) :
    (ctor D pf pt u).mp_impl.m_along_fractional_half_step
      = |_Impl.GetAlongCoord D pt - _Impl.GetAlongCoord D pf| ∧
    (ctor D pf pt u).mp_impl.m_along_fractional_step
      = |_Impl.GetAlongCoord D pt - _Impl.GetAlongCoord D pf| * 2 := by
  unfold ctor
  simp only
  rw [if_neg hd]
  obtain ⟨-, -, h3, h4, -, -⟩ := _RecursiveImpl.Initialise_fields D (pf.length - 1)
    (_Impl.ctor D pf pt u) (_Impl.GetAlongCoord D pt - _Impl.GetAlongCoord D pf)
  exact ⟨h3, h4⟩

theorem ctor_across (D : Nat) (pf pt : PointType) (u : Indeterminate) (j : Nat) :
    (ctor D pf pt u).mp_impl.m_across_data[j]? =
      if j < pf.length - 1 then
        some (if _Impl.GetAlongCoord D pt - _Impl.GetAlongCoord D pf = 0 then
            DTQualifier.valueInit (_Impl.GetAcrossCoord D j pf)
          else
            (DTQualifier.valueInit (_Impl.GetAcrossCoord D j pf)).Initialise
              (_Impl.GetAcrossCoord D j pt) (_Impl.GetAcrossCoord D j pf)
              (_Impl.GetAlongCoord D pt - _Impl.GetAlongCoord D pf))
      else none := by
  unfold ctor
  simp only
  by_cases hd : _Impl.GetAlongCoord D pt - _Impl.GetAlongCoord D pf = 0
  · rw [if_pos hd]
    simp only [hd, if_true]
    exact _Impl.ctor_across_data D pf pt u j
  · rw [if_neg hd]
    simp only [hd, if_false]
    rw [_RecursiveImpl.Initialise_across, _Impl.ctor_across_data]
    by_cases hj : j < pf.length - 1
    · simp [hj, _Impl.ctor]
    · simp [hj]

/-- State of the engine after `ResetIteratorToPoint<AcrossDimension>`. -/
theorem reset_spec (D : Nat) (it : Self) (p : PointType)
    (hlen : it.mp_impl.m_across_data.length = AcrossDimension it) :
    (_RecursiveImpl.ResetIteratorToPoint D (AcrossDimension it) it.mp_impl p).m_pt_from
      = it.mp_impl.m_pt_from ∧
    (_RecursiveImpl.ResetIteratorToPoint D (AcrossDimension it) it.mp_impl p).m_pt_to
      = it.mp_impl.m_pt_to ∧
    (_RecursiveImpl.ResetIteratorToPoint D (AcrossDimension it) it.mp_impl p).m_along_fractional_half_step
      = it.mp_impl.m_along_fractional_half_step ∧
    (_RecursiveImpl.ResetIteratorToPoint D (AcrossDimension it) it.mp_impl p).m_along_fractional_step
      = it.mp_impl.m_along_fractional_step ∧
    (_RecursiveImpl.ResetIteratorToPoint D (AcrossDimension it) it.mp_impl p).m_along
      = _Impl.GetAlongCoord D p ∧
    (_RecursiveImpl.ResetIteratorToPoint D (AcrossDimension it) it.mp_impl p).m_across_data.length
      = it.mp_impl.m_across_data.length ∧
    ∀ j : Nat, (_RecursiveImpl.ResetIteratorToPoint D (AcrossDimension it) it.mp_impl p).m_across_data[j]?
      = (it.mp_impl.m_across_data[j]?).map
          (fun item => item.Reset (_Impl.GetAcrossCoord D j p)) := by
  obtain ⟨h1, h2, h3, h4, h5, h6⟩ :=
    _RecursiveImpl.ResetIteratorToPoint_fields D (AcrossDimension it) it.mp_impl p
  refine ⟨h1, h2, h3, h4, h5, h6, fun j => ?_⟩
  rw [_RecursiveImpl.ResetIteratorToPoint_across]
  by_cases hj : j < AcrossDimension it
  · rw [if_pos hj]
  · rw [if_neg hj, List.getElem?_eq_none (by omega)]; rfl

/-- State of the engine after `k` calls of `operator++`. -/
theorem increment_iterate_spec (it : Self)
    (hlen : it.mp_impl.m_across_data.length = AcrossDimension it) (k : Nat) :
    (operator_increment^[k] it).mp_impl.m_pt_from = it.mp_impl.m_pt_from ∧
    (operator_increment^[k] it).mp_impl.m_pt_to = it.mp_impl.m_pt_to ∧
    (operator_increment^[k] it).mp_impl.m_along_fractional_half_step
      = it.mp_impl.m_along_fractional_half_step ∧
    (operator_increment^[k] it).mp_impl.m_along_fractional_step
      = it.mp_impl.m_along_fractional_step ∧
    (operator_increment^[k] it).mp_impl.m_along = it.mp_impl.m_along + k ∧
    (operator_increment^[k] it).mp_impl.m_across_data.length
      = it.mp_impl.m_across_data.length ∧
    ∀ j : Nat, (operator_increment^[k] it).mp_impl.m_across_data[j]?
      = (it.mp_impl.m_across_data[j]?).map
          (fun item => (fun x : DTQualifier => x.Increment it.mp_impl)^[k] item) := by
  induction k with
  | zero => simp
  | succ k ih =>
    obtain ⟨h1, h2, h3, h4, h5, h6, h7⟩ := ih
    rw [Function.iterate_succ_apply']
    generalize operator_increment^[k] it = t at *
    have hA : AcrossDimension t = AcrossDimension it := by
      unfold AcrossDimension Dimension; rw [h1]
    obtain ⟨g1, g2, g3, g4, g5, g6⟩ :=
      _RecursiveImpl.Increment_fields (AcrossDimension t) t.mp_impl
    unfold operator_increment
    simp only
    refine ⟨g1.trans h1, g2.trans h2, g3.trans h3, g4.trans h4, ?_, g6.trans h6, fun j => ?_⟩
    · rw [g5, h5]; push_cast; ring
    · rw [_RecursiveImpl.Increment_across, h7]
      by_cases hj : j < AcrossDimension t
      · rw [if_pos hj]
        cases it.mp_impl.m_across_data[j]? with
        | none => rfl
        | some item =>
          simp only [Option.map_some', Function.iterate_succ_apply']
          rw [DTQualifier.Increment_congr _ t.mp_impl it.mp_impl h3 h4]
      · rw [if_neg hj, List.getElem?_eq_none (by omega)]; rfl

theorem DTQualifier.Increment_iterate_integral (impl : _Impl) (s : _IntegralDirection)
    (k : Nat) :
    (fun x : DTQualifier => x.Increment impl)^[k] (.integral s)
      = .integral ((fun x : _IntegralDirection => x.Increment impl)^[k] s) := by
  induction k with
  | zero => rfl
  | succ k ih =>
    rw [Function.iterate_succ_apply', Function.iterate_succ_apply', ih]
    rfl

/-- Index in the across tuple of the point channel `i ≠ Direction`, as computed
by `_Impl::Get<N>`. -/
theorem _Impl.Get_of_ne (D i : Nat) (hi : i ≠ D) (impl : _Impl) :
    impl.Get D i
      = (std_get_across (if D < i then i - 1 else i) impl.m_across_data).m_position := by
  unfold _Impl.Get
  by_cases h : D < i
  · have h2 : ¬ D > i := by omega
    simp [h, h2, _CurrentPointItem.Get]
  · have h2 : D > i := by omega
    simp [h, h2, _CurrentPointItem.Get]

theorem _Impl.Get_self (D : Nat) (impl : _Impl) : impl.Get D D = .int impl.m_along := by
  simp [_Impl.Get, _CurrentPointItem.Get]

/-- `GetAcrossCoord` at that tuple index reads the point channel `i` itself. -/
theorem _Impl.GetAcrossCoord_of_ne (D i : Nat) (hi : i ≠ D) (p : PointType) :
    _Impl.GetAcrossCoord D (if D < i then i - 1 else i) p = std_get i p := by
  unfold _Impl.GetAcrossCoord
  by_cases h : D < i
  · have h2 : D ≤ i - 1 := by omega
    have h3 : i - 1 + 1 = i := by omega
    simp [h, h2, h3, _PointAcrossItem.Get]
  · have h2 : ¬ D ≤ i := by omega
    simp [h, h2, _PointAcrossItem.Get]

theorem across_index_lt (D i n : Nat) (hi : i ≠ D) (hin : i < n) (hD : D < n) :
    (if D < i then i - 1 else i) < n - 1 := by
  split <;> omega

theorem SameTupleType.isIntegral_eq {p q : PointType} (h : SameTupleType p q) (i : Nat) :
    (std_get i p).isIntegral = (std_get i q).isIntegral := by
  unfold SameTupleType at h
  have h1 : (p.map Scalar.isIntegral)[i]? = (q.map Scalar.isIntegral)[i]? := by rw [h]
  rw [List.getElem?_map, List.getElem?_map] at h1
  unfold std_get
  rw [List.getD_eq_getElem?_getD, List.getD_eq_getElem?_getD]
  cases hp : p[i]? <;> cases hq : q[i]? <;> simp_all

theorem SameTupleType.length_eq {p q : PointType} (h : SameTupleType p q) :
    p.length = q.length := by
  unfold SameTupleType at h
  have := congrArg List.length h
  simpa using this

theorem Scalar.eq_int_of_isIntegral (s : Scalar) (h : s.isIntegral = true) :
    s = .int s.asInt := by
  cases s with
  | int v => rfl
  | real v => cases h

/-- State after `GoToBegin` / `GoToEnd` on a freshly constructed engine, where
`p` is the endpoint the engine is reset to. -/
theorem goto_spec (D : Nat) (pf pt p : PointType) (u : Indeterminate) :
    (_RecursiveImpl.ResetIteratorToPoint D (AcrossDimension (ctor D pf pt u))
        (ctor D pf pt u).mp_impl p).m_pt_from = pf ∧
    (_RecursiveImpl.ResetIteratorToPoint D (AcrossDimension (ctor D pf pt u))
        (ctor D pf pt u).mp_impl p).m_pt_to = pt ∧
    (_RecursiveImpl.ResetIteratorToPoint D (AcrossDimension (ctor D pf pt u))
        (ctor D pf pt u).mp_impl p).m_along_fractional_half_step
      = (ctor D pf pt u).mp_impl.m_along_fractional_half_step ∧
    (_RecursiveImpl.ResetIteratorToPoint D (AcrossDimension (ctor D pf pt u))
        (ctor D pf pt u).mp_impl p).m_along_fractional_step
      = (ctor D pf pt u).mp_impl.m_along_fractional_step ∧
    (_RecursiveImpl.ResetIteratorToPoint D (AcrossDimension (ctor D pf pt u))
        (ctor D pf pt u).mp_impl p).m_along = _Impl.GetAlongCoord D p ∧
    (_RecursiveImpl.ResetIteratorToPoint D (AcrossDimension (ctor D pf pt u))
        (ctor D pf pt u).mp_impl p).m_across_data.length = pf.length - 1 ∧
    ∀ j : Nat, j < pf.length - 1 →
      (_RecursiveImpl.ResetIteratorToPoint D (AcrossDimension (ctor D pf pt u))
        (ctor D pf pt u).mp_impl p).m_across_data[j]?
      = some ((if _Impl.GetAlongCoord D pt - _Impl.GetAlongCoord D pf = 0 then
            DTQualifier.valueInit (_Impl.GetAcrossCoord D j pf)
          else
            (DTQualifier.valueInit (_Impl.GetAcrossCoord D j pf)).Initialise
              (_Impl.GetAcrossCoord D j pt) (_Impl.GetAcrossCoord D j pf)
              (_Impl.GetAlongCoord D pt - _Impl.GetAlongCoord D pf)).Reset
          (_Impl.GetAcrossCoord D j p)) := by
  obtain ⟨c1, c2, c3⟩ := ctor_fields D pf pt u
  have hlen : (ctor D pf pt u).mp_impl.m_across_data.length
      = AcrossDimension (ctor D pf pt u) := by
    unfold AcrossDimension Dimension; rw [c1, c3]
  obtain ⟨h1, h2, h3, h4, h5, h6, h7⟩ := reset_spec D (ctor D pf pt u) p hlen
  refine ⟨h1.trans c1, h2.trans c2, h3, h4, h5, h6.trans c3, fun j hj => ?_⟩
  rw [h7, ctor_across, if_pos hj]
  rfl

/-- State right after `GoToBegin` on a freshly constructed engine. -/
theorem GoToBegin_ctor (D : Nat) (pf pt : PointType) (u : Indeterminate) :
    (GoToBegin D (ctor D pf pt u)).mp_impl.m_pt_from = pf ∧
    (GoToBegin D (ctor D pf pt u)).mp_impl.m_pt_to = pt ∧
    (GoToBegin D (ctor D pf pt u)).mp_impl.m_along_fractional_half_step
      = (ctor D pf pt u).mp_impl.m_along_fractional_half_step ∧
    (GoToBegin D (ctor D pf pt u)).mp_impl.m_along_fractional_step
      = (ctor D pf pt u).mp_impl.m_along_fractional_step ∧
    (GoToBegin D (ctor D pf pt u)).mp_impl.m_along = _Impl.GetAlongCoord D pf ∧
    (GoToBegin D (ctor D pf pt u)).mp_impl.m_across_data.length = pf.length - 1 ∧
    AcrossDimension (GoToBegin D (ctor D pf pt u)) = pf.length - 1 ∧
    ∀ j : Nat, j < pf.length - 1 →
      (GoToBegin D (ctor D pf pt u)).mp_impl.m_across_data[j]?
      = some ((if _Impl.GetAlongCoord D pt - _Impl.GetAlongCoord D pf = 0 then
            DTQualifier.valueInit (_Impl.GetAcrossCoord D j pf)
          else
            (DTQualifier.valueInit (_Impl.GetAcrossCoord D j pf)).Initialise
              (_Impl.GetAcrossCoord D j pt) (_Impl.GetAcrossCoord D j pf)
              (_Impl.GetAlongCoord D pt - _Impl.GetAlongCoord D pf)).Reset
          (_Impl.GetAcrossCoord D j pf)) := by
  obtain ⟨c1, -, -⟩ := ctor_fields D pf pt u
  obtain ⟨h1, h2, h3, h4, h5, h6, h7⟩ := goto_spec D pf pt pf u
  have hB : GoToBegin D (ctor D pf pt u)
      = ⟨_RecursiveImpl.ResetIteratorToPoint D (AcrossDimension (ctor D pf pt u))
          (ctor D pf pt u).mp_impl pf⟩ := by
    unfold GoToBegin; rw [c1]
  rw [hB]
  refine ⟨h1, h2, h3, h4, h5, h6, ?_, h7⟩
  show List.length _ - 1 = _
  rw [h1]

/-- State right after `GoToEnd` on a freshly constructed engine. -/
theorem GoToEnd_ctor (D : Nat) (pf pt : PointType) (u : Indeterminate) :
    (GoToEnd D (ctor D pf pt u)).mp_impl.m_pt_from = pf ∧
    (GoToEnd D (ctor D pf pt u)).mp_impl.m_pt_to = pt ∧
    (GoToEnd D (ctor D pf pt u)).mp_impl.m_along_fractional_half_step
      = (ctor D pf pt u).mp_impl.m_along_fractional_half_step ∧
    (GoToEnd D (ctor D pf pt u)).mp_impl.m_along_fractional_step
      = (ctor D pf pt u).mp_impl.m_along_fractional_step ∧
    (GoToEnd D (ctor D pf pt u)).mp_impl.m_along = _Impl.GetAlongCoord D pt ∧
    (GoToEnd D (ctor D pf pt u)).mp_impl.m_across_data.length = pf.length - 1 ∧
    AcrossDimension (GoToEnd D (ctor D pf pt u)) = pf.length - 1 ∧
    ∀ j : Nat, j < pf.length - 1 →
      (GoToEnd D (ctor D pf pt u)).mp_impl.m_across_data[j]?
      = some ((if _Impl.GetAlongCoord D pt - _Impl.GetAlongCoord D pf = 0 then
            DTQualifier.valueInit (_Impl.GetAcrossCoord D j pf)
          else
            (DTQualifier.valueInit (_Impl.GetAcrossCoord D j pf)).Initialise
              (_Impl.GetAcrossCoord D j pt) (_Impl.GetAcrossCoord D j pf)
              (_Impl.GetAlongCoord D pt - _Impl.GetAlongCoord D pf)).Reset
          (_Impl.GetAcrossCoord D j pt)) := by
  obtain ⟨-, c2, -⟩ := ctor_fields D pf pt u
  obtain ⟨h1, h2, h3, h4, h5, h6, h7⟩ := goto_spec D pf pt pt u
  have hB : GoToEnd D (ctor D pf pt u)
      = ⟨_RecursiveImpl.ResetIteratorToPoint D (AcrossDimension (ctor D pf pt u))
          (ctor D pf pt u).mp_impl pt⟩ := by
    unfold GoToEnd; rw [c2]
  rw [hB]
  refine ⟨h1, h2, h3, h4, h5, h6, ?_, h7⟩
  show List.length _ - 1 = _
  rw [h1]

/-- `GoToBegin` followed by `k` calls of `operator++`: the members of the engine
other than the across tuple. -/
theorem begin_increment_fields (D : Nat) (pf pt : PointType) (u : Indeterminate) (k : Nat) :
    (operator_increment^[k] (GoToBegin D (ctor D pf pt u))).mp_impl.m_pt_from = pf ∧
    (operator_increment^[k] (GoToBegin D (ctor D pf pt u))).mp_impl.m_pt_to = pt ∧
    (operator_increment^[k] (GoToBegin D (ctor D pf pt u))).mp_impl.m_along
      = _Impl.GetAlongCoord D pf + k ∧
    (operator_increment^[k] (GoToBegin D (ctor D pf pt u))).mp_impl.m_across_data.length
      = pf.length - 1 := by
  obtain ⟨h1, h2, -, -, h5, h6, hA, -⟩ := GoToBegin_ctor D pf pt u
  obtain ⟨g1, g2, -, -, g5, g6, -⟩ :=
    increment_iterate_spec (GoToBegin D (ctor D pf pt u)) (h6.trans hA.symm) k
  exact ⟨g1.trans h1, g2.trans h2, by rw [g5, h5], g6.trans h6⟩

/-- `GoToBegin` followed by `k` calls of `operator++`: the element of the across
tuple that belongs to an integral point channel `i`, for a non-zero along delta. -/
theorem begin_increment_integral_axis (D : Nat) (pf pt : PointType) (u : Indeterminate)
    (hT : Instantiable D pf pt) (i : Nat) (hi : i < pf.length) (hiD : i ≠ D)
    (hint : (std_get i pf).isIntegral = true)
    (hn : _Impl.GetAlongCoord D pt - _Impl.GetAlongCoord D pf ≠ 0) (k : Nat) :
    std_get_across (if D < i then i - 1 else i)
        (operator_increment^[k] (GoToBegin D (ctor D pf pt u))).mp_impl.m_across_data
      = .integral ((fun x : _IntegralDirection =>
          x.Increment (GoToBegin D (ctor D pf pt u)).mp_impl)^[k]
          (((⟨0, 0, 0, 0, 0⟩ : _IntegralDirection).Initialise
            ((std_get i pt).asInt - (std_get i pf).asInt)
            (_Impl.GetAlongCoord D pt - _Impl.GetAlongCoord D pf)).Reset
            (std_get i pf).asInt)) := by
  obtain ⟨hST, hD, -⟩ := hT
  obtain ⟨-, -, -, -, -, h6, hA, h7⟩ := GoToBegin_ctor D pf pt u
  obtain ⟨-, -, -, -, -, -, g7⟩ :=
    increment_iterate_spec (GoToBegin D (ctor D pf pt u)) (h6.trans hA.symm) k
  have hj := across_index_lt D i pf.length hiD hi hD
  unfold std_get_across
  rw [List.getD_eq_getElem?_getD, g7, h7 _ hj, if_neg hn, _Impl.GetAcrossCoord_of_ne D i hiD,
    _Impl.GetAcrossCoord_of_ne D i hiD]
  have hint2 : (std_get i pt).isIntegral = true := by
    rw [← SameTupleType.isIntegral_eq hST i]; exact hint
  rw [Scalar.eq_int_of_isIntegral _ hint, Scalar.eq_int_of_isIntegral _ hint2]
  simp only [Option.map_some', Option.getD_some, DTQualifier.valueInit, DTQualifier.Initialise,
    DTQualifier.Reset, Scalar.asInt]
  exact DTQualifier.Increment_iterate_integral _ _ k

theorem nearest_bounds (A n : Int) (k : Nat) (hn : 0 < n) :
    ((A : ℚ) * k / (n : ℚ) - 1 / 2 < (((2 * A * k + n) / (2 * n) : Int) : ℚ)) ∧
    ((((2 * A * k + n) / (2 * n) : Int) : ℚ) ≤ (A : ℚ) * k / (n : ℚ) + 1 / 2) := by
  have h2n : (0 : Int) < 2 * n := by omega
  have h1 : (2 * A * k + n) / (2 * n) * (2 * n) ≤ 2 * A * k + n :=
    Int.ediv_mul_le _ (by omega)
  have h2 : 2 * A * k + n < ((2 * A * k + n) / (2 * n) + 1) * (2 * n) :=
    Int.lt_ediv_add_one_mul_self _ h2n
  generalize (2 * A * k + n) / (2 * n) = m at h1 h2
  have hnq : (0 : ℚ) < (n : ℚ) := by exact_mod_cast hn
  have h1q : (m : ℚ) * (2 * n) ≤ 2 * A * k + n := by exact_mod_cast h1
  have h2q : (2 * A * k + n : ℚ) < ((m : ℚ) + 1) * (2 * n) := by exact_mod_cast h2
  constructor
  · rw [sub_lt_iff_lt_add, div_lt_iff₀ hnq]
    linarith
  · rw [← sub_le_iff_le_add, le_div_iff₀ hnq]
    linarith

theorem _RecursiveImpl.FillPoint_length (D n : Nat) (impl : _Impl) (p : PointType) :
    (_RecursiveImpl.FillPoint D n impl p).length = p.length := by
  induction n with
  | zero => rfl
  | succ n ih => simp [_RecursiveImpl.FillPoint, ih]

theorem _RecursiveImpl.FillPoint_getElem? (D n : Nat) (impl : _Impl) (p : PointType) (j : Nat) :
    (_RecursiveImpl.FillPoint D n impl p)[j]? =
      if j < n ∧ j < p.length then some (impl.Get D j) else p[j]? := by
  induction n with
  | zero => simp [_RecursiveImpl.FillPoint]
  | succ n ih =>
    simp only [_RecursiveImpl.FillPoint]
    rw [List.getElem?_set, _RecursiveImpl.FillPoint_length, ih]
    by_cases hjn : n = j
    · subst hjn
      by_cases hl : n < p.length
      · simp [hl]
      · simp [hl, List.getElem?_eq_none (not_lt.mp hl)]
    · by_cases hlt : j < n
      · have : j < n + 1 := by omega
        simp [hjn, hlt, this]
      · have : ¬ j < n + 1 := by omega
        simp [hjn, hlt, this]

/-- `operator*` lists `Get<0>()`, ..., `Get<Dimension - 1>()`. -/
theorem operator_deref_getElem? (D : Nat) (it : Self) (j : Nat) :
    (operator_deref D it)[j]? =
      if j < it.mp_impl.m_pt_from.length then some (Get D j it) else none := by
  unfold operator_deref Dimension Get
  simp only
  rw [_RecursiveImpl.FillPoint_getElem?, List.length_map]
  by_cases h : j < it.mp_impl.m_pt_from.length
  · rw [if_pos ⟨h, h⟩, if_pos h]
  · rw [if_neg (fun hh => h hh.1), if_neg h, List.getElem?_eq_none (by simpa using h)]

theorem operator_deref_eq_of_Get (D : Nat) (it : Self) (p : PointType)
    (hlen : p.length = it.mp_impl.m_pt_from.length)
    (h : ∀ i : Nat, i < p.length → Get D i it = std_get i p) : operator_deref D it = p := by
  apply List.ext_getElem?
  intro j
  rw [operator_deref_getElem?]
  by_cases hj : j < p.length
  · rw [if_pos (by omega), h j hj]
    unfold std_get
    rw [List.getD_eq_getElem?_getD, List.getElem?_eq_getElem hj]
    rfl
  · rw [if_neg (by omega), List.getElem?_eq_none (by omega)]

theorem std_get_operator_deref (D : Nat) (it : Self) (j : Nat)
    (hj : j < it.mp_impl.m_pt_from.length) :
    std_get j (operator_deref D it) = Get D j it := by
  unfold std_get
  rw [List.getD_eq_getElem?_getD, operator_deref_getElem?, if_pos hj]
  rfl

theorem AllIntegral_std_get {p : PointType} (h : AllIntegral p) (i : Nat) (hi : i < p.length) :
    (std_get i p).isIntegral = true := by
  unfold std_get
  rw [List.getD_eq_getElem _ _ hi]
  exact h _ (List.getElem_mem hi)

theorem Get_begin_increment_along (D : Nat) (pf pt : PointType) (u : Indeterminate) (k : Nat) :
    Get D D (operator_increment^[k] (GoToBegin D (ctor D pf pt u)))
      = .int ((std_get D pf).asInt + k) := by
  obtain ⟨-, -, h5, -⟩ := begin_increment_fields D pf pt u k
  unfold Get
  rw [_Impl.Get_self, h5]
  rfl

/-- Closed form of an integral across channel after `GoToBegin` and `k` calls of
`operator++`, for a positive along delta. -/
theorem begin_increment_integral_position (D : Nat) (pf pt : PointType) (u : Indeterminate)
    (hT : Instantiable D pf pt) (i : Nat) (hi : i < pf.length) (hiD : i ≠ D)
    (hint : (std_get i pf).isIntegral = true)
    (hn : 0 < (std_get D pt).asInt - (std_get D pf).asInt) (k : Nat) :
    Get D i (operator_increment^[k] (GoToBegin D (ctor D pf pt u)))
      = .int ((std_get i pf).asInt
          + Int.sign ((std_get i pt).asInt - (std_get i pf).asInt)
            * ((2 * |(std_get i pt).asInt - (std_get i pf).asInt| * k
                + ((std_get D pt).asInt - (std_get D pf).asInt))
              / (2 * ((std_get D pt).asInt - (std_get D pf).asInt)))) := by
  have hn' : (0 : Int) < _Impl.GetAlongCoord D pt - _Impl.GetAlongCoord D pf := hn
  obtain ⟨-, -, h3, h4, -, -, -, -⟩ := GoToBegin_ctor D pf pt u
  obtain ⟨s1, s2⟩ := ctor_steps D pf pt u (by omega)
  rw [abs_of_pos hn'] at s1 s2
  have hax := begin_increment_integral_axis D pf pt u hT i hi hiD hint (by omega) k
  obtain ⟨hpos, -⟩ := _IntegralDirection.Increment_iterate_closed
    (GoToBegin D (ctor D pf pt u)).mp_impl _ hn' (h3.trans s1) (h4.trans s2) ⟨0, 0, 0, 0, 0⟩
    ((std_get i pt).asInt - (std_get i pf).asInt) (std_get i pf).asInt k
  unfold Get
  rw [_Impl.Get_of_ne D i hiD, hax]
  simp only [DTQualifier.m_position]
  rw [hpos]
  rfl

theorem IsAtBegin_begin_increment (D : Nat) (pf pt : PointType) (u : Indeterminate) (k : Nat) :
    IsAtBegin D (operator_increment^[k] (GoToBegin D (ctor D pf pt u))) = true ↔ k = 0 := by
  obtain ⟨h1, -, h5, -⟩ := begin_increment_fields D pf pt u k
  unfold IsAtBegin
  rw [h1, h5, beq_iff_eq]
  constructor
  · intro h; omega
  · intro h; subst h; simp

theorem IsAtEnd_begin_increment (D : Nat) (pf pt : PointType) (u : Indeterminate) (k : Nat) :
    IsAtEnd D (operator_increment^[k] (GoToBegin D (ctor D pf pt u))) = true
      ↔ (k : Int) = (std_get D pt).asInt - (std_get D pf).asInt := by
  obtain ⟨-, h2, h5, -⟩ := begin_increment_fields D pf pt u k
  unfold IsAtEnd
  rw [h2, h5, beq_iff_eq]
  unfold _Impl.GetAlongCoord
  constructor
  · intro h; omega
  · intro h; omega

/-- The forward loop, entered after `k` steps with `m` steps still to go, leaves
through its `break` and visits the remaining `m + 1` positions in order. -/
theorem visitForward_begin_increment (D : Nat) (pf pt : PointType) (u : Indeterminate)
    (n : Nat) (hn : (std_get D pt).asInt - (std_get D pf).asInt = n) :
    ∀ (m k fuel : Nat), k + m = n → m < fuel →
      visitForward D fuel (operator_increment^[k] (GoToBegin D (ctor D pf pt u)))
        = some ((List.range (m + 1)).map
            (fun j => operator_deref D
              (operator_increment^[k + j] (GoToBegin D (ctor D pf pt u))))) := by
  intro m
  induction m with
  | zero =>
    intro k fuel hk hfuel
    obtain ⟨fuel, rfl⟩ : ∃ f, fuel = f + 1 := ⟨fuel - 1, by omega⟩
    have hend : IsAtEnd D (operator_increment^[k] (GoToBegin D (ctor D pf pt u))) = true :=
      (IsAtEnd_begin_increment D pf pt u k).2 (by omega)
    simp [visitForward, hend, List.range_succ]
  | succ m ih =>
    intro k fuel hk hfuel
    obtain ⟨fuel, rfl⟩ : ∃ f, fuel = f + 1 := ⟨fuel - 1, by omega⟩
    have hend : ¬ IsAtEnd D (operator_increment^[k] (GoToBegin D (ctor D pf pt u))) = true :=
      fun h => by
        have := (IsAtEnd_begin_increment D pf pt u k).1 h
        omega
    rw [visitForward, if_neg hend, ← Function.iterate_succ_apply' operator_increment k,
      ih (k + 1) fuel (by omega) (by omega)]
    rw [List.range_succ_eq_map (m + 1)]
    simp only [Option.map_some', List.map_cons, List.map_map, Nat.add_zero]
    congr 2
    apply List.map_congr_left
    intro j _
    simp only [Function.comp_apply]
    congr 2
    omega

/-- The forward loop on a freshly constructed engine with `from[D] ≤ to[D]`
terminates and visits the positions after `0, 1, ..., to[D] - from[D]` steps. -/
theorem collectForward_ctor (D : Nat) (pf pt : PointType) (u : Indeterminate)
    (n : Nat) (hn : (std_get D pt).asInt - (std_get D pf).asInt = n)
    (fuel : Nat) (hfuel : n < fuel) :
    collectForward D fuel (ctor D pf pt u)
      = some ((List.range (n + 1)).map
          (fun j => operator_deref D
            (operator_increment^[j] (GoToBegin D (ctor D pf pt u))))) := by
  unfold collectForward
  have h := visitForward_begin_increment D pf pt u n hn n 0 fuel (by omega) hfuel
  simpa using h

theorem DTQualifier.valueInit_kind (c : Scalar) :
    (DTQualifier.valueInit c).m_position.isIntegral = c.isIntegral := by
  cases c <;> rfl

theorem DTQualifier.Initialise_kind (item : DTQualifier) (a b : Scalar) (d : Int) :
    (item.Initialise a b d).m_position.isIntegral = item.m_position.isIntegral := by
  cases item <;> rfl

theorem DTQualifier.Reset_m_position (item : DTQualifier) (c : Scalar)
    (h : item.m_position.isIntegral = c.isIntegral) : (item.Reset c).m_position = c := by
  cases item <;> cases c <;> simp_all [DTQualifier.Reset, DTQualifier.m_position,
    _IntegralDirection.Reset, _FloatingPointDirection.Reset, Scalar.asInt, Scalar.asReal,
    Scalar.isIntegral]

/-- Reading back an across channel right after a reset to the endpoint `p`. -/
theorem Get_after_reset (D : Nat) (pf pt p : PointType) (impl : _Impl)
    (hp : SameTupleType pf p) (hD : D < pf.length) (i : Nat) (hi : i < pf.length) (hiD : i ≠ D)
    (h7 : ∀ j : Nat, j < pf.length - 1 →
      impl.m_across_data[j]?
      = some ((if _Impl.GetAlongCoord D pt - _Impl.GetAlongCoord D pf = 0 then
            DTQualifier.valueInit (_Impl.GetAcrossCoord D j pf)
          else
            (DTQualifier.valueInit (_Impl.GetAcrossCoord D j pf)).Initialise
              (_Impl.GetAcrossCoord D j pt) (_Impl.GetAcrossCoord D j pf)
              (_Impl.GetAlongCoord D pt - _Impl.GetAlongCoord D pf)).Reset
          (_Impl.GetAcrossCoord D j p))) :
    impl.Get D i = std_get i p := by
  have hj := across_index_lt D i pf.length hiD hi hD
  rw [_Impl.Get_of_ne D i hiD]
  unfold std_get_across
  rw [List.getD_eq_getElem?_getD, h7 _ hj, Option.getD_some,
    _Impl.GetAcrossCoord_of_ne D i hiD, _Impl.GetAcrossCoord_of_ne D i hiD,
    _Impl.GetAcrossCoord_of_ne D i hiD]
  apply DTQualifier.Reset_m_position
  rw [← SameTupleType.isIntegral_eq hp i]
  split
  · exact DTQualifier.valueInit_kind _
  · rw [DTQualifier.Initialise_kind]; exact DTQualifier.valueInit_kind _

/-! ## Claims about the interpolation engine -/

/-- C4: round-to-nearest stepping.  For endpoints with along delta `n > 0` and an
integral across channel `i` with start value `a` and delta `d`, the position after
`GoToBegin` and `k` calls of `operator++` is `a + sign d * floor((2|d|k + n) / (2n))`;
the magnitude `floor((2|d|k + n) / (2n))` is the integer nearest to `|d| k / n`,
an exact tie going to the larger magnitude, away from the start value. -/
theorem C4_round_to_nearest (D : Nat) (pf pt : PointType) (u : Indeterminate)
    (hT : Instantiable D pf pt) (i : Nat) (hi : i < pf.length) (hiD : i ≠ D)
    (hint : (std_get i pf).isIntegral = true)
    (hn : 0 < (std_get D pt).asInt - (std_get D pf).asInt)
    (k : Nat) (_hk : (k : Int) ≤ (std_get D pt).asInt - (std_get D pf).asInt) :
    Get D i (operator_increment^[k] (GoToBegin D (ctor D pf pt u)))
      = .int ((std_get i pf).asInt
          + Int.sign ((std_get i pt).asInt - (std_get i pf).asInt)
            * ((2 * |(std_get i pt).asInt - (std_get i pf).asInt| * k
                + ((std_get D pt).asInt - (std_get D pf).asInt))
              / (2 * ((std_get D pt).asInt - (std_get D pf).asInt)))) ∧
    ((|(std_get i pt).asInt - (std_get i pf).asInt| : ℚ) * k
          / (((std_get D pt).asInt - (std_get D pf).asInt : Int) : ℚ) - 1 / 2
        < (((2 * |(std_get i pt).asInt - (std_get i pf).asInt| * k
                + ((std_get D pt).asInt - (std_get D pf).asInt))
              / (2 * ((std_get D pt).asInt - (std_get D pf).asInt)) : Int) : ℚ)) ∧
    ((((2 * |(std_get i pt).asInt - (std_get i pf).asInt| * k
                + ((std_get D pt).asInt - (std_get D pf).asInt))
              / (2 * ((std_get D pt).asInt - (std_get D pf).asInt)) : Int) : ℚ)
        ≤ (|(std_get i pt).asInt - (std_get i pf).asInt| : ℚ) * k
          / (((std_get D pt).asInt - (std_get D pf).asInt : Int) : ℚ) + 1 / 2) := by
  obtain ⟨hb1, hb2⟩ := nearest_bounds |(std_get i pt).asInt - (std_get i pf).asInt|
    ((std_get D pt).asInt - (std_get D pf).asInt) k hn
  refine ⟨begin_increment_integral_position D pf pt u hT i hi hiD hint hn k, ?_, ?_⟩
  · exact_mod_cast hb1
  · exact_mod_cast hb2

theorem C4_round_to_nearest_witness :
    Get 0 1 (operator_increment^[1]
        (GoToBegin 0 (ctor 0 [.int 0, .int 0] [.int 2, .int (-1)] ⟨0, 0, 0⟩)))
      = .int ((std_get 1 [.int 0, .int 0]).asInt
          + Int.sign ((std_get 1 [.int 2, .int (-1)]).asInt - (std_get 1 [.int 0, .int 0]).asInt)
            * ((2 * |(std_get 1 [.int 2, .int (-1)]).asInt - (std_get 1 [.int 0, .int 0]).asInt|
                  * (1 : Nat)
                + ((std_get 0 [.int 2, .int (-1)]).asInt - (std_get 0 [.int 0, .int 0]).asInt))
              / (2 * ((std_get 0 [.int 2, .int (-1)]).asInt
                  - (std_get 0 [.int 0, .int 0]).asInt)))) :=
  (C4_round_to_nearest 0 [.int 0, .int 0] [.int 2, .int (-1)] ⟨0, 0, 0⟩
    (by decide) 1 (by decide) (by decide) (by decide) (by decide) 1 (by decide)).1

/-- C5, as stated, fails: with `to[D] < from[D]` the driving axis moves away from
`to` (one `++` from `(1, 0)` towards `(0, 0)` gives driving value `2`), and with
`to[D] = from[D]` zero steps leave the across axes at the `from` values. -/
theorem C5_exactness_counterexample :
    Get 0 0 (operator_increment^[Int.natAbs (0 - 1)]
        (GoToBegin 0 (ctor 0 [.int 1, .int 0] [.int 0, .int 0] ⟨0, 0, 0⟩)))
      ≠ std_get 0 [.int 0, .int 0] ∧
    Get 0 1 (operator_increment^[Int.natAbs (0 - 0)]
        (GoToBegin 0 (ctor 0 [.int 0, .int 0] [.int 0, .int 5] ⟨0, 0, 0⟩)))
      ≠ std_get 1 [.int 0, .int 5] := by
  decide

/-- C5, amended: for integer endpoints with `d = to[D] - from[D] > 0`, after
`GoToBegin` and exactly `d` calls of `operator++` every axis value of the engine
equals the corresponding coordinate of `to`, and `operator*` returns `to`. -/
theorem C5_exactness (D : Nat) (pf pt : PointType) (u : Indeterminate)
    (hT : Instantiable D pf pt) (hf : AllIntegral pf) (ht : AllIntegral pt)
    (hn : 0 < (std_get D pt).asInt - (std_get D pf).asInt) :
    (∀ i : Nat, i < pt.length →
      Get D i (operator_increment^[Int.natAbs ((std_get D pt).asInt - (std_get D pf).asInt)]
          (GoToBegin D (ctor D pf pt u))) = std_get i pt) ∧
    operator_deref D
        (operator_increment^[Int.natAbs ((std_get D pt).asInt - (std_get D pf).asInt)]
          (GoToBegin D (ctor D pf pt u))) = pt := by
  have hlen : pf.length = pt.length := SameTupleType.length_eq hT.1
  have hk : ((Int.natAbs ((std_get D pt).asInt - (std_get D pf).asInt) : Nat) : Int)
      = (std_get D pt).asInt - (std_get D pf).asInt := by
    rw [Int.natCast_natAbs, abs_of_pos hn]
  have hall : ∀ i : Nat, i < pt.length →
      Get D i (operator_increment^[Int.natAbs ((std_get D pt).asInt - (std_get D pf).asInt)]
          (GoToBegin D (ctor D pf pt u))) = std_get i pt := by
    intro i hi
    have e := Scalar.eq_int_of_isIntegral (std_get i pt) (AllIntegral_std_get ht i hi)
    by_cases hiD : i = D
    · subst hiD
      rw [Get_begin_increment_along, hk]
      exact (congrArg Scalar.int (by ring)).trans e.symm
    · have h1 := begin_increment_integral_position D pf pt u hT i (by omega) hiD
        (AllIntegral_std_get hf i (by omega)) hn
        (Int.natAbs ((std_get D pt).asInt - (std_get D pf).asInt))
      rw [h1, hk]
      refine (congrArg Scalar.int ?_).trans e.symm
      generalize (std_get D pt).asInt - (std_get D pf).asInt = n at hn
      generalize (std_get i pf).asInt = a
      generalize (std_get i pt).asInt = b
      have hq : (2 * |b - a| * n + n) / (2 * n) = |b - a| :=
        ediv_two_mul_unique _ _ _ hn (by nlinarith [abs_nonneg (b - a)])
          (by nlinarith [abs_nonneg (b - a)])
      rw [hq, Int.sign_mul_abs]
      ring
  refine ⟨hall, ?_⟩
  obtain ⟨g1, -, -, -⟩ := begin_increment_fields D pf pt u
    (Int.natAbs ((std_get D pt).asInt - (std_get D pf).asInt))
  exact operator_deref_eq_of_Get D _ pt (by rw [g1, hlen]) hall

theorem C5_exactness_witness :
    (∀ i : Nat, i < [Scalar.int 5, Scalar.int (-2), Scalar.int 9].length →
      Get 0 i (operator_increment^[Int.natAbs
            ((std_get 0 [.int 5, .int (-2), .int 9]).asInt
              - (std_get 0 [.int 0, .int 0, .int 7]).asInt)]
          (GoToBegin 0 (ctor 0 [.int 0, .int 0, .int 7] [.int 5, .int (-2), .int 9] ⟨0, 0, 0⟩)))
        = std_get i [.int 5, .int (-2), .int 9]) ∧
    operator_deref 0
        (operator_increment^[Int.natAbs
            ((std_get 0 [.int 5, .int (-2), .int 9]).asInt
              - (std_get 0 [.int 0, .int 0, .int 7]).asInt)]
          (GoToBegin 0 (ctor 0 [.int 0, .int 0, .int 7] [.int 5, .int (-2), .int 9] ⟨0, 0, 0⟩)))
      = [.int 5, .int (-2), .int 9] :=
  C5_exactness 0 [.int 0, .int 0, .int 7] [.int 5, .int (-2), .int 9] ⟨0, 0, 0⟩
    (by decide) (by decide) (by decide) (by decide)

/-- C6, evaluated at a failing input: on the segment from `(0, 0, 0)` to
`(5, 0, 0)` with driving axis `x`, `GoToBegin`, one `++` and one `--` bring the
driving axis back to `0` but leave the `y` and `z` axes at `1`, while they were
`0` right after `GoToBegin`. -/
theorem C6_reversibility_failing_input :
    operator_deref 0 (GoToBegin 0
      (ctor 0 [.int 0, .int 0, .int 0] [.int 5, .int 0, .int 0] ⟨0, 0, 0⟩))
      = [.int 0, .int 0, .int 0] ∧
    operator_deref 0 (operator_decrement^[1] (operator_increment^[1] (GoToBegin 0
      (ctor 0 [.int 0, .int 0, .int 0] [.int 5, .int 0, .int 0] ⟨0, 0, 0⟩))))
      = [.int 0, .int 1, .int 1] := by
  decide

/-- C7, evaluated at a failing input: for `A = (0, 0, 0)` and `B = (2, 0, 0)` the
forward walk collects `(0, 0, 0), (1, 0, 0), (2, 0, 0)`, the backward walk collects
`(2, 0, 0), (1, 1, 1), (0, 1, 1)`, whose reverse differs from the forward list. -/
theorem C7_symmetry_failing_input :
    collectForward 0 8 (ctor 0 [.int 0, .int 0, .int 0] [.int 2, .int 0, .int 0] ⟨0, 0, 0⟩)
      = some [[.int 0, .int 0, .int 0], [.int 1, .int 0, .int 0], [.int 2, .int 0, .int 0]] ∧
    collectBackward 0 8 (ctor 0 [.int 0, .int 0, .int 0] [.int 2, .int 0, .int 0] ⟨0, 0, 0⟩)
      = some [[.int 2, .int 0, .int 0], [.int 1, .int 1, .int 1], [.int 0, .int 1, .int 1]] ∧
    (collectBackward 0 8
        (ctor 0 [.int 0, .int 0, .int 0] [.int 2, .int 0, .int 0] ⟨0, 0, 0⟩)).map List.reverse
      ≠ collectForward 0 8
        (ctor 0 [.int 0, .int 0, .int 0] [.int 2, .int 0, .int 0] ⟨0, 0, 0⟩) := by
  decide

/-- C8: forward traversal is a closed interval on the driving axis.  For
`to[D] ≥ from[D]`, after `GoToBegin` and `k` calls of `operator++` the driving
value is `from[D] + k`, `IsAtBegin` holds exactly for `k = 0` and `IsAtEnd` exactly
for `k = to[D] - from[D]`; the loop "visit, stop if `IsAtEnd`, else `++`" terminates
and the driving values of the points it visits are `from[D], from[D] + 1, ..., to[D]`,
each once. -/
theorem C8_forward_closed_interval (D : Nat) (pf pt : PointType) (u : Indeterminate)
    (hT : Instantiable D pf pt) (hn : (std_get D pf).asInt ≤ (std_get D pt).asInt) :
    (∀ k : Nat,
      Get D D (operator_increment^[k] (GoToBegin D (ctor D pf pt u)))
        = .int ((std_get D pf).asInt + k) ∧
      (IsAtBegin D (operator_increment^[k] (GoToBegin D (ctor D pf pt u))) = true ↔ k = 0) ∧
      (IsAtEnd D (operator_increment^[k] (GoToBegin D (ctor D pf pt u))) = true
        ↔ (k : Int) = (std_get D pt).asInt - (std_get D pf).asInt)) ∧
    (∀ fuel : Nat, Int.toNat ((std_get D pt).asInt - (std_get D pf).asInt) < fuel →
      (collectForward D fuel (ctor D pf pt u)).map (List.map (fun p => std_get D p))
        = some ((List.range (Int.toNat ((std_get D pt).asInt - (std_get D pf).asInt) + 1)).map
            (fun k : Nat => Scalar.int ((std_get D pf).asInt + (k : Int))))) := by
  refine ⟨fun k => ⟨Get_begin_increment_along D pf pt u k,
    IsAtBegin_begin_increment D pf pt u k, IsAtEnd_begin_increment D pf pt u k⟩, ?_⟩
  intro fuel hfuel
  have hn' : (std_get D pt).asInt - (std_get D pf).asInt
      = (Int.toNat ((std_get D pt).asInt - (std_get D pf).asInt) : Nat) := by
    rw [Int.toNat_of_nonneg (by omega)]
  rw [collectForward_ctor D pf pt u _ hn' fuel hfuel]
  simp only [Option.map_some', List.map_map]
  congr 1
  apply List.map_congr_left
  intro k _
  simp only [Function.comp_apply]
  obtain ⟨g1, -, -, -⟩ := begin_increment_fields D pf pt u k
  rw [std_get_operator_deref D _ D (by rw [g1]; exact hT.2.1)]
  exact Get_begin_increment_along D pf pt u k

theorem C8_forward_closed_interval_witness :
    (collectForward 0 6 (ctor 0 [.int 2, .int 5, .int 1] [.int 7, .int 5, .int 3] ⟨0, 0, 0⟩)).map
        (List.map (fun p => std_get 0 p))
      = some ((List.range (Int.toNat ((std_get 0 [.int 7, .int 5, .int 3]).asInt
            - (std_get 0 [.int 2, .int 5, .int 1]).asInt) + 1)).map
          (fun k : Nat => Scalar.int ((std_get 0 [.int 2, .int 5, .int 1]).asInt + (k : Int)))) :=
  (C8_forward_closed_interval 0 [.int 2, .int 5, .int 1] [.int 7, .int 5, .int 3] ⟨0, 0, 0⟩
    (by decide) (by decide)).2 6 (by decide)

/-- C9: for every instantiation (any dimension, any driving axis `D`, any pair of
endpoints of one tuple type) `operator*` right after `GoToBegin` returns exactly
`from` and right after `GoToEnd` exactly `to`, and `Get<i>()` returns coordinate
`i` of that point for every `i`: no channel is shifted or swapped. -/
theorem C9_reset_reads_back (D : Nat) (pf pt : PointType) (u : Indeterminate)
    (hT : Instantiable D pf pt) :
    operator_deref D (GoToBegin D (ctor D pf pt u)) = pf ∧
    operator_deref D (GoToEnd D (ctor D pf pt u)) = pt ∧
    ∀ i : Nat, i < pf.length →
      Get D i (GoToBegin D (ctor D pf pt u)) = std_get i pf ∧
      Get D i (GoToEnd D (ctor D pf pt u)) = std_get i pt := by
  obtain ⟨hST, hD, hDint⟩ := hT
  have hlen : pf.length = pt.length := SameTupleType.length_eq hST
  obtain ⟨b1, -, -, -, b5, -, -, b7⟩ := GoToBegin_ctor D pf pt u
  obtain ⟨e1, -, -, -, e5, -, -, e7⟩ := GoToEnd_ctor D pf pt u
  have hDint2 : (std_get D pt).isIntegral = true := by
    rw [← SameTupleType.isIntegral_eq hST D]; exact hDint
  have hall : ∀ i : Nat, i < pf.length →
      Get D i (GoToBegin D (ctor D pf pt u)) = std_get i pf ∧
      Get D i (GoToEnd D (ctor D pf pt u)) = std_get i pt := by
    intro i hi
    by_cases hiD : i = D
    · subst hiD
      unfold Get
      rw [_Impl.Get_self, _Impl.Get_self, b5, e5]
      exact ⟨(Scalar.eq_int_of_isIntegral _ hDint).symm,
        (Scalar.eq_int_of_isIntegral _ hDint2).symm⟩
    · exact ⟨Get_after_reset D pf pt pf _ rfl hD i hi hiD b7,
        Get_after_reset D pf pt pt _ hST hD i hi hiD e7⟩
  refine ⟨?_, ?_, hall⟩
  · exact operator_deref_eq_of_Get D _ pf (by rw [b1]) (fun i hi => (hall i hi).1)
  · exact operator_deref_eq_of_Get D _ pt (by rw [e1, hlen])
      (fun i hi => (hall i (by omega)).2)

theorem C9_reset_reads_back_witness :
    operator_deref 1 (GoToBegin 1
        (ctor 1 [.int 3, .int 4, .real 5, .int 6] [.int 9, .int 4, .real 2, .int 0] ⟨7, 8, 9⟩))
      = [.int 3, .int 4, .real 5, .int 6] ∧
    operator_deref 1 (GoToEnd 1
        (ctor 1 [.int 3, .int 4, .real 5, .int 6] [.int 9, .int 4, .real 2, .int 0] ⟨7, 8, 9⟩))
      = [.int 9, .int 4, .real 2, .int 0] ∧
    ∀ i : Nat, i < [Scalar.int 3, Scalar.int 4, Scalar.real 5, Scalar.int 6].length →
      Get 1 i (GoToBegin 1
          (ctor 1 [.int 3, .int 4, .real 5, .int 6] [.int 9, .int 4, .real 2, .int 0] ⟨7, 8, 9⟩))
        = std_get i [.int 3, .int 4, .real 5, .int 6] ∧
      Get 1 i (GoToEnd 1
          (ctor 1 [.int 3, .int 4, .real 5, .int 6] [.int 9, .int 4, .real 2, .int 0] ⟨7, 8, 9⟩))
        = std_get i [.int 9, .int 4, .real 2, .int 0] :=
  C9_reset_reads_back 1 [.int 3, .int 4, .real 5, .int 6] [.int 9, .int 4, .real 2, .int 0]
    ⟨7, 8, 9⟩ (by decide)

/-- C10: zero along delta.  When `to[D] = from[D]` the constructor returns before
`Initialise` (the engine is the freshly built `_Impl`), and after `GoToBegin`, and
likewise after `GoToEnd`, both `IsAtBegin()` and `IsAtEnd()` are true. -/
theorem C10_zero_along_delta (D : Nat) (pf pt : PointType) (u : Indeterminate)
    (hz : (std_get D pt).asInt = (std_get D pf).asInt) :
    ctor D pf pt u = ⟨_Impl.ctor D pf pt u⟩ ∧
    IsAtBegin D (GoToBegin D (ctor D pf pt u)) = true ∧
    IsAtEnd D (GoToBegin D (ctor D pf pt u)) = true ∧
    IsAtBegin D (GoToEnd D (ctor D pf pt u)) = true ∧
    IsAtEnd D (GoToEnd D (ctor D pf pt u)) = true := by
  obtain ⟨b1, b2, -, -, b5, -, -, -⟩ := GoToBegin_ctor D pf pt u
  obtain ⟨e1, e2, -, -, e5, -, -, -⟩ := GoToEnd_ctor D pf pt u
  have hz' : _Impl.GetAlongCoord D pt = _Impl.GetAlongCoord D pf := hz
  refine ⟨?_, ?_, ?_, ?_, ?_⟩
  · unfold ctor
    simp only
    rw [if_pos (by omega)]
  · unfold IsAtBegin; rw [b1, b5, beq_iff_eq]
  · unfold IsAtEnd; rw [b2, b5, beq_iff_eq, hz']
  · unfold IsAtBegin; rw [e1, e5, beq_iff_eq, hz']
  · unfold IsAtEnd; rw [e2, e5, beq_iff_eq]

theorem C10_zero_along_delta_witness :
    ctor 0 [.int 4, .int 1, .real 0] [.int 4, .int 9, .real 1] ⟨7, 8, 9⟩
      = ⟨_Impl.ctor 0 [.int 4, .int 1, .real 0] [.int 4, .int 9, .real 1] ⟨7, 8, 9⟩⟩ ∧
    IsAtBegin 0 (GoToBegin 0
      (ctor 0 [.int 4, .int 1, .real 0] [.int 4, .int 9, .real 1] ⟨7, 8, 9⟩)) = true ∧
    IsAtEnd 0 (GoToBegin 0
      (ctor 0 [.int 4, .int 1, .real 0] [.int 4, .int 9, .real 1] ⟨7, 8, 9⟩)) = true ∧
    IsAtBegin 0 (GoToEnd 0
      (ctor 0 [.int 4, .int 1, .real 0] [.int 4, .int 9, .real 1] ⟨7, 8, 9⟩)) = true ∧
    IsAtEnd 0 (GoToEnd 0
      (ctor 0 [.int 4, .int 1, .real 0] [.int 4, .int 9, .real 1] ⟨7, 8, 9⟩)) = true :=
  C10_zero_along_delta 0 [.int 4, .int 1, .real 0] [.int 4, .int 9, .real 1] ⟨7, 8, 9⟩
    (by decide)

end LinearInterpolationIterator

end Geometry

/-! # The rasterizer -/

/-! ## The closed form `roundedPosition` -/

namespace Geometry
namespace LinearInterpolationIterator

theorem roundedPosition_nonneg_bounds (a d n : Int) (k : Nat) (hn : 0 < n) (hd : 0 ≤ d) :
    2 * d * k - n < 2 * n * (roundedPosition a d n k - a) ∧
    2 * n * (roundedPosition a d n k - a) ≤ 2 * d * k + n := by
  unfold roundedPosition
  have h1 : (2 * |d| * k + n) / (2 * n) * (2 * n) ≤ 2 * |d| * k + n :=
    Int.ediv_mul_le _ (by omega)
  have h2 : 2 * |d| * k + n < ((2 * |d| * k + n) / (2 * n) + 1) * (2 * n) :=
    Int.lt_ediv_add_one_mul_self _ (by omega)
  rw [abs_of_nonneg hd] at h1 h2 ⊢
  generalize (2 * d * k + n) / (2 * n) = m at h1 h2
  rcases hd.lt_or_eq with h | h
  · rw [Int.sign_eq_one_of_pos h]
    constructor <;> nlinarith
  · subst h
    have hm : m = 0 := by
      have h3 : m * (2 * n) ≤ n := by simpa using h1
      have h4 : n < (m + 1) * (2 * n) := by simpa using h2
      rcases lt_trichotomy m 0 with h | h | h
      · nlinarith
      · exact h
      · nlinarith
    subst hm
    simp
    omega

theorem roundedPosition_nonpos_bounds (a d n : Int) (k : Nat) (hn : 0 < n) (hd : d ≤ 0) :
    2 * d * k - n ≤ 2 * n * (roundedPosition a d n k - a) ∧
    2 * n * (roundedPosition a d n k - a) < 2 * d * k + n := by
  unfold roundedPosition
  have h1 : (2 * |d| * k + n) / (2 * n) * (2 * n) ≤ 2 * |d| * k + n :=
    Int.ediv_mul_le _ (by omega)
  have h2 : 2 * |d| * k + n < ((2 * |d| * k + n) / (2 * n) + 1) * (2 * n) :=
    Int.lt_ediv_add_one_mul_self _ (by omega)
  rw [abs_of_nonpos hd] at h1 h2 ⊢
  generalize (2 * -d * k + n) / (2 * n) = m at h1 h2
  rcases hd.lt_or_eq with h | h
  · rw [Int.sign_eq_neg_one_of_neg h]
    constructor <;> nlinarith
  · subst h
    have hm : m = 0 := by
      have h3 : m * (2 * n) ≤ n := by simpa using h1
      have h4 : n < (m + 1) * (2 * n) := by simpa using h2
      rcases lt_trichotomy m 0 with h | h | h
      · nlinarith
      · exact h
      · nlinarith
    subst hm
    simp
    omega

theorem roundedPosition_bounds (a d n : Int) (k : Nat) (hn : 0 < n) :
    2 * d * k - n ≤ 2 * n * (roundedPosition a d n k - a) ∧
    2 * n * (roundedPosition a d n k - a) ≤ 2 * d * k + n := by
  rcases le_total 0 d with hd | hd
  · obtain ⟨h1, h2⟩ := roundedPosition_nonneg_bounds a d n k hn hd
    exact ⟨h1.le, h2⟩
  · obtain ⟨h1, h2⟩ := roundedPosition_nonpos_bounds a d n k hn hd
    exact ⟨h1, h2.le⟩

theorem roundedPosition_zero (a d n : Int) (hn : 0 ≤ n) : roundedPosition a d n 0 = a := by
  unfold roundedPosition
  rcases hn.lt_or_eq with h | h
  · have : n / (2 * n) = 0 := Int.ediv_eq_zero_of_lt h.le (by omega)
    simp [this]
  · subst h; simp

theorem roundedPosition_end (a d : Int) (n : Nat) (hn : 0 < (n : Int)) :
    roundedPosition a d n n = a + d := by
  unfold roundedPosition
  have hq : (2 * |d| * (n : Int) + n) / (2 * (n : Int)) = |d| :=
    ediv_two_mul_unique _ _ _ hn (by nlinarith [abs_nonneg d]) (by nlinarith [abs_nonneg d])
  rw [hq, Int.sign_mul_abs]

theorem roundedPosition_order_strict (aL dL nL aR dR nR : Int) (k k' : Nat)
    (hnL : 0 < nL) (hnR : 0 < nR)
    (h : (aL - aR) * (nL * nR) + dL * k * nR < dR * k' * nL) :
    roundedPosition aL dL nL k ≤ roundedPosition aR dR nR k' := by
  obtain ⟨-, hL⟩ := roundedPosition_bounds aL dL nL k hnL
  obtain ⟨hR, -⟩ := roundedPosition_bounds aR dR nR k' hnR
  by_contra hcon
  have hcon' : roundedPosition aR dR nR k' + 1 ≤ roundedPosition aL dL nL k := by omega
  generalize roundedPosition aL dL nL k = PL at *
  generalize roundedPosition aR dR nR k' = PR at *
  have hnn : 0 < nL * nR := mul_pos hnL hnR
  have e1 := mul_le_mul_of_nonneg_left hL hnR.le
  have e2 := mul_le_mul_of_nonneg_left hR hnL.le
  have e3 := mul_le_mul_of_nonneg_left hcon' hnn.le
  nlinarith

theorem roundedPosition_order_weak (aL dL nL aR dR nR : Int) (k k' : Nat)
    (hnL : 0 < nL) (hnR : 0 < nR)
    (h : (aL - aR) * (nL * nR) + dL * k * nR ≤ dR * k' * nL)
    (hs : dL ≤ 0 ∨ 0 ≤ dR) :
    roundedPosition aL dL nL k ≤ roundedPosition aR dR nR k' := by
  obtain ⟨-, hL⟩ := roundedPosition_bounds aL dL nL k hnL
  obtain ⟨hR, -⟩ := roundedPosition_bounds aR dR nR k' hnR
  by_contra hcon
  have hcon' : roundedPosition aR dR nR k' + 1 ≤ roundedPosition aL dL nL k := by omega
  have hnn : 0 < nL * nR := mul_pos hnL hnR
  rcases hs with hs | hs
  · obtain ⟨-, hL'⟩ := roundedPosition_nonpos_bounds aL dL nL k hnL hs
    generalize roundedPosition aL dL nL k = PL at *
    generalize roundedPosition aR dR nR k' = PR at *
    have e1 := mul_lt_mul_of_pos_left hL' hnR
    have e2 := mul_le_mul_of_nonneg_left hR hnL.le
    have e3 := mul_le_mul_of_nonneg_left hcon' hnn.le
    nlinarith
  · obtain ⟨hR', -⟩ := roundedPosition_nonneg_bounds aR dR nR k' hnR hs
    generalize roundedPosition aL dL nL k = PL at *
    generalize roundedPosition aR dR nR k' = PR at *
    have e1 := mul_le_mul_of_nonneg_left hL hnR.le
    have e2 := mul_lt_mul_of_pos_left hR' hnL
    have e3 := mul_le_mul_of_nonneg_left hcon' hnn.le
    nlinarith

/-- Between the endpoints: for `0 ≤ k ≤ n` the position lies between `a` and
`a + d`. -/
theorem roundedPosition_between (a d n : Int) (k : Nat) (hn : 0 < n) (hk : (k : Int) ≤ n) :
    min a (a + d) ≤ roundedPosition a d n k ∧ roundedPosition a d n k ≤ max a (a + d) := by
  have hk0 : (0 : Int) ≤ k := Int.natCast_nonneg k
  rcases le_total 0 d with hd | hd
  · obtain ⟨h1, h2⟩ := roundedPosition_nonneg_bounds a d n k hn hd
    rw [min_eq_left (by omega), max_eq_right (by omega)]
    generalize roundedPosition a d n k = P at *
    have hdk : 0 ≤ d * k := mul_nonneg hd hk0
    have hdk2 : d * k ≤ d * n := mul_le_mul_of_nonneg_left hk hd
    constructor
    · by_contra hc
      have : P - a ≤ -1 := by omega
      have := mul_le_mul_of_nonneg_left this hn.le
      nlinarith
    · by_contra hc
      have : d + 1 ≤ P - a := by omega
      have := mul_le_mul_of_nonneg_left this hn.le
      nlinarith
  · obtain ⟨h1, h2⟩ := roundedPosition_nonpos_bounds a d n k hn hd
    rw [min_eq_right (by omega), max_eq_left (by omega)]
    generalize roundedPosition a d n k = P at *
    have hdk : d * k ≤ 0 := mul_nonpos_of_nonpos_of_nonneg hd hk0
    have hdk2 : d * n ≤ d * k := mul_le_mul_of_nonpos_left hk hd
    constructor
    · by_contra hc
      have : P - a ≤ d - 1 := by omega
      have := mul_le_mul_of_nonneg_left this hn.le
      nlinarith
    · by_contra hc
      have : 1 ≤ P - a := by omega
      have := mul_le_mul_of_nonneg_left this hn.le
      nlinarith

end LinearInterpolationIterator
end Geometry

/-! ## `std::RemoveItem` -/

namespace std

open Geometry

theorem CopyItem_length (N : Nat) (I : Nat) (b : Bool) (res t : PointType) :
    (_RemoveItemHelper.CopyItem N I b res t).length = res.length := by
  induction I generalizing b with
  | zero => rfl
  | succ I ih => cases b <;> simp [_RemoveItemHelper.CopyItem, ih]

theorem CopyItem_getElem? (N : Nat) (I : Nat) (res t : PointType) (j : Nat) :
    (_RemoveItemHelper.CopyItem N I (decide (I > N)) res t)[j]? =
      if j < I ∧ j < res.length then
        some (if N ≤ j then std_get (j + 1) t else std_get j t)
      else res[j]? := by
  induction I with
  | zero => simp [_RemoveItemHelper.CopyItem]
  | succ I ih =>
    by_cases h : I + 1 > N
    · have hb : decide (I + 1 > N) = true := by simpa using h
      rw [hb]
      simp only [_RemoveItemHelper.CopyItem]
      rw [List.getElem?_set, CopyItem_length, ih]
      by_cases hjI : I = j
      · subst hjI
        have hN : N ≤ I := by omega
        by_cases hl : I < res.length
        · simp [hl, hN]
        · simp [hl, List.getElem?_eq_none (not_lt.mp hl)]
      · by_cases hlt : j < I
        · have : j < I + 1 := by omega
          simp [hjI, hlt, this]
        · have : ¬ j < I + 1 := by omega
          simp [hjI, hlt, this]
    · have hb : decide (I + 1 > N) = false := by simpa using h
      have hb' : decide (I > N) = false := by
        have : ¬ I > N := by omega
        simpa using this
      rw [hb]
      simp only [_RemoveItemHelper.CopyItem]
      rw [hb'] at ih
      rw [List.getElem?_set, CopyItem_length, ih]
      by_cases hjI : I = j
      · subst hjI
        have hN : ¬ N ≤ I := by omega
        by_cases hl : I < res.length
        · simp [hl, hN]
        · simp [hl, List.getElem?_eq_none (not_lt.mp hl)]
      · by_cases hlt : j < I
        · have : j < I + 1 := by omega
          simp [hjI, hlt, this]
        · have : ¬ j < I + 1 := by omega
          simp [hjI, hlt, this]

/-- `RemoveItem<N>` drops channel `N` and keeps the others in order. -/
theorem RemoveItem_eq_eraseIdx (N : Nat) (t : PointType) (hN : N < t.length) :
    RemoveItem N t = t.eraseIdx N := by
  apply List.ext_getElem?
  intro j
  unfold RemoveItem
  simp only
  rw [CopyItem_getElem?, List.length_map, List.length_eraseIdx, if_pos hN,
    List.getElem?_eraseIdx]
  by_cases hj : j < t.length - 1
  · rw [if_pos ⟨hj, hj⟩]
    unfold std_get
    by_cases hNj : N ≤ j
    · rw [if_pos hNj, if_neg (by omega), List.getD_eq_getElem?_getD,
        List.getElem?_eq_getElem (by omega)]
      rfl
    · rw [if_neg hNj, if_pos (by omega), List.getD_eq_getElem?_getD,
        List.getElem?_eq_getElem (by omega)]
      rfl
  · rw [if_neg (fun h => hj h.1), List.getElem?_map, List.getElem?_eraseIdx]
    by_cases hNj : j < N
    · omega
    · rw [if_neg hNj, List.getElem?_eq_none (by omega)]
      rfl

theorem std_get_RemoveItem_one_zero (t : PointType) (h : 2 ≤ t.length) :
    std_get 0 (RemoveItem 1 t) = std_get 0 t := by
  rw [RemoveItem_eq_eraseIdx 1 t (by omega)]
  unfold std_get
  rw [List.getD_eq_getElem?_getD, List.getD_eq_getElem?_getD, List.getElem?_eraseIdx]
  simp

theorem std_get_RemoveItem_one_succ (t : PointType) (h : 2 ≤ t.length) (j : Nat) :
    std_get (j + 1) (RemoveItem 1 t) = std_get (j + 2) t := by
  rw [RemoveItem_eq_eraseIdx 1 t (by omega)]
  unfold std_get
  rw [List.getD_eq_getElem?_getD, List.getD_eq_getElem?_getD, List.getElem?_eraseIdx]
  simp

end std

/-! ## Spans: `Canvas::_DrawHLine` -/

namespace Graphics

open Geometry Geometry.LinearInterpolationIterator

/-- The span loop, entered after `k` steps with `m` steps still to go, leaves
through its `break` after one `_Set` per remaining position. -/
theorem Canvas._DrawHLine.loop_spec (y : Int) (g : ColorGetter) (s1 s2 : PointType)
    (u : Indeterminate) (n : Nat) (hn : (std_get 0 s2).asInt - (std_get 0 s1).asInt = n) :
    ∀ (m k fuel : Nat) (t : TracedCanvas), k + m = n → m < fuel →
      Canvas._DrawHLine.loop y g fuel
          (operator_increment^[k] (GoToBegin 0 (LinearInterpolationIterator.ctor 0 s1 s2 u))) t
        = .ok ((List.range (m + 1)).foldl
            (fun (t : TracedCanvas) (j : Nat) =>
              t._Set ((std_get 0 s1).asInt + ((k + j : Nat) : Int)) y
                (Get 0 1 (operator_increment^[k + j]
                  (GoToBegin 0 (LinearInterpolationIterator.ctor 0 s1 s2 u)))).asInt
                (g t.canvas (operator_increment^[k + j]
                  (GoToBegin 0 (LinearInterpolationIterator.ctor 0 s1 s2 u)))))
            t) := by
  intro m
  induction m with
  | zero =>
    intro k fuel t hk hfuel
    obtain ⟨fuel, rfl⟩ : ∃ f, fuel = f + 1 := ⟨fuel - 1, by omega⟩
    have hend : IsAtEnd 0 (operator_increment^[k]
        (GoToBegin 0 (LinearInterpolationIterator.ctor 0 s1 s2 u))) = true :=
      (IsAtEnd_begin_increment 0 s1 s2 u k).2 (by omega)
    simp [Canvas._DrawHLine.loop, hend, List.range_succ, Get_begin_increment_along,
      Scalar.asInt]
  | succ m ih =>
    intro k fuel t hk hfuel
    obtain ⟨fuel, rfl⟩ : ∃ f, fuel = f + 1 := ⟨fuel - 1, by omega⟩
    have hend : ¬ IsAtEnd 0 (operator_increment^[k]
        (GoToBegin 0 (LinearInterpolationIterator.ctor 0 s1 s2 u))) = true :=
      fun h => by
        have := (IsAtEnd_begin_increment 0 s1 s2 u k).1 h
        omega
    rw [Canvas._DrawHLine.loop]
    rw [if_neg hend, ← Function.iterate_succ_apply' operator_increment k,
      ih (k + 1) fuel _ (by omega) (by omega)]
    rw [List.range_succ_eq_map (m + 1), List.foldl_cons, List.foldl_map]
    simp only [Get_begin_increment_along, Scalar.asInt, Nat.add_zero]
    congr 1
    apply List.foldl_ext
    intro t j _
    have e : k + 1 + j = k + (j + 1) := by omega
    rw [e]

/-- For a span with `x1 ≤ x2` and equal `y`, `_DrawHLine` passes both `assert`s,
terminates and equals its unrolled form. -/
theorem Canvas._DrawHLine_eq_unrolled (u : Indeterminate) (fuel : Nat) (t : TracedCanvas)
    (p1 p2 : PointType) (g : ColorGetter) (h1 : 2 ≤ p1.length) (h2 : 2 ≤ p2.length)
    (hx : (std_get 0 p1).asInt ≤ (std_get 0 p2).asInt)
    (hy : (std_get 1 p1).asInt = (std_get 1 p2).asInt)
    (hfuel : Int.toNat ((std_get 0 p2).asInt - (std_get 0 p1).asInt) < fuel) :
    Canvas._DrawHLine u fuel t p1 p2 g = .ok (Canvas._DrawHLine.unrolled u t p1 p2 g) := by
  unfold Canvas._DrawHLine Canvas._DrawHLine.unrolled
  rw [if_neg (by omega), if_neg (by omega)]
  simp only
  have hn : (std_get 0 (std.RemoveItem 1 p2)).asInt - (std_get 0 (std.RemoveItem 1 p1)).asInt
      = (Int.toNat ((std_get 0 p2).asInt - (std_get 0 p1).asInt) : Nat) := by
    rw [std.std_get_RemoveItem_one_zero p1 h1, std.std_get_RemoveItem_one_zero p2 h2,
      Int.toNat_of_nonneg (by omega)]
  have h := Canvas._DrawHLine.loop_spec (std_get 1 p1).asInt g (std.RemoveItem 1 p1)
    (std.RemoveItem 1 p2) u _ hn _ 0 fuel t (by omega) hfuel
  simp only [Function.iterate_zero, id_eq, Nat.zero_add,
    std.std_get_RemoveItem_one_zero p1 h1] at h
  exact h

end Graphics

/-! ## Sorting three points, and the points of an edge walked along `y` -/

namespace Graphics

open Geometry Geometry.LinearInterpolationIterator

/-- The six possible outcomes of `_Sort3PointsInDirection`. -/
theorem Canvas._Sort3PointsInDirection_cases (N : Nat) (a b c : PointType) :
    (Canvas._Sort3PointsInDirection N (a, b, c) = (a, b, c)
      ∧ (std_get N a).asInt ≤ (std_get N b).asInt ∧ (std_get N b).asInt ≤ (std_get N c).asInt) ∨
    (Canvas._Sort3PointsInDirection N (a, b, c) = (a, c, b)
      ∧ (std_get N a).asInt ≤ (std_get N c).asInt ∧ (std_get N c).asInt < (std_get N b).asInt) ∨
    (Canvas._Sort3PointsInDirection N (a, b, c) = (b, a, c)
      ∧ (std_get N b).asInt < (std_get N a).asInt ∧ (std_get N a).asInt ≤ (std_get N c).asInt) ∨
    (Canvas._Sort3PointsInDirection N (a, b, c) = (b, c, a)
      ∧ (std_get N b).asInt ≤ (std_get N c).asInt ∧ (std_get N c).asInt < (std_get N a).asInt) ∨
    (Canvas._Sort3PointsInDirection N (a, b, c) = (c, a, b)
      ∧ (std_get N c).asInt < (std_get N a).asInt ∧ (std_get N a).asInt < (std_get N b).asInt) ∨
    (Canvas._Sort3PointsInDirection N (a, b, c) = (c, b, a)
      ∧ (std_get N c).asInt < (std_get N b).asInt ∧ (std_get N b).asInt ≤ (std_get N a).asInt) := by
  by_cases h1 : (std_get N a).asInt > (std_get N b).asInt
  · by_cases h2 : (std_get N b).asInt > (std_get N c).asInt
    · refine Or.inr (Or.inr (Or.inr (Or.inr (Or.inr ⟨?_, by omega, by omega⟩))))
      unfold Canvas._Sort3PointsInDirection
      simp only [h1, h2, if_true]
    · by_cases h3 : (std_get N a).asInt > (std_get N c).asInt
      · refine Or.inr (Or.inr (Or.inr (Or.inl ⟨?_, by omega, by omega⟩)))
        unfold Canvas._Sort3PointsInDirection
        simp only [h1, h2, h3, if_true, if_false]
      · refine Or.inr (Or.inr (Or.inl ⟨?_, by omega, by omega⟩))
        unfold Canvas._Sort3PointsInDirection
        simp only [h1, h2, h3, if_true, if_false]
  · by_cases h2 : (std_get N a).asInt > (std_get N c).asInt
    · by_cases h3 : (std_get N b).asInt > (std_get N a).asInt
      · refine Or.inr (Or.inr (Or.inr (Or.inr (Or.inl ⟨?_, by omega, by omega⟩))))
        unfold Canvas._Sort3PointsInDirection
        simp only [h1, h2, h3, if_true, if_false]
      · refine Or.inr (Or.inr (Or.inr (Or.inr (Or.inr ⟨?_, by omega, by omega⟩))))
        unfold Canvas._Sort3PointsInDirection
        simp only [h1, h2, h3, if_true, if_false]
    · by_cases h3 : (std_get N b).asInt > (std_get N c).asInt
      · refine Or.inr (Or.inl ⟨?_, by omega, by omega⟩)
        unfold Canvas._Sort3PointsInDirection
        simp only [h1, h2, h3, if_true, if_false]
      · refine Or.inl ⟨?_, by omega, by omega⟩
        unfold Canvas._Sort3PointsInDirection
        simp only [h1, h2, h3, if_true, if_false]

/-- Each output of `_Sort3PointsInDirection` is one of the inputs. -/
theorem Canvas._Sort3PointsInDirection_pred (N : Nat) (a b c : PointType)
    (P : PointType → Prop) (ha : P a) (hb : P b) (hc : P c) :
    P (Canvas._Sort3PointsInDirection N (a, b, c)).1 ∧
    P (Canvas._Sort3PointsInDirection N (a, b, c)).2.1 ∧
    P (Canvas._Sort3PointsInDirection N (a, b, c)).2.2 := by
  rcases Canvas._Sort3PointsInDirection_cases N a b c with h | h | h | h | h | h <;>
    rw [h.1] <;> exact ⟨by assumption, by assumption, by assumption⟩

/-- The outputs of `_Sort3PointsInDirection` are in non-decreasing order of the
chosen channel. -/
theorem Canvas._Sort3PointsInDirection_sorted (N : Nat) (a b c : PointType) :
    (std_get N (Canvas._Sort3PointsInDirection N (a, b, c)).1).asInt
      ≤ (std_get N (Canvas._Sort3PointsInDirection N (a, b, c)).2.1).asInt ∧
    (std_get N (Canvas._Sort3PointsInDirection N (a, b, c)).2.1).asInt
      ≤ (std_get N (Canvas._Sort3PointsInDirection N (a, b, c)).2.2).asInt := by
  rcases Canvas._Sort3PointsInDirection_cases N a b c with h | h | h | h | h | h <;>
    rw [h.1] <;> dsimp only <;> constructor <;> omega

/-- Points already in non-decreasing order are left in place. -/
theorem Canvas._Sort3PointsInDirection_of_sorted (N : Nat) (a b c : PointType)
    (hab : (std_get N a).asInt ≤ (std_get N b).asInt)
    (hbc : (std_get N b).asInt ≤ (std_get N c).asInt) :
    Canvas._Sort3PointsInDirection N (a, b, c) = (a, b, c) := by
  rcases Canvas._Sort3PointsInDirection_cases N a b c with h | h | h | h | h | h
  · exact h.1
  all_goals omega

/-- `extent` does not depend on the order of the vertices. -/
theorem Canvas.extent_Sort3 (N : Nat) (a b c : PointType) :
    Canvas.extent (Canvas._Sort3PointsInDirection N (a, b, c)).1
        (Canvas._Sort3PointsInDirection N (a, b, c)).2.1
        (Canvas._Sort3PointsInDirection N (a, b, c)).2.2
      = Canvas.extent a b c := by
  have e1 := abs_sub_comm (std_get 0 a).asInt (std_get 0 b).asInt
  have e2 := abs_sub_comm (std_get 0 a).asInt (std_get 0 c).asInt
  have e3 := abs_sub_comm (std_get 0 b).asInt (std_get 0 c).asInt
  have e4 := abs_sub_comm (std_get 1 a).asInt (std_get 1 b).asInt
  have e5 := abs_sub_comm (std_get 1 a).asInt (std_get 1 c).asInt
  have e6 := abs_sub_comm (std_get 1 b).asInt (std_get 1 c).asInt
  rcases Canvas._Sort3PointsInDirection_cases N a b c with h | h | h | h | h | h <;>
    rw [h.1] <;> unfold Canvas.extent <;> dsimp only <;> linarith

theorem IsTPoint.length_ge {T : List Bool} {p : PointType} (h : IsTPoint T p) :
    3 ≤ p.length := by
  obtain ⟨h1, h2⟩ := h
  have h3 : (T.take 3).length = 3 := by rw [h2]; rfl
  have h4 : p.length = T.length := by rw [← h1, List.length_map]
  rw [List.length_take] at h3
  omega

theorem IsTPoint.isIntegral {T : List Bool} {p : PointType} (h : IsTPoint T p) (i : Nat)
    (hi : i < 3) : (std_get i p).isIntegral = true := by
  have hlen := h.length_ge
  obtain ⟨h1, h2⟩ := h
  have h3 : (T.take 3)[i]? = some true := by
    rw [h2]
    interval_cases i <;> rfl
  rw [List.getElem?_take_of_lt hi, ← h1, List.getElem?_map,
    List.getElem?_eq_getElem (by omega)] at h3
  unfold std_get
  rw [List.getD_eq_getElem _ _ (by omega)]
  simpa using h3

theorem IsTPoint.sameTupleType {T : List Bool} {p q : PointType} (hp : IsTPoint T p)
    (hq : IsTPoint T q) : SameTupleType p q := by
  unfold SameTupleType
  rw [hp.1, hq.1]

theorem IsTPoint.instantiable {T : List Bool} {p q : PointType} (hp : IsTPoint T p)
    (hq : IsTPoint T q) (D : Nat) (hD : D < 3) : Instantiable D p q :=
  ⟨hp.sameTupleType hq, by have := hp.length_ge; omega, hp.isIntegral D hD⟩

end Graphics

namespace Geometry

namespace LinearInterpolationIterator

/-- Right after `GoToBegin` every channel reads back the `from` coordinate. -/
theorem Get_GoToBegin_ctor (D : Nat) (pf pt : PointType) (u : Indeterminate)
    (hT : Instantiable D pf pt) (i : Nat) (hi : i < pf.length) :
    Get D i (GoToBegin D (ctor D pf pt u)) = std_get i pf := by
  obtain ⟨-, hD, hDint⟩ := hT
  obtain ⟨-, -, -, -, b5, -, -, b7⟩ := GoToBegin_ctor D pf pt u
  by_cases hiD : i = D
  · subst hiD
    unfold Get
    rw [_Impl.Get_self, b5]
    exact (Scalar.eq_int_of_isIntegral _ hDint).symm
  · exact Get_after_reset D pf pt pf _ rfl hD i hi hiD b7

/-- An integral across channel of an edge `pf → pt` with along delta `n ≥ 0`,
`k ≤ n` steps after `GoToBegin`. -/
theorem Get_begin_increment_roundedPosition (D : Nat) (pf pt : PointType) (u : Indeterminate)
    (hT : Instantiable D pf pt) (i : Nat) (hi : i < pf.length) (hiD : i ≠ D)
    (hint : (std_get i pf).isIntegral = true)
    (hn : 0 ≤ (std_get D pt).asInt - (std_get D pf).asInt) (k : Nat)
    (hk : (k : Int) ≤ (std_get D pt).asInt - (std_get D pf).asInt) :
    (Get D i (operator_increment^[k] (GoToBegin D (ctor D pf pt u)))).asInt
      = roundedPosition (std_get i pf).asInt ((std_get i pt).asInt - (std_get i pf).asInt)
          ((std_get D pt).asInt - (std_get D pf).asInt) k := by
  rcases hn.lt_or_eq with h | h
  · rw [begin_increment_integral_position D pf pt u hT i hi hiD hint h k]
    rfl
  · have hk0 : k = 0 := by omega
    subst hk0
    rw [Function.iterate_zero, id_eq, Get_GoToBegin_ctor D pf pt u hT i hi,
      roundedPosition_zero _ _ _ hn]

end LinearInterpolationIterator

end Geometry

/-! ## Left and right edge of a scanline -/

namespace Geometry

namespace LinearInterpolationIterator

/-- Lower half, short edges on the left: on the rows before `y2` the edge `1-2`
is not to the right of the edge `1-3`. -/
theorem row_bottom_short_left (x1 x2 x3 d12 d13 : Int) (k : Nat)
    (h12 : 0 < d12) (h13 : 0 < d13)
    (hC : (x2 - x1) * d13 < (x3 - x1) * d12) :
    roundedPosition x1 (x2 - x1) d12 k ≤ roundedPosition x1 (x3 - x1) d13 k := by
  rcases Nat.eq_zero_or_pos k with hk | hk
  · subst hk
    rw [roundedPosition_zero _ _ _ h12.le, roundedPosition_zero _ _ _ h13.le]
  · apply roundedPosition_order_strict _ _ _ _ _ _ _ _ h12 h13
    have hk' : (0 : Int) < k := by exact_mod_cast hk
    nlinarith

/-- Lower half, short edges on the right. -/
theorem row_bottom_short_right (x1 x2 x3 d12 d13 : Int) (k : Nat)
    (h12 : 0 < d12) (h13 : 0 < d13)
    (hC : ¬ (x2 - x1) * d13 < (x3 - x1) * d12) :
    roundedPosition x1 (x3 - x1) d13 k ≤ roundedPosition x1 (x2 - x1) d12 k := by
  have hk' : (0 : Int) ≤ k := Int.natCast_nonneg k
  have hC' : (x3 - x1) * d12 ≤ (x2 - x1) * d13 := not_lt.mp hC
  apply roundedPosition_order_weak _ _ _ _ _ _ _ _ h13 h12
  · nlinarith
  · by_contra hs
    push_neg at hs
    obtain ⟨hs1, hs2⟩ := hs
    have e1 : 0 < (x3 - x1) * d12 := mul_pos hs1 h12
    have e2 : (x2 - x1) * d13 < 0 := mul_neg_of_neg_of_pos hs2 h13
    linarith

/-- Upper half, short edges on the left: on the rows from `y2` on the edge `2-3`
is not to the right of the edge `1-3`. -/
theorem row_top_short_left (x1 x2 x3 d12 d23 d13 : Int) (j kk : Nat)
    (h23 : 0 ≤ d23) (h13 : 0 < d13) (hd : d13 = d12 + d23)
    (hj : (j : Int) ≤ d23) (hkk : (kk : Int) = d12 + j)
    (hC : (x2 - x1) * d13 < (x3 - x1) * d12) :
    roundedPosition x2 (x3 - x2) d23 j ≤ roundedPosition x1 (x3 - x1) d13 kk := by
  have hj0 : (0 : Int) ≤ j := Int.natCast_nonneg j
  rcases hj.lt_or_eq with hlt | heq
  · have h23' : 0 < d23 := by omega
    apply roundedPosition_order_strict _ _ _ _ _ _ _ _ h23' h13
    rw [hkk]
    have key : (x2 - x1) * (d23 * d13) + (x3 - x2) * j * d13 - (x3 - x1) * (d12 + j) * d23
        = ((x2 - x1) * d13 - (x3 - x1) * d12) * (d23 - j) := by
      rw [hd]; ring
    have hneg : ((x2 - x1) * d13 - (x3 - x1) * d12) * (d23 - j) < 0 :=
      mul_neg_of_neg_of_pos (by linarith) (by linarith)
    linarith
  · have hkk' : (kk : Int) = d13 := by omega
    rcases h23.lt_or_eq with h | h
    · have e1 : roundedPosition x2 (x3 - x2) d23 j = x3 := by
        rw [← heq, roundedPosition_end _ _ _ (by omega)]; ring
      have e2 : roundedPosition x1 (x3 - x1) d13 kk = x3 := by
        rw [← hkk', roundedPosition_end _ _ _ (by omega)]; ring
      rw [e1, e2]
    · have hj' : j = 0 := by omega
      subst hj'
      have e2 : roundedPosition x1 (x3 - x1) d13 kk = x3 := by
        rw [← hkk', roundedPosition_end _ _ _ (by omega)]; ring
      rw [roundedPosition_zero _ _ _ h23, e2]
      have hd' : d12 = d13 := by omega
      rw [hd'] at hC
      have := lt_of_mul_lt_mul_right hC h13.le
      linarith

/-- Upper half, short edges on the right. -/
theorem row_top_short_right (x1 x2 x3 d12 d23 d13 : Int) (j kk : Nat)
    (h23 : 0 ≤ d23) (h13 : 0 < d13) (hd : d13 = d12 + d23)
    (hj : (j : Int) ≤ d23) (hkk : (kk : Int) = d12 + j)
    (hC : ¬ (x2 - x1) * d13 < (x3 - x1) * d12) :
    roundedPosition x1 (x3 - x1) d13 kk ≤ roundedPosition x2 (x3 - x2) d23 j := by
  have hj0 : (0 : Int) ≤ j := Int.natCast_nonneg j
  have hC' : (x3 - x1) * d12 ≤ (x2 - x1) * d13 := not_lt.mp hC
  rcases hj.lt_or_eq with hlt | heq
  · have h23' : 0 < d23 := by omega
    have key : (x1 - x2) * (d13 * d23) + (x3 - x1) * kk * d23 - (x3 - x2) * j * d13
        = - (((x2 - x1) * d13 - (x3 - x1) * d12) * (d23 - j)) := by
      rw [hkk, hd]; ring
    rcases hC'.lt_or_eq with hCs | hCe
    · apply roundedPosition_order_strict _ _ _ _ _ _ _ _ h13 h23'
      have hpos : 0 < ((x2 - x1) * d13 - (x3 - x1) * d12) * (d23 - j) :=
        mul_pos (by linarith) (by linarith)
      linarith
    · apply roundedPosition_order_weak _ _ _ _ _ _ _ _ h13 h23'
      · have hz : ((x2 - x1) * d13 - (x3 - x1) * d12) * (d23 - j) = 0 := by
          rw [← hCe]; ring
        linarith
      · by_contra hs
        push_neg at hs
        obtain ⟨hs1, hs2⟩ := hs
        have e0 : (x3 - x2) * d13 = (x3 - x1) * d23 := by
          have : (x3 - x2) * d13 - (x3 - x1) * d23
              = - ((x2 - x1) * d13 - (x3 - x1) * d12) := by rw [hd]; ring
          linarith
        have e1 : (x3 - x2) * d13 < 0 := mul_neg_of_neg_of_pos hs2 h13
        have e2 : 0 ≤ (x3 - x1) * d23 := mul_nonneg hs1.le h23
        linarith
  · have hkk' : (kk : Int) = d13 := by omega
    rcases h23.lt_or_eq with h | h
    · have e1 : roundedPosition x2 (x3 - x2) d23 j = x3 := by
        rw [← heq, roundedPosition_end _ _ _ (by omega)]; ring
      have e2 : roundedPosition x1 (x3 - x1) d13 kk = x3 := by
        rw [← hkk', roundedPosition_end _ _ _ (by omega)]; ring
      rw [e1, e2]
    · have hj' : j = 0 := by omega
      subst hj'
      have e2 : roundedPosition x1 (x3 - x1) d13 kk = x3 := by
        rw [← hkk', roundedPosition_end _ _ _ (by omega)]; ring
      rw [roundedPosition_zero _ _ _ h23, e2]
      have hd' : d12 = d13 := by omega
      rw [hd'] at hC'
      have := le_of_mul_le_mul_right hC' h13
      linarith

end LinearInterpolationIterator

end Geometry

/-! ## The two edge-walking loops of `_DrawFilledTriangle` -/

namespace Geometry

namespace LinearInterpolationIterator

theorem operator_deref_length (D : Nat) (it : Self) :
    (operator_deref D it).length = it.mp_impl.m_pt_from.length := by
  unfold operator_deref
  simp only
  rw [_RecursiveImpl.FillPoint_length, List.length_map]

end LinearInterpolationIterator

end Geometry

namespace Graphics

open Geometry Geometry.LinearInterpolationIterator

/-- The current point of an edge `pa → pb` walked along `y`, `k ≤ yb - ya` steps
after `GoToBegin`: its `x` is the rounded interpolation, its `y` is `ya + k`. -/
theorem edge_point (T : List Bool) (pa pb : PointType) (hpa : IsTPoint T pa)
    (hpb : IsTPoint T pb) (u : Indeterminate)
    (hn : 0 ≤ (std_get 1 pb).asInt - (std_get 1 pa).asInt) (k : Nat)
    (hk : (k : Int) ≤ (std_get 1 pb).asInt - (std_get 1 pa).asInt) :
    (std_get 0 (operator_deref 1 (operator_increment^[k]
        (GoToBegin 1 (LinearInterpolationIterator.ctor 1 pa pb u))))).asInt
      = roundedPosition (std_get 0 pa).asInt ((std_get 0 pb).asInt - (std_get 0 pa).asInt)
          ((std_get 1 pb).asInt - (std_get 1 pa).asInt) k ∧
    (std_get 1 (operator_deref 1 (operator_increment^[k]
        (GoToBegin 1 (LinearInterpolationIterator.ctor 1 pa pb u))))).asInt
      = (std_get 1 pa).asInt + k ∧
    (operator_deref 1 (operator_increment^[k]
        (GoToBegin 1 (LinearInterpolationIterator.ctor 1 pa pb u)))).length = pa.length := by
  have hlen := hpa.length_ge
  obtain ⟨g1, -, -, -⟩ := begin_increment_fields 1 pa pb u k
  refine ⟨?_, ?_, ?_⟩
  · rw [std_get_operator_deref 1 _ 0 (by rw [g1]; omega)]
    exact Get_begin_increment_roundedPosition 1 pa pb u (hpa.instantiable hpb 1 (by omega)) 0
      (by omega) (by omega) (hpa.isIntegral 0 (by omega)) hn k hk
  · rw [std_get_operator_deref 1 _ 1 (by rw [g1]; omega), Get_begin_increment_along]
    rfl
  · rw [operator_deref_length, g1]

/-- The first loop, entered after `k` rows with `m` rows still to go, provided
every span on its way returns. -/
theorem Canvas._DrawFilledTriangle.bottom_spec (u : Indeterminate) (fuel : Nat)
    (g : ColorGetter) (flag : Bool) (p1 p2 p3 : PointType) (n12 : Nat)
    (hn12 : (std_get 1 p2).asInt - (std_get 1 p1).asInt = n12)
    (hspan : ∀ (k : Nat) (t : TracedCanvas), k < n12 →
      Canvas._DrawFilledTriangle.span u fuel g flag
          (operator_increment^[k] (GoToBegin 1 (LinearInterpolationIterator.ctor 1 p1 p2 u)))
          (operator_increment^[k] (GoToBegin 1 (LinearInterpolationIterator.ctor 1 p1 p3 u))) t
        = .ok (Canvas._DrawFilledTriangle.spanUnrolled u g flag
          (operator_increment^[k] (GoToBegin 1 (LinearInterpolationIterator.ctor 1 p1 p2 u)))
          (operator_increment^[k] (GoToBegin 1 (LinearInterpolationIterator.ctor 1 p1 p3 u)))
          t)) :
    ∀ (m k steps : Nat) (t : TracedCanvas), k + m = n12 → m < steps →
      Canvas._DrawFilledTriangle.bottom u fuel g flag steps
          (operator_increment^[k] (GoToBegin 1 (LinearInterpolationIterator.ctor 1 p1 p2 u)))
          (operator_increment^[k] (GoToBegin 1 (LinearInterpolationIterator.ctor 1 p1 p3 u))) t
        = .ok (operator_increment^[n12]
              (GoToBegin 1 (LinearInterpolationIterator.ctor 1 p1 p3 u)),
            (List.range m).foldl
              (fun (t : TracedCanvas) (j : Nat) =>
                Canvas._DrawFilledTriangle.spanUnrolled u g flag
                  (operator_increment^[k + j]
                    (GoToBegin 1 (LinearInterpolationIterator.ctor 1 p1 p2 u)))
                  (operator_increment^[k + j]
                    (GoToBegin 1 (LinearInterpolationIterator.ctor 1 p1 p3 u))) t)
              t) := by
  intro m
  induction m with
  | zero =>
    intro k steps t hk hsteps
    obtain ⟨steps, rfl⟩ : ∃ f, steps = f + 1 := ⟨steps - 1, by omega⟩
    have hend : IsAtEnd 1 (operator_increment^[k]
        (GoToBegin 1 (LinearInterpolationIterator.ctor 1 p1 p2 u))) = true :=
      (IsAtEnd_begin_increment 1 p1 p2 u k).2 (by omega)
    have hkn : k = n12 := by omega
    rw [Canvas._DrawFilledTriangle.bottom, if_pos hend, hkn]
    rfl
  | succ m ih =>
    intro k steps t hk hsteps
    obtain ⟨steps, rfl⟩ : ∃ f, steps = f + 1 := ⟨steps - 1, by omega⟩
    have hend : ¬ IsAtEnd 1 (operator_increment^[k]
        (GoToBegin 1 (LinearInterpolationIterator.ctor 1 p1 p2 u))) = true :=
      fun h => by
        have := (IsAtEnd_begin_increment 1 p1 p2 u k).1 h
        omega
    rw [Canvas._DrawFilledTriangle.bottom, if_neg hend, hspan k t (by omega)]
    simp only
    rw [← Function.iterate_succ_apply' operator_increment k,
      ← Function.iterate_succ_apply' operator_increment k,
      ih (k + 1) steps _ (by omega) (by omega)]
    rw [List.range_succ_eq_map m, List.foldl_cons, List.foldl_map]
    simp only [Nat.add_zero]
    congr 2
    apply List.foldl_ext
    intro t j _
    have e : k + 1 + j = k + (j + 1) := by omega
    rw [e]

/-- The second loop, entered after `k` rows with `m` rows still to go after the
current one, provided every span on its way returns; the long-edge iterator is
`c` steps ahead. -/
theorem Canvas._DrawFilledTriangle.top_spec (u : Indeterminate) (fuel : Nat)
    (g : ColorGetter) (flag : Bool) (p1 p2 p3 : PointType) (n23 c : Nat)
    (hn23 : (std_get 1 p3).asInt - (std_get 1 p2).asInt = n23)
    (hspan : ∀ (j : Nat) (t : TracedCanvas), j ≤ n23 →
      Canvas._DrawFilledTriangle.span u fuel g flag
          (operator_increment^[j] (GoToBegin 1 (LinearInterpolationIterator.ctor 1 p2 p3 u)))
          (operator_increment^[c + j]
            (GoToBegin 1 (LinearInterpolationIterator.ctor 1 p1 p3 u))) t
        = .ok (Canvas._DrawFilledTriangle.spanUnrolled u g flag
          (operator_increment^[j] (GoToBegin 1 (LinearInterpolationIterator.ctor 1 p2 p3 u)))
          (operator_increment^[c + j]
            (GoToBegin 1 (LinearInterpolationIterator.ctor 1 p1 p3 u))) t)) :
    ∀ (m k steps : Nat) (t : TracedCanvas), k + m = n23 → m < steps →
      Canvas._DrawFilledTriangle.top u fuel g flag steps
          (operator_increment^[k] (GoToBegin 1 (LinearInterpolationIterator.ctor 1 p2 p3 u)))
          (operator_increment^[c + k]
            (GoToBegin 1 (LinearInterpolationIterator.ctor 1 p1 p3 u))) t
        = .ok ((List.range (m + 1)).foldl
              (fun (t : TracedCanvas) (j : Nat) =>
                Canvas._DrawFilledTriangle.spanUnrolled u g flag
                  (operator_increment^[k + j]
                    (GoToBegin 1 (LinearInterpolationIterator.ctor 1 p2 p3 u)))
                  (operator_increment^[c + (k + j)]
                    (GoToBegin 1 (LinearInterpolationIterator.ctor 1 p1 p3 u))) t)
              t) := by
  intro m
  induction m with
  | zero =>
    intro k steps t hk hsteps
    obtain ⟨steps, rfl⟩ : ∃ f, steps = f + 1 := ⟨steps - 1, by omega⟩
    have hend : IsAtEnd 1 (operator_increment^[k]
        (GoToBegin 1 (LinearInterpolationIterator.ctor 1 p2 p3 u))) = true :=
      (IsAtEnd_begin_increment 1 p2 p3 u k).2 (by omega)
    rw [Canvas._DrawFilledTriangle.top, hspan k t (by omega)]
    simp only
    rw [if_pos hend]
    simp [List.range_succ]
  | succ m ih =>
    intro k steps t hk hsteps
    obtain ⟨steps, rfl⟩ : ∃ f, steps = f + 1 := ⟨steps - 1, by omega⟩
    have hend : ¬ IsAtEnd 1 (operator_increment^[k]
        (GoToBegin 1 (LinearInterpolationIterator.ctor 1 p2 p3 u))) = true :=
      fun h => by
        have := (IsAtEnd_begin_increment 1 p2 p3 u k).1 h
        omega
    rw [Canvas._DrawFilledTriangle.top, hspan k t (by omega)]
    simp only
    rw [if_neg hend, ← Function.iterate_succ_apply' operator_increment k,
      ← Function.iterate_succ_apply' operator_increment (c + k)]
    have ih' := ih (k + 1) steps (Canvas._DrawFilledTriangle.spanUnrolled u g flag
      (operator_increment^[k] (GoToBegin 1 (LinearInterpolationIterator.ctor 1 p2 p3 u)))
      (operator_increment^[c + k] (GoToBegin 1 (LinearInterpolationIterator.ctor 1 p1 p3 u)))
      t) (by omega) (by omega)
    have ec : (c + k).succ = c + (k + 1) := by omega
    rw [ec, ih']
    rw [List.range_succ_eq_map (m + 1), List.foldl_cons, List.foldl_map]
    simp only [Nat.add_zero]
    congr 1
    apply List.foldl_ext
    intro t j _
    have e : k + 1 + j = k + (j + 1) := by omega
    rw [e]

end Graphics

/-! ## The general case of `_DrawFilledTriangle` -/

namespace Geometry

namespace LinearInterpolationIterator

/-- Between the endpoints, also for a zero along delta. -/
theorem roundedPosition_between_cases (a d n : Int) (k : Nat) (hn : 0 ≤ n)
    (hk : (k : Int) ≤ n) :
    (a ≤ roundedPosition a d n k ∧ roundedPosition a d n k ≤ a + d) ∨
    (a + d ≤ roundedPosition a d n k ∧ roundedPosition a d n k ≤ a) := by
  rcases hn.lt_or_eq with h | h
  · obtain ⟨h1, h2⟩ := roundedPosition_between a d n k h hk
    rcases le_total 0 d with hd | hd
    · left
      rw [min_eq_left (by omega)] at h1
      rw [max_eq_right (by omega)] at h2
      exact ⟨h1, h2⟩
    · right
      rw [min_eq_right (by omega)] at h1
      rw [max_eq_left (by omega)] at h2
      exact ⟨h1, h2⟩
  · have hk0 : k = 0 := by omega
    subst hk0
    rw [roundedPosition_zero _ _ _ hn]
    rcases le_total 0 d with hd | hd
    · left; constructor <;> omega
    · right; constructor <;> omega

end LinearInterpolationIterator

end Geometry

namespace Graphics

open Geometry Geometry.LinearInterpolationIterator

/-- One span of the triangle returns and equals its unrolled form when the point
on the left edge is not to the right of the point on the right edge. -/
theorem Canvas._DrawFilledTriangle.span_ok (u : Indeterminate) (fuel : Nat) (g : ColorGetter)
    (flag : Bool) (it_short it_long : Self) (t : TracedCanvas)
    (hS : 2 ≤ (operator_deref 1 it_short).length) (hL : 2 ≤ (operator_deref 1 it_long).length)
    (hx : if flag = true then
        (std_get 0 (operator_deref 1 it_short)).asInt ≤ (std_get 0 (operator_deref 1 it_long)).asInt
      else
        (std_get 0 (operator_deref 1 it_long)).asInt
          ≤ (std_get 0 (operator_deref 1 it_short)).asInt)
    (hy : (std_get 1 (operator_deref 1 it_short)).asInt
      = (std_get 1 (operator_deref 1 it_long)).asInt)
    (hfuel : |(std_get 0 (operator_deref 1 it_long)).asInt
      - (std_get 0 (operator_deref 1 it_short)).asInt| < (fuel : Int)) :
    Canvas._DrawFilledTriangle.span u fuel g flag it_short it_long t
      = .ok (Canvas._DrawFilledTriangle.spanUnrolled u g flag it_short it_long t) := by
  unfold Canvas._DrawFilledTriangle.span Canvas._DrawFilledTriangle.spanUnrolled
  have ha := le_abs_self ((std_get 0 (operator_deref 1 it_long)).asInt
      - (std_get 0 (operator_deref 1 it_short)).asInt)
  have hb := neg_abs_le ((std_get 0 (operator_deref 1 it_long)).asInt
      - (std_get 0 (operator_deref 1 it_short)).asInt)
  cases flag with
  | true =>
    simp only [if_true] at hx ⊢
    exact Canvas._DrawHLine_eq_unrolled u fuel t _ _ g hS hL hx hy (by omega)
  | false =>
    simp only [Bool.false_eq_true, if_false] at hx ⊢
    exact Canvas._DrawHLine_eq_unrolled u fuel t _ _ g hL hS hx hy.symm (by omega)

/-- The two loops of the general case for vertices sorted by `y` with `y1 < y3`:
every span passes the `assert`s of `_DrawHLine`, both loops terminate, and the
result is the unrolled form. -/
theorem Canvas._DrawFilledTriangle.loops_spec (T : List Bool) (p1 p2 p3 : PointType)
    (h1 : IsTPoint T p1) (h2 : IsTPoint T p2) (h3 : IsTPoint T p3)
    (hy12 : (std_get 1 p1).asInt ≤ (std_get 1 p2).asInt)
    (hy23 : (std_get 1 p2).asInt ≤ (std_get 1 p3).asInt)
    (hy13 : (std_get 1 p1).asInt < (std_get 1 p3).asInt)
    (u : Indeterminate) (fuel : Nat) (g : ColorGetter) (t : TracedCanvas)
    (hfuel : Canvas.extent p1 p2 p3 < (fuel : Int)) (flag : Bool)
    (hflag : flag = decide (((std_get 0 p2).asInt - (std_get 0 p1).asInt)
              * ((std_get 1 p3).asInt - (std_get 1 p1).asInt)
            < ((std_get 0 p3).asInt - (std_get 0 p1).asInt)
              * ((std_get 1 p2).asInt - (std_get 1 p1).asInt))) :
    ∃ tb : TracedCanvas,
      Canvas._DrawFilledTriangle.bottom u fuel g flag
          fuel (GoToBegin 1 (LinearInterpolationIterator.ctor 1 p1 p2 u))
          (GoToBegin 1 (LinearInterpolationIterator.ctor 1 p1 p3 u)) t
        = .ok (operator_increment^[Int.toNat ((std_get 1 p2).asInt - (std_get 1 p1).asInt)]
            (GoToBegin 1 (LinearInterpolationIterator.ctor 1 p1 p3 u)), tb) ∧
      Canvas._DrawFilledTriangle.top u fuel g flag
          fuel (GoToBegin 1 (LinearInterpolationIterator.ctor 1 p2 p3 u))
          (operator_increment^[Int.toNat ((std_get 1 p2).asInt - (std_get 1 p1).asInt)]
            (GoToBegin 1 (LinearInterpolationIterator.ctor 1 p1 p3 u))) tb
        = .ok (Canvas._DrawFilledTriangle.unrolled u t p1 p2 p3 g) := by
  -- abbreviations
  obtain ⟨n12, hn12⟩ : ∃ n : Nat, (std_get 1 p2).asInt - (std_get 1 p1).asInt = n :=
    ⟨_, (Int.toNat_of_nonneg (by omega)).symm⟩
  obtain ⟨n23, hn23⟩ : ∃ n : Nat, (std_get 1 p3).asInt - (std_get 1 p2).asInt = n :=
    ⟨_, (Int.toNat_of_nonneg (by omega)).symm⟩
  have hn13 : (std_get 1 p3).asInt - (std_get 1 p1).asInt = (n12 : Int) + n23 := by omega
  have hl1 := h1.length_ge
  have hl2 := h2.length_ge
  have hl3 := h3.length_ge
  -- the extent bounds every pairwise difference in x
  have hext : |(std_get 0 p1).asInt - (std_get 0 p2).asInt|
      + |(std_get 0 p1).asInt - (std_get 0 p3).asInt|
      + |(std_get 0 p2).asInt - (std_get 0 p3).asInt| < (fuel : Int) ∧
      (n12 : Int) + n23 < fuel := by
    unfold Canvas.extent at hfuel
    have a1 := abs_nonneg ((std_get 0 p1).asInt - (std_get 0 p2).asInt)
    have a2 := abs_nonneg ((std_get 0 p1).asInt - (std_get 0 p3).asInt)
    have a3 := abs_nonneg ((std_get 0 p2).asInt - (std_get 0 p3).asInt)
    have a4 := abs_nonneg ((std_get 1 p1).asInt - (std_get 1 p2).asInt)
    have a5 := neg_abs_le ((std_get 1 p1).asInt - (std_get 1 p3).asInt)
    have a6 := abs_nonneg ((std_get 1 p2).asInt - (std_get 1 p3).asInt)
    constructor <;> omega
  obtain ⟨hextx, hexty⟩ := hext
  have b1 := le_abs_self ((std_get 0 p1).asInt - (std_get 0 p2).asInt)
  have b2 := neg_abs_le ((std_get 0 p1).asInt - (std_get 0 p2).asInt)
  have b3 := le_abs_self ((std_get 0 p1).asInt - (std_get 0 p3).asInt)
  have b4 := neg_abs_le ((std_get 0 p1).asInt - (std_get 0 p3).asInt)
  have b5 := le_abs_self ((std_get 0 p2).asInt - (std_get 0 p3).asInt)
  have b6 := neg_abs_le ((std_get 0 p2).asInt - (std_get 0 p3).asInt)
  -- spans of the first loop
  have hbottom : ∀ (k : Nat) (t : TracedCanvas), k < n12 →
      Canvas._DrawFilledTriangle.span u fuel g flag
          (operator_increment^[k] (GoToBegin 1 (LinearInterpolationIterator.ctor 1 p1 p2 u)))
          (operator_increment^[k] (GoToBegin 1 (LinearInterpolationIterator.ctor 1 p1 p3 u))) t
        = .ok (Canvas._DrawFilledTriangle.spanUnrolled u g flag
          (operator_increment^[k] (GoToBegin 1 (LinearInterpolationIterator.ctor 1 p1 p2 u)))
          (operator_increment^[k] (GoToBegin 1 (LinearInterpolationIterator.ctor 1 p1 p3 u)))
          t) := by
    intro k t hk
    obtain ⟨sx, sy, sl⟩ := edge_point T p1 p2 h1 h2 u (by omega) k (by omega)
    obtain ⟨lx, ly, ll⟩ := edge_point T p1 p3 h1 h3 u (by omega) k (by omega)
    have sb := roundedPosition_between_cases (std_get 0 p1).asInt
      ((std_get 0 p2).asInt - (std_get 0 p1).asInt)
      ((std_get 1 p2).asInt - (std_get 1 p1).asInt) k (by omega) (by omega)
    have lb := roundedPosition_between_cases (std_get 0 p1).asInt
      ((std_get 0 p3).asInt - (std_get 0 p1).asInt)
      ((std_get 1 p3).asInt - (std_get 1 p1).asInt) k (by omega) (by omega)
    apply Canvas._DrawFilledTriangle.span_ok
    · rw [sl]; omega
    · rw [ll]; omega
    · rw [sx, lx]
      by_cases hC : ((std_get 0 p2).asInt - (std_get 0 p1).asInt)
              * ((std_get 1 p3).asInt - (std_get 1 p1).asInt)
            < ((std_get 0 p3).asInt - (std_get 0 p1).asInt)
              * ((std_get 1 p2).asInt - (std_get 1 p1).asInt)
      · simp only [hflag, hC, decide_True, if_true]
        exact row_bottom_short_left _ _ _ _ _ k (by omega) (by omega) hC
      · simp only [hflag, hC, decide_False, Bool.false_eq_true, if_false]
        exact row_bottom_short_right _ _ _ _ _ k (by omega) (by omega) hC
    · rw [sy, ly]
    · rw [sx, lx, abs_lt]
      constructor <;> rcases sb with sb | sb <;> rcases lb with lb | lb <;> omega
  -- spans of the second loop
  have htop : ∀ (j : Nat) (t : TracedCanvas), j ≤ n23 →
      Canvas._DrawFilledTriangle.span u fuel g flag
          (operator_increment^[j] (GoToBegin 1 (LinearInterpolationIterator.ctor 1 p2 p3 u)))
          (operator_increment^[n12 + j]
            (GoToBegin 1 (LinearInterpolationIterator.ctor 1 p1 p3 u))) t
        = .ok (Canvas._DrawFilledTriangle.spanUnrolled u g flag
          (operator_increment^[j] (GoToBegin 1 (LinearInterpolationIterator.ctor 1 p2 p3 u)))
          (operator_increment^[n12 + j]
            (GoToBegin 1 (LinearInterpolationIterator.ctor 1 p1 p3 u))) t) := by
    intro j t hj
    obtain ⟨sx, sy, sl⟩ := edge_point T p2 p3 h2 h3 u (by omega) j (by omega)
    obtain ⟨lx, ly, ll⟩ := edge_point T p1 p3 h1 h3 u (by omega) (n12 + j)
      (by push_cast; omega)
    have sb := roundedPosition_between_cases (std_get 0 p2).asInt
      ((std_get 0 p3).asInt - (std_get 0 p2).asInt)
      ((std_get 1 p3).asInt - (std_get 1 p2).asInt) j (by omega) (by omega)
    have lb := roundedPosition_between_cases (std_get 0 p1).asInt
      ((std_get 0 p3).asInt - (std_get 0 p1).asInt)
      ((std_get 1 p3).asInt - (std_get 1 p1).asInt) (n12 + j) (by omega)
      (by push_cast; omega)
    apply Canvas._DrawFilledTriangle.span_ok
    · rw [sl]; omega
    · rw [ll]; omega
    · rw [sx, lx]
      by_cases hC : ((std_get 0 p2).asInt - (std_get 0 p1).asInt)
              * ((std_get 1 p3).asInt - (std_get 1 p1).asInt)
            < ((std_get 0 p3).asInt - (std_get 0 p1).asInt)
              * ((std_get 1 p2).asInt - (std_get 1 p1).asInt)
      · simp only [hflag, hC, decide_True, if_true]
        exact row_top_short_left _ _ _ ((std_get 1 p2).asInt - (std_get 1 p1).asInt) _ _ j
          (n12 + j) (by omega) (by omega) (by omega) (by omega) (by push_cast; omega) hC
      · simp only [hflag, hC, decide_False, Bool.false_eq_true, if_false]
        exact row_top_short_right _ _ _ ((std_get 1 p2).asInt - (std_get 1 p1).asInt) _ _ j
          (n12 + j) (by omega) (by omega) (by omega) (by omega) (by push_cast; omega) hC
    · rw [sy, ly]; push_cast; omega
    · rw [sx, lx, abs_lt]
      constructor <;> rcases sb with sb | sb <;> rcases lb with lb | lb <;> omega
  have hB := Canvas._DrawFilledTriangle.bottom_spec u fuel g flag p1 p2 p3 n12 hn12 hbottom
    n12 0 fuel t (by omega) (by omega)
  have hT := fun tb => Canvas._DrawFilledTriangle.top_spec u fuel g flag p1 p2 p3 n23 n12 hn23
    htop n23 0 fuel tb (by omega) (by omega)
  have e12 : Int.toNat ((std_get 1 p2).asInt - (std_get 1 p1).asInt) = n12 := by omega
  have e23 : Int.toNat ((std_get 1 p3).asInt - (std_get 1 p2).asInt) = n23 := by omega
  simp only [Function.iterate_zero, id_eq, Nat.zero_add, Nat.add_zero] at hB hT
  rw [e12]
  refine ⟨_, hB, ?_⟩
  rw [hT]
  unfold Canvas._DrawFilledTriangle.unrolled
  simp only [e12, e23, hflag]

end Graphics

namespace Graphics

open Geometry Geometry.LinearInterpolationIterator

/-- Termination and closed form of `_DrawFilledTriangle`: for three vertices of
one point type and fuel above their extent no `assert` fails, every loop ends, and
the call returns the loop-free form. -/
theorem Canvas._DrawFilledTriangle_eq_closedForm (T : List Bool) (a b c : PointType)
    (ha : IsTPoint T a) (hb : IsTPoint T b) (hc : IsTPoint T c)
    (u : Indeterminate) (fuel : Nat) (g : ColorGetter) (t : TracedCanvas)
    (hfuel : Canvas.extent a b c < (fuel : Int)) :
    Canvas._DrawFilledTriangle u fuel t a b c g
      = .ok (Canvas._DrawFilledTriangle.closedForm u t a b c g) := by
  unfold Canvas._DrawFilledTriangle Canvas._DrawFilledTriangle.closedForm
  obtain ⟨hq1, hq2, hq3⟩ := Canvas._Sort3PointsInDirection_pred 1 a b c (IsTPoint T) ha hb hc
  obtain ⟨hs12, hs23⟩ := Canvas._Sort3PointsInDirection_sorted 1 a b c
  have hext := Canvas.extent_Sort3 1 a b c
  rcases hS : Canvas._Sort3PointsInDirection 1 (a, b, c) with ⟨q1, q2, q3⟩
  rw [hS] at hq1 hq2 hq3 hs12 hs23 hext
  dsimp only at hq1 hq2 hq3 hs12 hs23 hext ⊢
  rw [← hext] at hfuel
  by_cases hflat : (std_get 1 q1).asInt = (std_get 1 q3).asInt
  · rw [if_pos hflat, if_pos hflat]
    obtain ⟨hr1, hr2, hr3⟩ :=
      Canvas._Sort3PointsInDirection_pred 0 q1 q2 q3 (IsTPoint T) hq1 hq2 hq3
    obtain ⟨hy1, hy2, hy3⟩ := Canvas._Sort3PointsInDirection_pred 0 q1 q2 q3
      (fun p => (std_get 1 p).asInt = (std_get 1 q1).asInt) rfl (by omega) (by omega)
    obtain ⟨hx12, hx23⟩ := Canvas._Sort3PointsInDirection_sorted 0 q1 q2 q3
    have hext2 := Canvas.extent_Sort3 0 q1 q2 q3
    rcases hS0 : Canvas._Sort3PointsInDirection 0 (q1, q2, q3) with ⟨r1, r2, r3⟩
    rw [hS0] at hr1 hr2 hr3 hy1 hy2 hy3 hx12 hx23 hext2
    dsimp only at hr1 hr2 hr3 hy1 hy2 hy3 hx12 hx23 hext2 ⊢
    rw [← hext2] at hfuel
    have hl1 := hr1.length_ge
    have hl2 := hr2.length_ge
    have hl3 := hr3.length_ge
    have hbound : (std_get 0 r3).asInt - (std_get 0 r1).asInt < (fuel : Int) := by
      unfold Canvas.extent at hfuel
      have a1 := abs_nonneg ((std_get 0 r1).asInt - (std_get 0 r2).asInt)
      have a2 := neg_abs_le ((std_get 0 r1).asInt - (std_get 0 r3).asInt)
      have a3 := abs_nonneg ((std_get 0 r2).asInt - (std_get 0 r3).asInt)
      have a4 := abs_nonneg ((std_get 1 r1).asInt - (std_get 1 r2).asInt)
      have a5 := abs_nonneg ((std_get 1 r1).asInt - (std_get 1 r3).asInt)
      have a6 := abs_nonneg ((std_get 1 r2).asInt - (std_get 1 r3).asInt)
      omega
    by_cases hpoint : (std_get 0 r1).asInt = (std_get 0 r3).asInt
    · rw [if_pos hpoint, if_pos hpoint]
      obtain ⟨-, -, hd3⟩ :=
        Canvas._Sort3PointsInDirection_pred 2 r1 r2 r3 (IsTPoint T) hr1 hr2 hr3
      rcases hS2 : Canvas._Sort3PointsInDirection 2 (r1, r2, r3) with ⟨d1, d2, d3⟩
      rw [hS2] at hd3
      dsimp only at hd3 ⊢
      have hl := hd3.length_ge
      exact Canvas._DrawHLine_eq_unrolled u fuel t d3 d3 g (by omega) (by omega) le_rfl rfl
        (by omega)
    · rw [if_neg hpoint, if_neg hpoint]
      split_ifs with hz
      · exact Canvas._DrawHLine_eq_unrolled u fuel t r1 r3 g (by omega) (by omega) (by omega)
          (by omega) (by omega)
      · rw [Canvas._DrawHLine_eq_unrolled u fuel t r1 r2 g (by omega) (by omega) hx12
          (by omega) (by omega)]
        exact Canvas._DrawHLine_eq_unrolled u fuel _ r2 r3 g (by omega) (by omega) hx23
          (by omega) (by omega)
  · rw [if_neg hflat, if_neg hflat]
    obtain ⟨tb, hB, hT⟩ := Canvas._DrawFilledTriangle.loops_spec T q1 q2 q3 hq1 hq2 hq3 hs12
      hs23 (by omega) u fuel g t hfuel _ rfl
    rw [hB]
    exact hT

end Graphics

namespace Graphics

open Geometry Geometry.LinearInterpolationIterator

/-! ## What the spans of a triangle write -/

/-- A reflexive and transitive relation between traced canvases that holds across
every step of a fold holds across the fold. -/
theorem TracedCanvas.foldl_rel {α : Type} (P : TracedCanvas → TracedCanvas → Prop)
    (hrefl : ∀ t, P t t) (htrans : ∀ a b c, P a b → P b c → P a c)
    (F : TracedCanvas → α → TracedCanvas) (l : List α)
    (hF : ∀ (t : TracedCanvas) (a : α), a ∈ l → P t (F t a)) (t : TracedCanvas) :
    P t (l.foldl F t) := by
  induction l generalizing t with
  | nil => exact hrefl t
  | cons a l ih =>
    rw [List.foldl_cons]
    exact htrans _ _ _ (hF t a (List.mem_cons_self a l))
      (ih (fun t b hb => hF t b (List.mem_cons_of_mem a hb)) (F t a))

/-- One unrolled span of the edge loops in terms of its argument pair. -/
theorem Canvas._DrawFilledTriangle.spanUnrolled_eq (u : Indeterminate) (g : ColorGetter)
    (flag : Bool) (it_short it_long : Self) (t : TracedCanvas) :
    Canvas._DrawFilledTriangle.spanUnrolled u g flag it_short it_long t
      = Canvas._DrawHLine.unrolled u t
          (Canvas._DrawFilledTriangle.spanArgs flag it_short it_long).1
          (Canvas._DrawFilledTriangle.spanArgs flag it_short it_long).2 g := by
  cases flag <;> rfl

/-- The loop-free form of `_DrawFilledTriangle` is the fold of the unrolled
`_DrawHLine` over the spans of the triangle. -/
theorem Canvas._DrawFilledTriangle.closedForm_eq_foldl (u : Indeterminate) (t : TracedCanvas)
    (a b c : PointType) (g : ColorGetter) :
    Canvas._DrawFilledTriangle.closedForm u t a b c g
      = (Canvas._DrawFilledTriangle.spans u a b c).foldl
          (fun (t : TracedCanvas) (s : PointType × PointType) =>
            Canvas._DrawHLine.unrolled u t s.1 s.2 g) t := by
  unfold Canvas._DrawFilledTriangle.closedForm Canvas._DrawFilledTriangle.spans
  rcases Canvas._Sort3PointsInDirection 1 (a, b, c) with ⟨q1, q2, q3⟩
  dsimp only
  by_cases hflat : (std_get 1 q1).asInt = (std_get 1 q3).asInt
  · rw [if_pos hflat, if_pos hflat]
    rcases Canvas._Sort3PointsInDirection 0 (q1, q2, q3) with ⟨r1, r2, r3⟩
    dsimp only
    by_cases hpoint : (std_get 0 r1).asInt = (std_get 0 r3).asInt
    · rw [if_pos hpoint, if_pos hpoint]
      rcases Canvas._Sort3PointsInDirection 2 (r1, r2, r3) with ⟨d1, d2, d3⟩
      rfl
    · rw [if_neg hpoint, if_neg hpoint]
      split_ifs with hz
      · rfl
      · rfl
  · rw [if_neg hflat, if_neg hflat]
    unfold Canvas._DrawFilledTriangle.unrolled
    dsimp only
    rw [List.foldl_append, List.foldl_map, List.foldl_map]
    simp only [Canvas._DrawFilledTriangle.spanUnrolled_eq]

/-- One `_Set` call adds its pixel coordinate to the record. -/
theorem TracedCanvas._Set_positions (t : TracedCanvas) (x y z : Int) (c : Color) :
    (t._Set x y z c).calls.map SetCall.position = t.calls.map SetCall.position ++ [(x, y)] := by
  unfold TracedCanvas._Set
  simp only [List.map_append, List.map_cons, List.map_nil, SetCall.position]

/-- The pixel coordinates written by one span: `x1, ..., x2` on the row of the
first endpoint, whatever the color functor. -/
theorem Canvas._DrawHLine.unrolled_positions (u : Indeterminate) (t : TracedCanvas)
    (p1 p2 : PointType) (g : ColorGetter) :
    (Canvas._DrawHLine.unrolled u t p1 p2 g).calls.map SetCall.position
      = t.calls.map SetCall.position ++ Canvas._DrawHLine.positions (p1, p2) := by
  unfold Canvas._DrawHLine.unrolled Canvas._DrawHLine.positions spanPositions
  generalize Int.toNat ((std_get 0 p2).asInt - (std_get 0 p1).asInt) + 1 = n
  induction n with
  | zero => simp
  | succ n ih =>
    rw [List.range_succ, List.foldl_append, List.foldl_cons, List.foldl_nil,
      TracedCanvas._Set_positions, ih, List.map_append, List.append_assoc]
    rfl

/-- The pixel coordinates written by a sequence of spans. -/
theorem Canvas._DrawHLine.foldl_unrolled_positions (u : Indeterminate) (g : ColorGetter)
    (l : List (PointType × PointType)) (t : TracedCanvas) :
    (l.foldl (fun (t : TracedCanvas) (s : PointType × PointType) =>
        Canvas._DrawHLine.unrolled u t s.1 s.2 g) t).calls.map SetCall.position
      = t.calls.map SetCall.position ++ l.flatMap Canvas._DrawHLine.positions := by
  induction l generalizing t with
  | nil => simp
  | cons s l ih =>
    rw [List.foldl_cons, ih, Canvas._DrawHLine.unrolled_positions, List.flatMap_cons,
      List.append_assoc]

end Graphics

namespace Graphics

open Geometry Geometry.LinearInterpolationIterator

/-- The coordinates of a span are pairwise different. -/
theorem spanPositions_nodup (x1 x2 y : Int) : (spanPositions x1 x2 y).Nodup := by
  unfold spanPositions
  apply List.Nodup.map _ (List.nodup_range _)
  intro i j hij
  simp only [Prod.mk.injEq, and_true] at hij
  omega

/-- Every coordinate of a span lies on its row, between its ends. -/
theorem mem_spanPositions (x1 x2 y : Int) (p : Int × Int) (hp : p ∈ spanPositions x1 x2 y) :
    p.2 = y ∧ x1 ≤ p.1 ∧ (x1 ≤ x2 → p.1 ≤ x2) := by
  unfold spanPositions at hp
  rw [List.mem_map] at hp
  obtain ⟨j, hj, rfl⟩ := hp
  rw [List.mem_range] at hj
  refine ⟨rfl, ?_, ?_⟩
  · dsimp only; omega
  · intro h; dsimp only; omega

/-- A traced canvas only ever grows its record: relation used with
`TracedCanvas.foldl_rel`. -/
theorem Canvas._DrawHLine.unrolled_calls_extend (u : Indeterminate) (t : TracedCanvas)
    (p1 p2 : PointType) (g : ColorGetter) :
    ∃ extra : List SetCall, (Canvas._DrawHLine.unrolled u t p1 p2 g).calls = t.calls ++ extra := by
  unfold Canvas._DrawHLine.unrolled
  apply TracedCanvas.foldl_rel (fun t t' => ∃ extra : List SetCall, t'.calls = t.calls ++ extra)
  · intro t; exact ⟨[], by simp⟩
  · rintro a b c ⟨e1, h1⟩ ⟨e2, h2⟩
    exact ⟨e1 ++ e2, by rw [h2, h1, List.append_assoc]⟩
  · intro t j _
    exact ⟨_, rfl⟩

/-- The record after `closedForm` extends the record before it. -/
theorem Canvas._DrawFilledTriangle.closedForm_calls_extend (u : Indeterminate)
    (t : TracedCanvas) (a b c : PointType) (g : ColorGetter) :
    ∃ extra : List SetCall,
      (Canvas._DrawFilledTriangle.closedForm u t a b c g).calls = t.calls ++ extra := by
  rw [Canvas._DrawFilledTriangle.closedForm_eq_foldl]
  apply TracedCanvas.foldl_rel (fun t t' => ∃ extra : List SetCall, t'.calls = t.calls ++ extra)
  · intro t; exact ⟨[], by simp⟩
  · rintro a b c ⟨e1, h1⟩ ⟨e2, h2⟩
    exact ⟨e1 ++ e2, by rw [h2, h1, List.append_assoc]⟩
  · intro t s _
    exact Canvas._DrawHLine.unrolled_calls_extend u t s.1 s.2 g

/-- C11: span closure.  For span endpoints with equal `y` and `x1 ≤ x2` (and fuel
for the `x2 - x1 + 1` iterations) `_DrawHLine` returns, and the `_Set` calls it
adds to the record are exactly `x2 - x1 + 1` calls at `x = x1, x1 + 1, ..., x2` in
that order, each `x` once, all on the row `y` of the span. -/
theorem C11_DrawHLine_span_closure (u : Indeterminate) (fuel : Nat) (t : TracedCanvas)
    (i_pt1 i_pt2 : PointType) (i_color_getter : ColorGetter)
    (h1 : 2 ≤ i_pt1.length) (h2 : 2 ≤ i_pt2.length)
    (hx : (std_get 0 i_pt1).asInt ≤ (std_get 0 i_pt2).asInt)
    (hy : (std_get 1 i_pt1).asInt = (std_get 1 i_pt2).asInt)
    (hfuel : Int.toNat ((std_get 0 i_pt2).asInt - (std_get 0 i_pt1).asInt) < fuel) :
    ∃ (t' : TracedCanvas) (extra : List SetCall),
      Canvas._DrawHLine u fuel t i_pt1 i_pt2 i_color_getter = .ok t' ∧
      t'.calls = t.calls ++ extra ∧
      ((extra.length : Int) = (std_get 0 i_pt2).asInt - (std_get 0 i_pt1).asInt + 1) ∧
      extra.map SetCall.position
        = (List.range (Int.toNat ((std_get 0 i_pt2).asInt - (std_get 0 i_pt1).asInt) + 1)).map
            (fun j : Nat => ((std_get 0 i_pt1).asInt + (j : Int), (std_get 1 i_pt1).asInt)) ∧
      (extra.map SetCall.i_x).Nodup := by
  obtain ⟨extra, he⟩ := Canvas._DrawHLine.unrolled_calls_extend u t i_pt1 i_pt2 i_color_getter
  have hpos := Canvas._DrawHLine.unrolled_positions u t i_pt1 i_pt2 i_color_getter
  rw [he, List.map_append, List.append_cancel_left_eq] at hpos
  refine ⟨_, extra, Canvas._DrawHLine_eq_unrolled u fuel t i_pt1 i_pt2 i_color_getter h1 h2 hx
    hy hfuel, he, ?_, hpos, ?_⟩
  · have hlen := congrArg List.length hpos
    unfold Canvas._DrawHLine.positions spanPositions at hlen
    rw [List.length_map, List.length_map, List.length_range] at hlen
    rw [hlen]
    push_cast
    rw [Int.toNat_of_nonneg (by omega)]
  · have hx' : extra.map SetCall.i_x = (extra.map SetCall.position).map Prod.fst := by
      rw [List.map_map]; rfl
    rw [hx', hpos]
    unfold Canvas._DrawHLine.positions spanPositions
    rw [List.map_map]
    apply List.Nodup.map _ (List.nodup_range _)
    intro i j hij
    simp only [Function.comp_apply] at hij
    omega

theorem C11_DrawHLine_span_closure_witness :
    ∃ (t' : TracedCanvas) (extra : List SetCall),
      Canvas._DrawHLine ⟨0, 0, 0⟩ 6 ⟨sampleCanvas, []⟩ [.int 2, .int 1, .int 9]
          [.int 7, .int 1, .int 4] (fun _ _ => ⟨255, 0, 0⟩) = .ok t' ∧
      t'.calls = [] ++ extra ∧
      ((extra.length : Int) = (std_get 0 [.int 7, .int 1, .int 4]).asInt
        - (std_get 0 [.int 2, .int 1, .int 9]).asInt + 1) ∧
      extra.map SetCall.position
        = (List.range (Int.toNat ((std_get 0 [.int 7, .int 1, .int 4]).asInt
              - (std_get 0 [.int 2, .int 1, .int 9]).asInt) + 1)).map
            (fun j : Nat => ((std_get 0 [.int 2, .int 1, .int 9]).asInt + (j : Int),
              (std_get 1 [.int 2, .int 1, .int 9]).asInt)) ∧
      (extra.map SetCall.i_x).Nodup :=
  C11_DrawHLine_span_closure ⟨0, 0, 0⟩ 6 ⟨sampleCanvas, []⟩ [.int 2, .int 1, .int 9]
    [.int 7, .int 1, .int 4] (fun _ _ => ⟨255, 0, 0⟩) (by decide) (by decide) (by decide)
    (by decide) (by decide)

/-- C16: termination.  For every three vertices of one point type (integer `x`,
`y` and depth; general, collinear, flat or a single point) and every fuel above
the extent of the triangle, `_DrawFilledTriangle` returns: no `assert` of
`_DrawHLine` fails, both edge loops and every span loop end, and the record is
extended by a finite list of `_Set` calls.  In the flat branch the divisor
`x3 - x1` is positive. -/
theorem C16_DrawFilledTriangle_terminates (T : List Bool) (ip_pt1 ip_pt2 ip_pt3 : PointType)
    (h1 : IsTPoint T ip_pt1) (h2 : IsTPoint T ip_pt2) (h3 : IsTPoint T ip_pt3)
    (u : Indeterminate) (fuel : Nat) (i_color_getter : ColorGetter) (t : TracedCanvas)
    (hfuel : Canvas.extent ip_pt1 ip_pt2 ip_pt3 < (fuel : Int)) :
    (∃ (t' : TracedCanvas) (extra : List SetCall),
      Canvas._DrawFilledTriangle u fuel t ip_pt1 ip_pt2 ip_pt3 i_color_getter = .ok t' ∧
      t'.calls = t.calls ++ extra) ∧
    (∀ p1 p2 p3 : PointType,
      Canvas._Sort3PointsInDirection 0
          (Canvas._Sort3PointsInDirection 1 (ip_pt1, ip_pt2, ip_pt3)) = (p1, p2, p3) →
      ¬ (std_get 0 p1).asInt = (std_get 0 p3).asInt →
      0 < (std_get 0 p3).asInt - (std_get 0 p1).asInt) := by
  constructor
  · obtain ⟨extra, he⟩ := Canvas._DrawFilledTriangle.closedForm_calls_extend u t ip_pt1 ip_pt2
      ip_pt3 i_color_getter
    exact ⟨_, extra, Canvas._DrawFilledTriangle_eq_closedForm T ip_pt1 ip_pt2 ip_pt3 h1 h2 h3 u
      fuel i_color_getter t hfuel, he⟩
  · intro p1 p2 p3 hS hne
    rcases hS1 : Canvas._Sort3PointsInDirection 1 (ip_pt1, ip_pt2, ip_pt3) with ⟨q1, q2, q3⟩
    rw [hS1] at hS
    obtain ⟨h12, h23⟩ := Canvas._Sort3PointsInDirection_sorted 0 q1 q2 q3
    rw [hS] at h12 h23
    dsimp only at h12 h23
    omega

theorem C16_DrawFilledTriangle_terminates_witness :
    (∃ (t' : TracedCanvas) (extra : List SetCall),
      Canvas._DrawFilledTriangle ⟨0, 0, 0⟩ 9 ⟨sampleCanvas, []⟩ [.int 0, .int 0, .int 1]
          [.int 2, .int 1, .int 1] [.int 1, .int 2, .int 1] (fun _ _ => ⟨255, 0, 0⟩) = .ok t' ∧
      t'.calls = [] ++ extra) ∧
    (∀ p1 p2 p3 : PointType,
      Canvas._Sort3PointsInDirection 0
          (Canvas._Sort3PointsInDirection 1 ([.int 0, .int 0, .int 1],
            [.int 2, .int 1, .int 1], [.int 1, .int 2, .int 1])) = (p1, p2, p3) →
      ¬ (std_get 0 p1).asInt = (std_get 0 p3).asInt →
      0 < (std_get 0 p3).asInt - (std_get 0 p1).asInt) :=
  C16_DrawFilledTriangle_terminates [true, true, true] [.int 0, .int 0, .int 1]
    [.int 2, .int 1, .int 1] [.int 1, .int 2, .int 1] (by decide) (by decide) (by decide)
    ⟨0, 0, 0⟩ 9 (fun _ _ => ⟨255, 0, 0⟩) ⟨sampleCanvas, []⟩ (by decide)

end Graphics

namespace Graphics

open Geometry Geometry.LinearInterpolationIterator

/-- The span iterator of two points of one point type instantiates: `RemoveItem<1>`
keeps the tuple types equal and leaves the integral `x` in front. -/
theorem IsTPoint.instantiable_shrinked {T : List Bool} {p q : PointType} (hp : IsTPoint T p)
    (hq : IsTPoint T q) : Instantiable 0 (std.RemoveItem 1 p) (std.RemoveItem 1 q) := by
  have hlp := hp.length_ge
  have hlq := hq.length_ge
  refine ⟨?_, ?_, ?_⟩
  · unfold SameTupleType
    rw [std.RemoveItem_eq_eraseIdx 1 p (by omega), std.RemoveItem_eq_eraseIdx 1 q (by omega)]
    apply List.ext_getElem?
    intro j
    rw [List.getElem?_map, List.getElem?_map, List.getElem?_eraseIdx, List.getElem?_eraseIdx]
    have h := hp.sameTupleType hq
    unfold SameTupleType at h
    have hj := congrArg (fun l => l[j]?) h
    have hj1 := congrArg (fun l => l[j + 1]?) h
    simp only [List.getElem?_map] at hj hj1
    split_ifs
    · exact hj
    · exact hj1
  · rw [std.RemoveItem_eq_eraseIdx 1 p (by omega), List.length_eraseIdx]
    split_ifs <;> omega
  · rw [std.std_get_RemoveItem_one_zero p (by omega)]
    exact hp.isIntegral 0 (by omega)

/-- The depth `_DrawHLine` passes at step `j` of a span: the rounded linear
interpolation of the endpoint depths along `x`. -/
theorem Canvas._DrawHLine.depth_at (T : List Bool) (p1 p2 : PointType) (h1 : IsTPoint T p1)
    (h2 : IsTPoint T p2) (u : Indeterminate)
    (hx : (std_get 0 p1).asInt ≤ (std_get 0 p2).asInt) (j : Nat)
    (hj : (j : Int) ≤ (std_get 0 p2).asInt - (std_get 0 p1).asInt) :
    (Get 0 1 (operator_increment^[j] (GoToBegin 0
        (LinearInterpolationIterator.ctor 0 (std.RemoveItem 1 p1) (std.RemoveItem 1 p2) u)))).asInt
      = roundedPosition (std_get 2 p1).asInt ((std_get 2 p2).asInt - (std_get 2 p1).asInt)
          ((std_get 0 p2).asInt - (std_get 0 p1).asInt) j := by
  have hl1 := h1.length_ge
  have hl2 := h2.length_ge
  have e0p := std.std_get_RemoveItem_one_zero p1 (by omega)
  have e0q := std.std_get_RemoveItem_one_zero p2 (by omega)
  have e1p := std.std_get_RemoveItem_one_succ p1 (by omega) 0
  have e1q := std.std_get_RemoveItem_one_succ p2 (by omega) 0
  simp only [Nat.zero_add] at e1p e1q
  have h := Get_begin_increment_roundedPosition 0 (std.RemoveItem 1 p1) (std.RemoveItem 1 p2) u
    (h1.instantiable_shrinked h2) 1
    (by rw [std.RemoveItem_eq_eraseIdx 1 p1 (by omega), List.length_eraseIdx]
        split_ifs <;> omega)
    (by omega) (by rw [e1p]; exact h1.isIntegral 2 (by omega))
    (by rw [e0p, e0q]; omega) j (by rw [e0p, e0q]; exact hj)
  rw [e0p, e0q, e1p, e1q] at h
  exact h

/-- The record of a fold of `_Set` calls, seen through a projection that the
color argument does not influence. -/
theorem TracedCanvas.foldl_Set_map {β : Type} (π : SetCall → β) (r : Nat → β)
    (fx fy fz : Nat → Int) (fc : TracedCanvas → Nat → Color) (l : List Nat)
    (h : ∀ (t : TracedCanvas) (j : Nat), j ∈ l → π ⟨fx j, fy j, fz j, fc t j⟩ = r j)
    (t : TracedCanvas) :
    (l.foldl (fun (t : TracedCanvas) (j : Nat) => t._Set (fx j) (fy j) (fz j) (fc t j))
        t).calls.map π
      = t.calls.map π ++ l.map r := by
  induction l generalizing t with
  | nil => simp
  | cons a l ih =>
    rw [List.foldl_cons, ih (fun t j hj => h t j (List.mem_cons_of_mem a hj))]
    unfold TracedCanvas._Set
    simp only [List.map_append, List.map_cons, List.map_nil, List.append_assoc,
      List.singleton_append]
    rw [h t a (List.mem_cons_self a l)]

/-- The `_Set` calls of one span with their depths. -/
theorem Canvas._DrawHLine.unrolled_depths (T : List Bool) (p1 p2 : PointType)
    (h1 : IsTPoint T p1) (h2 : IsTPoint T p2) (u : Indeterminate) (t : TracedCanvas)
    (g : ColorGetter) (hx : (std_get 0 p1).asInt ≤ (std_get 0 p2).asInt) :
    (Canvas._DrawHLine.unrolled u t p1 p2 g).calls.map (fun s => (s.i_x, s.i_y, s.i_z))
      = t.calls.map (fun s => (s.i_x, s.i_y, s.i_z))
        ++ (List.range (Int.toNat ((std_get 0 p2).asInt - (std_get 0 p1).asInt) + 1)).map
          (fun j : Nat => ((std_get 0 p1).asInt + (j : Int), (std_get 1 p1).asInt,
            roundedPosition (std_get 2 p1).asInt ((std_get 2 p2).asInt - (std_get 2 p1).asInt)
              ((std_get 0 p2).asInt - (std_get 0 p1).asInt) j)) := by
  unfold Canvas._DrawHLine.unrolled
  apply TracedCanvas.foldl_Set_map
  intro t j hj
  rw [List.mem_range] at hj
  rw [Canvas._DrawHLine.depth_at T p1 p2 h1 h2 u hx j (by omega)]

/-- The `_Set` calls of one span drawn in one color. -/
theorem Canvas._DrawHLine.unrolled_calls_const (T : List Bool) (p1 p2 : PointType)
    (h1 : IsTPoint T p1) (h2 : IsTPoint T p2) (u : Indeterminate) (t : TracedCanvas)
    (c : Color) (hx : (std_get 0 p1).asInt ≤ (std_get 0 p2).asInt) :
    (Canvas._DrawHLine.unrolled u t p1 p2 (fun _ _ => c)).calls
      = t.calls
        ++ (List.range (Int.toNat ((std_get 0 p2).asInt - (std_get 0 p1).asInt) + 1)).map
          (fun j : Nat => (⟨(std_get 0 p1).asInt + (j : Int), (std_get 1 p1).asInt,
            roundedPosition (std_get 2 p1).asInt ((std_get 2 p2).asInt - (std_get 2 p1).asInt)
              ((std_get 0 p2).asInt - (std_get 0 p1).asInt) j, c⟩ : SetCall)) := by
  have h := TracedCanvas.foldl_Set_map id
    (fun j : Nat => (⟨(std_get 0 p1).asInt + (j : Int), (std_get 1 p1).asInt,
            roundedPosition (std_get 2 p1).asInt ((std_get 2 p2).asInt - (std_get 2 p1).asInt)
              ((std_get 0 p2).asInt - (std_get 0 p1).asInt) j, c⟩ : SetCall))
    (fun j : Nat => (std_get 0 p1).asInt + (j : Int)) (fun _ => (std_get 1 p1).asInt)
    (fun j : Nat => (Get 0 1 (operator_increment^[j] (GoToBegin 0
        (LinearInterpolationIterator.ctor 0 (std.RemoveItem 1 p1) (std.RemoveItem 1 p2)
          u)))).asInt)
    (fun _ _ => c)
    (List.range (Int.toNat ((std_get 0 p2).asInt - (std_get 0 p1).asInt) + 1))
    (by
      intro t j hj
      rw [List.mem_range] at hj
      simp only [id_eq]
      rw [Canvas._DrawHLine.depth_at T p1 p2 h1 h2 u hx j (by omega)]) t
  simp only [List.map_id] at h
  exact h

/-- The outputs of `_Sort3PointsInDirection` are the inputs in some order. -/
theorem Canvas._Sort3PointsInDirection_mem (N : Nat) (a b c w : PointType) :
    w ∈ [(Canvas._Sort3PointsInDirection N (a, b, c)).1,
        (Canvas._Sort3PointsInDirection N (a, b, c)).2.1,
        (Canvas._Sort3PointsInDirection N (a, b, c)).2.2] ↔ w ∈ [a, b, c] := by
  rcases Canvas._Sort3PointsInDirection_cases N a b c with h | h | h | h | h | h <;>
    rw [h.1] <;> simp only [List.mem_cons, List.mem_singleton, List.not_mem_nil, or_false] <;>
    tauto

end Graphics

namespace Graphics

open Geometry Geometry.LinearInterpolationIterator

/-- C13: the degenerate flat triangle of the specification.  Filling
`(0,5,10)`, `(3,5,2)`, `(6,5,10)` adds exactly seven `_Set` calls to the record,
at `x = 0, ..., 6` on row `5`, each with depth `10`: only the segment from `X = 0`
to `X = 6` is drawn and no call carries the depth `2` of the middle point. -/
theorem C13_flat_triangle_example (u : Indeterminate) (fuel : Nat) (t : TracedCanvas)
    (c : Color) (hfuel : 12 < fuel) :
    ∃ t' : TracedCanvas,
      Canvas.DrawFilledTriangle u fuel t [.int 0, .int 5, .int 10] [.int 3, .int 5, .int 2]
        [.int 6, .int 5, .int 10] c = .ok t' ∧
      t'.calls = t.calls ++ [⟨0, 5, 10, c⟩, ⟨1, 5, 10, c⟩, ⟨2, 5, 10, c⟩, ⟨3, 5, 10, c⟩,
        ⟨4, 5, 10, c⟩, ⟨5, 5, 10, c⟩, ⟨6, 5, 10, c⟩] := by
  have hext : Canvas.extent [.int 0, .int 5, .int 10] [.int 3, .int 5, .int 2]
      [.int 6, .int 5, .int 10] < (fuel : Int) := by
    have h12 : Canvas.extent [.int 0, .int 5, .int 10] [.int 3, .int 5, .int 2]
        [.int 6, .int 5, .int 10] = 12 := by decide
    rw [h12]
    exact_mod_cast hfuel
  have hrun := Canvas._DrawFilledTriangle_eq_closedForm [true, true, true]
    [.int 0, .int 5, .int 10] [.int 3, .int 5, .int 2] [.int 6, .int 5, .int 10] (by decide)
    (by decide) (by decide) u fuel (fun _ _ => c) t hext
  refine ⟨_, hrun, ?_⟩
  have hspans : Canvas._DrawFilledTriangle.closedForm u t [.int 0, .int 5, .int 10]
      [.int 3, .int 5, .int 2] [.int 6, .int 5, .int 10] (fun _ _ => c)
      = Canvas._DrawHLine.unrolled u t [.int 0, .int 5, .int 10] [.int 6, .int 5, .int 10]
          (fun _ _ => c) := by
    unfold Canvas._DrawFilledTriangle.closedForm
    have hS1 : Canvas._Sort3PointsInDirection 1 ([.int 0, .int 5, .int 10],
        [.int 3, .int 5, .int 2], [.int 6, .int 5, .int 10])
        = ([.int 0, .int 5, .int 10], [.int 3, .int 5, .int 2], [.int 6, .int 5, .int 10]) := by
      decide
    have hS0 : Canvas._Sort3PointsInDirection 0 ([.int 0, .int 5, .int 10],
        [.int 3, .int 5, .int 2], [.int 6, .int 5, .int 10])
        = ([.int 0, .int 5, .int 10], [.int 3, .int 5, .int 2], [.int 6, .int 5, .int 10]) := by
      decide
    rw [hS1]
    dsimp only
    rw [if_pos (by decide), hS0]
    dsimp only
    rw [if_neg (by decide), if_pos (by decide)]
  rw [hspans, Canvas._DrawHLine.unrolled_calls_const [true, true, true] _ _ (by decide)
    (by decide) u t c (by decide)]
  congr 1

end Graphics

namespace Graphics

open Geometry Geometry.LinearInterpolationIterator

theorem C13_flat_triangle_example_witness :
    ∃ t' : TracedCanvas,
      Canvas.DrawFilledTriangle ⟨0, 0, 0⟩ 13 ⟨sampleCanvas, []⟩ [.int 0, .int 5, .int 10]
        [.int 3, .int 5, .int 2] [.int 6, .int 5, .int 10] ⟨255, 0, 0⟩ = .ok t' ∧
      t'.calls = [] ++ [⟨0, 5, 10, ⟨255, 0, 0⟩⟩, ⟨1, 5, 10, ⟨255, 0, 0⟩⟩,
        ⟨2, 5, 10, ⟨255, 0, 0⟩⟩, ⟨3, 5, 10, ⟨255, 0, 0⟩⟩, ⟨4, 5, 10, ⟨255, 0, 0⟩⟩,
        ⟨5, 5, 10, ⟨255, 0, 0⟩⟩, ⟨6, 5, 10, ⟨255, 0, 0⟩⟩] :=
  C13_flat_triangle_example ⟨0, 0, 0⟩ 13 ⟨sampleCanvas, []⟩ ⟨255, 0, 0⟩ (by decide)

/-- C14: flat-triangle policy.  When the three `y` are equal and, for the points
re-sorted by `x` as `p1, p2, p3`, `x1 ≠ x3`: with
`z13 = z1 + ((z3 - z1) * (x2 - x1)) / (x3 - x1)` in truncating division, if
`z13 ≥ z2` the call is the one span `_DrawHLine(p1, p3)`, which returns and writes
`x1, ..., x3` on the row and nothing else; otherwise it is the span
`_DrawHLine(p1, p2)` followed by the span `_DrawHLine(p2, p3)`, which return and
write `x1, ..., x2` and then `x2, ..., x3`. -/
theorem C14_flat_triangle_policy (u : Indeterminate) (fuel : Nat) (t : TracedCanvas)
    (ip_pt1 ip_pt2 ip_pt3 p1 p2 p3 : PointType) (i_color_getter : ColorGetter)
    (hl1 : 2 ≤ ip_pt1.length) (hl2 : 2 ≤ ip_pt2.length) (hl3 : 2 ≤ ip_pt3.length)
    (hy12 : (std_get 1 ip_pt1).asInt = (std_get 1 ip_pt2).asInt)
    (hy23 : (std_get 1 ip_pt2).asInt = (std_get 1 ip_pt3).asInt)
    (hS : Canvas._Sort3PointsInDirection 0 (ip_pt1, ip_pt2, ip_pt3) = (p1, p2, p3))
    (hne : ¬ (std_get 0 p1).asInt = (std_get 0 p3).asInt)
    (hfuel : (std_get 0 p3).asInt - (std_get 0 p1).asInt < (fuel : Int)) :
    ((std_get 2 p1).asInt
        + Int.tdiv (((std_get 2 p3).asInt - (std_get 2 p1).asInt)
            * ((std_get 0 p2).asInt - (std_get 0 p1).asInt))
          ((std_get 0 p3).asInt - (std_get 0 p1).asInt) ≥ (std_get 2 p2).asInt →
      ∃ t' : TracedCanvas,
        Canvas._DrawHLine u fuel t p1 p3 i_color_getter = .ok t' ∧
        Canvas._DrawFilledTriangle u fuel t ip_pt1 ip_pt2 ip_pt3 i_color_getter = .ok t' ∧
        t'.calls.map SetCall.position = t.calls.map SetCall.position
          ++ spanPositions (std_get 0 p1).asInt (std_get 0 p3).asInt (std_get 1 ip_pt1).asInt) ∧
    ((std_get 2 p1).asInt
        + Int.tdiv (((std_get 2 p3).asInt - (std_get 2 p1).asInt)
            * ((std_get 0 p2).asInt - (std_get 0 p1).asInt))
          ((std_get 0 p3).asInt - (std_get 0 p1).asInt) < (std_get 2 p2).asInt →
      ∃ t1 t2 : TracedCanvas,
        Canvas._DrawHLine u fuel t p1 p2 i_color_getter = .ok t1 ∧
        Canvas._DrawHLine u fuel t1 p2 p3 i_color_getter = .ok t2 ∧
        Canvas._DrawFilledTriangle u fuel t ip_pt1 ip_pt2 ip_pt3 i_color_getter = .ok t2 ∧
        t2.calls.map SetCall.position = t.calls.map SetCall.position
          ++ spanPositions (std_get 0 p1).asInt (std_get 0 p2).asInt (std_get 1 ip_pt1).asInt
          ++ spanPositions (std_get 0 p2).asInt (std_get 0 p3).asInt (std_get 1 ip_pt1).asInt) := by
  obtain ⟨hr1, hr2, hr3⟩ := Canvas._Sort3PointsInDirection_pred 0 ip_pt1 ip_pt2 ip_pt3
    (fun p => 2 ≤ p.length) hl1 hl2 hl3
  obtain ⟨hy1, hy2, hy3⟩ := Canvas._Sort3PointsInDirection_pred 0 ip_pt1 ip_pt2 ip_pt3
    (fun p => (std_get 1 p).asInt = (std_get 1 ip_pt1).asInt) rfl (by omega) (by omega)
  obtain ⟨hx12, hx23⟩ := Canvas._Sort3PointsInDirection_sorted 0 ip_pt1 ip_pt2 ip_pt3
  rw [hS] at hr1 hr2 hr3 hy1 hy2 hy3 hx12 hx23
  dsimp only at hr1 hr2 hr3 hy1 hy2 hy3 hx12 hx23
  have hrun : Canvas._DrawFilledTriangle u fuel t ip_pt1 ip_pt2 ip_pt3 i_color_getter
      = if (std_get 2 p1).asInt
          + Int.tdiv (((std_get 2 p3).asInt - (std_get 2 p1).asInt)
              * ((std_get 0 p2).asInt - (std_get 0 p1).asInt))
            ((std_get 0 p3).asInt - (std_get 0 p1).asInt) ≥ (std_get 2 p2).asInt then
          Canvas._DrawHLine u fuel t p1 p3 i_color_getter
        else
          match Canvas._DrawHLine u fuel t p1 p2 i_color_getter with
          | .error e => .error e
          | .ok t => Canvas._DrawHLine u fuel t p2 p3 i_color_getter := by
    unfold Canvas._DrawFilledTriangle
    rw [Canvas._Sort3PointsInDirection_of_sorted 1 ip_pt1 ip_pt2 ip_pt3 (by omega) (by omega)]
    dsimp only
    rw [if_pos (by omega), hS]
    dsimp only
    rw [if_neg hne]
  have e13 := Canvas._DrawHLine_eq_unrolled u fuel t p1 p3 i_color_getter hr1 hr3 (by omega)
    (by omega) (by omega)
  have e12 := Canvas._DrawHLine_eq_unrolled u fuel t p1 p2 i_color_getter hr1 hr2 hx12
    (by omega) (by omega)
  have e23 := fun t1 => Canvas._DrawHLine_eq_unrolled u fuel t1 p2 p3 i_color_getter hr2 hr3
    hx23 (by omega) (by omega)
  constructor
  · intro hz
    refine ⟨_, e13, ?_, ?_⟩
    · rw [hrun, if_pos hz, e13]
    · rw [Canvas._DrawHLine.unrolled_positions]
      unfold Canvas._DrawHLine.positions
      rw [hy1]
  · intro hz
    refine ⟨_, _, e12, e23 _, ?_, ?_⟩
    · rw [hrun, if_neg (by omega), e12]
      exact e23 _
    · rw [Canvas._DrawHLine.unrolled_positions, Canvas._DrawHLine.unrolled_positions]
      unfold Canvas._DrawHLine.positions
      rw [hy1, hy2]

theorem C14_flat_triangle_policy_witness :
    ((std_get 2 [.int 0, .int 1, .int 9]).asInt
        + Int.tdiv (((std_get 2 [.int 3, .int 1, .int 0]).asInt
              - (std_get 2 [.int 0, .int 1, .int 9]).asInt)
            * ((std_get 0 [.int 2, .int 1, .int 7]).asInt
              - (std_get 0 [.int 0, .int 1, .int 9]).asInt))
          ((std_get 0 [.int 3, .int 1, .int 0]).asInt - (std_get 0 [.int 0, .int 1, .int 9]).asInt)
        ≥ (std_get 2 [.int 2, .int 1, .int 7]).asInt →
      ∃ t' : TracedCanvas,
        Canvas._DrawHLine ⟨0, 0, 0⟩ 4 ⟨sampleCanvas, []⟩ [.int 0, .int 1, .int 9]
          [.int 3, .int 1, .int 0] (fun _ _ => ⟨255, 0, 0⟩) = .ok t' ∧
        Canvas._DrawFilledTriangle ⟨0, 0, 0⟩ 4 ⟨sampleCanvas, []⟩ [.int 3, .int 1, .int 0]
          [.int 0, .int 1, .int 9] [.int 2, .int 1, .int 7] (fun _ _ => ⟨255, 0, 0⟩) = .ok t' ∧
        t'.calls.map SetCall.position = [].map SetCall.position
          ++ spanPositions (std_get 0 [.int 0, .int 1, .int 9]).asInt
            (std_get 0 [.int 3, .int 1, .int 0]).asInt
            (std_get 1 [.int 3, .int 1, .int 0]).asInt) ∧
    ((std_get 2 [.int 0, .int 1, .int 9]).asInt
        + Int.tdiv (((std_get 2 [.int 3, .int 1, .int 0]).asInt
              - (std_get 2 [.int 0, .int 1, .int 9]).asInt)
            * ((std_get 0 [.int 2, .int 1, .int 7]).asInt
              - (std_get 0 [.int 0, .int 1, .int 9]).asInt))
          ((std_get 0 [.int 3, .int 1, .int 0]).asInt - (std_get 0 [.int 0, .int 1, .int 9]).asInt)
        < (std_get 2 [.int 2, .int 1, .int 7]).asInt →
      ∃ t1 t2 : TracedCanvas,
        Canvas._DrawHLine ⟨0, 0, 0⟩ 4 ⟨sampleCanvas, []⟩ [.int 0, .int 1, .int 9]
          [.int 2, .int 1, .int 7] (fun _ _ => ⟨255, 0, 0⟩) = .ok t1 ∧
        Canvas._DrawHLine ⟨0, 0, 0⟩ 4 t1 [.int 2, .int 1, .int 7] [.int 3, .int 1, .int 0]
          (fun _ _ => ⟨255, 0, 0⟩) = .ok t2 ∧
        Canvas._DrawFilledTriangle ⟨0, 0, 0⟩ 4 ⟨sampleCanvas, []⟩ [.int 3, .int 1, .int 0]
          [.int 0, .int 1, .int 9] [.int 2, .int 1, .int 7] (fun _ _ => ⟨255, 0, 0⟩) = .ok t2 ∧
        t2.calls.map SetCall.position = [].map SetCall.position
          ++ spanPositions (std_get 0 [.int 0, .int 1, .int 9]).asInt
            (std_get 0 [.int 2, .int 1, .int 7]).asInt (std_get 1 [.int 3, .int 1, .int 0]).asInt
          ++ spanPositions (std_get 0 [.int 2, .int 1, .int 7]).asInt
            (std_get 0 [.int 3, .int 1, .int 0]).asInt
            (std_get 1 [.int 3, .int 1, .int 0]).asInt) :=
  C14_flat_triangle_policy ⟨0, 0, 0⟩ 4 ⟨sampleCanvas, []⟩ [.int 3, .int 1, .int 0]
    [.int 0, .int 1, .int 9] [.int 2, .int 1, .int 7] [.int 0, .int 1, .int 9]
    [.int 2, .int 1, .int 7] [.int 3, .int 1, .int 0] (fun _ _ => ⟨255, 0, 0⟩) (by decide)
    (by decide) (by decide) (by decide) (by decide) (by decide) (by decide) (by decide)

end Graphics

namespace Graphics

open Geometry Geometry.LinearInterpolationIterator

/-- A span from a point to itself is one `_Set` call at that point, with the depth
of the point and the color functor applied to the span iterator at the point. -/
theorem Canvas._DrawHLine.unrolled_self (T : List Bool) (v : PointType) (hv : IsTPoint T v)
    (u : Indeterminate) (t : TracedCanvas) (g : ColorGetter) :
    Canvas._DrawHLine.unrolled u t v v g
      = t._Set (std_get 0 v).asInt (std_get 1 v).asInt (std_get 2 v).asInt
          (g t.canvas (GoToBegin 0
            (LinearInterpolationIterator.ctor 0 (std.RemoveItem 1 v) (std.RemoveItem 1 v) u))) := by
  have hl := hv.length_ge
  have hz := Get_GoToBegin_ctor 0 (std.RemoveItem 1 v) (std.RemoveItem 1 v) u
    (hv.instantiable_shrinked hv) 1
    (by rw [std.RemoveItem_eq_eraseIdx 1 v (by omega), List.length_eraseIdx]
        split_ifs <;> omega)
  have e1 := std.std_get_RemoveItem_one_succ v (by omega) 0
  simp only [Nat.zero_add] at e1
  rw [e1] at hz
  unfold Canvas._DrawHLine.unrolled
  have hr : List.range 1 = [0] := rfl
  simp only [sub_self, Int.toNat_zero, Nat.zero_add, hr, List.foldl_cons,
    List.foldl_nil, Function.iterate_zero, id_eq, Nat.cast_zero, add_zero]
  rw [hz]

/-- C15: single-point triangle.  When the three vertices have equal `x` and equal
`y`, `_DrawFilledTriangle` returns after exactly one `_Set` call, at that `(x, y)`;
its depth is the depth of a vertex `v` whose depth is the greatest of the three,
and the color functor is applied to the span iterator standing at `v`, whose
channels are those of `v`. -/
theorem C15_single_point_triangle (T : List Bool) (ip_pt1 ip_pt2 ip_pt3 : PointType)
    (h1 : IsTPoint T ip_pt1) (h2 : IsTPoint T ip_pt2) (h3 : IsTPoint T ip_pt3)
    (hx12 : (std_get 0 ip_pt1).asInt = (std_get 0 ip_pt2).asInt)
    (hx23 : (std_get 0 ip_pt2).asInt = (std_get 0 ip_pt3).asInt)
    (hy12 : (std_get 1 ip_pt1).asInt = (std_get 1 ip_pt2).asInt)
    (hy23 : (std_get 1 ip_pt2).asInt = (std_get 1 ip_pt3).asInt)
    (u : Indeterminate) (fuel : Nat) (i_color_getter : ColorGetter) (t : TracedCanvas)
    (hfuel : 0 < fuel) :
    ∃ v : PointType, v ∈ [ip_pt1, ip_pt2, ip_pt3] ∧
      (∀ w ∈ [ip_pt1, ip_pt2, ip_pt3], (std_get 2 w).asInt ≤ (std_get 2 v).asInt) ∧
      (∀ N : Nat, N < v.length - 1 →
        Get 0 N (GoToBegin 0 (LinearInterpolationIterator.ctor 0 (std.RemoveItem 1 v)
          (std.RemoveItem 1 v) u)) = std_get N (std.RemoveItem 1 v)) ∧
      Canvas._DrawFilledTriangle u fuel t ip_pt1 ip_pt2 ip_pt3 i_color_getter
        = .ok (t._Set (std_get 0 ip_pt1).asInt (std_get 1 ip_pt1).asInt (std_get 2 v).asInt
            (i_color_getter t.canvas (GoToBegin 0 (LinearInterpolationIterator.ctor 0
              (std.RemoveItem 1 v) (std.RemoveItem 1 v) u)))) ∧
      (t._Set (std_get 0 ip_pt1).asInt (std_get 1 ip_pt1).asInt (std_get 2 v).asInt
            (i_color_getter t.canvas (GoToBegin 0 (LinearInterpolationIterator.ctor 0
              (std.RemoveItem 1 v) (std.RemoveItem 1 v) u)))).calls.length
        = t.calls.length + 1 := by
  -- the three sorts, as in the source
  have hS1 := Canvas._Sort3PointsInDirection_of_sorted 1 ip_pt1 ip_pt2 ip_pt3 (by omega)
    (by omega)
  have hS0 := Canvas._Sort3PointsInDirection_of_sorted 0 ip_pt1 ip_pt2 ip_pt3 (by omega)
    (by omega)
  obtain ⟨-, -, hd3⟩ := Canvas._Sort3PointsInDirection_pred 2 ip_pt1 ip_pt2 ip_pt3
    (fun p => IsTPoint T p ∧ (std_get 0 p).asInt = (std_get 0 ip_pt1).asInt
      ∧ (std_get 1 p).asInt = (std_get 1 ip_pt1).asInt)
    ⟨h1, rfl, rfl⟩ ⟨h2, by omega, by omega⟩ ⟨h3, by omega, by omega⟩
  obtain ⟨hz12, hz23⟩ := Canvas._Sort3PointsInDirection_sorted 2 ip_pt1 ip_pt2 ip_pt3
  have hmem := Canvas._Sort3PointsInDirection_mem 2 ip_pt1 ip_pt2 ip_pt3
  rcases hS2 : Canvas._Sort3PointsInDirection 2 (ip_pt1, ip_pt2, ip_pt3) with ⟨d1, d2, d3⟩
  rw [hS2] at hd3 hz12 hz23 hmem
  dsimp only at hd3 hz12 hz23 hmem
  obtain ⟨hd3T, hd3x, hd3y⟩ := hd3
  have hl := hd3T.length_ge
  refine ⟨d3, ?_, ?_, ?_, ?_, ?_⟩
  · exact (hmem d3).1 (by simp)
  · intro w hw
    have hw' := (hmem w).2 hw
    simp only [List.mem_cons, List.mem_singleton, List.not_mem_nil, or_false] at hw'
    rcases hw' with rfl | rfl | rfl <;> omega
  · intro N hN
    exact Get_GoToBegin_ctor 0 (std.RemoveItem 1 d3) (std.RemoveItem 1 d3) u
      (hd3T.instantiable_shrinked hd3T) N
      (by rw [std.RemoveItem_eq_eraseIdx 1 d3 (by omega), List.length_eraseIdx]
          split_ifs <;> omega)
  · unfold Canvas._DrawFilledTriangle
    rw [hS1]
    dsimp only
    rw [if_pos (by omega), hS0]
    dsimp only
    rw [if_pos (by omega), hS2]
    dsimp only
    rw [Canvas._DrawHLine_eq_unrolled u fuel t d3 d3 i_color_getter (by omega) (by omega) le_rfl
      rfl (by omega), Canvas._DrawHLine.unrolled_self T d3 hd3T, hd3x, hd3y]
  · unfold TracedCanvas._Set
    simp

theorem C15_single_point_triangle_witness :
    ∃ v : PointType, v ∈ [[Scalar.int 1, .int 2, .int 3, .real 4], [.int 1, .int 2, .int 8, .real 5],
        [.int 1, .int 2, .int 6, .real 7]] ∧
      (∀ w ∈ [[Scalar.int 1, .int 2, .int 3, .real 4], [.int 1, .int 2, .int 8, .real 5],
        [.int 1, .int 2, .int 6, .real 7]], (std_get 2 w).asInt ≤ (std_get 2 v).asInt) ∧
      (∀ N : Nat, N < v.length - 1 →
        Get 0 N (GoToBegin 0 (LinearInterpolationIterator.ctor 0 (std.RemoveItem 1 v)
          (std.RemoveItem 1 v) ⟨0, 0, 0⟩)) = std_get N (std.RemoveItem 1 v)) ∧
      Canvas._DrawFilledTriangle ⟨0, 0, 0⟩ 1 ⟨sampleCanvas, []⟩ [.int 1, .int 2, .int 3, .real 4]
          [.int 1, .int 2, .int 8, .real 5] [.int 1, .int 2, .int 6, .real 7]
          (fun _ _ => ⟨255, 0, 0⟩)
        = .ok (TracedCanvas._Set ⟨sampleCanvas, []⟩
            (std_get 0 [.int 1, .int 2, .int 3, .real 4]).asInt
            (std_get 1 [.int 1, .int 2, .int 3, .real 4]).asInt (std_get 2 v).asInt
            ⟨255, 0, 0⟩) ∧
      (TracedCanvas._Set ⟨sampleCanvas, []⟩
            (std_get 0 [.int 1, .int 2, .int 3, .real 4]).asInt
            (std_get 1 [.int 1, .int 2, .int 3, .real 4]).asInt (std_get 2 v).asInt
            ⟨255, 0, 0⟩).calls.length
        = ([] : List SetCall).length + 1 :=
  C15_single_point_triangle [true, true, true, false] [.int 1, .int 2, .int 3, .real 4]
    [.int 1, .int 2, .int 8, .real 5] [.int 1, .int 2, .int 6, .real 7] (by decide) (by decide)
    (by decide) (by decide) (by decide) (by decide) (by decide) ⟨0, 0, 0⟩ 1
    (fun _ _ => ⟨255, 0, 0⟩) ⟨sampleCanvas, []⟩ (by decide)

end Graphics

namespace Graphics

open Geometry Geometry.LinearInterpolationIterator

/-- C18: a freshly constructed `Canvas(w, h)` has every depth-buffer entry equal
to the minimum `int` and every frame-buffer pixel black, and the first `_Set` on
an in-bounds pixel of it is accepted whatever its (32-bit) depth: it returns
`true` and stores the color and the depth. -/
theorem C18_fresh_canvas (i_w i_h : Nat) (u : CanvasIndeterminate) (x y z : Int) (c : Color)
    (hx0 : 0 ≤ x) (hx1 : x < i_w) (hy0 : 0 ≤ y) (hy1 : y < i_h) (hz : IsInt32 z) :
    (∀ x' y' : Int, (Canvas.ctor i_w i_h u).m_z_buffer.Get x' y' = INT_MIN) ∧
    (∀ x' y' : Int, (Canvas.ctor i_w i_h u).m_image.Get x' y' = ⟨0, 0, 0⟩) ∧
    (Canvas.ctor i_w i_h u).m_image.GetWidth = i_w ∧
    (Canvas.ctor i_w i_h u).m_image.GetHeight = i_h ∧
    ((Canvas.ctor i_w i_h u)._Set x y z c).1 = true ∧
    ((Canvas.ctor i_w i_h u)._Set x y z c).2.m_image.Get x y = c ∧
    ((Canvas.ctor i_w i_h u)._Set x y z c).2.m_z_buffer.Get x y = z := by
  have hzb : ∀ x' y' : Int, (Canvas.ctor i_w i_h u).m_z_buffer.Get x' y' = INT_MIN := by
    intro x' y'; rfl
  have hset := Canvas._Set_of_in_bounds (Canvas.ctor i_w i_h u) x y z c hx0 hx1 hy0 hy1
  rw [if_neg (by rw [hzb]; exact not_lt.mpr hz.1)] at hset
  refine ⟨hzb, fun _ _ => rfl, rfl, rfl, ?_, ?_, ?_⟩
  · rw [hset]
  · rw [hset]; exact Image.Get_Set_same _ _ _ _
  · rw [hset]; exact Image.Get_Set_same _ _ _ _

theorem C18_fresh_canvas_witness :
    (∀ x' y' : Int, (Canvas.ctor 4 3 ⟨fun _ _ => ⟨1, 2, 3⟩, fun _ _ => 7,
        ⟨0, 0, fun _ _ => ⟨0, 0, 0⟩⟩, (0, 0, 1)⟩).m_z_buffer.Get x' y' = INT_MIN) ∧
    (∀ x' y' : Int, (Canvas.ctor 4 3 ⟨fun _ _ => ⟨1, 2, 3⟩, fun _ _ => 7,
        ⟨0, 0, fun _ _ => ⟨0, 0, 0⟩⟩, (0, 0, 1)⟩).m_image.Get x' y' = ⟨0, 0, 0⟩) ∧
    (Canvas.ctor 4 3 ⟨fun _ _ => ⟨1, 2, 3⟩, fun _ _ => 7,
        ⟨0, 0, fun _ _ => ⟨0, 0, 0⟩⟩, (0, 0, 1)⟩).m_image.GetWidth = 4 ∧
    (Canvas.ctor 4 3 ⟨fun _ _ => ⟨1, 2, 3⟩, fun _ _ => 7,
        ⟨0, 0, fun _ _ => ⟨0, 0, 0⟩⟩, (0, 0, 1)⟩).m_image.GetHeight = 3 ∧
    ((Canvas.ctor 4 3 ⟨fun _ _ => ⟨1, 2, 3⟩, fun _ _ => 7,
        ⟨0, 0, fun _ _ => ⟨0, 0, 0⟩⟩, (0, 0, 1)⟩)._Set 1 2 (-2147483648) ⟨255, 0, 0⟩).1 = true ∧
    ((Canvas.ctor 4 3 ⟨fun _ _ => ⟨1, 2, 3⟩, fun _ _ => 7,
        ⟨0, 0, fun _ _ => ⟨0, 0, 0⟩⟩, (0, 0, 1)⟩)._Set 1 2 (-2147483648)
          ⟨255, 0, 0⟩).2.m_image.Get 1 2 = ⟨255, 0, 0⟩ ∧
    ((Canvas.ctor 4 3 ⟨fun _ _ => ⟨1, 2, 3⟩, fun _ _ => 7,
        ⟨0, 0, fun _ _ => ⟨0, 0, 0⟩⟩, (0, 0, 1)⟩)._Set 1 2 (-2147483648)
          ⟨255, 0, 0⟩).2.m_z_buffer.Get 1 2 = -2147483648 :=
  C18_fresh_canvas 4 3 ⟨fun _ _ => ⟨1, 2, 3⟩, fun _ _ => 7, ⟨0, 0, fun _ _ => ⟨0, 0, 0⟩⟩,
    (0, 0, 1)⟩ 1 2 (-2147483648) ⟨255, 0, 0⟩ (by decide) (by decide) (by decide) (by decide)
    (by decide)

theorem PaintsWith.refl (c : Color) (t : TracedCanvas) : PaintsWith c t t :=
  ⟨⟨[], by simp, by simp⟩, fun _ _ => Or.inl rfl⟩

theorem PaintsWith.trans (c : Color) (t1 t2 t3 : TracedCanvas) (h12 : PaintsWith c t1 t2)
    (h23 : PaintsWith c t2 t3) : PaintsWith c t1 t3 := by
  obtain ⟨⟨e1, he1, hc1⟩, hp1⟩ := h12
  obtain ⟨⟨e2, he2, hc2⟩, hp2⟩ := h23
  refine ⟨⟨e1 ++ e2, by rw [he2, he1, List.append_assoc], ?_⟩, ?_⟩
  · intro s hs
    rcases List.mem_append.mp hs with h | h
    · exact hc1 s h
    · exact hc2 s h
  · intro x y
    rcases hp2 x y with h | h
    · rw [h]; exact hp1 x y
    · exact Or.inr h

theorem PaintsWith.step (c : Color) (t : TracedCanvas) (x y z : Int) :
    PaintsWith c t (t._Set x y z c) := by
  refine ⟨⟨[⟨x, y, z, c⟩], rfl, by simp⟩, ?_⟩
  intro x' y'
  unfold TracedCanvas._Set Canvas._Set
  dsimp only
  split_ifs
  · exact Or.inl rfl
  · exact Or.inl rfl
  · dsimp only [Image.Get, Image.Set]
    split_ifs
    · exact Or.inr rfl
    · exact Or.inl rfl

/-- C19: flat shading.  For every triangle and color `c`,
`DrawFilledTriangle(pt1, pt2, pt3, c)` returns, every `_Set` call it adds to the
record carries exactly the color `c`, whatever the position and the interpolated
depth, and every frame-buffer pixel whose color the call changes ends with `c`. -/
theorem C19_flat_shading (T : List Bool) (i_pt1 i_pt2 i_pt3 : PointType)
    (h1 : IsTPoint T i_pt1) (h2 : IsTPoint T i_pt2) (h3 : IsTPoint T i_pt3)
    (u : Indeterminate) (fuel : Nat) (t : TracedCanvas) (i_color : Color)
    (hfuel : Canvas.extent i_pt1 i_pt2 i_pt3 < (fuel : Int)) :
    ∃ (t' : TracedCanvas) (extra : List SetCall),
      Canvas.DrawFilledTriangle u fuel t i_pt1 i_pt2 i_pt3 i_color = .ok t' ∧
      t'.calls = t.calls ++ extra ∧
      (∀ s ∈ extra, s.i_color = i_color) ∧
      ∀ x y : Int, t'.canvas.m_image.Get x y ≠ t.canvas.m_image.Get x y →
        t'.canvas.m_image.Get x y = i_color := by
  have hrun := Canvas._DrawFilledTriangle_eq_closedForm T i_pt1 i_pt2 i_pt3 h1 h2 h3 u fuel
    (fun _ _ => i_color) t hfuel
  have hP : PaintsWith i_color t (Canvas._DrawFilledTriangle.closedForm u t i_pt1 i_pt2 i_pt3
      (fun _ _ => i_color)) := by
    rw [Canvas._DrawFilledTriangle.closedForm_eq_foldl]
    apply TracedCanvas.foldl_rel (PaintsWith i_color) (PaintsWith.refl i_color)
      (PaintsWith.trans i_color)
    intro t s _
    unfold Canvas._DrawHLine.unrolled
    apply TracedCanvas.foldl_rel (PaintsWith i_color) (PaintsWith.refl i_color)
      (PaintsWith.trans i_color)
    intro t j _
    exact PaintsWith.step i_color t _ _ _
  obtain ⟨⟨extra, he, hc⟩, hp⟩ := hP
  refine ⟨_, extra, hrun, he, hc, ?_⟩
  intro x y hne
  rcases hp x y with h | h
  · exact absurd h hne
  · exact h

theorem C19_flat_shading_witness :
    ∃ (t' : TracedCanvas) (extra : List SetCall),
      Canvas.DrawFilledTriangle ⟨0, 0, 0⟩ 9 ⟨sampleCanvas, []⟩ [.int 0, .int 0, .int 7]
        [.int 2, .int 1, .int 7] [.int 1, .int 2, .int 7] ⟨255, 0, 0⟩ = .ok t' ∧
      t'.calls = [] ++ extra ∧
      (∀ s ∈ extra, s.i_color = ⟨255, 0, 0⟩) ∧
      ∀ x y : Int, t'.canvas.m_image.Get x y ≠ sampleCanvas.m_image.Get x y →
        t'.canvas.m_image.Get x y = ⟨255, 0, 0⟩ :=
  C19_flat_shading [true, true, true] [.int 0, .int 0, .int 7] [.int 2, .int 1, .int 7]
    [.int 1, .int 2, .int 7] (by decide) (by decide) (by decide) ⟨0, 0, 0⟩ 9
    ⟨sampleCanvas, []⟩ ⟨255, 0, 0⟩ (by decide)

end Graphics

namespace Graphics

open Geometry Geometry.LinearInterpolationIterator

/-- The spans of a triangle whose vertices, sorted by `y` as `q1, q2, q3`, are not
all on one row. -/
theorem Canvas._DrawFilledTriangle.spans_general (u : Indeterminate) (a b c q1 q2 q3 : PointType)
    (hS : Canvas._Sort3PointsInDirection 1 (a, b, c) = (q1, q2, q3))
    (hy : ¬ (std_get 1 q1).asInt = (std_get 1 q3).asInt) :
    Canvas._DrawFilledTriangle.spans u a b c
      = (List.range (Int.toNat ((std_get 1 q2).asInt - (std_get 1 q1).asInt))).map
          (fun k : Nat => Canvas._DrawFilledTriangle.spanArgs
            (decide (((std_get 0 q2).asInt - (std_get 0 q1).asInt)
                * ((std_get 1 q3).asInt - (std_get 1 q1).asInt)
              < ((std_get 0 q3).asInt - (std_get 0 q1).asInt)
                * ((std_get 1 q2).asInt - (std_get 1 q1).asInt)))
            (operator_increment^[k] (GoToBegin 1 (LinearInterpolationIterator.ctor 1 q1 q2 u)))
            (operator_increment^[k] (GoToBegin 1 (LinearInterpolationIterator.ctor 1 q1 q3 u))))
        ++ (List.range (Int.toNat ((std_get 1 q3).asInt - (std_get 1 q2).asInt) + 1)).map
          (fun j : Nat => Canvas._DrawFilledTriangle.spanArgs
            (decide (((std_get 0 q2).asInt - (std_get 0 q1).asInt)
                * ((std_get 1 q3).asInt - (std_get 1 q1).asInt)
              < ((std_get 0 q3).asInt - (std_get 0 q1).asInt)
                * ((std_get 1 q2).asInt - (std_get 1 q1).asInt)))
            (operator_increment^[j] (GoToBegin 1 (LinearInterpolationIterator.ctor 1 q2 q3 u)))
            (operator_increment^[Int.toNat ((std_get 1 q2).asInt - (std_get 1 q1).asInt) + j]
              (GoToBegin 1 (LinearInterpolationIterator.ctor 1 q1 q3 u)))) := by
  unfold Canvas._DrawFilledTriangle.spans
  rw [hS]
  dsimp only
  rw [if_neg hy]

/-- The endpoints of the span of an edge-loop step: its row and its two `x`, which
are the rounded positions on the short and on the long edge. -/
theorem Canvas._DrawFilledTriangle.spanArgs_edges (T : List Bool) (pa pb pc pd : PointType)
    (ha : IsTPoint T pa) (hb : IsTPoint T pb) (hc : IsTPoint T pc) (hd : IsTPoint T pd)
    (u : Indeterminate) (flag : Bool) (k m : Nat)
    (hab : 0 ≤ (std_get 1 pb).asInt - (std_get 1 pa).asInt)
    (hk : (k : Int) ≤ (std_get 1 pb).asInt - (std_get 1 pa).asInt)
    (hcd : 0 ≤ (std_get 1 pd).asInt - (std_get 1 pc).asInt)
    (hm : (m : Int) ≤ (std_get 1 pd).asInt - (std_get 1 pc).asInt)
    (hrow : (std_get 1 pa).asInt + k = (std_get 1 pc).asInt + m) :
    (std_get 1 (Canvas._DrawFilledTriangle.spanArgs flag
        (operator_increment^[k] (GoToBegin 1 (LinearInterpolationIterator.ctor 1 pa pb u)))
        (operator_increment^[m] (GoToBegin 1 (LinearInterpolationIterator.ctor 1 pc pd u)))).1).asInt
      = (std_get 1 pa).asInt + k ∧
    (((std_get 0 (Canvas._DrawFilledTriangle.spanArgs flag
        (operator_increment^[k] (GoToBegin 1 (LinearInterpolationIterator.ctor 1 pa pb u)))
        (operator_increment^[m] (GoToBegin 1 (LinearInterpolationIterator.ctor 1 pc pd u)))).1).asInt
        = roundedPosition (std_get 0 pa).asInt ((std_get 0 pb).asInt - (std_get 0 pa).asInt)
            ((std_get 1 pb).asInt - (std_get 1 pa).asInt) k ∧
      (std_get 0 (Canvas._DrawFilledTriangle.spanArgs flag
        (operator_increment^[k] (GoToBegin 1 (LinearInterpolationIterator.ctor 1 pa pb u)))
        (operator_increment^[m] (GoToBegin 1 (LinearInterpolationIterator.ctor 1 pc pd u)))).2).asInt
        = roundedPosition (std_get 0 pc).asInt ((std_get 0 pd).asInt - (std_get 0 pc).asInt)
            ((std_get 1 pd).asInt - (std_get 1 pc).asInt) m) ∨
     ((std_get 0 (Canvas._DrawFilledTriangle.spanArgs flag
        (operator_increment^[k] (GoToBegin 1 (LinearInterpolationIterator.ctor 1 pa pb u)))
        (operator_increment^[m] (GoToBegin 1 (LinearInterpolationIterator.ctor 1 pc pd u)))).1).asInt
        = roundedPosition (std_get 0 pc).asInt ((std_get 0 pd).asInt - (std_get 0 pc).asInt)
            ((std_get 1 pd).asInt - (std_get 1 pc).asInt) m ∧
      (std_get 0 (Canvas._DrawFilledTriangle.spanArgs flag
        (operator_increment^[k] (GoToBegin 1 (LinearInterpolationIterator.ctor 1 pa pb u)))
        (operator_increment^[m] (GoToBegin 1 (LinearInterpolationIterator.ctor 1 pc pd u)))).2).asInt
        = roundedPosition (std_get 0 pa).asInt ((std_get 0 pb).asInt - (std_get 0 pa).asInt)
            ((std_get 1 pb).asInt - (std_get 1 pa).asInt) k)) := by
  obtain ⟨sx, sy, -⟩ := edge_point T pa pb ha hb u hab k hk
  obtain ⟨lx, ly, -⟩ := edge_point T pc pd hc hd u hcd m hm
  cases flag with
  | true =>
    refine ⟨?_, Or.inl ⟨?_, ?_⟩⟩
    · exact sy
    · exact sx
    · exact lx
  | false =>
    refine ⟨?_, Or.inr ⟨?_, ?_⟩⟩
    · show (std_get 1 (operator_deref 1 _)).asInt = _
      rw [ly, hrow]
    · exact lx
    · exact sx

end Graphics

namespace Graphics

open Geometry Geometry.LinearInterpolationIterator

/-- The spans of a triangle that is not flat lie on strictly increasing rows. -/
theorem Canvas._DrawFilledTriangle.spans_rows_increasing (T : List Bool)
    (a b c : PointType) (ha : IsTPoint T a) (hb : IsTPoint T b) (hc : IsTPoint T c)
    (hflat : ¬ ((std_get 1 a).asInt = (std_get 1 b).asInt
      ∧ (std_get 1 b).asInt = (std_get 1 c).asInt)) (u : Indeterminate) :
    (Canvas._DrawFilledTriangle.spans u a b c).Pairwise
      (fun s s' => (std_get 1 s.1).asInt < (std_get 1 s'.1).asInt) := by
  obtain ⟨hq1, hq2, hq3⟩ := Canvas._Sort3PointsInDirection_pred 1 a b c (IsTPoint T) ha hb hc
  obtain ⟨hs12, hs23⟩ := Canvas._Sort3PointsInDirection_sorted 1 a b c
  have hmem := Canvas._Sort3PointsInDirection_mem 1 a b c
  rcases hS : Canvas._Sort3PointsInDirection 1 (a, b, c) with ⟨q1, q2, q3⟩
  rw [hS] at hq1 hq2 hq3 hs12 hs23 hmem
  dsimp only at hq1 hq2 hq3 hs12 hs23 hmem
  have hy13 : ¬ (std_get 1 q1).asInt = (std_get 1 q3).asInt := by
    intro h
    apply hflat
    have hall : ∀ w ∈ [a, b, c], (std_get 1 w).asInt = (std_get 1 q1).asInt := by
      intro w hw
      have hw' := (hmem w).2 hw
      simp only [List.mem_cons, List.mem_singleton, List.not_mem_nil, or_false] at hw'
      rcases hw' with rfl | rfl | rfl <;> omega
    have e1 := hall a (by simp)
    have e2 := hall b (by simp)
    have e3 := hall c (by simp)
    constructor <;> omega
  rw [Canvas._DrawFilledTriangle.spans_general u a b c q1 q2 q3 hS hy13]
  generalize (decide (((std_get 0 q2).asInt - (std_get 0 q1).asInt)
                * ((std_get 1 q3).asInt - (std_get 1 q1).asInt)
              < ((std_get 0 q3).asInt - (std_get 0 q1).asInt)
                * ((std_get 1 q2).asInt - (std_get 1 q1).asInt))) = flag
  have hbot : ∀ k : Nat, k < Int.toNat ((std_get 1 q2).asInt - (std_get 1 q1).asInt) →
      (std_get 1 (Canvas._DrawFilledTriangle.spanArgs flag
        (operator_increment^[k] (GoToBegin 1 (LinearInterpolationIterator.ctor 1 q1 q2 u)))
        (operator_increment^[k] (GoToBegin 1 (LinearInterpolationIterator.ctor 1 q1 q3 u)))).1).asInt
      = (std_get 1 q1).asInt + k := by
    intro k hk
    exact (Canvas._DrawFilledTriangle.spanArgs_edges T q1 q2 q1 q3 hq1 hq2 hq1 hq3 u flag k k
      (by omega) (by omega) (by omega) (by omega) rfl).1
  have htop : ∀ j : Nat, j < Int.toNat ((std_get 1 q3).asInt - (std_get 1 q2).asInt) + 1 →
      (std_get 1 (Canvas._DrawFilledTriangle.spanArgs flag
        (operator_increment^[j] (GoToBegin 1 (LinearInterpolationIterator.ctor 1 q2 q3 u)))
        (operator_increment^[Int.toNat ((std_get 1 q2).asInt - (std_get 1 q1).asInt) + j]
          (GoToBegin 1 (LinearInterpolationIterator.ctor 1 q1 q3 u)))).1).asInt
      = (std_get 1 q2).asInt + j := by
    intro j hj
    exact (Canvas._DrawFilledTriangle.spanArgs_edges T q2 q3 q1 q3 hq2 hq3 hq1 hq3 u flag j
      (Int.toNat ((std_get 1 q2).asInt - (std_get 1 q1).asInt) + j)
      (by omega) (by omega) (by omega) (by push_cast; omega) (by push_cast; omega)).1
  rw [List.pairwise_append]
  refine ⟨?_, ?_, ?_⟩
  · rw [List.pairwise_map]
    apply List.Pairwise.imp_of_mem _ (List.pairwise_lt_range _)
    intro i j hi hj hij
    rw [List.mem_range] at hi hj
    rw [hbot i hi, hbot j hj]
    omega
  · rw [List.pairwise_map]
    apply List.Pairwise.imp_of_mem _ (List.pairwise_lt_range _)
    intro i j hi hj hij
    rw [List.mem_range] at hi hj
    rw [htop i hi, htop j hj]
    omega
  · intro s hs s' hs'
    rw [List.mem_map] at hs hs'
    obtain ⟨i, hi, rfl⟩ := hs
    obtain ⟨j, hj, rfl⟩ := hs'
    rw [List.mem_range] at hi hj
    rw [hbot i hi, htop j hj]
    omega

/-- C12: a triangle whose three vertices are not all on one row is drawn without
a duplicate: `_DrawFilledTriangle` returns, and the pixel coordinates `(x, y)` of
the `_Set` calls it adds to the record are pairwise different, within a span as
well as on the row of the middle vertex, where the two halves meet. -/
theorem C12_no_pixel_twice (T : List Bool) (ip_pt1 ip_pt2 ip_pt3 : PointType)
    (h1 : IsTPoint T ip_pt1) (h2 : IsTPoint T ip_pt2) (h3 : IsTPoint T ip_pt3)
    (hflat : ¬ ((std_get 1 ip_pt1).asInt = (std_get 1 ip_pt2).asInt
      ∧ (std_get 1 ip_pt2).asInt = (std_get 1 ip_pt3).asInt))
    (u : Indeterminate) (fuel : Nat) (i_color_getter : ColorGetter) (t : TracedCanvas)
    (hfuel : Canvas.extent ip_pt1 ip_pt2 ip_pt3 < (fuel : Int)) :
    ∃ (t' : TracedCanvas) (extra : List SetCall),
      Canvas._DrawFilledTriangle u fuel t ip_pt1 ip_pt2 ip_pt3 i_color_getter = .ok t' ∧
      t'.calls = t.calls ++ extra ∧
      (extra.map SetCall.position).Nodup := by
  obtain ⟨extra, he⟩ := Canvas._DrawFilledTriangle.closedForm_calls_extend u t ip_pt1 ip_pt2
    ip_pt3 i_color_getter
  refine ⟨_, extra, Canvas._DrawFilledTriangle_eq_closedForm T ip_pt1 ip_pt2 ip_pt3 h1 h2 h3 u
    fuel i_color_getter t hfuel, he, ?_⟩
  have hpos := Canvas._DrawHLine.foldl_unrolled_positions u i_color_getter
    (Canvas._DrawFilledTriangle.spans u ip_pt1 ip_pt2 ip_pt3) t
  rw [← Canvas._DrawFilledTriangle.closedForm_eq_foldl, he, List.map_append,
    List.append_cancel_left_eq] at hpos
  rw [hpos, List.nodup_flatMap]
  constructor
  · intro s _
    exact spanPositions_nodup _ _ _
  · apply List.Pairwise.imp _
      (Canvas._DrawFilledTriangle.spans_rows_increasing T ip_pt1 ip_pt2 ip_pt3 h1 h2 h3 hflat u)
    intro s s' hlt
    show List.Disjoint (Canvas._DrawHLine.positions s) (Canvas._DrawHLine.positions s')
    intro p hp hp'
    have e1 := (mem_spanPositions _ _ _ p hp).1
    have e2 := (mem_spanPositions _ _ _ p hp').1
    omega

theorem C12_no_pixel_twice_witness :
    ∃ (t' : TracedCanvas) (extra : List SetCall),
      Canvas._DrawFilledTriangle ⟨0, 0, 0⟩ 13 ⟨sampleCanvas, []⟩ [.int 0, .int 0, .int 1]
        [.int 3, .int 1, .int 1] [.int 1, .int 3, .int 1] (fun _ _ => ⟨255, 0, 0⟩) = .ok t' ∧
      t'.calls = [] ++ extra ∧
      (extra.map SetCall.position).Nodup :=
  C12_no_pixel_twice [true, true, true] [.int 0, .int 0, .int 1] [.int 3, .int 1, .int 1]
    [.int 1, .int 3, .int 1] (by decide) (by decide) (by decide) (by decide) ⟨0, 0, 0⟩ 13
    (fun _ _ => ⟨255, 0, 0⟩) ⟨sampleCanvas, []⟩ (by decide)

end Graphics

namespace Graphics

open Geometry Geometry.LinearInterpolationIterator

/-- A triangle whose three vertices are one and the same point is one `_Set` call
at that point. -/
theorem Canvas._DrawFilledTriangle_same_point (T : List Bool) (p : PointType)
    (hp : IsTPoint T p) (u : Indeterminate) (fuel : Nat) (g : ColorGetter) (t : TracedCanvas)
    (hfuel : 0 < fuel) :
    Canvas._DrawFilledTriangle u fuel t p p p g
      = .ok (t._Set (std_get 0 p).asInt (std_get 1 p).asInt (std_get 2 p).asInt
          (g t.canvas (GoToBegin 0
            (LinearInterpolationIterator.ctor 0 (std.RemoveItem 1 p) (std.RemoveItem 1 p) u)))) := by
  have hl := hp.length_ge
  unfold Canvas._DrawFilledTriangle
  rw [Canvas._Sort3PointsInDirection_of_sorted 1 p p p le_rfl le_rfl]
  dsimp only
  rw [if_pos rfl, Canvas._Sort3PointsInDirection_of_sorted 0 p p p le_rfl le_rfl]
  dsimp only
  rw [if_pos rfl, Canvas._Sort3PointsInDirection_of_sorted 2 p p p le_rfl le_rfl]
  dsimp only
  rw [Canvas._DrawHLine_eq_unrolled u fuel t p p g (by omega) (by omega) le_rfl rfl (by omega),
    Canvas._DrawHLine.unrolled_self T p hp]

/-- The color functor of `DrawFilledTrianglePhong` on the span iterator of a point
with normal `n`, standing at the point. -/
theorem Canvas.DrawFilledTrianglePhong.f_at_point (cv : Canvas) (x y z : Int) (n : ℚ × ℚ × ℚ)
    (u : Indeterminate) :
    Canvas.DrawFilledTrianglePhong.f cv (GoToBegin 0 (LinearInterpolationIterator.ctor 0
        (std.RemoveItem 1 [.int x, .int y, .int z, .real n.1, .real n.2.1, .real n.2.2])
        (std.RemoveItem 1 [.int x, .int y, .int z, .real n.1, .real n.2.1, .real n.2.2]) u))
      = ⟨float_to_unsigned_char (cv._GetIntensityFromNormal n * 255),
          float_to_unsigned_char (cv._GetIntensityFromNormal n * 255),
          float_to_unsigned_char (cv._GetIntensityFromNormal n * 255)⟩ := by
  have hp : IsTPoint [true, true, true, false, false, false]
      [.int x, .int y, .int z, .real n.1, .real n.2.1, .real n.2.2] := by
    unfold IsTPoint; exact ⟨rfl, rfl⟩
  have hG : ∀ N : Nat, N < 5 →
      Get 0 N (GoToBegin 0 (LinearInterpolationIterator.ctor 0
        (std.RemoveItem 1 [.int x, .int y, .int z, .real n.1, .real n.2.1, .real n.2.2])
        (std.RemoveItem 1 [.int x, .int y, .int z, .real n.1, .real n.2.1, .real n.2.2]) u))
      = std_get N (std.RemoveItem 1 [.int x, .int y, .int z, .real n.1, .real n.2.1,
          .real n.2.2]) := by
    intro N hN
    exact Get_GoToBegin_ctor 0 _ _ u (hp.instantiable_shrinked hp) N
      (by rw [std.RemoveItem_eq_eraseIdx 1 _ (by simp)]; simpa using hN)
  unfold Canvas.DrawFilledTrianglePhong.f
  dsimp only
  rw [hG 2 (by omega), hG 3 (by omega), hG 4 (by omega),
    std.std_get_RemoveItem_one_succ _ (by simp) 1, std.std_get_RemoveItem_one_succ _ (by simp) 2,
    std.std_get_RemoveItem_one_succ _ (by simp) 3]
  rfl

/-- The intensity `1` gives the component `255`, the intensity `1/2` the component
`127`. -/
theorem float_to_unsigned_char_examples :
    float_to_unsigned_char (1 * 255) = 255 ∧ float_to_unsigned_char (1 / 2 * 255) = 127 := by
  constructor
  · unfold float_to_unsigned_char
    have h : ⌊(1 * 255 : ℚ)⌋ = 255 := by
      rw [Int.floor_eq_iff]; norm_num
    simp only [h]
    norm_num
    rfl
  · unfold float_to_unsigned_char
    have h : ⌊(1 / 2 * 255 : ℚ)⌋ = 127 := by
      rw [Int.floor_eq_iff]; norm_num
    simp only [h]
    norm_num
    rfl

end Graphics

namespace Graphics

open Geometry Geometry.LinearInterpolationIterator

/-- C20 as stated fails: on a canvas with light direction `(0, 0, 1)` the
single-point triangle with the unit vertex normals `(0, 0, 1)` is drawn with
intensity component `255`, and with the same normals multiplied by the positive
factor `1/2` it is drawn with component `127`: the interpolated normal is not
rescaled to unit length. -/
theorem C20_phong_renormalized_counterexample :
    (Canvas.DrawFilledTrianglePhong ⟨0, 0, 0⟩ 1 ⟨sampleCanvas, []⟩ [.int 1, .int 1, .int 9]
        [.int 1, .int 1, .int 9] [.int 1, .int 1, .int 9] (0, 0, 1) (0, 0, 1)
        (0, 0, 1)).toOption.map (fun t => t.calls.map SetCall.i_color)
      = some [⟨255, 255, 255⟩] ∧
    (Canvas.DrawFilledTrianglePhong ⟨0, 0, 0⟩ 1 ⟨sampleCanvas, []⟩ [.int 1, .int 1, .int 9]
        [.int 1, .int 1, .int 9] [.int 1, .int 1, .int 9] (0, 0, 1 / 2) (0, 0, 1 / 2)
        (0, 0, 1 / 2)).toOption.map (fun t => t.calls.map SetCall.i_color)
      = some [⟨127, 127, 127⟩] := by
  have hrun : ∀ n : ℚ × ℚ × ℚ,
      Canvas.DrawFilledTrianglePhong ⟨0, 0, 0⟩ 1 ⟨sampleCanvas, []⟩ [.int 1, .int 1, .int 9]
        [.int 1, .int 1, .int 9] [.int 1, .int 1, .int 9] n n n
      = .ok (TracedCanvas._Set ⟨sampleCanvas, []⟩ 1 1 9
          ⟨float_to_unsigned_char (sampleCanvas._GetIntensityFromNormal n * 255),
            float_to_unsigned_char (sampleCanvas._GetIntensityFromNormal n * 255),
            float_to_unsigned_char (sampleCanvas._GetIntensityFromNormal n * 255)⟩) := by
    intro n
    have hp : IsTPoint [true, true, true, false, false, false]
        [.int 1, .int 1, .int 9, .real n.1, .real n.2.1, .real n.2.2] := by
      unfold IsTPoint; exact ⟨rfl, rfl⟩
    have h := Canvas._DrawFilledTriangle_same_point _ _ hp ⟨0, 0, 0⟩ 1
      Canvas.DrawFilledTrianglePhong.f ⟨sampleCanvas, []⟩ (by decide)
    rw [Canvas.DrawFilledTrianglePhong.f_at_point] at h
    exact h
  have hi1 : sampleCanvas._GetIntensityFromNormal (0, 0, 1) = 1 := by
    unfold Canvas._GetIntensityFromNormal Vector_dot sampleCanvas
    norm_num
  have hi2 : sampleCanvas._GetIntensityFromNormal (0, 0, 1 / 2) = 1 / 2 := by
    unfold Canvas._GetIntensityFromNormal Vector_dot sampleCanvas
    norm_num
  obtain ⟨hc1, hc2⟩ := float_to_unsigned_char_examples
  constructor
  · rw [hrun, hi1, hc1]; rfl
  · rw [hrun, hi2, hc2]; rfl

/-- C20, amended: in `DrawFilledTrianglePhong` the intensity of a pixel is
`max(0, light . n)` for the interpolated normal `n` read from the span iterator as
it is, without rescaling to unit length; so multiplying the normal by a factor
`s ≥ 0` multiplies the intensity by `s`. -/
theorem C20_phong_intensity_unscaled (cv : Canvas) (i_iter : Self) (n : ℚ × ℚ × ℚ) (s : ℚ)
    (hs : 0 ≤ s) :
    Canvas.DrawFilledTrianglePhong.f cv i_iter
      = ⟨float_to_unsigned_char (max 0 (Vector_dot cv.m_light_direction
            ((Get 0 2 i_iter).asReal, (Get 0 3 i_iter).asReal, (Get 0 4 i_iter).asReal)) * 255),
          float_to_unsigned_char (max 0 (Vector_dot cv.m_light_direction
            ((Get 0 2 i_iter).asReal, (Get 0 3 i_iter).asReal, (Get 0 4 i_iter).asReal)) * 255),
          float_to_unsigned_char (max 0 (Vector_dot cv.m_light_direction
            ((Get 0 2 i_iter).asReal, (Get 0 3 i_iter).asReal, (Get 0 4 i_iter).asReal)) * 255)⟩ ∧
    cv._GetIntensityFromNormal n = max 0 (Vector_dot cv.m_light_direction n) ∧
    cv._GetIntensityFromNormal (s * n.1, s * n.2.1, s * n.2.2)
      = s * cv._GetIntensityFromNormal n := by
  have hmax : ∀ m : ℚ × ℚ × ℚ,
      cv._GetIntensityFromNormal m = max 0 (Vector_dot cv.m_light_direction m) := by
    intro m
    unfold Canvas._GetIntensityFromNormal
    dsimp only
    split_ifs with h
    · rw [max_eq_left h.le]
    · rw [max_eq_right (not_lt.mp h)]
  refine ⟨?_, hmax n, ?_⟩
  · unfold Canvas.DrawFilledTrianglePhong.f
    dsimp only
    rw [hmax]
  · rw [hmax, hmax]
    have hdot : Vector_dot cv.m_light_direction (s * n.1, s * n.2.1, s * n.2.2)
        = s * Vector_dot cv.m_light_direction n := by
      unfold Vector_dot
      ring
    rw [hdot, mul_max_of_nonneg _ _ hs, mul_zero]

theorem C20_phong_intensity_unscaled_witness :
    Canvas.DrawFilledTrianglePhong.f sampleCanvas
        (GoToBegin 0 (LinearInterpolationIterator.ctor 0 [.int 0, .int 9, .real 0, .real 0, .real 1]
          [.int 2, .int 9, .real 0, .real 0, .real 1] ⟨0, 0, 0⟩))
      = ⟨float_to_unsigned_char (max 0 (Vector_dot sampleCanvas.m_light_direction
            ((Get 0 2 (GoToBegin 0 (LinearInterpolationIterator.ctor 0
                [.int 0, .int 9, .real 0, .real 0, .real 1]
                [.int 2, .int 9, .real 0, .real 0, .real 1] ⟨0, 0, 0⟩))).asReal,
              (Get 0 3 (GoToBegin 0 (LinearInterpolationIterator.ctor 0
                [.int 0, .int 9, .real 0, .real 0, .real 1]
                [.int 2, .int 9, .real 0, .real 0, .real 1] ⟨0, 0, 0⟩))).asReal,
              (Get 0 4 (GoToBegin 0 (LinearInterpolationIterator.ctor 0
                [.int 0, .int 9, .real 0, .real 0, .real 1]
                [.int 2, .int 9, .real 0, .real 0, .real 1] ⟨0, 0, 0⟩))).asReal)) * 255),
          float_to_unsigned_char (max 0 (Vector_dot sampleCanvas.m_light_direction
            ((Get 0 2 (GoToBegin 0 (LinearInterpolationIterator.ctor 0
                [.int 0, .int 9, .real 0, .real 0, .real 1]
                [.int 2, .int 9, .real 0, .real 0, .real 1] ⟨0, 0, 0⟩))).asReal,
              (Get 0 3 (GoToBegin 0 (LinearInterpolationIterator.ctor 0
                [.int 0, .int 9, .real 0, .real 0, .real 1]
                [.int 2, .int 9, .real 0, .real 0, .real 1] ⟨0, 0, 0⟩))).asReal,
              (Get 0 4 (GoToBegin 0 (LinearInterpolationIterator.ctor 0
                [.int 0, .int 9, .real 0, .real 0, .real 1]
                [.int 2, .int 9, .real 0, .real 0, .real 1] ⟨0, 0, 0⟩))).asReal)) * 255),
          float_to_unsigned_char (max 0 (Vector_dot sampleCanvas.m_light_direction
            ((Get 0 2 (GoToBegin 0 (LinearInterpolationIterator.ctor 0
                [.int 0, .int 9, .real 0, .real 0, .real 1]
                [.int 2, .int 9, .real 0, .real 0, .real 1] ⟨0, 0, 0⟩))).asReal,
              (Get 0 3 (GoToBegin 0 (LinearInterpolationIterator.ctor 0
                [.int 0, .int 9, .real 0, .real 0, .real 1]
                [.int 2, .int 9, .real 0, .real 0, .real 1] ⟨0, 0, 0⟩))).asReal,
              (Get 0 4 (GoToBegin 0 (LinearInterpolationIterator.ctor 0
                [.int 0, .int 9, .real 0, .real 0, .real 1]
                [.int 2, .int 9, .real 0, .real 0, .real 1] ⟨0, 0, 0⟩))).asReal)) * 255)⟩ ∧
    sampleCanvas._GetIntensityFromNormal (0, 0, 1)
      = max 0 (Vector_dot sampleCanvas.m_light_direction (0, 0, 1)) ∧
    sampleCanvas._GetIntensityFromNormal
        (2 * ((0, 0, 1) : ℚ × ℚ × ℚ).1, 2 * ((0, 0, 1) : ℚ × ℚ × ℚ).2.1,
          2 * ((0, 0, 1) : ℚ × ℚ × ℚ).2.2)
      = 2 * sampleCanvas._GetIntensityFromNormal (0, 0, 1) :=
  C20_phong_intensity_unscaled sampleCanvas
    (GoToBegin 0 (LinearInterpolationIterator.ctor 0 [.int 0, .int 9, .real 0, .real 0, .real 1]
      [.int 2, .int 9, .real 0, .real 0, .real 1] ⟨0, 0, 0⟩)) (0, 0, 1) 2 (by decide)

end Graphics

/-! ## Fill and outline -/

namespace Geometry

namespace LinearInterpolationIterator

/-- The rounded position is the only integer in its half-open rounding window
(non-negative delta). -/
theorem roundedPosition_unique_nonneg (a d n : Int) (k : Nat) (m : Int) (hn : 0 < n)
    (hd : 0 ≤ d) (h1 : 2 * d * k - n < 2 * n * m) (h2 : 2 * n * m ≤ 2 * d * k + n) :
    roundedPosition a d n k = a + m := by
  obtain ⟨b1, b2⟩ := roundedPosition_nonneg_bounds a d n k hn hd
  generalize roundedPosition a d n k = P at *
  have hlt : P - a - m < 1 := by
    by_contra hc
    have h := mul_le_mul_of_nonneg_left (not_lt.mp hc) (by omega : (0 : Int) ≤ 2 * n)
    nlinarith
  have hgt : -1 < P - a - m := by
    by_contra hc
    have h := mul_le_mul_of_nonneg_left (not_lt.mp hc) (by omega : (0 : Int) ≤ 2 * n)
    nlinarith
  omega

/-- The rounded position is the only integer in its half-open rounding window
(non-positive delta). -/
theorem roundedPosition_unique_nonpos (a d n : Int) (k : Nat) (m : Int) (hn : 0 < n)
    (hd : d ≤ 0) (h1 : 2 * d * k - n ≤ 2 * n * m) (h2 : 2 * n * m < 2 * d * k + n) :
    roundedPosition a d n k = a + m := by
  obtain ⟨b1, b2⟩ := roundedPosition_nonpos_bounds a d n k hn hd
  generalize roundedPosition a d n k = P at *
  have hlt : P - a - m < 1 := by
    by_contra hc
    have h := mul_le_mul_of_nonneg_left (not_lt.mp hc) (by omega : (0 : Int) ≤ 2 * n)
    nlinarith
  have hgt : -1 < P - a - m := by
    by_contra hc
    have h := mul_le_mul_of_nonneg_left (not_lt.mp hc) (by omega : (0 : Int) ≤ 2 * n)
    nlinarith
  omega

/-- A point of a shallow edge walked along `y` lies on the same edge walked along
`x` from its left end (edge going right). -/
theorem roundedPosition_transpose_right (xa ya dx n : Int) (k : Nat) (hn : 0 ≤ n)
    (hdx : 0 < dx) (hsh : n ≤ dx) (hk : (k : Int) ≤ n) :
    0 ≤ roundedPosition xa dx n k - xa ∧ roundedPosition xa dx n k - xa ≤ dx ∧
    roundedPosition ya n dx (Int.toNat (roundedPosition xa dx n k - xa)) = ya + k := by
  rcases hn.lt_or_eq with hn0 | hn0
  · obtain ⟨b1, b2⟩ := roundedPosition_nonneg_bounds xa dx n k hn0 hdx.le
    obtain ⟨c1, c2⟩ := roundedPosition_between xa dx n k hn0 hk
    rw [min_eq_left (by omega)] at c1
    rw [max_eq_right (by omega)] at c2
    refine ⟨by omega, by omega, ?_⟩
    have hi : ((Int.toNat (roundedPosition xa dx n k - xa) : Nat) : Int)
        = roundedPosition xa dx n k - xa := Int.toNat_of_nonneg (by omega)
    generalize roundedPosition xa dx n k - xa = m at *
    apply roundedPosition_unique_nonneg ya n dx _ k hdx hn
    · rw [hi]
      rcases hsh.lt_or_eq with h | h
      · nlinarith
      · subst h
        have hk0 : (0 : Int) ≤ k := Int.natCast_nonneg k
        by_contra hc
        have hmk : (k : Int) + 1 ≤ m := by
          by_contra hc2
          have h3 := mul_le_mul_of_nonneg_left (by omega : m ≤ (k : Int)) hn
          nlinarith
        have h3 := mul_le_mul_of_nonneg_left hmk hn
        nlinarith
    · rw [hi]
      nlinarith
  · subst hn0
    have hk0 : k = 0 := by omega
    subst hk0
    rw [roundedPosition_zero xa dx 0 le_rfl]
    simp only [sub_self, Int.toNat_zero, le_refl, true_and, Nat.cast_zero, add_zero]
    exact ⟨hdx.le, roundedPosition_zero ya 0 dx hdx.le⟩

/-- A point of a shallow edge walked along `y` lies on the same edge walked along
`x` from its left end (edge going left). -/
theorem roundedPosition_transpose_left (xa ya dx n : Int) (k : Nat) (hn : 0 ≤ n)
    (hdx : dx < 0) (hsh : n ≤ -dx) (hk : (k : Int) ≤ n) :
    0 ≤ roundedPosition xa dx n k - (xa + dx) ∧ roundedPosition xa dx n k - (xa + dx) ≤ -dx ∧
    roundedPosition (ya + n) (-n) (-dx) (Int.toNat (roundedPosition xa dx n k - (xa + dx)))
      = ya + k := by
  rcases hn.lt_or_eq with hn0 | hn0
  · obtain ⟨b1, b2⟩ := roundedPosition_nonpos_bounds xa dx n k hn0 hdx.le
    obtain ⟨c1, c2⟩ := roundedPosition_between xa dx n k hn0 hk
    rw [min_eq_right (by omega)] at c1
    rw [max_eq_left (by omega)] at c2
    refine ⟨by omega, by omega, ?_⟩
    have hi : ((Int.toNat (roundedPosition xa dx n k - (xa + dx)) : Nat) : Int)
        = roundedPosition xa dx n k - (xa + dx) := Int.toNat_of_nonneg (by omega)
    have e : ya + (k : Int) = ya + n + ((k : Int) - n) := by ring
    rw [e]
    generalize roundedPosition xa dx n k = X at *
    apply roundedPosition_unique_nonpos (ya + n) (-n) (-dx) _ ((k : Int) - n) (by omega)
      (by omega)
    · rw [hi]
      nlinarith
    · rw [hi]
      nlinarith
  · subst hn0
    have hk0 : k = 0 := by omega
    subst hk0
    rw [roundedPosition_zero xa dx 0 le_rfl]
    have e : xa - (xa + dx) = -dx := by ring
    rw [e]
    refine ⟨by omega, le_rfl, ?_⟩
    have h := roundedPosition_end (ya + 0) (-0) (Int.toNat (-dx))
      (by rw [Int.toNat_of_nonneg (by omega)]; omega)
    rw [Int.toNat_of_nonneg (by omega)] at h
    simpa using h

end LinearInterpolationIterator

end Geometry

namespace Graphics

open Geometry Geometry.LinearInterpolationIterator

/-- The loop of `DrawLine`, entered after `k` steps with `m` steps still to go,
leaves through its `break` after one `_Set` per remaining point. -/
theorem Canvas.DrawLine.line_loop_spec (D : Nat) (c : Color) (p1 p2 : PointType)
    (u : Indeterminate) (n : Nat) (hn : (std_get D p2).asInt - (std_get D p1).asInt = n) :
    ∀ (m k fuel : Nat) (t : TracedCanvas), k + m = n → m < fuel →
      Canvas.DrawLine.loop D c fuel
          (operator_increment^[k] (GoToBegin D (LinearInterpolationIterator.ctor D p1 p2 u))) t
        = .ok ((List.range (m + 1)).foldl
            (fun (t : TracedCanvas) (j : Nat) =>
              t._SetPoint (operator_deref D (operator_increment^[k + j]
                (GoToBegin D (LinearInterpolationIterator.ctor D p1 p2 u)))) c)
            t) := by
  intro m
  induction m with
  | zero =>
    intro k fuel t hk hfuel
    obtain ⟨fuel, rfl⟩ : ∃ f, fuel = f + 1 := ⟨fuel - 1, by omega⟩
    have hend : IsAtEnd D (operator_increment^[k]
        (GoToBegin D (LinearInterpolationIterator.ctor D p1 p2 u))) = true :=
      (IsAtEnd_begin_increment D p1 p2 u k).2 (by omega)
    simp [Canvas.DrawLine.loop, hend, List.range_succ]
  | succ m ih =>
    intro k fuel t hk hfuel
    obtain ⟨fuel, rfl⟩ : ∃ f, fuel = f + 1 := ⟨fuel - 1, by omega⟩
    have hend : ¬ IsAtEnd D (operator_increment^[k]
        (GoToBegin D (LinearInterpolationIterator.ctor D p1 p2 u))) = true :=
      fun h => by
        have := (IsAtEnd_begin_increment D p1 p2 u k).1 h
        omega
    rw [Canvas.DrawLine.loop]
    rw [if_neg hend, ← Function.iterate_succ_apply' operator_increment k,
      ih (k + 1) fuel _ (by omega) (by omega)]
    rw [List.range_succ_eq_map (m + 1), List.foldl_cons, List.foldl_map]
    simp only [Nat.add_zero]
    congr 1
    apply List.foldl_ext
    intro t j _
    have e : k + 1 + j = k + (j + 1) := by omega
    rw [e]

/-- The loop of `DrawLine` from `GoToBegin`, for `p1[D] ≤ p2[D]`. -/
theorem Canvas.DrawLine.loop_eq_unrolled (D : Nat) (c : Color) (p1 p2 : PointType)
    (u : Indeterminate) (fuel : Nat) (t : TracedCanvas)
    (hle : (std_get D p1).asInt ≤ (std_get D p2).asInt)
    (hfuel : (std_get D p2).asInt - (std_get D p1).asInt < (fuel : Int)) :
    Canvas.DrawLine.loop D c fuel (GoToBegin D (LinearInterpolationIterator.ctor D p1 p2 u)) t
      = .ok (Canvas.DrawLine.unrolled D u t p1 p2 c) := by
  have h := Canvas.DrawLine.line_loop_spec D c p1 p2 u
    (Int.toNat ((std_get D p2).asInt - (std_get D p1).asInt))
    (by rw [Int.toNat_of_nonneg (by omega)])
    (Int.toNat ((std_get D p2).asInt - (std_get D p1).asInt)) 0 fuel t (by omega) (by omega)
  simp only [Function.iterate_zero, id_eq, Nat.zero_add] at h
  exact h

/-- Termination and closed form of `DrawLine`. -/
theorem Canvas.DrawLine_eq_closedForm (u : Indeterminate) (fuel : Nat) (t : TracedCanvas)
    (a b : PointType) (c : Color)
    (hfuel : |(std_get 0 b).asInt - (std_get 0 a).asInt|
      + |(std_get 1 b).asInt - (std_get 1 a).asInt| < (fuel : Int)) :
    Canvas.DrawLine u fuel t a b c = .ok (Canvas.DrawLine.closedForm u t a b c) := by
  unfold Canvas.DrawLine Canvas.DrawLine.closedForm
  have ax := abs_nonneg ((std_get 0 b).asInt - (std_get 0 a).asInt)
  have ay := abs_nonneg ((std_get 1 b).asInt - (std_get 1 a).asInt)
  have bx := le_abs_self ((std_get 0 b).asInt - (std_get 0 a).asInt)
  have by_ := le_abs_self ((std_get 1 b).asInt - (std_get 1 a).asInt)
  have cx := neg_abs_le ((std_get 0 b).asInt - (std_get 0 a).asInt)
  have cy := neg_abs_le ((std_get 1 b).asInt - (std_get 1 a).asInt)
  dsimp only
  by_cases hsw : (|(std_get 0 b).asInt - (std_get 0 a).asInt|
        ≥ |(std_get 1 b).asInt - (std_get 1 a).asInt|
        ∧ (std_get 0 b).asInt - (std_get 0 a).asInt < 0)
      ∨ (|(std_get 0 b).asInt - (std_get 0 a).asInt|
        < |(std_get 1 b).asInt - (std_get 1 a).asInt|
        ∧ (std_get 1 b).asInt - (std_get 1 a).asInt < 0)
  · rw [if_pos hsw]
    dsimp only
    by_cases hsh : |(std_get 0 b).asInt - (std_get 0 a).asInt|
        ≥ |(std_get 1 b).asInt - (std_get 1 a).asInt|
    · rw [if_pos hsh, if_pos hsh]
      exact Canvas.DrawLine.loop_eq_unrolled 0 c b a u fuel t (by omega) (by omega)
    · rw [if_neg hsh, if_neg hsh]
      exact Canvas.DrawLine.loop_eq_unrolled 1 c b a u fuel t (by omega) (by omega)
  · rw [if_neg hsw]
    dsimp only
    by_cases hsh : |(std_get 0 b).asInt - (std_get 0 a).asInt|
        ≥ |(std_get 1 b).asInt - (std_get 1 a).asInt|
    · rw [if_pos hsh, if_pos hsh]
      exact Canvas.DrawLine.loop_eq_unrolled 0 c a b u fuel t (by omega) (by omega)
    · rw [if_neg hsh, if_neg hsh]
      exact Canvas.DrawLine.loop_eq_unrolled 1 c a b u fuel t (by omega) (by omega)

end Graphics

namespace Graphics

open Geometry Geometry.LinearInterpolationIterator

/-- The current point of a line `pa → pb` walked along `x`, `k ≤ xb - xa` steps
after `GoToBegin`: its `x` is `xa + k`, its `y` is the rounded interpolation. -/
theorem line_point (T : List Bool) (pa pb : PointType) (hpa : IsTPoint T pa)
    (hpb : IsTPoint T pb) (u : Indeterminate)
    (hn : 0 ≤ (std_get 0 pb).asInt - (std_get 0 pa).asInt) (k : Nat)
    (hk : (k : Int) ≤ (std_get 0 pb).asInt - (std_get 0 pa).asInt) :
    (std_get 0 (operator_deref 0 (operator_increment^[k]
        (GoToBegin 0 (LinearInterpolationIterator.ctor 0 pa pb u))))).asInt
      = (std_get 0 pa).asInt + k ∧
    (std_get 1 (operator_deref 0 (operator_increment^[k]
        (GoToBegin 0 (LinearInterpolationIterator.ctor 0 pa pb u))))).asInt
      = roundedPosition (std_get 1 pa).asInt ((std_get 1 pb).asInt - (std_get 1 pa).asInt)
          ((std_get 0 pb).asInt - (std_get 0 pa).asInt) k := by
  have hlen := hpa.length_ge
  obtain ⟨g1, -, -, -⟩ := begin_increment_fields 0 pa pb u k
  refine ⟨?_, ?_⟩
  · rw [std_get_operator_deref 0 _ 0 (by rw [g1]; omega), Get_begin_increment_along]
    rfl
  · rw [std_get_operator_deref 0 _ 1 (by rw [g1]; omega)]
    exact Get_begin_increment_roundedPosition 0 pa pb u (hpa.instantiable hpb 0 (by omega)) 1
      (by omega) (by omega) (hpa.isIntegral 1 (by omega)) hn k hk

/-- The pixel coordinates written by the unrolled loop of `DrawLine`. -/
theorem Canvas.DrawLine.line_unrolled_positions (D : Nat) (u : Indeterminate) (t : TracedCanvas)
    (p1 p2 : PointType) (c : Color) :
    (Canvas.DrawLine.unrolled D u t p1 p2 c).calls.map SetCall.position
      = t.calls.map SetCall.position
        ++ (List.range (Int.toNat ((std_get D p2).asInt - (std_get D p1).asInt) + 1)).map
          (fun j : Nat =>
            ((std_get 0 (operator_deref D (operator_increment^[j]
                (GoToBegin D (LinearInterpolationIterator.ctor D p1 p2 u))))).asInt,
              (std_get 1 (operator_deref D (operator_increment^[j]
                (GoToBegin D (LinearInterpolationIterator.ctor D p1 p2 u))))).asInt)) := by
  unfold Canvas.DrawLine.unrolled TracedCanvas._SetPoint
  apply TracedCanvas.foldl_Set_map
  intro t j _
  rfl

/-- Along `x` the unrolled loop writes the pixels `alongX`. -/
theorem Canvas.DrawLine.unrolled_positions_alongX (T : List Bool) (p1 p2 : PointType)
    (h1 : IsTPoint T p1) (h2 : IsTPoint T p2) (u : Indeterminate) (t : TracedCanvas)
    (c : Color) (hle : (std_get 0 p1).asInt ≤ (std_get 0 p2).asInt) :
    (Canvas.DrawLine.unrolled 0 u t p1 p2 c).calls.map SetCall.position
      = t.calls.map SetCall.position
        ++ Canvas.DrawLine.alongX (std_get 0 p1).asInt (std_get 1 p1).asInt
          (std_get 0 p2).asInt (std_get 1 p2).asInt := by
  rw [Canvas.DrawLine.line_unrolled_positions]
  unfold Canvas.DrawLine.alongX
  congr 1
  apply List.map_congr_left
  intro j hj
  rw [List.mem_range] at hj
  obtain ⟨ex, ey⟩ := line_point T p1 p2 h1 h2 u (by omega) j (by omega)
  rw [ex, ey]

/-- Along `y` the unrolled loop writes the pixels `alongY`. -/
theorem Canvas.DrawLine.unrolled_positions_alongY (T : List Bool) (p1 p2 : PointType)
    (h1 : IsTPoint T p1) (h2 : IsTPoint T p2) (u : Indeterminate) (t : TracedCanvas)
    (c : Color) (hle : (std_get 1 p1).asInt ≤ (std_get 1 p2).asInt) :
    (Canvas.DrawLine.unrolled 1 u t p1 p2 c).calls.map SetCall.position
      = t.calls.map SetCall.position
        ++ Canvas.DrawLine.alongY (std_get 0 p1).asInt (std_get 1 p1).asInt
          (std_get 0 p2).asInt (std_get 1 p2).asInt := by
  rw [Canvas.DrawLine.line_unrolled_positions]
  unfold Canvas.DrawLine.alongY
  congr 1
  apply List.map_congr_left
  intro j hj
  rw [List.mem_range] at hj
  obtain ⟨ex, ey, -⟩ := edge_point T p1 p2 h1 h2 u (by omega) j (by omega)
  rw [ex, ey]

/-- The pixel coordinates `DrawLine` writes. -/
theorem Canvas.DrawLine.closedForm_positions (T : List Bool) (a b : PointType)
    (ha : IsTPoint T a) (hb : IsTPoint T b) (u : Indeterminate) (t : TracedCanvas)
    (c : Color) :
    (Canvas.DrawLine.closedForm u t a b c).calls.map SetCall.position
      = t.calls.map SetCall.position ++ Canvas.DrawLine.positions a b := by
  unfold Canvas.DrawLine.closedForm Canvas.DrawLine.positions Canvas.DrawLine.pixels
  have bx := le_abs_self ((std_get 0 b).asInt - (std_get 0 a).asInt)
  have by_ := le_abs_self ((std_get 1 b).asInt - (std_get 1 a).asInt)
  have cx := neg_abs_le ((std_get 0 b).asInt - (std_get 0 a).asInt)
  have cy := neg_abs_le ((std_get 1 b).asInt - (std_get 1 a).asInt)
  dsimp only
  by_cases hsh : |(std_get 0 b).asInt - (std_get 0 a).asInt|
      ≥ |(std_get 1 b).asInt - (std_get 1 a).asInt|
  · by_cases hneg : (std_get 0 b).asInt - (std_get 0 a).asInt < 0
    · rw [if_pos (Or.inl ⟨hsh, hneg⟩), if_pos hsh, if_pos hsh, if_pos hneg]
      exact Canvas.DrawLine.unrolled_positions_alongX T b a hb ha u t c (by omega)
    · have hsw : ¬ ((|(std_get 0 b).asInt - (std_get 0 a).asInt|
            ≥ |(std_get 1 b).asInt - (std_get 1 a).asInt|
            ∧ (std_get 0 b).asInt - (std_get 0 a).asInt < 0)
          ∨ (|(std_get 0 b).asInt - (std_get 0 a).asInt|
            < |(std_get 1 b).asInt - (std_get 1 a).asInt|
            ∧ (std_get 1 b).asInt - (std_get 1 a).asInt < 0)) := by
        intro h
        rcases h with h | h
        · exact hneg h.2
        · exact absurd hsh (not_le.mpr h.1)
      rw [if_neg hsw, if_pos hsh, if_pos hsh, if_neg hneg]
      exact Canvas.DrawLine.unrolled_positions_alongX T a b ha hb u t c (by omega)
  · by_cases hneg : (std_get 1 b).asInt - (std_get 1 a).asInt < 0
    · rw [if_pos (Or.inr ⟨not_le.mp hsh, hneg⟩), if_neg hsh, if_neg hsh, if_pos hneg]
      exact Canvas.DrawLine.unrolled_positions_alongY T b a hb ha u t c (by omega)
    · have hsw : ¬ ((|(std_get 0 b).asInt - (std_get 0 a).asInt|
            ≥ |(std_get 1 b).asInt - (std_get 1 a).asInt|
            ∧ (std_get 0 b).asInt - (std_get 0 a).asInt < 0)
          ∨ (|(std_get 0 b).asInt - (std_get 0 a).asInt|
            < |(std_get 1 b).asInt - (std_get 1 a).asInt|
            ∧ (std_get 1 b).asInt - (std_get 1 a).asInt < 0)) := by
        intro h
        rcases h with h | h
        · exact hsh h.1
        · exact hneg h.2
      rw [if_neg hsw, if_neg hsh, if_neg hsh, if_neg hneg]
      exact Canvas.DrawLine.unrolled_positions_alongY T a b ha hb u t c (by omega)

end Graphics

namespace Graphics

open Geometry Geometry.LinearInterpolationIterator

/-- `DrawLine` writes the same pixels for both orders of its endpoints. -/
theorem Canvas.DrawLine.pixels_comm (x1 y1 x2 y2 : Int) :
    Canvas.DrawLine.pixels x1 y1 x2 y2 = Canvas.DrawLine.pixels x2 y2 x1 y1 := by
  unfold Canvas.DrawLine.pixels
  have ex := abs_sub_comm x2 x1
  have ey := abs_sub_comm y2 y1
  rw [← ex, ← ey]
  have ay := abs_nonneg (y2 - y1)
  have by_ := le_abs_self (y2 - y1)
  have cy := neg_abs_le (y2 - y1)
  have bx := le_abs_self (x2 - x1)
  have cx := neg_abs_le (x2 - x1)
  by_cases hsh : |x2 - x1| ≥ |y2 - y1|
  · rw [if_pos hsh, if_pos hsh]
    rcases lt_trichotomy (x2 - x1) 0 with h | h | h
    · rw [if_pos h, if_neg (by omega)]
    · have hx : x2 = x1 := by omega
      have hy : y2 = y1 := by
        rw [h, abs_zero] at hsh
        omega
      subst hx hy
      rfl
    · rw [if_neg (by omega), if_pos (by omega)]
  · rw [if_neg hsh, if_neg hsh]
    rcases lt_trichotomy (y2 - y1) 0 with h | h | h
    · rw [if_pos h, if_neg (by omega)]
    · rw [h, abs_zero] at hsh
      exact absurd (abs_nonneg (x2 - x1)) hsh
    · rw [if_neg (by omega), if_pos (by omega)]

/-- Every point of an edge walked along `y` (as the edge loops of
`_DrawFilledTriangle` do) is a pixel of the line `DrawLine` draws between the same
endpoints. -/
theorem Canvas.DrawLine.edge_mem_pixels (xa ya xb yb : Int) (k : Nat) (hn : 0 ≤ yb - ya)
    (hk : (k : Int) ≤ yb - ya) :
    (roundedPosition xa (xb - xa) (yb - ya) k, ya + (k : Int))
      ∈ Canvas.DrawLine.pixels xa ya xb yb := by
  unfold Canvas.DrawLine.pixels
  have ay := abs_of_nonneg hn
  have bx := le_abs_self (xb - xa)
  have cx := neg_abs_le (xb - xa)
  by_cases hsh : |xb - xa| ≥ |yb - ya|
  · rw [if_pos hsh]
    rw [ay] at hsh
    rcases lt_trichotomy (xb - xa) 0 with h | h | h
    · rw [if_pos h]
      obtain ⟨t1, t2, t3⟩ := roundedPosition_transpose_left xa ya (xb - xa) (yb - ya) k hn h
        (by rw [abs_of_neg h] at hsh; omega) hk
      have e1 : xa + (xb - xa) = xb := by ring
      have e2 : ya + (yb - ya) = yb := by ring
      have e3 : -(yb - ya) = ya - yb := by ring
      have e4 : -(xb - xa) = xa - xb := by ring
      rw [e1] at t1 t2 t3
      rw [e2, e3, e4] at t3
      rw [e4] at t2
      unfold Canvas.DrawLine.alongX
      rw [List.mem_map]
      refine ⟨Int.toNat (roundedPosition xa (xb - xa) (yb - ya) k - xb), ?_, ?_⟩
      · rw [List.mem_range]; omega
      · rw [t3, Int.toNat_of_nonneg t1]
        congr 1
        ring
    · have hx : xb = xa := by omega
      subst hx
      rw [sub_self, abs_zero] at hsh
      have hy : yb = ya := by omega
      subst hy
      have hk0 : k = 0 := by omega
      subst hk0
      rw [if_neg (by omega)]
      unfold Canvas.DrawLine.alongX
      rw [List.mem_map]
      refine ⟨0, by simp, ?_⟩
      rw [roundedPosition_zero _ _ _ (by omega), roundedPosition_zero _ _ _ (by omega)]
      simp
    · rw [if_neg (by omega)]
      obtain ⟨t1, t2, t3⟩ := roundedPosition_transpose_right xa ya (xb - xa) (yb - ya) k hn h
        (by rw [abs_of_pos h] at hsh; omega) hk
      unfold Canvas.DrawLine.alongX
      rw [List.mem_map]
      refine ⟨Int.toNat (roundedPosition xa (xb - xa) (yb - ya) k - xa), ?_, ?_⟩
      · rw [List.mem_range]; omega
      · rw [t3, Int.toNat_of_nonneg t1]
        congr 1
        ring
  · rw [if_neg hsh, if_neg (by omega)]
    unfold Canvas.DrawLine.alongY
    rw [List.mem_map]
    exact ⟨k, by rw [List.mem_range]; omega, rfl⟩

/-- Both endpoints are pixels of the line. -/
theorem Canvas.DrawLine.endpoints_mem_pixels (x1 y1 x2 y2 : Int) :
    (x1, y1) ∈ Canvas.DrawLine.pixels x1 y1 x2 y2 ∧
    (x2, y2) ∈ Canvas.DrawLine.pixels x1 y1 x2 y2 := by
  have hfirst : ∀ xa ya xb yb : Int, ya ≤ yb →
      (xa, ya) ∈ Canvas.DrawLine.pixels xa ya xb yb ∧
      (xb, yb) ∈ Canvas.DrawLine.pixels xa ya xb yb := by
    intro xa ya xb yb hle
    constructor
    · have h := Canvas.DrawLine.edge_mem_pixels xa ya xb yb 0 (by omega) (by simp; omega)
      rw [roundedPosition_zero _ _ _ (by omega)] at h
      simpa using h
    · rcases hle.lt_or_eq with hlt | heq
      · have h := Canvas.DrawLine.edge_mem_pixels xa ya xb yb (Int.toNat (yb - ya)) (by omega)
          (by rw [Int.toNat_of_nonneg (by omega)])
        have e := roundedPosition_end xa (xb - xa) (Int.toNat (yb - ya))
          (by rw [Int.toNat_of_nonneg (by omega)]; omega)
        rw [Int.toNat_of_nonneg (by omega)] at e h
        rw [e] at h
        have e1 : xa + (xb - xa) = xb := by ring
        have e2 : ya + (yb - ya) = yb := by ring
        rw [e1, e2] at h
        exact h
      · subst heq
        rw [Canvas.DrawLine.pixels_comm]
        have h := Canvas.DrawLine.edge_mem_pixels xb ya xa ya 0 (by omega) (by simp)
        rw [roundedPosition_zero _ _ _ (by omega)] at h
        simpa using h
  rcases le_total y1 y2 with h | h
  · exact hfirst x1 y1 x2 y2 h
  · obtain ⟨r1, r2⟩ := hfirst x2 y2 x1 y1 h
    rw [Canvas.DrawLine.pixels_comm]
    exact ⟨r2, r1⟩

end Graphics

namespace Graphics

open Geometry Geometry.LinearInterpolationIterator

/-- The spans of the two edge loops run left to right between a point of a short
edge and a point of the long edge. -/
theorem Canvas._DrawFilledTriangle.spanArgs_endsIn (T : List Bool) (q1 q2 q3 : PointType)
    (hq1 : IsTPoint T q1) (hq2 : IsTPoint T q2) (hq3 : IsTPoint T q3)
    (hs12 : (std_get 1 q1).asInt ≤ (std_get 1 q2).asInt)
    (hs23 : (std_get 1 q2).asInt ≤ (std_get 1 q3).asInt)
    (hy13 : (std_get 1 q1).asInt < (std_get 1 q3).asInt)
    (u : Indeterminate) (Q : Int × Int → Prop)
    (hE12 : ∀ k : Nat, (k : Int) ≤ (std_get 1 q2).asInt - (std_get 1 q1).asInt →
      Q (roundedPosition (std_get 0 q1).asInt ((std_get 0 q2).asInt - (std_get 0 q1).asInt)
        ((std_get 1 q2).asInt - (std_get 1 q1).asInt) k, (std_get 1 q1).asInt + (k : Int)))
    (hE23 : ∀ k : Nat, (k : Int) ≤ (std_get 1 q3).asInt - (std_get 1 q2).asInt →
      Q (roundedPosition (std_get 0 q2).asInt ((std_get 0 q3).asInt - (std_get 0 q2).asInt)
        ((std_get 1 q3).asInt - (std_get 1 q2).asInt) k, (std_get 1 q2).asInt + (k : Int)))
    (hE13 : ∀ k : Nat, (k : Int) ≤ (std_get 1 q3).asInt - (std_get 1 q1).asInt →
      Q (roundedPosition (std_get 0 q1).asInt ((std_get 0 q3).asInt - (std_get 0 q1).asInt)
        ((std_get 1 q3).asInt - (std_get 1 q1).asInt) k, (std_get 1 q1).asInt + (k : Int)))
    (flag : Bool)
    (hflag : flag = decide (((std_get 0 q2).asInt - (std_get 0 q1).asInt)
              * ((std_get 1 q3).asInt - (std_get 1 q1).asInt)
            < ((std_get 0 q3).asInt - (std_get 0 q1).asInt)
              * ((std_get 1 q2).asInt - (std_get 1 q1).asInt))) :
    (∀ k : Nat, k < Int.toNat ((std_get 1 q2).asInt - (std_get 1 q1).asInt) →
      Canvas._DrawHLine.EndsIn Q (Canvas._DrawFilledTriangle.spanArgs flag
        (operator_increment^[k] (GoToBegin 1 (LinearInterpolationIterator.ctor 1 q1 q2 u)))
        (operator_increment^[k] (GoToBegin 1 (LinearInterpolationIterator.ctor 1 q1 q3 u))))) ∧
    (∀ j : Nat, j < Int.toNat ((std_get 1 q3).asInt - (std_get 1 q2).asInt) + 1 →
      Canvas._DrawHLine.EndsIn Q (Canvas._DrawFilledTriangle.spanArgs flag
        (operator_increment^[j] (GoToBegin 1 (LinearInterpolationIterator.ctor 1 q2 q3 u)))
        (operator_increment^[Int.toNat ((std_get 1 q2).asInt - (std_get 1 q1).asInt) + j]
          (GoToBegin 1 (LinearInterpolationIterator.ctor 1 q1 q3 u))))) := by
  constructor
  · intro k hk
    obtain ⟨sx, sy, -⟩ := edge_point T q1 q2 hq1 hq2 u (by omega) k (by omega)
    obtain ⟨lx, ly, -⟩ := edge_point T q1 q3 hq1 hq3 u (by omega) k (by omega)
    have q12 := hE12 k (by omega)
    have q13 := hE13 k (by omega)
    by_cases hC : ((std_get 0 q2).asInt - (std_get 0 q1).asInt)
              * ((std_get 1 q3).asInt - (std_get 1 q1).asInt)
            < ((std_get 0 q3).asInt - (std_get 0 q1).asInt)
              * ((std_get 1 q2).asInt - (std_get 1 q1).asInt)
    · have hf : flag = true := by rw [hflag]; exact decide_eq_true hC
      subst hf
      unfold Canvas._DrawHLine.EndsIn Canvas._DrawFilledTriangle.spanArgs
      rw [if_pos rfl]
      dsimp only
      rw [sx, sy, lx]
      exact ⟨row_bottom_short_left _ _ _ _ _ k (by omega) (by omega) hC, q12, q13⟩
    · have hf : flag = false := by rw [hflag]; exact decide_eq_false hC
      subst hf
      unfold Canvas._DrawHLine.EndsIn Canvas._DrawFilledTriangle.spanArgs
      rw [if_neg (by decide)]
      dsimp only
      rw [sx, ly, lx]
      exact ⟨row_bottom_short_right _ _ _ _ _ k (by omega) (by omega) hC, q13, q12⟩
  · intro j hj
    obtain ⟨sx, sy, -⟩ := edge_point T q2 q3 hq2 hq3 u (by omega) j (by omega)
    obtain ⟨lx, ly, -⟩ := edge_point T q1 q3 hq1 hq3 u (by omega)
      (Int.toNat ((std_get 1 q2).asInt - (std_get 1 q1).asInt) + j) (by push_cast; omega)
    have q23 := hE23 j (by omega)
    have q13 := hE13 (Int.toNat ((std_get 1 q2).asInt - (std_get 1 q1).asInt) + j)
      (by push_cast; omega)
    have erow : (std_get 1 q1).asInt
        + ((Int.toNat ((std_get 1 q2).asInt - (std_get 1 q1).asInt) + j : Nat) : Int)
        = (std_get 1 q2).asInt + (j : Int) := by push_cast; omega
    rw [erow] at q13 ly
    by_cases hC : ((std_get 0 q2).asInt - (std_get 0 q1).asInt)
              * ((std_get 1 q3).asInt - (std_get 1 q1).asInt)
            < ((std_get 0 q3).asInt - (std_get 0 q1).asInt)
              * ((std_get 1 q2).asInt - (std_get 1 q1).asInt)
    · have hf : flag = true := by rw [hflag]; exact decide_eq_true hC
      subst hf
      unfold Canvas._DrawHLine.EndsIn Canvas._DrawFilledTriangle.spanArgs
      rw [if_pos rfl]
      dsimp only
      rw [sx, sy, lx]
      exact ⟨row_top_short_left _ _ _ ((std_get 1 q2).asInt - (std_get 1 q1).asInt) _ _ j _
        (by omega) (by omega) (by omega) (by omega) (by push_cast; omega) hC, q23, q13⟩
    · have hf : flag = false := by rw [hflag]; exact decide_eq_false hC
      subst hf
      unfold Canvas._DrawHLine.EndsIn Canvas._DrawFilledTriangle.spanArgs
      rw [if_neg (by decide)]
      dsimp only
      rw [sx, ly, lx]
      exact ⟨row_top_short_right _ _ _ ((std_get 1 q2).asInt - (std_get 1 q1).asInt) _ _ j _
        (by omega) (by omega) (by omega) (by omega) (by push_cast; omega) hC, q13, q23⟩

end Graphics

namespace Graphics

open Geometry Geometry.LinearInterpolationIterator

/-- Every span of a filled triangle runs left to right, and its first and its last
pixel are pixels of lines between vertices of the triangle. -/
theorem Canvas._DrawFilledTriangle.spans_endsIn (T : List Bool) (a b c : PointType)
    (ha : IsTPoint T a) (hb : IsTPoint T b) (hc : IsTPoint T c) (u : Indeterminate)
    (Q : Int × Int → Prop)
    (hQ : ∀ p ∈ [a, b, c], ∀ q ∈ [a, b, c], ∀ z ∈ Canvas.DrawLine.positions p q, Q z) :
    ∀ s ∈ Canvas._DrawFilledTriangle.spans u a b c, Canvas._DrawHLine.EndsIn Q s := by
  -- vertices and edge points satisfy `Q`
  have hV : ∀ v ∈ [a, b, c], Q ((std_get 0 v).asInt, (std_get 1 v).asInt) := by
    intro v hv
    exact hQ v hv v hv _ (Canvas.DrawLine.endpoints_mem_pixels _ _ _ _).1
  have hE : ∀ p ∈ [a, b, c], ∀ q ∈ [a, b, c], ∀ k : Nat,
      (k : Int) ≤ (std_get 1 q).asInt - (std_get 1 p).asInt →
      Q (roundedPosition (std_get 0 p).asInt ((std_get 0 q).asInt - (std_get 0 p).asInt)
        ((std_get 1 q).asInt - (std_get 1 p).asInt) k, (std_get 1 p).asInt + (k : Int)) := by
    intro p hp q hq k hk
    exact hQ p hp q hq _ (Canvas.DrawLine.edge_mem_pixels _ _ _ _ k (by omega) hk)
  -- the sort by `y`
  obtain ⟨hq1, hq2, hq3⟩ := Canvas._Sort3PointsInDirection_pred 1 a b c (IsTPoint T) ha hb hc
  obtain ⟨hs12, hs23⟩ := Canvas._Sort3PointsInDirection_sorted 1 a b c
  have hmem := Canvas._Sort3PointsInDirection_mem 1 a b c
  rcases hS : Canvas._Sort3PointsInDirection 1 (a, b, c) with ⟨q1, q2, q3⟩
  rw [hS] at hq1 hq2 hq3 hs12 hs23 hmem
  dsimp only at hq1 hq2 hq3 hs12 hs23 hmem
  have m1 : q1 ∈ [a, b, c] := (hmem q1).1 (by simp)
  have m2 : q2 ∈ [a, b, c] := (hmem q2).1 (by simp)
  have m3 : q3 ∈ [a, b, c] := (hmem q3).1 (by simp)
  by_cases hflat : (std_get 1 q1).asInt = (std_get 1 q3).asInt
  · -- flat: the sort by `x`
    obtain ⟨hy1, hy2, hy3⟩ := Canvas._Sort3PointsInDirection_pred 0 q1 q2 q3
      (fun p => (std_get 1 p).asInt = (std_get 1 q1).asInt) rfl (by omega) (by omega)
    obtain ⟨hx12, hx23⟩ := Canvas._Sort3PointsInDirection_sorted 0 q1 q2 q3
    have hmem0 := Canvas._Sort3PointsInDirection_mem 0 q1 q2 q3
    have hspans : Canvas._DrawFilledTriangle.spans u a b c
        = if (std_get 0 (Canvas._Sort3PointsInDirection 0 (q1, q2, q3)).1).asInt
            = (std_get 0 (Canvas._Sort3PointsInDirection 0 (q1, q2, q3)).2.2).asInt then
            [((Canvas._Sort3PointsInDirection 2
                (Canvas._Sort3PointsInDirection 0 (q1, q2, q3))).2.2,
              (Canvas._Sort3PointsInDirection 2
                (Canvas._Sort3PointsInDirection 0 (q1, q2, q3))).2.2)]
          else if (std_get 2 (Canvas._Sort3PointsInDirection 0 (q1, q2, q3)).1).asInt
              + Int.tdiv (((std_get 2 (Canvas._Sort3PointsInDirection 0 (q1, q2, q3)).2.2).asInt
                  - (std_get 2 (Canvas._Sort3PointsInDirection 0 (q1, q2, q3)).1).asInt)
                * ((std_get 0 (Canvas._Sort3PointsInDirection 0 (q1, q2, q3)).2.1).asInt
                  - (std_get 0 (Canvas._Sort3PointsInDirection 0 (q1, q2, q3)).1).asInt))
                ((std_get 0 (Canvas._Sort3PointsInDirection 0 (q1, q2, q3)).2.2).asInt
                  - (std_get 0 (Canvas._Sort3PointsInDirection 0 (q1, q2, q3)).1).asInt)
              ≥ (std_get 2 (Canvas._Sort3PointsInDirection 0 (q1, q2, q3)).2.1).asInt then
            [((Canvas._Sort3PointsInDirection 0 (q1, q2, q3)).1,
              (Canvas._Sort3PointsInDirection 0 (q1, q2, q3)).2.2)]
          else
            [((Canvas._Sort3PointsInDirection 0 (q1, q2, q3)).1,
              (Canvas._Sort3PointsInDirection 0 (q1, q2, q3)).2.1),
             ((Canvas._Sort3PointsInDirection 0 (q1, q2, q3)).2.1,
              (Canvas._Sort3PointsInDirection 0 (q1, q2, q3)).2.2)] := by
      unfold Canvas._DrawFilledTriangle.spans
      rw [hS]
      dsimp only
      rw [if_pos hflat]
    rw [hspans]
    rcases hS0 : Canvas._Sort3PointsInDirection 0 (q1, q2, q3) with ⟨r1, r2, r3⟩
    rw [hS0] at hy1 hy2 hy3 hx12 hx23 hmem0
    dsimp only at hy1 hy2 hy3 hx12 hx23 hmem0 ⊢
    have n1 : r1 ∈ [a, b, c] := (hmem r1).1 ((hmem0 r1).1 (by simp))
    have n2 : r2 ∈ [a, b, c] := (hmem r2).1 ((hmem0 r2).1 (by simp))
    have n3 : r3 ∈ [a, b, c] := (hmem r3).1 ((hmem0 r3).1 (by simp))
    have v1 := hV r1 n1
    have v2 := hV r2 n2
    have v3 := hV r3 n3
    split_ifs with hpoint hz
    · -- a single point
      have hmem2 := Canvas._Sort3PointsInDirection_mem 2 r1 r2 r3
      rcases hS2 : Canvas._Sort3PointsInDirection 2 (r1, r2, r3) with ⟨d1, d2, d3⟩
      rw [hS2] at hmem2
      dsimp only at hmem2 ⊢
      have k3 : d3 ∈ [a, b, c] := by
        have h := (hmem2 d3).1 (by simp)
        simp only [List.mem_cons, List.mem_singleton, List.not_mem_nil, or_false] at h
        rcases h with rfl | rfl | rfl <;> assumption
      intro s hs
      rw [List.mem_singleton] at hs
      subst hs
      exact ⟨le_rfl, hV d3 k3, hV d3 k3⟩
    · intro s hs
      rw [List.mem_singleton] at hs
      subst hs
      refine ⟨by dsimp only; omega, v1, ?_⟩
      dsimp only
      rw [hy1, ← hy3]
      exact v3
    · intro s hs
      simp only [List.mem_cons, List.mem_singleton, List.not_mem_nil, or_false] at hs
      rcases hs with rfl | rfl
      · refine ⟨hx12, v1, ?_⟩
        dsimp only
        rw [hy1, ← hy2]
        exact v2
      · refine ⟨hx23, v2, ?_⟩
        dsimp only
        rw [hy2, ← hy3]
        exact v3
  · -- general: the two edge loops
    rw [Canvas._DrawFilledTriangle.spans_general u a b c q1 q2 q3 hS hflat]
    obtain ⟨hbot, htop⟩ := Canvas._DrawFilledTriangle.spanArgs_endsIn T q1 q2 q3 hq1 hq2 hq3
      hs12 hs23 (by omega) u Q (hE q1 m1 q2 m2) (hE q2 m2 q3 m3) (hE q1 m1 q3 m3) _ rfl
    intro s hs
    rw [List.mem_append, List.mem_map, List.mem_map] at hs
    rcases hs with ⟨k, hk, rfl⟩ | ⟨j, hj, rfl⟩
    · exact hbot k (List.mem_range.mp hk)
    · exact htop j (List.mem_range.mp hj)

end Graphics

namespace Graphics

open Geometry Geometry.LinearInterpolationIterator

/-- The first and the last coordinate of a span that runs left to right. -/
theorem spanPositions_head_getLast (x1 x2 y : Int) (hx : x1 ≤ x2) :
    (spanPositions x1 x2 y).head? = some (x1, y) ∧
    (spanPositions x1 x2 y).getLast? = some (x2, y) := by
  unfold spanPositions
  constructor
  · rw [List.range_succ_eq_map]
    simp
  · rw [List.range_succ, List.map_append, List.map_singleton, List.getLast?_concat,
      Int.toNat_of_nonneg (by omega)]
    congr 2
    ring

/-- A line from a pixel to itself is that pixel. -/
theorem Canvas.DrawLine.pixels_self (x y : Int) : Canvas.DrawLine.pixels x y x y = [(x, y)] := by
  unfold Canvas.DrawLine.pixels Canvas.DrawLine.alongX
  rw [if_pos (by simp), if_neg (by simp)]
  have hr : List.range 1 = [0] := rfl
  simp only [sub_self, Int.toNat_zero, Nat.zero_add, hr, List.map_cons, List.map_nil,
    Nat.cast_zero, add_zero]
  rw [roundedPosition_zero _ _ _ le_rfl]

/-- The record after the loop-free `DrawLine` extends the record before it. -/
theorem Canvas.DrawLine.closedForm_line_calls_extend (u : Indeterminate) (t : TracedCanvas)
    (a b : PointType) (c : Color) :
    ∃ extra : List SetCall, (Canvas.DrawLine.closedForm u t a b c).calls = t.calls ++ extra := by
  have hU : ∀ (D : Nat) (p q : PointType),
      ∃ extra : List SetCall, (Canvas.DrawLine.unrolled D u t p q c).calls = t.calls ++ extra := by
    intro D p q
    unfold Canvas.DrawLine.unrolled
    apply TracedCanvas.foldl_rel (fun t t' => ∃ extra : List SetCall, t'.calls = t.calls ++ extra)
    · intro t; exact ⟨[], by simp⟩
    · rintro x y z ⟨e1, h1⟩ ⟨e2, h2⟩
      exact ⟨e1 ++ e2, by rw [h2, h1, List.append_assoc]⟩
    · intro t j _
      exact ⟨_, rfl⟩
  unfold Canvas.DrawLine.closedForm
  dsimp only
  split_ifs <;> exact hU _ _ _

/-- Termination of `DrawTriangle` and the pixels it writes: the three lines
`1-2`, `2-3`, `3-1`. -/
theorem Canvas.DrawTriangle_positions (T : List Bool) (a b c : PointType) (ha : IsTPoint T a)
    (hb : IsTPoint T b) (hc : IsTPoint T c) (u : Indeterminate) (fuel : Nat) (t : TracedCanvas)
    (col : Color) (hfuel : Canvas.extent a b c < (fuel : Int)) :
    ∃ (t' : TracedCanvas) (outline : List SetCall),
      Canvas.DrawTriangle u fuel t a b c col = .ok t' ∧
      t'.calls = t.calls ++ outline ∧
      outline.map SetCall.position = Canvas.DrawLine.positions a b
        ++ Canvas.DrawLine.positions b c ++ Canvas.DrawLine.positions c a := by
  unfold Canvas.extent at hfuel
  have a1 := abs_nonneg ((std_get 0 a).asInt - (std_get 0 b).asInt)
  have a2 := abs_nonneg ((std_get 0 a).asInt - (std_get 0 c).asInt)
  have a3 := abs_nonneg ((std_get 0 b).asInt - (std_get 0 c).asInt)
  have a4 := abs_nonneg ((std_get 1 a).asInt - (std_get 1 b).asInt)
  have a5 := abs_nonneg ((std_get 1 a).asInt - (std_get 1 c).asInt)
  have a6 := abs_nonneg ((std_get 1 b).asInt - (std_get 1 c).asInt)
  have e1 := abs_sub_comm (std_get 0 a).asInt (std_get 0 b).asInt
  have e3 := abs_sub_comm (std_get 0 b).asInt (std_get 0 c).asInt
  have e4 := abs_sub_comm (std_get 1 a).asInt (std_get 1 b).asInt
  have e6 := abs_sub_comm (std_get 1 b).asInt (std_get 1 c).asInt
  have r1 := fun t => Canvas.DrawLine_eq_closedForm u fuel t a b col (by omega)
  have r2 := fun t => Canvas.DrawLine_eq_closedForm u fuel t b c col (by omega)
  have r3 := fun t => Canvas.DrawLine_eq_closedForm u fuel t c a col (by omega)
  obtain ⟨x1, hx1⟩ := Canvas.DrawLine.closedForm_line_calls_extend u t a b col
  obtain ⟨x2, hx2⟩ := Canvas.DrawLine.closedForm_line_calls_extend u
    (Canvas.DrawLine.closedForm u t a b col) b c col
  obtain ⟨x3, hx3⟩ := Canvas.DrawLine.closedForm_line_calls_extend u
    (Canvas.DrawLine.closedForm u (Canvas.DrawLine.closedForm u t a b col) b c col) c a col
  have p1 := Canvas.DrawLine.closedForm_positions T a b ha hb u t col
  have p2 := Canvas.DrawLine.closedForm_positions T b c hb hc u
    (Canvas.DrawLine.closedForm u t a b col) col
  have p3 := Canvas.DrawLine.closedForm_positions T c a hc ha u
    (Canvas.DrawLine.closedForm u (Canvas.DrawLine.closedForm u t a b col) b c col) col
  rw [hx1, List.map_append, List.append_cancel_left_eq] at p1
  rw [hx2, List.map_append, List.append_cancel_left_eq] at p2
  rw [hx3, List.map_append, List.append_cancel_left_eq] at p3
  refine ⟨Canvas.DrawLine.closedForm u (Canvas.DrawLine.closedForm u
    (Canvas.DrawLine.closedForm u t a b col) b c col) c a col, x1 ++ x2 ++ x3, ?_, ?_, ?_⟩
  · unfold Canvas.DrawTriangle
    rw [r1]
    dsimp only
    rw [r2]
    dsimp only
    rw [r3]
  · rw [hx3, hx2, hx1, List.append_assoc, List.append_assoc, List.append_assoc]
  · rw [List.map_append, List.map_append, p1, p2, p3]

end Graphics

namespace Graphics

open Geometry Geometry.LinearInterpolationIterator

/-- C17, counterexample: the triangle `(0, 0, 0)`, `(10, 1, 0)`, `(0, 2, 0)` on a
fresh `11 × 3` canvas.  `DrawFilledTriangle` fills the pixel `(0, 0)`, the row
`(0..10, 1)` and the pixel `(0, 2)`; the `DrawLine` from `(0, 0)` to `(10, 1)` of
`DrawTriangle` writes `(1, 0)` (and `(2..4, 0)`), which is not filled: the drawn
edges do not coincide with the boundary of the filled region. -/
theorem C17_fill_boundary_counterexample :
    ∃ (tf tl : TracedCanvas) (fill outline : List SetCall),
      Canvas.DrawFilledTriangle ⟨0, 0, 0⟩ 30
        ⟨Canvas.ctor 11 3 ⟨fun _ _ => ⟨1, 2, 3⟩, fun _ _ => 7, ⟨0, 0, fun _ _ => ⟨0, 0, 0⟩⟩,
          (0, 0, 1)⟩, []⟩
        [.int 0, .int 0, .int 0] [.int 10, .int 1, .int 0] [.int 0, .int 2, .int 0]
        ⟨255, 0, 0⟩ = .ok tf ∧
      tf.calls = [] ++ fill ∧
      Canvas.DrawTriangle ⟨0, 0, 0⟩ 30
        ⟨Canvas.ctor 11 3 ⟨fun _ _ => ⟨1, 2, 3⟩, fun _ _ => 7, ⟨0, 0, fun _ _ => ⟨0, 0, 0⟩⟩,
          (0, 0, 1)⟩, []⟩
        [.int 0, .int 0, .int 0] [.int 10, .int 1, .int 0] [.int 0, .int 2, .int 0]
        ⟨255, 0, 0⟩ = .ok tl ∧
      tl.calls = [] ++ outline ∧
      fill.map SetCall.position
        = [(0, 0), (0, 1), (1, 1), (2, 1), (3, 1), (4, 1), (5, 1), (6, 1), (7, 1), (8, 1),
            (9, 1), (10, 1), (0, 2)] ∧
      ((1, 0) : Int × Int) ∈ outline.map SetCall.position ∧
      ((1, 0) : Int × Int) ∉ fill.map SetCall.position := by
  obtain ⟨tl, outline, hl, hlc, hlp⟩ := Canvas.DrawTriangle_positions [true, true, true]
    [.int 0, .int 0, .int 0] [.int 10, .int 1, .int 0] [.int 0, .int 2, .int 0]
    (by decide) (by decide) (by decide) ⟨0, 0, 0⟩ 30
    ⟨Canvas.ctor 11 3 ⟨fun _ _ => ⟨1, 2, 3⟩, fun _ _ => 7, ⟨0, 0, fun _ _ => ⟨0, 0, 0⟩⟩,
      (0, 0, 1)⟩, []⟩ ⟨255, 0, 0⟩ (by decide)
  obtain ⟨fill, hfc⟩ := Canvas._DrawFilledTriangle.closedForm_calls_extend ⟨0, 0, 0⟩
    ⟨Canvas.ctor 11 3 ⟨fun _ _ => ⟨1, 2, 3⟩, fun _ _ => 7, ⟨0, 0, fun _ _ => ⟨0, 0, 0⟩⟩,
      (0, 0, 1)⟩, []⟩
    [.int 0, .int 0, .int 0] [.int 10, .int 1, .int 0] [.int 0, .int 2, .int 0]
    (fun _ _ => ⟨255, 0, 0⟩)
  have hfp := Canvas._DrawHLine.foldl_unrolled_positions ⟨0, 0, 0⟩ (fun _ _ => ⟨255, 0, 0⟩)
    (Canvas._DrawFilledTriangle.spans ⟨0, 0, 0⟩ [.int 0, .int 0, .int 0]
      [.int 10, .int 1, .int 0] [.int 0, .int 2, .int 0])
    ⟨Canvas.ctor 11 3 ⟨fun _ _ => ⟨1, 2, 3⟩, fun _ _ => 7, ⟨0, 0, fun _ _ => ⟨0, 0, 0⟩⟩,
      (0, 0, 1)⟩, []⟩
  rw [← Canvas._DrawFilledTriangle.closedForm_eq_foldl, hfc, List.map_append,
    List.append_cancel_left_eq] at hfp
  have hfill : fill.map SetCall.position
      = [(0, 0), (0, 1), (1, 1), (2, 1), (3, 1), (4, 1), (5, 1), (6, 1), (7, 1), (8, 1),
          (9, 1), (10, 1), (0, 2)] := by
    rw [hfp]
    decide
  refine ⟨_, tl, fill, outline, Canvas._DrawFilledTriangle_eq_closedForm [true, true, true]
    [.int 0, .int 0, .int 0] [.int 10, .int 1, .int 0] [.int 0, .int 2, .int 0]
    (by decide) (by decide) (by decide) ⟨0, 0, 0⟩ 30 (fun _ _ => ⟨255, 0, 0⟩) _ (by decide),
    hfc, hl, hlc, hfill, ?_, ?_⟩
  · rw [hlp]
    decide
  · rw [hfill]
    decide

/-- C17, amended: the spans of the fill end on the outline.  For every triangle
with integer vertices, `DrawFilledTriangle` and `DrawTriangle` (the three
`DrawLine` calls on the same vertices) both return; the pixels of the fill are the
spans of the triangle one after the other, and the first and the last pixel of
every span is a pixel coordinate that `DrawTriangle` also writes.  The converse is
not claimed: `DrawTriangle` can write pixels that are not filled. -/
theorem C17_span_ends_on_outline (T : List Bool) (i_pt1 i_pt2 i_pt3 : PointType)
    (h1 : IsTPoint T i_pt1) (h2 : IsTPoint T i_pt2) (h3 : IsTPoint T i_pt3)
    (u : Indeterminate) (fuel : Nat) (t t0 : TracedCanvas) (i_color : Color)
    (hfuel : Canvas.extent i_pt1 i_pt2 i_pt3 < (fuel : Int)) :
    ∃ (tf tl : TracedCanvas) (fill outline : List SetCall),
      Canvas.DrawFilledTriangle u fuel t i_pt1 i_pt2 i_pt3 i_color = .ok tf ∧
      tf.calls = t.calls ++ fill ∧
      Canvas.DrawTriangle u fuel t0 i_pt1 i_pt2 i_pt3 i_color = .ok tl ∧
      tl.calls = t0.calls ++ outline ∧
      fill.map SetCall.position
        = (Canvas._DrawFilledTriangle.spans u i_pt1 i_pt2 i_pt3).flatMap
            Canvas._DrawHLine.positions ∧
      ∀ s ∈ Canvas._DrawFilledTriangle.spans u i_pt1 i_pt2 i_pt3,
        ∃ first last : Int × Int,
          (Canvas._DrawHLine.positions s).head? = some first ∧
          (Canvas._DrawHLine.positions s).getLast? = some last ∧
          first ∈ outline.map SetCall.position ∧
          last ∈ outline.map SetCall.position := by
  obtain ⟨tl, outline, hl, hlc, hlp⟩ := Canvas.DrawTriangle_positions T i_pt1 i_pt2 i_pt3 h1 h2
    h3 u fuel t0 i_color hfuel
  obtain ⟨fill, hfc⟩ := Canvas._DrawFilledTriangle.closedForm_calls_extend u t i_pt1 i_pt2
    i_pt3 (fun _ _ => i_color)
  have hfp := Canvas._DrawHLine.foldl_unrolled_positions u (fun _ _ => i_color)
    (Canvas._DrawFilledTriangle.spans u i_pt1 i_pt2 i_pt3) t
  rw [← Canvas._DrawFilledTriangle.closedForm_eq_foldl, hfc, List.map_append,
    List.append_cancel_left_eq] at hfp
  refine ⟨_, tl, fill, outline, Canvas._DrawFilledTriangle_eq_closedForm T i_pt1 i_pt2 i_pt3 h1
    h2 h3 u fuel (fun _ _ => i_color) t hfuel, hfc, hl, hlc, hfp, ?_⟩
  -- the lines between any two vertices are part of the outline
  have hQ : ∀ p ∈ [i_pt1, i_pt2, i_pt3], ∀ q ∈ [i_pt1, i_pt2, i_pt3],
      ∀ z ∈ Canvas.DrawLine.positions p q, z ∈ outline.map SetCall.position := by
    have hcomm : ∀ p q : PointType,
        Canvas.DrawLine.positions p q = Canvas.DrawLine.positions q p := by
      intro p q
      unfold Canvas.DrawLine.positions
      exact Canvas.DrawLine.pixels_comm _ _ _ _
    have hself : ∀ (p q : PointType), ∀ z ∈ Canvas.DrawLine.positions p p,
        z ∈ Canvas.DrawLine.positions p q := by
      intro p q z hz
      unfold Canvas.DrawLine.positions at hz ⊢
      rw [Canvas.DrawLine.pixels_self, List.mem_singleton] at hz
      rw [hz]
      exact (Canvas.DrawLine.endpoints_mem_pixels _ _ _ _).1
    have m12 : ∀ z ∈ Canvas.DrawLine.positions i_pt1 i_pt2,
        z ∈ outline.map SetCall.position := by
      intro z hz
      rw [hlp]
      exact List.mem_append_left _ (List.mem_append_left _ hz)
    have m23 : ∀ z ∈ Canvas.DrawLine.positions i_pt2 i_pt3,
        z ∈ outline.map SetCall.position := by
      intro z hz
      rw [hlp]
      exact List.mem_append_left _ (List.mem_append_right _ hz)
    have m31 : ∀ z ∈ Canvas.DrawLine.positions i_pt3 i_pt1,
        z ∈ outline.map SetCall.position := by
      intro z hz
      rw [hlp]
      exact List.mem_append_right _ hz
    intro p hp q hq z hz
    simp only [List.mem_cons, List.mem_singleton, List.not_mem_nil, or_false] at hp hq
    rcases hp with rfl | rfl | rfl <;> rcases hq with rfl | rfl | rfl
    · exact m12 z (hself _ _ z hz)
    · exact m12 z hz
    · exact m31 z (by rw [hcomm]; exact hz)
    · exact m12 z (by rw [hcomm]; exact hz)
    · exact m23 z (hself _ _ z hz)
    · exact m23 z hz
    · exact m31 z hz
    · exact m23 z (by rw [hcomm]; exact hz)
    · exact m31 z (hself _ _ z hz)
  intro s hs
  obtain ⟨hx, hfirst, hlast⟩ := Canvas._DrawFilledTriangle.spans_endsIn T i_pt1 i_pt2 i_pt3
    h1 h2 h3 u (fun z => z ∈ outline.map SetCall.position) hQ s hs
  obtain ⟨e1, e2⟩ := spanPositions_head_getLast (std_get 0 s.1).asInt (std_get 0 s.2).asInt
    (std_get 1 s.1).asInt hx
  exact ⟨_, _, e1, e2, hfirst, hlast⟩

theorem C17_span_ends_on_outline_witness :
    ∃ (tf tl : TracedCanvas) (fill outline : List SetCall),
      Canvas.DrawFilledTriangle ⟨0, 0, 0⟩ 13 ⟨sampleCanvas, []⟩ [.int 0, .int 0, .int 1]
        [.int 3, .int 1, .int 1] [.int 1, .int 3, .int 1] ⟨255, 0, 0⟩ = .ok tf ∧
      tf.calls = [] ++ fill ∧
      Canvas.DrawTriangle ⟨0, 0, 0⟩ 13 ⟨sampleCanvas, []⟩ [.int 0, .int 0, .int 1]
        [.int 3, .int 1, .int 1] [.int 1, .int 3, .int 1] ⟨255, 0, 0⟩ = .ok tl ∧
      tl.calls = [] ++ outline ∧
      fill.map SetCall.position
        = (Canvas._DrawFilledTriangle.spans ⟨0, 0, 0⟩ [.int 0, .int 0, .int 1]
            [.int 3, .int 1, .int 1] [.int 1, .int 3, .int 1]).flatMap
            Canvas._DrawHLine.positions ∧
      ∀ s ∈ Canvas._DrawFilledTriangle.spans ⟨0, 0, 0⟩ [.int 0, .int 0, .int 1]
          [.int 3, .int 1, .int 1] [.int 1, .int 3, .int 1],
        ∃ first last : Int × Int,
          (Canvas._DrawHLine.positions s).head? = some first ∧
          (Canvas._DrawHLine.positions s).getLast? = some last ∧
          first ∈ outline.map SetCall.position ∧
          last ∈ outline.map SetCall.position :=
  C17_span_ends_on_outline [true, true, true] [.int 0, .int 0, .int 1]
    [.int 3, .int 1, .int 1] [.int 1, .int 3, .int 1] (by decide) (by decide) (by decide) ⟨0, 0, 0⟩ 13
    ⟨sampleCanvas, []⟩ ⟨sampleCanvas, []⟩ ⟨255, 0, 0⟩ (by decide)

end Graphics

/-! # Sorting, tuples, the depth buffer and the spans of a triangle -/

/-! ## `_Sort3PointsInDirection` -/

namespace Graphics

open Geometry Geometry.LinearInterpolationIterator

/-- The three outputs of `_Sort3PointsInDirection` are the three inputs, each taken
once. -/
theorem Canvas._Sort3PointsInDirection_perm (N : Nat) (a b c : PointType) :
    [(Canvas._Sort3PointsInDirection N (a, b, c)).1,
      (Canvas._Sort3PointsInDirection N (a, b, c)).2.1,
      (Canvas._Sort3PointsInDirection N (a, b, c)).2.2].Perm [a, b, c] := by
  rcases Canvas._Sort3PointsInDirection_cases N a b c with h | h | h | h | h | h <;>
    rw [h.1]
  · exact List.Perm.cons a (List.Perm.swap b c [])
  · exact List.Perm.swap a b [c]
  · exact (List.Perm.cons b (List.Perm.swap a c [])).trans (List.Perm.swap a b [c])
  · exact (List.Perm.swap a c [b]).trans (List.Perm.cons a (List.Perm.swap b c []))
  · exact ((List.Perm.cons c (List.Perm.swap a b [])).trans (List.Perm.swap a c [b])).trans
      (List.Perm.cons a (List.Perm.swap b c []))

/-- C21: `_Sort3PointsInDirection<K>` sorts ascending.  For every three points the
three outputs are a permutation of the three inputs, and their `K`-th coordinates
are non-decreasing. -/
theorem C21_Sort3_sorts_ascending (K : Nat) (ip_pt1 ip_pt2 ip_pt3 : PointType) :
    [(Canvas._Sort3PointsInDirection K (ip_pt1, ip_pt2, ip_pt3)).1,
      (Canvas._Sort3PointsInDirection K (ip_pt1, ip_pt2, ip_pt3)).2.1,
      (Canvas._Sort3PointsInDirection K (ip_pt1, ip_pt2, ip_pt3)).2.2].Perm
        [ip_pt1, ip_pt2, ip_pt3] ∧
    (std_get K (Canvas._Sort3PointsInDirection K (ip_pt1, ip_pt2, ip_pt3)).1).asInt
      ≤ (std_get K (Canvas._Sort3PointsInDirection K (ip_pt1, ip_pt2, ip_pt3)).2.1).asInt ∧
    (std_get K (Canvas._Sort3PointsInDirection K (ip_pt1, ip_pt2, ip_pt3)).2.1).asInt
      ≤ (std_get K (Canvas._Sort3PointsInDirection K (ip_pt1, ip_pt2, ip_pt3)).2.2).asInt :=
  ⟨Canvas._Sort3PointsInDirection_perm K ip_pt1 ip_pt2 ip_pt3,
    Canvas._Sort3PointsInDirection_sorted K ip_pt1 ip_pt2 ip_pt3⟩

/-- The ordered pairs of a list of three. -/
theorem pair_sublist_three {α : Type} (p q a b c : α) (h : [p, q].Sublist [a, b, c]) :
    (p = a ∧ q = b) ∨ (p = a ∧ q = c) ∨ (p = b ∧ q = c) := by
  simp only [List.cons_sublist_iff, List.sublist_cons_iff] at h
  simp at h
  aesop

/-- C22 as stated fails: sorting `(0,1)`, `(5,1)`, `(9,0)` by channel `1` gives
`(9,0)`, `(5,1)`, `(0,1)`: the first two inputs have the same key and come out in
the opposite order. -/
theorem C22_Sort3_stable_counterexample :
    Canvas._Sort3PointsInDirection 1 ([.int 0, .int 1], [.int 5, .int 1], [.int 9, .int 0])
      = ([.int 9, .int 0], [.int 5, .int 1], [.int 0, .int 1]) ∧
    [[Scalar.int 0, .int 1], [.int 5, .int 1]].Sublist
      [[.int 0, .int 1], [.int 5, .int 1], [.int 9, .int 0]] ∧
    (std_get 1 [.int 0, .int 1]).asInt = (std_get 1 [.int 5, .int 1]).asInt ∧
    ¬ [[Scalar.int 0, .int 1], [.int 5, .int 1]].Sublist
      [(Canvas._Sort3PointsInDirection 1
          ([.int 0, .int 1], [.int 5, .int 1], [.int 9, .int 0])).1,
        (Canvas._Sort3PointsInDirection 1
          ([.int 0, .int 1], [.int 5, .int 1], [.int 9, .int 0])).2.1,
        (Canvas._Sort3PointsInDirection 1
          ([.int 0, .int 1], [.int 5, .int 1], [.int 9, .int 0])).2.2] := by
  decide

end Graphics

namespace Graphics

open Geometry Geometry.LinearInterpolationIterator

/-- C22, amended: `_Sort3PointsInDirection<K>` keeps the relative order of two
points with equal `K`-th coordinate, except when the first two inputs have equal
`K`-th coordinate and the third input has a strictly smaller one: then the output
is `(p3, p2, p1)`, with the first two exchanged. -/
theorem C22_Sort3_stable_unless (K : Nat) (ip_pt1 ip_pt2 ip_pt3 : PointType) :
    (¬ ((std_get K ip_pt1).asInt = (std_get K ip_pt2).asInt
        ∧ (std_get K ip_pt3).asInt < (std_get K ip_pt1).asInt) →
      ∀ p q : PointType, [p, q].Sublist [ip_pt1, ip_pt2, ip_pt3] →
        (std_get K p).asInt = (std_get K q).asInt →
        [p, q].Sublist
          [(Canvas._Sort3PointsInDirection K (ip_pt1, ip_pt2, ip_pt3)).1,
            (Canvas._Sort3PointsInDirection K (ip_pt1, ip_pt2, ip_pt3)).2.1,
            (Canvas._Sort3PointsInDirection K (ip_pt1, ip_pt2, ip_pt3)).2.2]) ∧
    ((std_get K ip_pt1).asInt = (std_get K ip_pt2).asInt
        ∧ (std_get K ip_pt3).asInt < (std_get K ip_pt1).asInt →
      Canvas._Sort3PointsInDirection K (ip_pt1, ip_pt2, ip_pt3) = (ip_pt3, ip_pt2, ip_pt1)) := by
  constructor
  swap
  · rintro ⟨h1, h2⟩
    rcases Canvas._Sort3PointsInDirection_cases K ip_pt1 ip_pt2 ip_pt3 with
      h | h | h | h | h | h
    · omega
    · omega
    · omega
    · omega
    · omega
    · exact h.1
  intro hne p q hpq hk
  have s12 : ∀ x y z : PointType, [x, y].Sublist [x, y, z] := fun x y z =>
    List.Sublist.cons₂ x (List.Sublist.cons₂ y (List.nil_sublist _))
  have s13 : ∀ x y z : PointType, [x, z].Sublist [x, y, z] := fun x y z =>
    List.Sublist.cons₂ x (List.Sublist.cons y (List.Sublist.refl _))
  have s23 : ∀ x y z : PointType, [y, z].Sublist [x, y, z] := fun x y z =>
    List.Sublist.cons x (List.Sublist.refl _)
  rcases pair_sublist_three p q ip_pt1 ip_pt2 ip_pt3 hpq with ⟨rfl, rfl⟩ | ⟨rfl, rfl⟩ | ⟨rfl, rfl⟩
  · rcases Canvas._Sort3PointsInDirection_cases K p q ip_pt3 with h | h | h | h | h | h <;>
      rw [h.1]
    · exact s12 _ _ _
    · exact s13 _ _ _
    · omega
    · omega
    · omega
    · exact absurd ⟨hk, by omega⟩ hne
  · rcases Canvas._Sort3PointsInDirection_cases K p ip_pt2 q with h | h | h | h | h | h <;>
      rw [h.1]
    · exact s13 _ _ _
    · exact s12 _ _ _
    · exact s23 _ _ _
    · omega
    · omega
    · omega
  · rcases Canvas._Sort3PointsInDirection_cases K ip_pt1 p q with h | h | h | h | h | h <;>
      rw [h.1]
    · exact s23 _ _ _
    · omega
    · exact s13 _ _ _
    · exact s12 _ _ _
    · omega
    · omega

theorem C22_Sort3_stable_unless_witness :
    [[Scalar.int 0, .int 1], [.int 9, .int 1]].Sublist
      [(Canvas._Sort3PointsInDirection 1
          ([.int 0, .int 1], [.int 5, .int 0], [.int 9, .int 1])).1,
        (Canvas._Sort3PointsInDirection 1
          ([.int 0, .int 1], [.int 5, .int 0], [.int 9, .int 1])).2.1,
        (Canvas._Sort3PointsInDirection 1
          ([.int 0, .int 1], [.int 5, .int 0], [.int 9, .int 1])).2.2] ∧
    Canvas._Sort3PointsInDirection 1 ([.int 0, .int 1], [.int 5, .int 1], [.int 9, .int 0])
      = ([.int 9, .int 0], [.int 5, .int 1], [.int 0, .int 1]) :=
  ⟨(C22_Sort3_stable_unless 1 [.int 0, .int 1] [.int 5, .int 0] [.int 9, .int 1]).1
      (by decide) [.int 0, .int 1] [.int 9, .int 1] (by decide) (by decide),
    (C22_Sort3_stable_unless 1 [.int 0, .int 1] [.int 5, .int 1] [.int 9, .int 0]).2
      (by decide)⟩

end Graphics

namespace std

open Geometry

/-- C28: `std::RemoveItem<N>` projects out exactly channel `N`.  For a point `t` of
size `S` and `N < S` the result has size `S - 1`, with `result[i] = t[i]` for
`i < N` and `result[i] = t[i + 1]` for `N ≤ i < S - 1`: the remaining channels
keep their order (the result is `t` with its `N`-th element erased). -/
theorem C28_RemoveItem_projects_out (N : Nat) (i_tuple : PointType)
    (hN : N < i_tuple.length) :
    (RemoveItem N i_tuple).length = i_tuple.length - 1 ∧
    (∀ i : Nat, i < N → std_get i (RemoveItem N i_tuple) = std_get i i_tuple) ∧
    (∀ i : Nat, N ≤ i → i < i_tuple.length - 1 →
      std_get i (RemoveItem N i_tuple) = std_get (i + 1) i_tuple) ∧
    RemoveItem N i_tuple = i_tuple.eraseIdx N := by
  have he := RemoveItem_eq_eraseIdx N i_tuple hN
  refine ⟨?_, ?_, ?_, he⟩
  · rw [he, List.length_eraseIdx, if_pos hN]
  · intro i hi
    rw [he]
    unfold std_get
    rw [List.getD_eq_getElem?_getD, List.getD_eq_getElem?_getD, List.getElem?_eraseIdx,
      if_pos hi]
  · intro i hi _
    rw [he]
    unfold std_get
    rw [List.getD_eq_getElem?_getD, List.getD_eq_getElem?_getD, List.getElem?_eraseIdx,
      if_neg (by omega)]

theorem C28_RemoveItem_projects_out_witness :
    (RemoveItem 1 [.int 3, .int 4, .int 5, .real 6]).length
      = [Scalar.int 3, .int 4, .int 5, .real 6].length - 1 ∧
    (∀ i : Nat, i < 1 → std_get i (RemoveItem 1 [.int 3, .int 4, .int 5, .real 6])
      = std_get i [.int 3, .int 4, .int 5, .real 6]) ∧
    (∀ i : Nat, 1 ≤ i → i < [Scalar.int 3, .int 4, .int 5, .real 6].length - 1 →
      std_get i (RemoveItem 1 [.int 3, .int 4, .int 5, .real 6])
        = std_get (i + 1) [.int 3, .int 4, .int 5, .real 6]) ∧
    RemoveItem 1 [.int 3, .int 4, .int 5, .real 6]
      = [Scalar.int 3, .int 4, .int 5, .real 6].eraseIdx 1 :=
  C28_RemoveItem_projects_out 1 [.int 3, .int 4, .int 5, .real 6] (by decide)

end std

/-! ## Floating-point across axes -/

namespace Geometry

namespace LinearInterpolationIterator

theorem Scalar.eq_real_of_not_isIntegral (s : Scalar) (h : s.isIntegral = false) :
    s = .real s.asReal := by
  cases s with
  | int v => cases h
  | real v => rfl

/-- `k` calls of `Increment` on a floating-point element add `k` times its delta. -/
theorem DTQualifier.Increment_iterate_floating (impl : _Impl) (s : _FloatingPointDirection)
    (k : Nat) :
    (fun x : DTQualifier => x.Increment impl)^[k] (.floating s)
      = .floating ⟨s.m_integral_part, s.m_position + k * s.m_integral_part⟩ := by
  induction k with
  | zero => simp
  | succ k ih =>
    rw [Function.iterate_succ_apply', ih]
    simp only [DTQualifier.Increment, _FloatingPointDirection.Increment]
    congr 2
    push_cast
    ring

/-- `GoToBegin` followed by `k` calls of `operator++`: the element of the across
tuple that belongs to a floating-point channel `i`, for a non-zero along delta. -/
theorem begin_increment_floating_axis (D : Nat) (pf pt : PointType) (u : Indeterminate)
    (hT : Instantiable D pf pt) (i : Nat) (hi : i < pf.length) (hiD : i ≠ D)
    (hreal : (std_get i pf).isIntegral = false)
    (hn : _Impl.GetAlongCoord D pt - _Impl.GetAlongCoord D pf ≠ 0) (k : Nat) :
    (operator_increment^[k] (GoToBegin D (ctor D pf pt u))).mp_impl.m_across_data[
        if D < i then i - 1 else i]?
      = some (.floating
          ⟨((std_get i pt).asReal - (std_get i pf).asReal)
              / ((_Impl.GetAlongCoord D pt - _Impl.GetAlongCoord D pf : Int) : ℚ),
            (std_get i pf).asReal + k * (((std_get i pt).asReal - (std_get i pf).asReal)
              / ((_Impl.GetAlongCoord D pt - _Impl.GetAlongCoord D pf : Int) : ℚ))⟩) := by
  obtain ⟨hST, hD, -⟩ := hT
  obtain ⟨-, -, -, -, -, h6, hA, h7⟩ := GoToBegin_ctor D pf pt u
  obtain ⟨-, -, -, -, -, -, g7⟩ :=
    increment_iterate_spec (GoToBegin D (ctor D pf pt u)) (h6.trans hA.symm) k
  have hj := across_index_lt D i pf.length hiD hi hD
  rw [g7, h7 _ hj, if_neg hn, _Impl.GetAcrossCoord_of_ne D i hiD,
    _Impl.GetAcrossCoord_of_ne D i hiD]
  have hreal2 : (std_get i pt).isIntegral = false := by
    rw [← SameTupleType.isIntegral_eq hST i]; exact hreal
  rw [Scalar.eq_real_of_not_isIntegral _ hreal, Scalar.eq_real_of_not_isIntegral _ hreal2]
  simp only [Option.map_some', DTQualifier.valueInit, DTQualifier.Initialise,
    DTQualifier.Reset, Scalar.asReal, _FloatingPointDirection.Initialise,
    _FloatingPointDirection.Reset]
  rw [DTQualifier.Increment_iterate_floating]

/-- C29: floating-point across axes carry only a constant delta.  With the axis
over exact rationals and `n = to[D] - from[D] ≠ 0`, the element of a
floating-point channel holds just the delta `(to - from) / n` and the position;
after `GoToBegin` and `k` calls of `operator++` the position is
`from + k * delta`; `operator--` subtracts the same delta, so one `--` exactly
undoes one `++`. -/
theorem C29_floating_axis_constant_delta (D : Nat) (pf pt : PointType) (u : Indeterminate)
    (hT : Instantiable D pf pt) (i : Nat) (hi : i < pf.length) (hiD : i ≠ D)
    (hreal : (std_get i pf).isIntegral = false)
    (hn : (std_get D pt).asInt - (std_get D pf).asInt ≠ 0) (k : Nat) :
    std_get_across (if D < i then i - 1 else i)
        (operator_increment^[k] (GoToBegin D (ctor D pf pt u))).mp_impl.m_across_data
      = .floating
          ⟨((std_get i pt).asReal - (std_get i pf).asReal)
              / (((std_get D pt).asInt - (std_get D pf).asInt : Int) : ℚ),
            (std_get i pf).asReal + k * (((std_get i pt).asReal - (std_get i pf).asReal)
              / (((std_get D pt).asInt - (std_get D pf).asInt : Int) : ℚ))⟩ ∧
    Get D i (operator_increment^[k] (GoToBegin D (ctor D pf pt u)))
      = .real ((std_get i pf).asReal + k * (((std_get i pt).asReal - (std_get i pf).asReal)
          / (((std_get D pt).asInt - (std_get D pf).asInt : Int) : ℚ))) ∧
    Get D i (operator_decrement (operator_increment^[k] (GoToBegin D (ctor D pf pt u))))
      = .real ((std_get i pf).asReal + k * (((std_get i pt).asReal - (std_get i pf).asReal)
          / (((std_get D pt).asInt - (std_get D pf).asInt : Int) : ℚ))
        - ((std_get i pt).asReal - (std_get i pf).asReal)
          / (((std_get D pt).asInt - (std_get D pf).asInt : Int) : ℚ)) ∧
    Get D i (operator_decrement (operator_increment
        (operator_increment^[k] (GoToBegin D (ctor D pf pt u)))))
      = Get D i (operator_increment^[k] (GoToBegin D (ctor D pf pt u))) := by
  have hn' : _Impl.GetAlongCoord D pt - _Impl.GetAlongCoord D pf ≠ 0 := hn
  have hj := across_index_lt D i pf.length hiD hi hT.2.1
  have hel := fun m : Nat => begin_increment_floating_axis D pf pt u hT i hi hiD hreal hn' m
  have hget : ∀ m : Nat, Get D i (operator_increment^[m] (GoToBegin D (ctor D pf pt u)))
      = .real ((std_get i pf).asReal + m * (((std_get i pt).asReal - (std_get i pf).asReal)
          / (((std_get D pt).asInt - (std_get D pf).asInt : Int) : ℚ))) := by
    intro m
    unfold Get
    rw [_Impl.Get_of_ne D i hiD]
    unfold std_get_across
    rw [List.getD_eq_getElem?_getD, hel m]
    rfl
  have hdec : ∀ m : Nat,
      Get D i (operator_decrement (operator_increment^[m] (GoToBegin D (ctor D pf pt u))))
      = .real ((std_get i pf).asReal + m * (((std_get i pt).asReal - (std_get i pf).asReal)
          / (((std_get D pt).asInt - (std_get D pf).asInt : Int) : ℚ))
        - ((std_get i pt).asReal - (std_get i pf).asReal)
          / (((std_get D pt).asInt - (std_get D pf).asInt : Int) : ℚ)) := by
    intro m
    obtain ⟨f1, -, -, -⟩ := begin_increment_fields D pf pt u m
    unfold Get operator_decrement
    rw [_Impl.Get_of_ne D i hiD]
    unfold std_get_across
    rw [List.getD_eq_getElem?_getD, _RecursiveImpl.Decrement_across,
      if_pos (by unfold AcrossDimension Dimension; rw [f1]; exact hj), hel m]
    rfl
  refine ⟨?_, hget k, hdec k, ?_⟩
  · unfold std_get_across
    rw [List.getD_eq_getElem?_getD, hel k]
    rfl
  · rw [← Function.iterate_succ_apply' operator_increment k, hdec (k + 1), hget k]
    congr 1
    push_cast
    ring

theorem C29_floating_axis_constant_delta_witness :
    std_get_across (if 0 < 2 then 2 - 1 else 2)
        (operator_increment^[3] (GoToBegin 0
          (ctor 0 [.int 0, .int 0, .real 1] [.int 4, .int 0, .real 2] ⟨0, 0, 0⟩))).mp_impl.m_across_data
      = .floating
          ⟨((std_get 2 [.int 4, .int 0, .real 2]).asReal
              - (std_get 2 [.int 0, .int 0, .real 1]).asReal)
              / (((std_get 0 [.int 4, .int 0, .real 2]).asInt
                - (std_get 0 [.int 0, .int 0, .real 1]).asInt : Int) : ℚ),
            (std_get 2 [.int 0, .int 0, .real 1]).asReal
              + (3 : Nat) * (((std_get 2 [.int 4, .int 0, .real 2]).asReal
                  - (std_get 2 [.int 0, .int 0, .real 1]).asReal)
                / (((std_get 0 [.int 4, .int 0, .real 2]).asInt
                  - (std_get 0 [.int 0, .int 0, .real 1]).asInt : Int) : ℚ))⟩ ∧
    Get 0 2 (operator_increment^[3] (GoToBegin 0
        (ctor 0 [.int 0, .int 0, .real 1] [.int 4, .int 0, .real 2] ⟨0, 0, 0⟩)))
      = .real ((std_get 2 [.int 0, .int 0, .real 1]).asReal
          + (3 : Nat) * (((std_get 2 [.int 4, .int 0, .real 2]).asReal
              - (std_get 2 [.int 0, .int 0, .real 1]).asReal)
            / (((std_get 0 [.int 4, .int 0, .real 2]).asInt
              - (std_get 0 [.int 0, .int 0, .real 1]).asInt : Int) : ℚ))) ∧
    Get 0 2 (operator_decrement (operator_increment^[3] (GoToBegin 0
        (ctor 0 [.int 0, .int 0, .real 1] [.int 4, .int 0, .real 2] ⟨0, 0, 0⟩))))
      = .real ((std_get 2 [.int 0, .int 0, .real 1]).asReal
          + (3 : Nat) * (((std_get 2 [.int 4, .int 0, .real 2]).asReal
              - (std_get 2 [.int 0, .int 0, .real 1]).asReal)
            / (((std_get 0 [.int 4, .int 0, .real 2]).asInt
              - (std_get 0 [.int 0, .int 0, .real 1]).asInt : Int) : ℚ))
        - ((std_get 2 [.int 4, .int 0, .real 2]).asReal
            - (std_get 2 [.int 0, .int 0, .real 1]).asReal)
          / (((std_get 0 [.int 4, .int 0, .real 2]).asInt
            - (std_get 0 [.int 0, .int 0, .real 1]).asInt : Int) : ℚ)) ∧
    Get 0 2 (operator_decrement (operator_increment
        (operator_increment^[3] (GoToBegin 0
          (ctor 0 [.int 0, .int 0, .real 1] [.int 4, .int 0, .real 2] ⟨0, 0, 0⟩)))))
      = Get 0 2 (operator_increment^[3] (GoToBegin 0
          (ctor 0 [.int 0, .int 0, .real 1] [.int 4, .int 0, .real 2] ⟨0, 0, 0⟩))) :=
  C29_floating_axis_constant_delta 0 [.int 0, .int 0, .real 1] [.int 4, .int 0, .real 2]
    ⟨0, 0, 0⟩ (by decide) 2 (by decide) (by decide) (by decide) (by decide) 3

end LinearInterpolationIterator

end Geometry

/-! ## The depth buffer over a sequence of `_Set` calls -/

namespace Graphics

theorem Image.Get_Set_other {TPixel : Type} (img : Image TPixel) (x y x' y' : Int) (c : TPixel)
    (h : ¬ (x' = x ∧ y' = y)) : (img.Set x y c).Get x' y' = img.Get x' y' := by
  simp [Image.Get, Image.Set, h]

/-- A `_Set` call addressed to another coordinate leaves a pixel as it is, and
`_Set` never changes the size of the buffers. -/
theorem Canvas._Set_other (cv : Canvas) (x y z : Int) (c : Color) (x' y' : Int)
    (h : ¬ (x' = x ∧ y' = y)) :
    (cv._Set x y z c).2.m_z_buffer.Get x' y' = cv.m_z_buffer.Get x' y' ∧
    (cv._Set x y z c).2.m_image.Get x' y' = cv.m_image.Get x' y' := by
  unfold Canvas._Set
  dsimp only
  split_ifs
  · exact ⟨rfl, rfl⟩
  · exact ⟨rfl, rfl⟩
  · exact ⟨Image.Get_Set_other _ _ _ _ _ _ h, Image.Get_Set_other _ _ _ _ _ _ h⟩

theorem Canvas._Set_size (cv : Canvas) (x y z : Int) (c : Color) :
    (cv._Set x y z c).2.m_image.width = cv.m_image.width ∧
    (cv._Set x y z c).2.m_image.height = cv.m_image.height := by
  unfold Canvas._Set
  dsimp only
  split_ifs <;> exact ⟨rfl, rfl⟩

/-- One `_Set` call on the pixel it addresses, when that pixel is in bounds: the
depth becomes the maximum of the stored depth and the new one, the call is
accepted exactly when the new depth is not smaller, and the color is replaced
exactly then. -/
theorem Canvas._Set_same (cv : Canvas) (x y z : Int) (c : Color)
    (hx0 : 0 ≤ x) (hx1 : x < cv.m_image.width) (hy0 : 0 ≤ y) (hy1 : y < cv.m_image.height) :
    (cv._Set x y z c).2.m_z_buffer.Get x y = max (cv.m_z_buffer.Get x y) z ∧
    ((cv._Set x y z c).1 = true ↔ cv.m_z_buffer.Get x y ≤ z) ∧
    (cv._Set x y z c).2.m_image.Get x y
      = if (cv._Set x y z c).1 then c else cv.m_image.Get x y := by
  rw [Canvas._Set_of_in_bounds cv x y z c hx0 hx1 hy0 hy1]
  by_cases hz : z < cv.m_z_buffer.Get x y
  · rw [if_pos hz]
    refine ⟨?_, ?_, ?_⟩
    · rw [max_eq_left hz.le]
    · constructor
      · intro h; cases h
      · intro h; omega
    · simp
  · rw [if_neg hz]
    refine ⟨?_, ?_, ?_⟩
    · rw [max_eq_right (not_lt.mp hz)]
      exact Image.Get_Set_same _ _ _ _
    · constructor
      · intro _; exact not_lt.mp hz
      · intro _; rfl
    · simp only [if_true]
      exact Image.Get_Set_same _ _ _ _

/-- The state of one in-bounds pixel after a sequence of `_Set` calls on any
canvas. -/
theorem Canvas._SetAll_pixel (calls : List SetCall) (cv : Canvas) (x y : Int)
    (hx0 : 0 ≤ x) (hx1 : x < cv.m_image.width) (hy0 : 0 ≤ y) (hy1 : y < cv.m_image.height) :
    (cv._SetAll calls).m_z_buffer.Get x y
      = ((calls.filter (fun c => decide (c.position = (x, y)))).map SetCall.i_z).foldl max
          (cv.m_z_buffer.Get x y) ∧
    (cv._SetAll calls).m_image.Get x y
      = ((((cv.acceptedOf calls).filter (fun c => decide (c.position = (x, y)))).getLast?).map
          SetCall.i_color).getD (cv.m_image.Get x y) := by
  induction calls generalizing cv with
  | nil => exact ⟨rfl, rfl⟩
  | cons c cs ih =>
    obtain ⟨cx, cy, cz, cc⟩ := c
    obtain ⟨hw, hh⟩ := Canvas._Set_size cv cx cy cz cc
    obtain ⟨ihz, ihc⟩ := ih (cv._Set cx cy cz cc).2 (by rw [hw]; exact hx1)
      (by rw [hh]; exact hy1)
    unfold Canvas._SetAll Canvas.acceptedOf
    dsimp only
    rw [ihz, ihc, List.filter_append, List.getLast?_append]
    by_cases hp : (cx, cy) = (x, y)
    · obtain ⟨rfl, rfl⟩ := Prod.mk.inj hp
      obtain ⟨s1, -, s3⟩ := Canvas._Set_same cv cx cy cz cc hx0 hx1 hy0 hy1
      constructor
      · rw [List.filter_cons_of_pos (by simp [SetCall.position]), List.map_cons,
          List.foldl_cons, s1]
      · rw [s3]
        cases hlast : (List.filter (fun c => decide (c.position = (cx, cy)))
            ((cv._Set cx cy cz cc).2.acceptedOf cs)).getLast? with
        | some v => simp
        | none =>
          by_cases hacc : (cv._Set cx cy cz cc).1 = true
          · simp [hacc, SetCall.position]
          · simp [hacc]
    · have hne : ¬ (x = cx ∧ y = cy) := by
        rintro ⟨rfl, rfl⟩
        exact hp rfl
      obtain ⟨o1, o2⟩ := Canvas._Set_other cv cx cy cz cc x y hne
      constructor
      · rw [List.filter_cons_of_neg (by simpa [SetCall.position] using hp), o1]
      · rw [o2]
        have hnil : List.filter (fun c : SetCall => decide (c.position = (x, y)))
            (if (cv._Set cx cy cz cc).1 = true then [(⟨cx, cy, cz, cc⟩ : SetCall)] else [])
            = [] := by
          split_ifs
          · rw [List.filter_cons_of_neg (by simpa [SetCall.position] using hp)]; rfl
          · rfl
        rw [hnil]
        simp

end Graphics

namespace Graphics

/-- No `_Set` call lowers the stored depth of any pixel. -/
theorem Canvas._Set_depth_mono (cv : Canvas) (x y z : Int) (c : Color) (x' y' : Int) :
    cv.m_z_buffer.Get x' y' ≤ (cv._Set x y z c).2.m_z_buffer.Get x' y' := by
  unfold Canvas._Set
  dsimp only
  split_ifs with h1 h2
  · exact le_rfl
  · exact le_rfl
  · dsimp only [Image.Get, Image.Set]
    split_ifs with h3
    · obtain ⟨rfl, rfl⟩ := h3
      exact not_lt.mp h2
    · exact le_rfl

theorem Canvas._SetAll_append (cv : Canvas) (l1 l2 : List SetCall) :
    cv._SetAll (l1 ++ l2) = (cv._SetAll l1)._SetAll l2 := by
  induction l1 generalizing cv with
  | nil => rfl
  | cons c cs ih =>
    show (cv._Set c.i_x c.i_y c.i_z c.i_color).2._SetAll (cs ++ l2)
      = ((cv._Set c.i_x c.i_y c.i_z c.i_color).2._SetAll cs)._SetAll l2
    exact ih _

/-- C30: depth-buffer invariant.  Starting from a fresh canvas, after any finite
sequence of `_Set` calls the depth stored at a pixel is the maximum of the initial
minimum `int` and the depths of all writes made to that pixel, the stored depth
never decreases from one call to the next, and the stored color is that of the
last accepted write to the pixel (black if there was none). -/
theorem C30_depth_buffer_invariant (i_w i_h : Nat) (u : CanvasIndeterminate)
    (calls : List SetCall) (x y : Int)
    (hx0 : 0 ≤ x) (hx1 : x < i_w) (hy0 : 0 ≤ y) (hy1 : y < i_h) :
    ((Canvas.ctor i_w i_h u)._SetAll calls).m_z_buffer.Get x y
      = ((calls.filter (fun c => decide (c.position = (x, y)))).map SetCall.i_z).foldl max
          INT_MIN ∧
    (∀ n : Nat, ((Canvas.ctor i_w i_h u)._SetAll (calls.take n)).m_z_buffer.Get x y
      ≤ ((Canvas.ctor i_w i_h u)._SetAll (calls.take (n + 1))).m_z_buffer.Get x y) ∧
    ((Canvas.ctor i_w i_h u)._SetAll calls).m_image.Get x y
      = (((((Canvas.ctor i_w i_h u).acceptedOf calls).filter
          (fun c => decide (c.position = (x, y)))).getLast?).map SetCall.i_color).getD
            ⟨0, 0, 0⟩ := by
  obtain ⟨hz, hc⟩ := Canvas._SetAll_pixel calls (Canvas.ctor i_w i_h u) x y hx0 hx1 hy0 hy1
  refine ⟨hz, ?_, hc⟩
  intro n
  rw [List.take_succ, Canvas._SetAll_append]
  cases calls[n]? with
  | none => exact le_rfl
  | some c => exact Canvas._Set_depth_mono _ _ _ _ _ _ _

theorem C30_depth_buffer_invariant_witness :
    ((Canvas.ctor 4 3 ⟨fun _ _ => ⟨1, 2, 3⟩, fun _ _ => 7, ⟨0, 0, fun _ _ => ⟨0, 0, 0⟩⟩,
        (0, 0, 1)⟩)._SetAll [⟨1, 2, 5, ⟨255, 0, 0⟩⟩, ⟨1, 2, 3, ⟨0, 255, 0⟩⟩,
          ⟨0, 0, 9, ⟨0, 0, 255⟩⟩]).m_z_buffer.Get 1 2
      = (([(⟨1, 2, 5, ⟨255, 0, 0⟩⟩ : SetCall), ⟨1, 2, 3, ⟨0, 255, 0⟩⟩,
          ⟨0, 0, 9, ⟨0, 0, 255⟩⟩].filter
          (fun c => decide (c.position = (1, 2)))).map SetCall.i_z).foldl max INT_MIN ∧
    (∀ n : Nat, ((Canvas.ctor 4 3 ⟨fun _ _ => ⟨1, 2, 3⟩, fun _ _ => 7,
        ⟨0, 0, fun _ _ => ⟨0, 0, 0⟩⟩, (0, 0, 1)⟩)._SetAll
          ([(⟨1, 2, 5, ⟨255, 0, 0⟩⟩ : SetCall), ⟨1, 2, 3, ⟨0, 255, 0⟩⟩,
            ⟨0, 0, 9, ⟨0, 0, 255⟩⟩].take n)).m_z_buffer.Get 1 2
      ≤ ((Canvas.ctor 4 3 ⟨fun _ _ => ⟨1, 2, 3⟩, fun _ _ => 7,
        ⟨0, 0, fun _ _ => ⟨0, 0, 0⟩⟩, (0, 0, 1)⟩)._SetAll
          ([(⟨1, 2, 5, ⟨255, 0, 0⟩⟩ : SetCall), ⟨1, 2, 3, ⟨0, 255, 0⟩⟩,
            ⟨0, 0, 9, ⟨0, 0, 255⟩⟩].take (n + 1))).m_z_buffer.Get 1 2) ∧
    ((Canvas.ctor 4 3 ⟨fun _ _ => ⟨1, 2, 3⟩, fun _ _ => 7, ⟨0, 0, fun _ _ => ⟨0, 0, 0⟩⟩,
        (0, 0, 1)⟩)._SetAll [⟨1, 2, 5, ⟨255, 0, 0⟩⟩, ⟨1, 2, 3, ⟨0, 255, 0⟩⟩,
          ⟨0, 0, 9, ⟨0, 0, 255⟩⟩]).m_image.Get 1 2
      = (((((Canvas.ctor 4 3 ⟨fun _ _ => ⟨1, 2, 3⟩, fun _ _ => 7,
          ⟨0, 0, fun _ _ => ⟨0, 0, 0⟩⟩, (0, 0, 1)⟩).acceptedOf
            [⟨1, 2, 5, ⟨255, 0, 0⟩⟩, ⟨1, 2, 3, ⟨0, 255, 0⟩⟩, ⟨0, 0, 9, ⟨0, 0, 255⟩⟩]).filter
          (fun c => decide (c.position = (1, 2)))).getLast?).map SetCall.i_color).getD
            ⟨0, 0, 0⟩ :=
  C30_depth_buffer_invariant 4 3 ⟨fun _ _ => ⟨1, 2, 3⟩, fun _ _ => 7,
    ⟨0, 0, fun _ _ => ⟨0, 0, 0⟩⟩, (0, 0, 1)⟩
    [⟨1, 2, 5, ⟨255, 0, 0⟩⟩, ⟨1, 2, 3, ⟨0, 255, 0⟩⟩, ⟨0, 0, 9, ⟨0, 0, 255⟩⟩] 1 2
    (by decide) (by decide) (by decide) (by decide)

end Graphics

namespace Graphics

open Geometry Geometry.LinearInterpolationIterator

/-! ## The spans of a triangle as `_DrawHLine` calls -/

/-- The spans of a flat triangle: `q1, q2, q3` are the vertices sorted by `y`, and
`r1, r2, r3` those sorted by `x`. -/
theorem Canvas._DrawFilledTriangle.spans_flat (u : Indeterminate)
    (a b c q1 q2 q3 r1 r2 r3 : PointType)
    (hS : Canvas._Sort3PointsInDirection 1 (a, b, c) = (q1, q2, q3))
    (hflat : (std_get 1 q1).asInt = (std_get 1 q3).asInt)
    (hS0 : Canvas._Sort3PointsInDirection 0 (q1, q2, q3) = (r1, r2, r3)) :
    Canvas._DrawFilledTriangle.spans u a b c
      = if (std_get 0 r1).asInt = (std_get 0 r3).asInt then
          [((Canvas._Sort3PointsInDirection 2 (r1, r2, r3)).2.2,
            (Canvas._Sort3PointsInDirection 2 (r1, r2, r3)).2.2)]
        else if (std_get 2 r1).asInt
            + Int.tdiv (((std_get 2 r3).asInt - (std_get 2 r1).asInt)
                * ((std_get 0 r2).asInt - (std_get 0 r1).asInt))
              ((std_get 0 r3).asInt - (std_get 0 r1).asInt) ≥ (std_get 2 r2).asInt then
          [(r1, r3)]
        else
          [(r1, r2), (r2, r3)] := by
  unfold Canvas._DrawFilledTriangle.spans
  rw [hS]
  dsimp only
  rw [if_pos hflat, hS0]

end Graphics

namespace Graphics

open Geometry Geometry.LinearInterpolationIterator

end Graphics

namespace Graphics

open Geometry Geometry.LinearInterpolationIterator

end Graphics

namespace Graphics

open Geometry Geometry.LinearInterpolationIterator

end Graphics

namespace Geometry

namespace LinearInterpolationIterator

/-- The rounded position is within one half of the exact linear interpolation. -/
theorem roundedPosition_nearest (a d n : Int) (k : Nat) (hn : 0 < n) :
    |((roundedPosition a d n k : Int) : ℚ) - ((a : ℚ) + (d : ℚ) * (k : ℚ) / (n : ℚ))|
      ≤ 1 / 2 := by
  obtain ⟨b1, b2⟩ := roundedPosition_bounds a d n k hn
  generalize roundedPosition a d n k = r at b1 b2
  have hnq : (0 : ℚ) < (n : ℚ) := by exact_mod_cast hn
  have b1q : (2 * d * k - n : ℚ) ≤ 2 * n * (r - a) := by exact_mod_cast b1
  have b2q : (2 * n * (r - a) : ℚ) ≤ 2 * d * k + n := by exact_mod_cast b2
  have hq : (d : ℚ) * (k : ℚ) / (n : ℚ) * (n : ℚ) = (d : ℚ) * (k : ℚ) :=
    div_mul_cancel₀ _ hnq.ne.symm
  generalize (d : ℚ) * (k : ℚ) / (n : ℚ) = q at hq ⊢
  rw [abs_le]
  constructor
  · apply le_of_mul_le_mul_left _ hnq
    linarith
  · apply le_of_mul_le_mul_left _ hnq
    linarith

end LinearInterpolationIterator

end Geometry

namespace Graphics

open Geometry Geometry.LinearInterpolationIterator

/-- C25: `_DrawHLine` reconstructs the full point for every pixel.  For span
endpoints `(x1, y, z1, ...)` and `(x2, y, z2, ...)` with `x1 < x2` (and fuel for
the `x2 - x1 + 1` iterations) the call returns, and its `k`-th compositor call
(`0 ≤ k ≤ x2 - x1`) is `_Set(x1 + k, y, z, color)` where `x1 + k` and `z` are the
channels of the span iterator `k` steps after its begin, `z` is an integer within
one half of `z1 + (z2 - z1) * k / (x2 - x1)`, and the color is the color function
applied to the canvas and to the span iterator at that same position; the first
depth is `z1` and the last is `z2`. -/
theorem C25_DrawHLine_reconstructs_point (T : List Bool) (i_pt1 i_pt2 : PointType)
    (h1 : IsTPoint T i_pt1) (h2 : IsTPoint T i_pt2)
    (u : Indeterminate) (fuel : Nat) (t : TracedCanvas) (i_color_getter : ColorGetter)
    (hx : (std_get 0 i_pt1).asInt < (std_get 0 i_pt2).asInt)
    (hy : (std_get 1 i_pt1).asInt = (std_get 1 i_pt2).asInt)
    (hfuel : (std_get 0 i_pt2).asInt - (std_get 0 i_pt1).asInt < (fuel : Int)) :
    Canvas._DrawHLine u fuel t i_pt1 i_pt2 i_color_getter
      = .ok (Canvas._DrawHLine.afterCalls u t i_pt1 i_pt2 i_color_getter
          (Int.toNat ((std_get 0 i_pt2).asInt - (std_get 0 i_pt1).asInt) + 1)) ∧
    Canvas._DrawHLine.afterCalls u t i_pt1 i_pt2 i_color_getter 0 = t ∧
    (∀ k : Nat, (k : Int) ≤ (std_get 0 i_pt2).asInt - (std_get 0 i_pt1).asInt →
      Canvas._DrawHLine.afterCalls u t i_pt1 i_pt2 i_color_getter (k + 1)
        = (Canvas._DrawHLine.afterCalls u t i_pt1 i_pt2 i_color_getter k)._Set
            ((std_get 0 i_pt1).asInt + (k : Int)) (std_get 1 i_pt1).asInt
            (roundedPosition (std_get 2 i_pt1).asInt
              ((std_get 2 i_pt2).asInt - (std_get 2 i_pt1).asInt)
              ((std_get 0 i_pt2).asInt - (std_get 0 i_pt1).asInt) k)
            (i_color_getter (Canvas._DrawHLine.afterCalls u t i_pt1 i_pt2 i_color_getter k).canvas
              (operator_increment^[k] (GoToBegin 0 (LinearInterpolationIterator.ctor 0
                (std.RemoveItem 1 i_pt1) (std.RemoveItem 1 i_pt2) u)))) ∧
      (Get 0 0 (operator_increment^[k] (GoToBegin 0 (LinearInterpolationIterator.ctor 0
          (std.RemoveItem 1 i_pt1) (std.RemoveItem 1 i_pt2) u)))).asInt
        = (std_get 0 i_pt1).asInt + (k : Int) ∧
      (Get 0 1 (operator_increment^[k] (GoToBegin 0 (LinearInterpolationIterator.ctor 0
          (std.RemoveItem 1 i_pt1) (std.RemoveItem 1 i_pt2) u)))).asInt
        = roundedPosition (std_get 2 i_pt1).asInt
            ((std_get 2 i_pt2).asInt - (std_get 2 i_pt1).asInt)
            ((std_get 0 i_pt2).asInt - (std_get 0 i_pt1).asInt) k ∧
      |((roundedPosition (std_get 2 i_pt1).asInt
            ((std_get 2 i_pt2).asInt - (std_get 2 i_pt1).asInt)
            ((std_get 0 i_pt2).asInt - (std_get 0 i_pt1).asInt) k : Int) : ℚ)
          - (((std_get 2 i_pt1).asInt : ℚ)
            + (((std_get 2 i_pt2).asInt - (std_get 2 i_pt1).asInt : Int) : ℚ) * (k : ℚ)
              / (((std_get 0 i_pt2).asInt - (std_get 0 i_pt1).asInt : Int) : ℚ))| ≤ 1 / 2) ∧
    roundedPosition (std_get 2 i_pt1).asInt
        ((std_get 2 i_pt2).asInt - (std_get 2 i_pt1).asInt)
        ((std_get 0 i_pt2).asInt - (std_get 0 i_pt1).asInt) 0 = (std_get 2 i_pt1).asInt ∧
    roundedPosition (std_get 2 i_pt1).asInt
        ((std_get 2 i_pt2).asInt - (std_get 2 i_pt1).asInt)
        ((std_get 0 i_pt2).asInt - (std_get 0 i_pt1).asInt)
        (Int.toNat ((std_get 0 i_pt2).asInt - (std_get 0 i_pt1).asInt))
      = (std_get 2 i_pt2).asInt := by
  have hl1 := h1.length_ge
  have hl2 := h2.length_ge
  refine ⟨?_, rfl, ?_, ?_, ?_⟩
  · exact Canvas._DrawHLine_eq_unrolled u fuel t i_pt1 i_pt2 i_color_getter (by omega)
      (by omega) hx.le hy (by omega)
  · intro k hk
    have hd := Canvas._DrawHLine.depth_at T i_pt1 i_pt2 h1 h2 u hx.le k hk
    refine ⟨?_, ?_, hd, ?_⟩
    · unfold Canvas._DrawHLine.afterCalls
      rw [List.range_succ, List.foldl_append, List.foldl_cons, List.foldl_nil, hd]
    · rw [Get_begin_increment_along, std.std_get_RemoveItem_one_zero i_pt1 (by omega)]
      rfl
    · exact roundedPosition_nearest _ _ _ k (by omega)
  · exact roundedPosition_zero _ _ _ (by omega)
  · have h := roundedPosition_end (std_get 2 i_pt1).asInt
      ((std_get 2 i_pt2).asInt - (std_get 2 i_pt1).asInt)
      (Int.toNat ((std_get 0 i_pt2).asInt - (std_get 0 i_pt1).asInt))
      (by rw [Int.toNat_of_nonneg (by omega)]; omega)
    rw [Int.toNat_of_nonneg (by omega)] at h
    rw [h]
    ring

theorem C25_DrawHLine_reconstructs_point_witness :
    Canvas._DrawHLine ⟨0, 0, 0⟩ 6 ⟨sampleCanvas, []⟩ [.int 2, .int 1, .int 9]
        [.int 7, .int 1, .int 4] (fun _ _ => ⟨255, 0, 0⟩)
      = .ok (Canvas._DrawHLine.afterCalls ⟨0, 0, 0⟩ ⟨sampleCanvas, []⟩ [.int 2, .int 1, .int 9]
          [.int 7, .int 1, .int 4] (fun _ _ => ⟨255, 0, 0⟩)
          (Int.toNat ((std_get 0 [Scalar.int 7, .int 1, .int 4]).asInt
            - (std_get 0 [Scalar.int 2, .int 1, .int 9]).asInt) + 1)) ∧
    roundedPosition (std_get 2 [Scalar.int 2, .int 1, .int 9]).asInt
        ((std_get 2 [Scalar.int 7, .int 1, .int 4]).asInt
          - (std_get 2 [Scalar.int 2, .int 1, .int 9]).asInt)
        ((std_get 0 [Scalar.int 7, .int 1, .int 4]).asInt
          - (std_get 0 [Scalar.int 2, .int 1, .int 9]).asInt)
        (Int.toNat ((std_get 0 [Scalar.int 7, .int 1, .int 4]).asInt
          - (std_get 0 [Scalar.int 2, .int 1, .int 9]).asInt))
      = (std_get 2 [Scalar.int 7, .int 1, .int 4]).asInt :=
  ⟨(C25_DrawHLine_reconstructs_point [true, true, true] [.int 2, .int 1, .int 9]
      [.int 7, .int 1, .int 4] (by decide) (by decide) ⟨0, 0, 0⟩ 6 ⟨sampleCanvas, []⟩
      (fun _ _ => ⟨255, 0, 0⟩) (by decide) (by decide) (by decide)).1,
   (C25_DrawHLine_reconstructs_point [true, true, true] [.int 2, .int 1, .int 9]
      [.int 7, .int 1, .int 4] (by decide) (by decide) ⟨0, 0, 0⟩ 6 ⟨sampleCanvas, []⟩
      (fun _ _ => ⟨255, 0, 0⟩) (by decide) (by decide) (by decide)).2.2.2.2⟩

end Graphics

namespace Graphics

open Geometry Geometry.LinearInterpolationIterator

/-- Two spans that meet in one pixel have that pixel in common and no other. -/
theorem spanPositions_inter (x1 x2 x3 y : Int) (h12 : x1 ≤ x2)
    (p : Int × Int) :
    (p ∈ spanPositions x1 x2 y ∧ p ∈ spanPositions x2 x3 y) ↔ p = (x2, y) := by
  constructor
  · rintro ⟨hp1, hp2⟩
    obtain ⟨e1, -, f1⟩ := mem_spanPositions _ _ _ p hp1
    obtain ⟨-, f2, -⟩ := mem_spanPositions _ _ _ p hp2
    have := f1 h12
    exact Prod.ext (by dsimp only; omega) e1
  · rintro rfl
    constructor
    · unfold spanPositions
      rw [List.mem_map]
      refine ⟨Int.toNat (x2 - x1), List.mem_range.mpr (by omega), ?_⟩
      rw [Int.toNat_of_nonneg (by omega)]
      simp
    · unfold spanPositions
      rw [List.mem_map]
      exact ⟨0, List.mem_range.mpr (by omega), by simp⟩

/-- C26, counterexample: the flat triangle `(0, 1, 0)`, `(1, 1, 5)`, `(2, 1, 0)` is
drawn as the two spans `1-2` and `2-3`, and the pixel `(1, 1)` of point 2 is
passed to the compositor twice. -/
theorem C26_flat_no_double_draw_counterexample :
    ∃ t' : TracedCanvas,
      Canvas._DrawFilledTriangle ⟨0, 0, 0⟩ 5 ⟨sampleCanvas, []⟩ [.int 0, .int 1, .int 0]
        [.int 1, .int 1, .int 5] [.int 2, .int 1, .int 0] (fun _ _ => ⟨255, 0, 0⟩) = .ok t' ∧
      t'.calls.map SetCall.position = [(0, 1), (1, 1), (1, 1), (2, 1)] ∧
      ¬ (t'.calls.map SetCall.position).Nodup := by
  have hsp : Canvas._DrawFilledTriangle.spans ⟨0, 0, 0⟩ [.int 0, .int 1, .int 0]
        [.int 1, .int 1, .int 5] [.int 2, .int 1, .int 0]
      = [([.int 0, .int 1, .int 0], [.int 1, .int 1, .int 5]),
         ([.int 1, .int 1, .int 5], [.int 2, .int 1, .int 0])] := by decide
  have hpos : (Canvas._DrawFilledTriangle.closedForm ⟨0, 0, 0⟩ ⟨sampleCanvas, []⟩
        [.int 0, .int 1, .int 0] [.int 1, .int 1, .int 5] [.int 2, .int 1, .int 0]
        (fun _ _ => ⟨255, 0, 0⟩)).calls.map SetCall.position
      = [(0, 1), (1, 1), (1, 1), (2, 1)] := by
    rw [Canvas._DrawFilledTriangle.closedForm_eq_foldl,
      Canvas._DrawHLine.foldl_unrolled_positions, hsp]
    decide
  refine ⟨_, Canvas._DrawFilledTriangle_eq_closedForm [true, true, true]
    [.int 0, .int 1, .int 0] [.int 1, .int 1, .int 5] [.int 2, .int 1, .int 0]
    (by decide) (by decide) (by decide) ⟨0, 0, 0⟩ 5 (fun _ _ => ⟨255, 0, 0⟩)
    ⟨sampleCanvas, []⟩ (by decide), hpos, ?_⟩
  rw [hpos]
  decide

/-- C26, amended: a triangle whose three vertices have the same `y` is drawn
without passing a pixel coordinate to the compositor more than once when it is
drawn as one span (`r1, r2, r3` are the vertices sorted by `x`: the three `x` are
equal, or the truncated depth of the segment `1-3` at the `x` of point 2 is at
least the depth of point 2); when it is drawn as the two spans `1-2` and `2-3`, the
pixel of point 2 is passed exactly twice and every other pixel at most once. -/
theorem C26_flat_double_draw_only_at_point2 (T : List Bool) (ip_pt1 ip_pt2 ip_pt3 : PointType)
    (h1 : IsTPoint T ip_pt1) (h2 : IsTPoint T ip_pt2) (h3 : IsTPoint T ip_pt3)
    (hflat : (std_get 1 ip_pt1).asInt = (std_get 1 ip_pt2).asInt
      ∧ (std_get 1 ip_pt2).asInt = (std_get 1 ip_pt3).asInt)
    (r1 r2 r3 : PointType)
    (hS0 : Canvas._Sort3PointsInDirection 0 (ip_pt1, ip_pt2, ip_pt3) = (r1, r2, r3))
    (u : Indeterminate) (fuel : Nat) (i_color_getter : ColorGetter) (t : TracedCanvas)
    (hfuel : Canvas.extent ip_pt1 ip_pt2 ip_pt3 < (fuel : Int)) :
    ∃ (t' : TracedCanvas) (extra : List SetCall),
      Canvas._DrawFilledTriangle u fuel t ip_pt1 ip_pt2 ip_pt3 i_color_getter = .ok t' ∧
      t'.calls = t.calls ++ extra ∧
      (((std_get 0 r1).asInt = (std_get 0 r3).asInt
          ∨ (std_get 2 r1).asInt
              + Int.tdiv (((std_get 2 r3).asInt - (std_get 2 r1).asInt)
                  * ((std_get 0 r2).asInt - (std_get 0 r1).asInt))
                ((std_get 0 r3).asInt - (std_get 0 r1).asInt) ≥ (std_get 2 r2).asInt) →
        (extra.map SetCall.position).Nodup) ∧
      (¬ ((std_get 0 r1).asInt = (std_get 0 r3).asInt
          ∨ (std_get 2 r1).asInt
              + Int.tdiv (((std_get 2 r3).asInt - (std_get 2 r1).asInt)
                  * ((std_get 0 r2).asInt - (std_get 0 r1).asInt))
                ((std_get 0 r3).asInt - (std_get 0 r1).asInt) ≥ (std_get 2 r2).asInt) →
        extra.map SetCall.position
          = spanPositions (std_get 0 r1).asInt (std_get 0 r2).asInt (std_get 1 r2).asInt
            ++ spanPositions (std_get 0 r2).asInt (std_get 0 r3).asInt (std_get 1 r2).asInt ∧
        (spanPositions (std_get 0 r1).asInt (std_get 0 r2).asInt (std_get 1 r2).asInt).Nodup ∧
        (spanPositions (std_get 0 r2).asInt (std_get 0 r3).asInt (std_get 1 r2).asInt).Nodup ∧
        ∀ p : Int × Int,
          (p ∈ spanPositions (std_get 0 r1).asInt (std_get 0 r2).asInt (std_get 1 r2).asInt
            ∧ p ∈ spanPositions (std_get 0 r2).asInt (std_get 0 r3).asInt (std_get 1 r2).asInt)
          ↔ p = ((std_get 0 r2).asInt, (std_get 1 r2).asInt)) := by
  obtain ⟨extra, he⟩ := Canvas._DrawFilledTriangle.closedForm_calls_extend u t ip_pt1 ip_pt2
    ip_pt3 i_color_getter
  refine ⟨_, extra, Canvas._DrawFilledTriangle_eq_closedForm T ip_pt1 ip_pt2 ip_pt3 h1 h2 h3 u
    fuel i_color_getter t hfuel, he, ?_⟩
  have hpos := Canvas._DrawHLine.foldl_unrolled_positions u i_color_getter
    (Canvas._DrawFilledTriangle.spans u ip_pt1 ip_pt2 ip_pt3) t
  rw [← Canvas._DrawFilledTriangle.closedForm_eq_foldl, he, List.map_append,
    List.append_cancel_left_eq] at hpos
  have hS := Canvas._Sort3PointsInDirection_of_sorted 1 ip_pt1 ip_pt2 ip_pt3
    (by omega) (by omega)
  obtain ⟨hy1, hy2, hy3⟩ := Canvas._Sort3PointsInDirection_pred 0 ip_pt1 ip_pt2 ip_pt3
    (fun p => (std_get 1 p).asInt = (std_get 1 ip_pt1).asInt) rfl (by omega) (by omega)
  obtain ⟨hx12, hx23⟩ := Canvas._Sort3PointsInDirection_sorted 0 ip_pt1 ip_pt2 ip_pt3
  rw [hS0] at hy1 hy2 hy3 hx12 hx23
  dsimp only at hy1 hy2 hy3 hx12 hx23
  rw [hpos, Canvas._DrawFilledTriangle.spans_flat u ip_pt1 ip_pt2 ip_pt3 ip_pt1 ip_pt2 ip_pt3
    r1 r2 r3 hS (by omega) hS0]
  constructor
  · intro hone
    split_ifs with hpoint hz
    · rw [List.flatMap_singleton]
      exact spanPositions_nodup _ _ _
    · rw [List.flatMap_singleton]
      exact spanPositions_nodup _ _ _
    · rcases hone with h | h
      · exact absurd h hpoint
      · exact absurd h hz
  · intro htwo
    rw [not_or] at htwo
    rw [if_neg htwo.1, if_neg htwo.2]
    have e : ([(r1, r2), (r2, r3)] : List (PointType × PointType)).flatMap
          Canvas._DrawHLine.positions
        = spanPositions (std_get 0 r1).asInt (std_get 0 r2).asInt (std_get 1 r2).asInt
          ++ spanPositions (std_get 0 r2).asInt (std_get 0 r3).asInt (std_get 1 r2).asInt := by
      simp only [List.flatMap_cons, List.flatMap_nil, List.append_nil,
        Canvas._DrawHLine.positions]
      rw [hy1, ← hy2]
    exact ⟨e, spanPositions_nodup _ _ _, spanPositions_nodup _ _ _,
      spanPositions_inter _ _ _ _ hx12⟩

theorem C26_flat_double_draw_only_at_point2_witness :
    ∃ (t' : TracedCanvas) (extra : List SetCall),
      Canvas._DrawFilledTriangle ⟨0, 0, 0⟩ 5 ⟨sampleCanvas, []⟩ [.int 2, .int 1, .int 0]
        [.int 0, .int 1, .int 0] [.int 1, .int 1, .int 5] (fun _ _ => ⟨255, 0, 0⟩) = .ok t' ∧
      t'.calls = [] ++ extra ∧
      (((std_get 0 [Scalar.int 0, .int 1, .int 0]).asInt
            = (std_get 0 [Scalar.int 2, .int 1, .int 0]).asInt
          ∨ (std_get 2 [Scalar.int 0, .int 1, .int 0]).asInt
              + Int.tdiv (((std_get 2 [Scalar.int 2, .int 1, .int 0]).asInt
                    - (std_get 2 [Scalar.int 0, .int 1, .int 0]).asInt)
                  * ((std_get 0 [Scalar.int 1, .int 1, .int 5]).asInt
                    - (std_get 0 [Scalar.int 0, .int 1, .int 0]).asInt))
                ((std_get 0 [Scalar.int 2, .int 1, .int 0]).asInt
                  - (std_get 0 [Scalar.int 0, .int 1, .int 0]).asInt)
            ≥ (std_get 2 [Scalar.int 1, .int 1, .int 5]).asInt) →
        (extra.map SetCall.position).Nodup) ∧
      (¬ ((std_get 0 [Scalar.int 0, .int 1, .int 0]).asInt
            = (std_get 0 [Scalar.int 2, .int 1, .int 0]).asInt
          ∨ (std_get 2 [Scalar.int 0, .int 1, .int 0]).asInt
              + Int.tdiv (((std_get 2 [Scalar.int 2, .int 1, .int 0]).asInt
                    - (std_get 2 [Scalar.int 0, .int 1, .int 0]).asInt)
                  * ((std_get 0 [Scalar.int 1, .int 1, .int 5]).asInt
                    - (std_get 0 [Scalar.int 0, .int 1, .int 0]).asInt))
                ((std_get 0 [Scalar.int 2, .int 1, .int 0]).asInt
                  - (std_get 0 [Scalar.int 0, .int 1, .int 0]).asInt)
            ≥ (std_get 2 [Scalar.int 1, .int 1, .int 5]).asInt) →
        extra.map SetCall.position
          = spanPositions (std_get 0 [Scalar.int 0, .int 1, .int 0]).asInt (std_get 0 [Scalar.int 1, .int 1, .int 5]).asInt (std_get 1 [Scalar.int 1, .int 1, .int 5]).asInt
            ++ spanPositions (std_get 0 [Scalar.int 1, .int 1, .int 5]).asInt (std_get 0 [Scalar.int 2, .int 1, .int 0]).asInt (std_get 1 [Scalar.int 1, .int 1, .int 5]).asInt ∧
        (spanPositions (std_get 0 [Scalar.int 0, .int 1, .int 0]).asInt (std_get 0 [Scalar.int 1, .int 1, .int 5]).asInt (std_get 1 [Scalar.int 1, .int 1, .int 5]).asInt).Nodup ∧
        (spanPositions (std_get 0 [Scalar.int 1, .int 1, .int 5]).asInt (std_get 0 [Scalar.int 2, .int 1, .int 0]).asInt (std_get 1 [Scalar.int 1, .int 1, .int 5]).asInt).Nodup ∧
        ∀ p : Int × Int,
          (p ∈ spanPositions (std_get 0 [Scalar.int 0, .int 1, .int 0]).asInt (std_get 0 [Scalar.int 1, .int 1, .int 5]).asInt (std_get 1 [Scalar.int 1, .int 1, .int 5]).asInt
            ∧ p ∈ spanPositions (std_get 0 [Scalar.int 1, .int 1, .int 5]).asInt (std_get 0 [Scalar.int 2, .int 1, .int 0]).asInt (std_get 1 [Scalar.int 1, .int 1, .int 5]).asInt)
          ↔ p = ((std_get 0 [Scalar.int 1, .int 1, .int 5]).asInt, (std_get 1 [Scalar.int 1, .int 1, .int 5]).asInt)) :=
  C26_flat_double_draw_only_at_point2 [true, true, true] [.int 2, .int 1, .int 0]
    [.int 0, .int 1, .int 0] [.int 1, .int 1, .int 5] (by decide) (by decide) (by decide)
    (by decide) [.int 0, .int 1, .int 0] [.int 1, .int 1, .int 5] [.int 2, .int 1, .int 0]
    (by decide) ⟨0, 0, 0⟩ 5 (fun _ _ => ⟨255, 0, 0⟩) ⟨sampleCanvas, []⟩ (by decide)

end Graphics

namespace Graphics

open Geometry Geometry.LinearInterpolationIterator

/-- The canvas of a traced canvas that started as `cv0` with an empty record is
`cv0` after the recorded calls; one more `_Set` keeps it so. -/
theorem TracedCanvas._Set_SetAll (cv0 : Canvas) (t : TracedCanvas) (x y z : Int) (c : Color)
    (h : t.canvas = cv0._SetAll t.calls) :
    (t._Set x y z c).canvas = cv0._SetAll (t._Set x y z c).calls := by
  unfold TracedCanvas._Set
  dsimp only
  rw [Canvas._SetAll_append, ← h]
  rfl

/-- The canvas after a span is the canvas before it after the calls of the record. -/
theorem Canvas._DrawHLine.unrolled_SetAll (cv0 : Canvas) (u : Indeterminate) (t : TracedCanvas)
    (p1 p2 : PointType) (g : ColorGetter) (h : t.canvas = cv0._SetAll t.calls) :
    (Canvas._DrawHLine.unrolled u t p1 p2 g).canvas
      = cv0._SetAll (Canvas._DrawHLine.unrolled u t p1 p2 g).calls := by
  unfold Canvas._DrawHLine.unrolled
  exact TracedCanvas.foldl_rel
    (fun t t' => t.canvas = cv0._SetAll t.calls → t'.canvas = cv0._SetAll t'.calls)
    (fun _ h => h) (fun _ _ _ h1 h2 h => h2 (h1 h)) _ _
    (fun t j _ h => TracedCanvas._Set_SetAll cv0 t _ _ _ _ h) t h

/-- C27, failing input: the flat triangle `(0, 0, 0)`, `(1, 0, 0)`, `(2, 0, -1)`
on a fresh `3 × 1` canvas.  The truncated depth of the segment `1-3` at `x = 1` is
`0 + (-1 * 1) / 2 = 0`, which passes the test `z13_x2 ≥ z2`, so only the span `1-3`
is drawn; the span iterator rounds the depth at `x = 1` to `-1`, and the depth
stored at point 2's pixel is `-1`, below point 2's own depth `0`. -/
theorem C27_flat_depth_failing_input :
    ∃ t' : TracedCanvas,
      Canvas._DrawFilledTriangle ⟨0, 0, 0⟩ 5
        ⟨Canvas.ctor 3 1 ⟨fun _ _ => ⟨1, 2, 3⟩, fun _ _ => 7, ⟨0, 0, fun _ _ => ⟨0, 0, 0⟩⟩,
          (0, 0, 1)⟩, []⟩
        [.int 0, .int 0, .int 0] [.int 1, .int 0, .int 0] [.int 2, .int 0, .int (-1)]
        (fun _ _ => ⟨255, 0, 0⟩) = .ok t' ∧
      t'.calls = [⟨0, 0, 0, ⟨255, 0, 0⟩⟩, ⟨1, 0, -1, ⟨255, 0, 0⟩⟩, ⟨2, 0, -1, ⟨255, 0, 0⟩⟩] ∧
      t'.canvas.m_z_buffer.Get 1 0 = -1 ∧
      (std_get 2 [Scalar.int 1, .int 0, .int 0]).asInt = 0 := by
  have hsp : Canvas._DrawFilledTriangle.spans ⟨0, 0, 0⟩ [.int 0, .int 0, .int 0]
        [.int 1, .int 0, .int 0] [.int 2, .int 0, .int (-1)]
      = [([.int 0, .int 0, .int 0], [.int 2, .int 0, .int (-1)])] := by decide
  have hcf : Canvas._DrawFilledTriangle.closedForm ⟨0, 0, 0⟩
        ⟨Canvas.ctor 3 1 ⟨fun _ _ => ⟨1, 2, 3⟩, fun _ _ => 7, ⟨0, 0, fun _ _ => ⟨0, 0, 0⟩⟩,
          (0, 0, 1)⟩, []⟩
        [.int 0, .int 0, .int 0] [.int 1, .int 0, .int 0] [.int 2, .int 0, .int (-1)]
        (fun _ _ => ⟨255, 0, 0⟩)
      = Canvas._DrawHLine.unrolled ⟨0, 0, 0⟩
        ⟨Canvas.ctor 3 1 ⟨fun _ _ => ⟨1, 2, 3⟩, fun _ _ => 7, ⟨0, 0, fun _ _ => ⟨0, 0, 0⟩⟩,
          (0, 0, 1)⟩, []⟩
        [.int 0, .int 0, .int 0] [.int 2, .int 0, .int (-1)] (fun _ _ => ⟨255, 0, 0⟩) := by
    rw [Canvas._DrawFilledTriangle.closedForm_eq_foldl, hsp]
    rfl
  have hcalls : (Canvas._DrawHLine.unrolled ⟨0, 0, 0⟩
        ⟨Canvas.ctor 3 1 ⟨fun _ _ => ⟨1, 2, 3⟩, fun _ _ => 7, ⟨0, 0, fun _ _ => ⟨0, 0, 0⟩⟩,
          (0, 0, 1)⟩, []⟩
        [.int 0, .int 0, .int 0] [.int 2, .int 0, .int (-1)] (fun _ _ => ⟨255, 0, 0⟩)).calls
      = [⟨0, 0, 0, ⟨255, 0, 0⟩⟩, ⟨1, 0, -1, ⟨255, 0, 0⟩⟩, ⟨2, 0, -1, ⟨255, 0, 0⟩⟩] := by
    rw [Canvas._DrawHLine.unrolled_calls_const [true, true, true] [.int 0, .int 0, .int 0]
      [.int 2, .int 0, .int (-1)] (by decide) (by decide) ⟨0, 0, 0⟩ _ ⟨255, 0, 0⟩ (by decide)]
    decide
  have hcv := Canvas._DrawHLine.unrolled_SetAll
    (Canvas.ctor 3 1 ⟨fun _ _ => ⟨1, 2, 3⟩, fun _ _ => 7, ⟨0, 0, fun _ _ => ⟨0, 0, 0⟩⟩,
      (0, 0, 1)⟩) ⟨0, 0, 0⟩
    ⟨Canvas.ctor 3 1 ⟨fun _ _ => ⟨1, 2, 3⟩, fun _ _ => 7, ⟨0, 0, fun _ _ => ⟨0, 0, 0⟩⟩,
      (0, 0, 1)⟩, []⟩
    [.int 0, .int 0, .int 0] [.int 2, .int 0, .int (-1)] (fun _ _ => ⟨255, 0, 0⟩) rfl
  refine ⟨_, Canvas._DrawFilledTriangle_eq_closedForm [true, true, true]
    [.int 0, .int 0, .int 0] [.int 1, .int 0, .int 0] [.int 2, .int 0, .int (-1)]
    (by decide) (by decide) (by decide) ⟨0, 0, 0⟩ 5 (fun _ _ => ⟨255, 0, 0⟩) _ (by decide),
    ?_, ?_, by decide⟩
  · rw [hcf, hcalls]
  · rw [hcf, hcv, hcalls]
    rw [(Canvas._SetAll_pixel _ _ 1 0 (by decide) (by decide) (by decide) (by decide)).1]
    decide

end Graphics

/-! # Frames, ranges, lines, vertex order and the matrix product -/

/-! ## The frame of a pixel write -/

namespace Graphics

end Graphics

/-! ## Range, end state and direction of the engine -/

namespace Geometry

namespace LinearInterpolationIterator

/-- C32: interpolated values stay between the endpoints.  For endpoints with
`n = to[D] - from[D] > 0` and every `k` with `0 ≤ k ≤ n`, the position of every
integral across axis `i` after `GoToBegin` and `k` calls of `operator++` is an
integer between `min(from[i], to[i])` and `max(from[i], to[i])` inclusive. -/
theorem C32_interpolation_within_endpoints (D : Nat) (pf pt : PointType) (u : Indeterminate)
    (hT : Instantiable D pf pt) (i : Nat) (hi : i < pf.length) (hiD : i ≠ D)
    (hint : (std_get i pf).isIntegral = true)
    (hn : 0 < (std_get D pt).asInt - (std_get D pf).asInt) (k : Nat)
    (hk : (k : Int) ≤ (std_get D pt).asInt - (std_get D pf).asInt) :
    (Get D i (operator_increment^[k] (GoToBegin D (ctor D pf pt u)))).isIntegral = true ∧
    min (std_get i pf).asInt (std_get i pt).asInt
      ≤ (Get D i (operator_increment^[k] (GoToBegin D (ctor D pf pt u)))).asInt ∧
    (Get D i (operator_increment^[k] (GoToBegin D (ctor D pf pt u)))).asInt
      ≤ max (std_get i pf).asInt (std_get i pt).asInt := by
  have hpos := begin_increment_integral_position D pf pt u hT i hi hiD hint hn k
  have hval := Get_begin_increment_roundedPosition D pf pt u hT i hi hiD hint hn.le k hk
  obtain ⟨h1, h2⟩ := roundedPosition_between (std_get i pf).asInt
    ((std_get i pt).asInt - (std_get i pf).asInt)
    ((std_get D pt).asInt - (std_get D pf).asInt) k hn hk
  have e : (std_get i pf).asInt + ((std_get i pt).asInt - (std_get i pf).asInt)
      = (std_get i pt).asInt := by ring
  rw [e] at h1 h2
  refine ⟨?_, ?_, ?_⟩
  · rw [hpos]; rfl
  · rw [hval]; exact h1
  · rw [hval]; exact h2

theorem C32_interpolation_within_endpoints_witness :
    (Get 0 2 (operator_increment^[2] (GoToBegin 0
        (ctor 0 [.int 0, .int 0, .int 9] [.int 5, .int 3, .int 2] ⟨0, 0, 0⟩)))).isIntegral = true ∧
    min (std_get 2 [Scalar.int 0, .int 0, .int 9]).asInt
        (std_get 2 [Scalar.int 5, .int 3, .int 2]).asInt
      ≤ (Get 0 2 (operator_increment^[2] (GoToBegin 0
        (ctor 0 [.int 0, .int 0, .int 9] [.int 5, .int 3, .int 2] ⟨0, 0, 0⟩)))).asInt ∧
    (Get 0 2 (operator_increment^[2] (GoToBegin 0
        (ctor 0 [.int 0, .int 0, .int 9] [.int 5, .int 3, .int 2] ⟨0, 0, 0⟩)))).asInt
      ≤ max (std_get 2 [Scalar.int 0, .int 0, .int 9]).asInt
        (std_get 2 [Scalar.int 5, .int 3, .int 2]).asInt :=
  C32_interpolation_within_endpoints 0 [.int 0, .int 0, .int 9] [.int 5, .int 3, .int 2]
    ⟨0, 0, 0⟩ (by decide) 2 (by decide) (by decide) (by decide) (by decide) 2 (by decide)

/-- With `to[D] < from[D]` the forward loop never leaves through its `break`,
whatever the fuel and from whatever step it is entered. -/
theorem visitForward_none_of_lt (D : Nat) (pf pt : PointType) (u : Indeterminate)
    (hlt : (std_get D pt).asInt < (std_get D pf).asInt) :
    ∀ (fuel k : Nat),
      visitForward D fuel (operator_increment^[k] (GoToBegin D (ctor D pf pt u))) = none := by
  intro fuel
  induction fuel with
  | zero => intro k; rfl
  | succ fuel ih =>
    intro k
    have hend : ¬ IsAtEnd D (operator_increment^[k] (GoToBegin D (ctor D pf pt u))) = true :=
      fun h => by
        have := (IsAtEnd_begin_increment D pf pt u k).1 h
        omega
    rw [visitForward, if_neg hend, ← Function.iterate_succ_apply' operator_increment k,
      ih (k + 1)]
    rfl

/-- C34: the engine only walks towards increasing driving values.  For endpoints
with `to[D] < from[D]`, after `GoToBegin` and any number `k` of `operator++` calls
the driving value is `from[D] + k` and `IsAtEnd()` is false, so the forward loop
"visit, stop if `IsAtEnd`, else `++`" does not leave through its `break` within any
number of iterations. -/
theorem C34_forward_only (D : Nat) (pf pt : PointType) (u : Indeterminate)
    (hlt : (std_get D pt).asInt < (std_get D pf).asInt) (k : Nat) :
    Get D D (operator_increment^[k] (GoToBegin D (ctor D pf pt u)))
      = .int ((std_get D pf).asInt + k) ∧
    IsAtEnd D (operator_increment^[k] (GoToBegin D (ctor D pf pt u))) = false ∧
    (∀ fuel : Nat,
      visitForward D fuel (operator_increment^[k] (GoToBegin D (ctor D pf pt u))) = none) ∧
    ∀ fuel : Nat, collectForward D fuel (ctor D pf pt u) = none := by
  refine ⟨Get_begin_increment_along D pf pt u k, ?_, ?_, ?_⟩
  · rw [Bool.eq_false_iff]
    intro h
    have := (IsAtEnd_begin_increment D pf pt u k).1 h
    omega
  · intro fuel
    exact visitForward_none_of_lt D pf pt u hlt fuel k
  · intro fuel
    exact visitForward_none_of_lt D pf pt u hlt fuel 0

theorem C34_forward_only_witness :
    Get 0 0 (operator_increment^[3] (GoToBegin 0
        (ctor 0 [.int 5, .int 0] [.int 2, .int 0] ⟨0, 0, 0⟩)))
      = .int ((std_get 0 [Scalar.int 5, .int 0]).asInt + (3 : Nat)) ∧
    IsAtEnd 0 (operator_increment^[3] (GoToBegin 0
        (ctor 0 [.int 5, .int 0] [.int 2, .int 0] ⟨0, 0, 0⟩))) = false ∧
    (∀ fuel : Nat,
      visitForward 0 fuel (operator_increment^[3] (GoToBegin 0
        (ctor 0 [.int 5, .int 0] [.int 2, .int 0] ⟨0, 0, 0⟩))) = none) ∧
    ∀ fuel : Nat, collectForward 0 fuel (ctor 0 [.int 5, .int 0] [.int 2, .int 0] ⟨0, 0, 0⟩)
      = none :=
  C34_forward_only 0 [.int 5, .int 0] [.int 2, .int 0] ⟨0, 0, 0⟩ (by decide) 3

end LinearInterpolationIterator

end Geometry

namespace Geometry

namespace LinearInterpolationIterator

/-- One integral axis after as many `Increment`s as the along delta: the position
has moved by the across delta and the fractional counter is back to zero, which
is the state `Reset` sets at the end point. -/
theorem _IntegralDirection.Increment_iterate_end (impl : _Impl) (n : Nat) (hn : 0 < (n : Int))
    (hh : impl.m_along_fractional_half_step = n) (hs : impl.m_along_fractional_step = n * 2)
    (s0 : _IntegralDirection) (d a : Int) :
    (fun x : _IntegralDirection => x.Increment impl)^[n] ((s0.Initialise d n).Reset a)
      = (s0.Initialise d n).Reset (a + d) := by
  obtain ⟨hq, hr⟩ := tdiv_tmod_abs d n hn
  have hR0 : 0 ≤ |d| % (n : Int) := Int.emod_nonneg _ (by omega)
  have hRn : |d| % (n : Int) < n := Int.emod_lt_of_pos _ hn
  have e4 : ((s0.Initialise d n).Reset a).m_fractional_step = (|d| % (n : Int)) * 2 := by
    rw [← hr]; rfl
  obtain ⟨h1, h2, h3, -⟩ := _IntegralDirection.Increment_iterate_inv impl n hn hh hs
    ((s0.Initialise d n).Reset a) rfl (by omega) (by omega) n
  obtain ⟨h4, h5⟩ := _IntegralDirection.Increment_iterate_closed impl n hn hh hs s0 d a n
  have hdiv : (2 * |d| * (n : Int) + n) / (2 * (n : Int)) = |d| :=
    ediv_two_mul_unique _ _ _ hn (by nlinarith [abs_nonneg d]) (by nlinarith [abs_nonneg d])
  have hmod : (2 * |d| * (n : Int) + n) % (2 * (n : Int)) = n := by
    have := Int.emod_add_ediv (2 * |d| * (n : Int) + n) (2 * (n : Int))
    rw [hdiv] at this
    linarith
  rw [hdiv, Int.sign_mul_abs] at h4
  rw [hmod, sub_self] at h5
  generalize (fun x : _IntegralDirection => x.Increment impl)^[n]
    ((s0.Initialise d n).Reset a) = r at h1 h2 h3 h4 h5
  cases r
  simp only [_IntegralDirection.Reset, _IntegralDirection.Initialise] at h1 h2 h3 h4 h5 ⊢
  simp only [h1, h2, h3, h4, h5]

/-- C33: `GoToEnd` agrees with stepping.  For integer endpoints with
`n = to[D] - from[D] > 0` the complete engine state reached by `GoToBegin` followed
by `n` calls of `operator++` is the state set by `GoToEnd`; every across element
is then an integral axis at the `to` coordinate with fractional counter zero. -/
theorem C33_GoToEnd_agrees_with_stepping (D : Nat) (pf pt : PointType) (u : Indeterminate)
    (hT : Instantiable D pf pt) (hall : AllIntegral pf)
    (hn : 0 < (std_get D pt).asInt - (std_get D pf).asInt) :
    operator_increment^[Int.toNat ((std_get D pt).asInt - (std_get D pf).asInt)]
        (GoToBegin D (ctor D pf pt u))
      = GoToEnd D (ctor D pf pt u) ∧
    (GoToEnd D (ctor D pf pt u)).mp_impl.m_along = (std_get D pt).asInt ∧
    ∀ j : Nat, j < pf.length - 1 →
      ∃ s : _IntegralDirection,
        (GoToEnd D (ctor D pf pt u)).mp_impl.m_across_data[j]? = some (.integral s) ∧
        s.m_position = (_Impl.GetAcrossCoord D j pt).asInt ∧
        s.m_fractional_counter = 0 := by
  obtain ⟨hST, hD, -⟩ := hT
  obtain ⟨n, hnn⟩ : ∃ n : Nat, (std_get D pt).asInt - (std_get D pf).asInt = n :=
    ⟨_, (Int.toNat_of_nonneg hn.le).symm⟩
  have hn' : (0 : Int) < n := by omega
  have htoNat : Int.toNat ((std_get D pt).asInt - (std_get D pf).asInt) = n := by omega
  have hdal : _Impl.GetAlongCoord D pt - _Impl.GetAlongCoord D pf = n := hnn
  rw [htoNat]
  obtain ⟨b1, b2, b3, b4, b5, b6, bA, b7⟩ := GoToBegin_ctor D pf pt u
  obtain ⟨e1, e2, e3, e4, e5, e6, -, e7⟩ := GoToEnd_ctor D pf pt u
  obtain ⟨g1, g2, g3, g4, g5, g6, g7⟩ :=
    increment_iterate_spec (GoToBegin D (ctor D pf pt u)) (b6.trans bA.symm) n
  obtain ⟨s1, s2⟩ := ctor_steps D pf pt u (by rw [hdal]; omega)
  rw [hdal, abs_of_pos hn'] at s1 s2
  -- every across element of an all-integral point is an integral axis
  have hval : ∀ j : Nat, j < pf.length - 1 →
      DTQualifier.valueInit (_Impl.GetAcrossCoord D j pf) = .integral ⟨0, 0, 0, 0, 0⟩ := by
    intro j hj
    have hint : (_Impl.GetAcrossCoord D j pf).isIntegral = true := by
      unfold _Impl.GetAcrossCoord _PointAcrossItem.Get
      split
      · exact AllIntegral_std_get hall _ (by omega)
      · exact AllIntegral_std_get hall _ (by omega)
    rw [Scalar.eq_int_of_isIntegral _ hint]
    rfl
  have hend : ∀ j : Nat, j < pf.length - 1 →
      (GoToEnd D (ctor D pf pt u)).mp_impl.m_across_data[j]?
        = some (.integral (((⟨0, 0, 0, 0, 0⟩ : _IntegralDirection).Initialise
            ((_Impl.GetAcrossCoord D j pt).asInt - (_Impl.GetAcrossCoord D j pf).asInt)
            n).Reset (_Impl.GetAcrossCoord D j pt).asInt)) := by
    intro j hj
    rw [e7 j hj, if_neg (by rw [hdal]; omega), hval j hj, hdal]
    rfl
  refine ⟨?_, e5, ?_⟩
  · -- the two engine states have the same members
    have hext : ∀ a b : Self, a.mp_impl.m_across_data = b.mp_impl.m_across_data →
        a.mp_impl.m_pt_from = b.mp_impl.m_pt_from → a.mp_impl.m_pt_to = b.mp_impl.m_pt_to →
        a.mp_impl.m_along_fractional_half_step = b.mp_impl.m_along_fractional_half_step →
        a.mp_impl.m_along_fractional_step = b.mp_impl.m_along_fractional_step →
        a.mp_impl.m_along = b.mp_impl.m_along → a = b := by
      rintro ⟨⟨a1, a2, a3, a4, a5, a6⟩⟩ ⟨⟨c1, c2, c3, c4, c5, c6⟩⟩ h1 h2 h3 h4 h5 h6
      simp only at h1 h2 h3 h4 h5 h6
      subst h1 h2 h3 h4 h5 h6
      rfl
    apply hext
    · apply List.ext_getElem?
      intro j
      by_cases hj : j < pf.length - 1
      · rw [g7, b7 j hj, if_neg (by rw [hdal]; omega), hval j hj, hend j hj, hdal]
        simp only [Option.map_some', DTQualifier.Initialise, DTQualifier.Reset, Scalar.asInt]
        rw [DTQualifier.Increment_iterate_integral,
          _IntegralDirection.Increment_iterate_end _ n hn' (b3.trans s1) (b4.trans s2)]
        congr 3
        ring
      · rw [List.getElem?_eq_none (by omega), List.getElem?_eq_none (by omega)]
    · rw [g1, b1, e1]
    · rw [g2, b2, e2]
    · rw [g3, b3, e3]
    · rw [g4, b4, e4]
    · rw [g5, b5, e5]
      unfold _Impl.GetAlongCoord at hdal ⊢
      omega
  · intro j hj
    exact ⟨_, hend j hj, rfl, rfl⟩

theorem C33_GoToEnd_agrees_with_stepping_witness :
    operator_increment^[Int.toNat ((std_get 0 [Scalar.int 5, .int 3, .int 2]).asInt
          - (std_get 0 [Scalar.int 0, .int 0, .int 9]).asInt)]
        (GoToBegin 0 (ctor 0 [.int 0, .int 0, .int 9] [.int 5, .int 3, .int 2] ⟨7, 8, 9⟩))
      = GoToEnd 0 (ctor 0 [.int 0, .int 0, .int 9] [.int 5, .int 3, .int 2] ⟨7, 8, 9⟩) ∧
    (GoToEnd 0 (ctor 0 [.int 0, .int 0, .int 9] [.int 5, .int 3, .int 2] ⟨7, 8, 9⟩)).mp_impl.m_along
      = (std_get 0 [Scalar.int 5, .int 3, .int 2]).asInt ∧
    ∀ j : Nat, j < [Scalar.int 0, .int 0, .int 9].length - 1 →
      ∃ s : _IntegralDirection,
        (GoToEnd 0 (ctor 0 [.int 0, .int 0, .int 9] [.int 5, .int 3, .int 2]
          ⟨7, 8, 9⟩)).mp_impl.m_across_data[j]? = some (.integral s) ∧
        s.m_position = (_Impl.GetAcrossCoord 0 j [.int 5, .int 3, .int 2]).asInt ∧
        s.m_fractional_counter = 0 :=
  C33_GoToEnd_agrees_with_stepping 0 [.int 0, .int 0, .int 9] [.int 5, .int 3, .int 2]
    ⟨7, 8, 9⟩ (by decide) (by decide) (by decide)

end LinearInterpolationIterator

end Geometry

/-! ## Zero-length spans -/

namespace Graphics

open Geometry Geometry.LinearInterpolationIterator

/-- C38: a zero-length span takes its values from the left endpoint.  When the two
endpoints passed to `_DrawHLine` have the same `x` and `y`, the call returns after
exactly one compositor write, at that `(x, y)` with the depth of the first
endpoint; the color functor is applied to the span iterator at its begin, whose
channels are those of the first endpoint without `y`.  The depth and the extra
channels of the second endpoint are read by no `Get`. -/
theorem C38_zero_length_span (T : List Bool) (i_pt1 i_pt2 : PointType)
    (h1 : IsTPoint T i_pt1) (h2 : IsTPoint T i_pt2)
    (u : Indeterminate) (fuel : Nat) (t : TracedCanvas) (i_color_getter : ColorGetter)
    (hx : (std_get 0 i_pt1).asInt = (std_get 0 i_pt2).asInt)
    (hy : (std_get 1 i_pt1).asInt = (std_get 1 i_pt2).asInt)
    (hfuel : 0 < fuel) :
    Canvas._DrawHLine u fuel t i_pt1 i_pt2 i_color_getter
      = .ok (t._Set (std_get 0 i_pt1).asInt (std_get 1 i_pt1).asInt (std_get 2 i_pt1).asInt
          (i_color_getter t.canvas (GoToBegin 0 (LinearInterpolationIterator.ctor 0
            (std.RemoveItem 1 i_pt1) (std.RemoveItem 1 i_pt2) u)))) ∧
    (t._Set (std_get 0 i_pt1).asInt (std_get 1 i_pt1).asInt (std_get 2 i_pt1).asInt
        (i_color_getter t.canvas (GoToBegin 0 (LinearInterpolationIterator.ctor 0
          (std.RemoveItem 1 i_pt1) (std.RemoveItem 1 i_pt2) u)))).calls.length
      = t.calls.length + 1 ∧
    operator_deref 0 (GoToBegin 0 (LinearInterpolationIterator.ctor 0
        (std.RemoveItem 1 i_pt1) (std.RemoveItem 1 i_pt2) u)) = std.RemoveItem 1 i_pt1 ∧
    ∀ i : Nat, i < (std.RemoveItem 1 i_pt1).length →
      Get 0 i (GoToBegin 0 (LinearInterpolationIterator.ctor 0
        (std.RemoveItem 1 i_pt1) (std.RemoveItem 1 i_pt2) u)) = std_get i (std.RemoveItem 1 i_pt1) := by
  have hl1 := h1.length_ge
  have hl2 := h2.length_ge
  have hlen : (std.RemoveItem 1 i_pt1).length = i_pt1.length - 1 := by
    rw [std.RemoveItem_eq_eraseIdx 1 i_pt1 (by omega), List.length_eraseIdx]
    split_ifs <;> omega
  have hget : ∀ i : Nat, i < (std.RemoveItem 1 i_pt1).length →
      Get 0 i (GoToBegin 0 (LinearInterpolationIterator.ctor 0
        (std.RemoveItem 1 i_pt1) (std.RemoveItem 1 i_pt2) u))
        = std_get i (std.RemoveItem 1 i_pt1) :=
    fun i hi => Get_GoToBegin_ctor 0 (std.RemoveItem 1 i_pt1) (std.RemoveItem 1 i_pt2) u
      (h1.instantiable_shrinked h2) i hi
  have hz := hget 1 (by omega)
  have e1 := std.std_get_RemoveItem_one_succ i_pt1 (by omega) 0
  simp only [Nat.zero_add] at e1
  rw [e1] at hz
  refine ⟨?_, ?_, ?_, hget⟩
  · rw [Canvas._DrawHLine_eq_unrolled u fuel t i_pt1 i_pt2 i_color_getter (by omega) (by omega)
      hx.le hy (by omega)]
    unfold Canvas._DrawHLine.unrolled
    have hr : List.range 1 = [0] := rfl
    have h0 : (std_get 0 i_pt2).asInt - (std_get 0 i_pt1).asInt = 0 := by omega
    simp only [h0, Int.toNat_zero, Nat.zero_add, hr, List.foldl_cons,
      List.foldl_nil, Function.iterate_zero, id_eq, Nat.cast_zero, add_zero]
    rw [hz]
  · unfold TracedCanvas._Set
    simp
  · apply operator_deref_eq_of_Get
    · rw [(GoToBegin_ctor 0 (std.RemoveItem 1 i_pt1) (std.RemoveItem 1 i_pt2) u).1]
    · exact hget

theorem C38_zero_length_span_witness :
    Canvas._DrawHLine ⟨0, 0, 0⟩ 1 ⟨sampleCanvas, []⟩ [.int 2, .int 1, .int 9, .real 1]
        [.int 2, .int 1, .int 4, .real 3] (fun _ _ => ⟨255, 0, 0⟩)
      = .ok ((⟨sampleCanvas, []⟩ : TracedCanvas)._Set
          (std_get 0 [Scalar.int 2, .int 1, .int 9, .real 1]).asInt
          (std_get 1 [Scalar.int 2, .int 1, .int 9, .real 1]).asInt
          (std_get 2 [Scalar.int 2, .int 1, .int 9, .real 1]).asInt
          ((fun _ _ => ⟨255, 0, 0⟩ : ColorGetter) sampleCanvas
            (GoToBegin 0 (LinearInterpolationIterator.ctor 0
              (std.RemoveItem 1 [.int 2, .int 1, .int 9, .real 1])
              (std.RemoveItem 1 [.int 2, .int 1, .int 4, .real 3]) ⟨0, 0, 0⟩)))) ∧
    operator_deref 0 (GoToBegin 0 (LinearInterpolationIterator.ctor 0
        (std.RemoveItem 1 [.int 2, .int 1, .int 9, .real 1])
        (std.RemoveItem 1 [.int 2, .int 1, .int 4, .real 3]) ⟨0, 0, 0⟩))
      = std.RemoveItem 1 [.int 2, .int 1, .int 9, .real 1] :=
  ⟨(C38_zero_length_span [true, true, true, false] [.int 2, .int 1, .int 9, .real 1]
      [.int 2, .int 1, .int 4, .real 3] (by decide) (by decide) ⟨0, 0, 0⟩ 1
      ⟨sampleCanvas, []⟩ (fun _ _ => ⟨255, 0, 0⟩) (by decide) (by decide) (by decide)).1,
   (C38_zero_length_span [true, true, true, false] [.int 2, .int 1, .int 9, .real 1]
      [.int 2, .int 1, .int 4, .real 3] (by decide) (by decide) ⟨0, 0, 0⟩ 1
      ⟨sampleCanvas, []⟩ (fun _ _ => ⟨255, 0, 0⟩) (by decide) (by decide) (by decide)).2.2.1⟩

end Graphics

/-! ## Lines: gap-free and symmetric -/

namespace Geometry

namespace LinearInterpolationIterator

/-- One step of the along axis moves an integral across axis by at most one unit
when its delta is not larger than the along delta. -/
theorem roundedPosition_step (a d n : Int) (k : Nat) (hn : 0 < n) (hd : |d| ≤ n) :
    |roundedPosition a d n (k + 1) - roundedPosition a d n k| ≤ 1 := by
  unfold roundedPosition
  have h2n : (0 : Int) < 2 * n := by omega
  have hd0 := abs_nonneg d
  have hlo : (2 * |d| * (k : Int) + n) / (2 * n) ≤ (2 * |d| * ((k + 1 : Nat) : Int) + n) / (2 * n) := by
    apply Int.ediv_le_ediv h2n
    push_cast
    nlinarith
  have hhi : (2 * |d| * ((k + 1 : Nat) : Int) + n) / (2 * n)
      ≤ (2 * |d| * (k : Int) + n) / (2 * n) + 1 := by
    have e : (2 * |d| * (k : Int) + n) / (2 * n) + 1
        = (2 * |d| * (k : Int) + n + 1 * (2 * n)) / (2 * n) := by
      rw [Int.add_mul_ediv_right _ _ (by omega)]
    rw [e]
    apply Int.ediv_le_ediv h2n
    push_cast
    nlinarith
  generalize (2 * |d| * ((k + 1 : Nat) : Int) + n) / (2 * n) = q1 at hlo hhi
  generalize (2 * |d| * (k : Int) + n) / (2 * n) = q0 at hlo hhi
  have e : a + Int.sign d * q1 - (a + Int.sign d * q0) = Int.sign d * (q1 - q0) := by ring
  rw [e, abs_le]
  rcases lt_trichotomy d 0 with h | h | h
  · rw [Int.sign_eq_neg_one_of_neg h]; constructor <;> omega
  · subst h; simp
  · rw [Int.sign_eq_one_of_pos h]; constructor <;> omega

end LinearInterpolationIterator

end Geometry

namespace Graphics

open Geometry Geometry.LinearInterpolationIterator

/-- A line walked along `x` whose `y` extent is not larger than its `x` extent:
`x2 - x1 + 1` pixels from `(x1, y1)` to `(x2, y2)`, each one step to the right of
the previous one and at most one row away from it. -/
theorem Canvas.DrawLine.alongX_gapfree (x1 y1 x2 y2 : Int) (hx : x1 ≤ x2)
    (hmaj : |y2 - y1| ≤ x2 - x1) :
    ((Canvas.DrawLine.alongX x1 y1 x2 y2).length : Int) = x2 - x1 + 1 ∧
    (Canvas.DrawLine.alongX x1 y1 x2 y2).head? = some (x1, y1) ∧
    (Canvas.DrawLine.alongX x1 y1 x2 y2).getLast? = some (x2, y2) ∧
    (Canvas.DrawLine.alongX x1 y1 x2 y2).Chain'
      (fun p q => q.1 = p.1 + 1 ∧ |q.2 - p.2| ≤ 1) := by
  unfold Canvas.DrawLine.alongX
  refine ⟨?_, ?_, ?_, ?_⟩
  · rw [List.length_map, List.length_range]
    push_cast
    rw [Int.toNat_of_nonneg (by omega)]
  · rw [List.range_succ_eq_map]
    simp only [List.map_cons, List.head?_cons, Nat.cast_zero, add_zero]
    rw [roundedPosition_zero _ _ _ (by omega)]
  · rw [List.range_succ, List.map_append, List.map_cons, List.map_nil, List.getLast?_concat]
    rw [Int.toNat_of_nonneg (by omega)]
    rcases hx.lt_or_eq with h | h
    · have e := roundedPosition_end y1 (y2 - y1) (Int.toNat (x2 - x1))
        (by rw [Int.toNat_of_nonneg (by omega)]; omega)
      rw [Int.toNat_of_nonneg (by omega)] at e
      rw [e]
      congr 2 <;> ring
    · subst h
      rw [sub_self] at hmaj
      have hy : y2 - y1 = 0 := abs_eq_zero.mp (le_antisymm hmaj (abs_nonneg _))
      simp only [sub_self, Int.toNat_zero, Nat.cast_zero, add_zero]
      rw [roundedPosition_zero _ _ _ le_rfl]
      congr 2
      omega
  · rw [List.chain'_map, List.chain'_range_succ]
    intro m hm
    refine ⟨?_, ?_⟩
    · push_cast; ring
    · exact roundedPosition_step _ _ _ m (by omega) hmaj

/-- The same along `y`. -/
theorem Canvas.DrawLine.alongY_gapfree (x1 y1 x2 y2 : Int) (hy : y1 ≤ y2)
    (hmaj : |x2 - x1| ≤ y2 - y1) :
    ((Canvas.DrawLine.alongY x1 y1 x2 y2).length : Int) = y2 - y1 + 1 ∧
    (Canvas.DrawLine.alongY x1 y1 x2 y2).head? = some (x1, y1) ∧
    (Canvas.DrawLine.alongY x1 y1 x2 y2).getLast? = some (x2, y2) ∧
    (Canvas.DrawLine.alongY x1 y1 x2 y2).Chain'
      (fun p q => q.2 = p.2 + 1 ∧ |q.1 - p.1| ≤ 1) := by
  unfold Canvas.DrawLine.alongY
  refine ⟨?_, ?_, ?_, ?_⟩
  · rw [List.length_map, List.length_range]
    push_cast
    rw [Int.toNat_of_nonneg (by omega)]
  · rw [List.range_succ_eq_map]
    simp only [List.map_cons, List.head?_cons, Nat.cast_zero, add_zero]
    rw [roundedPosition_zero _ _ _ (by omega)]
  · rw [List.range_succ, List.map_append, List.map_cons, List.map_nil, List.getLast?_concat]
    rw [Int.toNat_of_nonneg (by omega)]
    rcases hy.lt_or_eq with h | h
    · have e := roundedPosition_end x1 (x2 - x1) (Int.toNat (y2 - y1))
        (by rw [Int.toNat_of_nonneg (by omega)]; omega)
      rw [Int.toNat_of_nonneg (by omega)] at e
      rw [e]
      congr 2 <;> ring
    · subst h
      rw [sub_self] at hmaj
      have hx : x2 - x1 = 0 := abs_eq_zero.mp (le_antisymm hmaj (abs_nonneg _))
      simp only [sub_self, Int.toNat_zero, Nat.cast_zero, add_zero]
      rw [roundedPosition_zero _ _ _ le_rfl]
      congr 2
      omega
  · rw [List.chain'_map, List.chain'_range_succ]
    intro m hm
    refine ⟨?_, ?_⟩
    · push_cast; ring
    · exact roundedPosition_step _ _ _ m (by omega) hmaj

/-- The pixels of a line: `max(|dx|, |dy|) + 1` of them, from one endpoint to the
other, with steps of exactly one along the major axis and at most one along the
minor axis. -/
theorem Canvas.DrawLine.pixels_gapfree (x1 y1 x2 y2 : Int) :
    ((Canvas.DrawLine.pixels x1 y1 x2 y2).length : Int) = max |x2 - x1| |y2 - y1| + 1 ∧
    (((Canvas.DrawLine.pixels x1 y1 x2 y2).head? = some (x1, y1)
        ∧ (Canvas.DrawLine.pixels x1 y1 x2 y2).getLast? = some (x2, y2))
      ∨ ((Canvas.DrawLine.pixels x1 y1 x2 y2).head? = some (x2, y2)
        ∧ (Canvas.DrawLine.pixels x1 y1 x2 y2).getLast? = some (x1, y1))) ∧
    (|x2 - x1| ≥ |y2 - y1| → (Canvas.DrawLine.pixels x1 y1 x2 y2).Chain'
      (fun p q => q.1 = p.1 + 1 ∧ |q.2 - p.2| ≤ 1)) ∧
    (|x2 - x1| < |y2 - y1| → (Canvas.DrawLine.pixels x1 y1 x2 y2).Chain'
      (fun p q => q.2 = p.2 + 1 ∧ |q.1 - p.1| ≤ 1)) := by
  unfold Canvas.DrawLine.pixels
  have bx := le_abs_self (x2 - x1)
  have cx := neg_abs_le (x2 - x1)
  have by_ := le_abs_self (y2 - y1)
  have cy := neg_abs_le (y2 - y1)
  have ex := abs_sub_comm x2 x1
  have ey := abs_sub_comm y2 y1
  by_cases hsh : |x2 - x1| ≥ |y2 - y1|
  · rw [if_pos hsh, max_eq_left hsh]
    by_cases hneg : x2 - x1 < 0
    · rw [if_pos hneg]
      obtain ⟨h1, h2, h3, h4⟩ := Canvas.DrawLine.alongX_gapfree x2 y2 x1 y1 (by omega)
        (by rw [← ey, abs_of_neg hneg] at *; omega)
      refine ⟨?_, Or.inr ⟨h2, h3⟩, fun _ => h4, fun h => absurd hsh (not_le.mpr h)⟩
      rw [h1, abs_of_neg hneg]; ring
    · rw [if_neg hneg]
      obtain ⟨h1, h2, h3, h4⟩ := Canvas.DrawLine.alongX_gapfree x1 y1 x2 y2 (by omega)
        (by rw [abs_of_nonneg (not_lt.mp hneg)] at hsh; exact hsh)
      refine ⟨?_, Or.inl ⟨h2, h3⟩, fun _ => h4, fun h => absurd hsh (not_le.mpr h)⟩
      rw [h1, abs_of_nonneg (not_lt.mp hneg)]
  · rw [if_neg hsh, max_eq_right (not_le.mp hsh).le]
    have hlt := not_le.mp hsh
    by_cases hneg : y2 - y1 < 0
    · rw [if_pos hneg]
      obtain ⟨h1, h2, h3, h4⟩ := Canvas.DrawLine.alongY_gapfree x2 y2 x1 y1 (by omega)
        (by rw [← ex]; rw [abs_of_neg hneg] at hlt; omega)
      refine ⟨?_, Or.inr ⟨h2, h3⟩, fun h => absurd h hsh, fun _ => h4⟩
      rw [h1, abs_of_neg hneg]; ring
    · rw [if_neg hneg]
      obtain ⟨h1, h2, h3, h4⟩ := Canvas.DrawLine.alongY_gapfree x1 y1 x2 y2 (by omega)
        (by rw [abs_of_nonneg (not_lt.mp hneg)] at hlt; omega)
      refine ⟨?_, Or.inl ⟨h2, h3⟩, fun h => absurd h hsh, fun _ => h4⟩
      rw [h1, abs_of_nonneg (not_lt.mp hneg)]

/-- C35: `DrawLine` draws a gap-free line for every input.  For every pair of
points (integer `x`, `y` and depth) with `dx = x2 - x1` and `dy = y2 - y1` (and
fuel above `|dx| + |dy|`) the call returns after exactly `max(|dx|, |dy|) + 1`
compositor writes, the first at one of the two endpoints and the last at the
other, with consecutive pixels differing by exactly 1 along the major axis and by
at most 1 along the minor axis. -/
theorem C35_DrawLine_gap_free (T : List Bool) (i_pt1 i_pt2 : PointType)
    (h1 : IsTPoint T i_pt1) (h2 : IsTPoint T i_pt2)
    (u : Indeterminate) (fuel : Nat) (t : TracedCanvas) (i_color : Color)
    (hfuel : |(std_get 0 i_pt2).asInt - (std_get 0 i_pt1).asInt|
      + |(std_get 1 i_pt2).asInt - (std_get 1 i_pt1).asInt| < (fuel : Int)) :
    ∃ (t' : TracedCanvas) (extra : List SetCall),
      Canvas.DrawLine u fuel t i_pt1 i_pt2 i_color = .ok t' ∧
      t'.calls = t.calls ++ extra ∧
      (extra.length : Int) = max |(std_get 0 i_pt2).asInt - (std_get 0 i_pt1).asInt|
        |(std_get 1 i_pt2).asInt - (std_get 1 i_pt1).asInt| + 1 ∧
      (((extra.map SetCall.position).head?
            = some ((std_get 0 i_pt1).asInt, (std_get 1 i_pt1).asInt)
          ∧ (extra.map SetCall.position).getLast?
            = some ((std_get 0 i_pt2).asInt, (std_get 1 i_pt2).asInt))
        ∨ ((extra.map SetCall.position).head?
            = some ((std_get 0 i_pt2).asInt, (std_get 1 i_pt2).asInt)
          ∧ (extra.map SetCall.position).getLast?
            = some ((std_get 0 i_pt1).asInt, (std_get 1 i_pt1).asInt))) ∧
      (|(std_get 0 i_pt2).asInt - (std_get 0 i_pt1).asInt|
          ≥ |(std_get 1 i_pt2).asInt - (std_get 1 i_pt1).asInt| →
        (extra.map SetCall.position).Chain' (fun p q => q.1 = p.1 + 1 ∧ |q.2 - p.2| ≤ 1)) ∧
      (|(std_get 0 i_pt2).asInt - (std_get 0 i_pt1).asInt|
          < |(std_get 1 i_pt2).asInt - (std_get 1 i_pt1).asInt| →
        (extra.map SetCall.position).Chain' (fun p q => q.2 = p.2 + 1 ∧ |q.1 - p.1| ≤ 1)) := by
  obtain ⟨extra, he⟩ := Canvas.DrawLine.closedForm_line_calls_extend u t i_pt1 i_pt2 i_color
  have hpos := Canvas.DrawLine.closedForm_positions T i_pt1 i_pt2 h1 h2 u t i_color
  rw [he, List.map_append, List.append_cancel_left_eq] at hpos
  obtain ⟨g1, g2, g3, g4⟩ := Canvas.DrawLine.pixels_gapfree (std_get 0 i_pt1).asInt
    (std_get 1 i_pt1).asInt (std_get 0 i_pt2).asInt (std_get 1 i_pt2).asInt
  refine ⟨_, extra, Canvas.DrawLine_eq_closedForm u fuel t i_pt1 i_pt2 i_color hfuel, he,
    ?_, ?_, ?_, ?_⟩
  · have hl := congrArg List.length hpos
    rw [List.length_map] at hl
    rw [hl]
    exact g1
  · rw [hpos]; exact g2
  · rw [hpos]; exact g3
  · rw [hpos]; exact g4

end Graphics

namespace Graphics

open Geometry Geometry.LinearInterpolationIterator

/-- For endpoints that differ in `x` or `y`, `DrawLine` walks the same ordered pair
of points whichever way round they are passed: the two calls are one and the same
computation. -/
theorem Canvas.DrawLine_comm_of_ne (u : Indeterminate) (fuel : Nat) (t : TracedCanvas)
    (a b : PointType) (c : Color)
    (hne : (std_get 0 a).asInt ≠ (std_get 0 b).asInt
      ∨ (std_get 1 a).asInt ≠ (std_get 1 b).asInt) :
    Canvas.DrawLine u fuel t a b c = Canvas.DrawLine u fuel t b a c := by
  unfold Canvas.DrawLine
  have ex := abs_sub_comm (std_get 0 a).asInt (std_get 0 b).asInt
  have ey := abs_sub_comm (std_get 1 a).asInt (std_get 1 b).asInt
  have bx := le_abs_self ((std_get 0 b).asInt - (std_get 0 a).asInt)
  have cx := neg_abs_le ((std_get 0 b).asInt - (std_get 0 a).asInt)
  have by_ := le_abs_self ((std_get 1 b).asInt - (std_get 1 a).asInt)
  have cy := neg_abs_le ((std_get 1 b).asInt - (std_get 1 a).asInt)
  have ay := abs_nonneg ((std_get 1 b).asInt - (std_get 1 a).asInt)
  dsimp only
  rw [ex, ey]
  by_cases hsh : |(std_get 0 b).asInt - (std_get 0 a).asInt|
      ≥ |(std_get 1 b).asInt - (std_get 1 a).asInt|
  · by_cases hneg : (std_get 0 b).asInt - (std_get 0 a).asInt < 0
    · have hS : (|(std_get 0 b).asInt - (std_get 0 a).asInt|
            ≥ |(std_get 1 b).asInt - (std_get 1 a).asInt|
            ∧ (std_get 0 b).asInt - (std_get 0 a).asInt < 0)
          ∨ (|(std_get 0 b).asInt - (std_get 0 a).asInt|
            < |(std_get 1 b).asInt - (std_get 1 a).asInt|
            ∧ (std_get 1 b).asInt - (std_get 1 a).asInt < 0) := Or.inl ⟨hsh, hneg⟩
      have hS' : ¬ ((|(std_get 0 b).asInt - (std_get 0 a).asInt|
            ≥ |(std_get 1 b).asInt - (std_get 1 a).asInt|
            ∧ (std_get 0 a).asInt - (std_get 0 b).asInt < 0)
          ∨ (|(std_get 0 b).asInt - (std_get 0 a).asInt|
            < |(std_get 1 b).asInt - (std_get 1 a).asInt|
            ∧ (std_get 1 a).asInt - (std_get 1 b).asInt < 0)) := by
        intro h
        rcases h with h | h
        · have := h.2; omega
        · exact absurd hsh (not_le.mpr h.1)
      rw [if_pos hS, if_neg hS']
    · have hS : ¬ ((|(std_get 0 b).asInt - (std_get 0 a).asInt|
            ≥ |(std_get 1 b).asInt - (std_get 1 a).asInt|
            ∧ (std_get 0 b).asInt - (std_get 0 a).asInt < 0)
          ∨ (|(std_get 0 b).asInt - (std_get 0 a).asInt|
            < |(std_get 1 b).asInt - (std_get 1 a).asInt|
            ∧ (std_get 1 b).asInt - (std_get 1 a).asInt < 0)) := by
        intro h
        rcases h with h | h
        · exact hneg h.2
        · exact absurd hsh (not_le.mpr h.1)
      have hS' : (|(std_get 0 b).asInt - (std_get 0 a).asInt|
            ≥ |(std_get 1 b).asInt - (std_get 1 a).asInt|
            ∧ (std_get 0 a).asInt - (std_get 0 b).asInt < 0)
          ∨ (|(std_get 0 b).asInt - (std_get 0 a).asInt|
            < |(std_get 1 b).asInt - (std_get 1 a).asInt|
            ∧ (std_get 1 a).asInt - (std_get 1 b).asInt < 0) := by
        left
        refine ⟨hsh, ?_⟩
        rcases hne with h | h
        · omega
        · by_cases h0 : (std_get 0 b).asInt - (std_get 0 a).asInt = 0
          · exfalso
            rw [h0, abs_zero] at hsh
            omega
          · omega
      rw [if_neg hS, if_pos hS']
  · have hlt := not_le.mp hsh
    by_cases hneg : (std_get 1 b).asInt - (std_get 1 a).asInt < 0
    · have hS : (|(std_get 0 b).asInt - (std_get 0 a).asInt|
            ≥ |(std_get 1 b).asInt - (std_get 1 a).asInt|
            ∧ (std_get 0 b).asInt - (std_get 0 a).asInt < 0)
          ∨ (|(std_get 0 b).asInt - (std_get 0 a).asInt|
            < |(std_get 1 b).asInt - (std_get 1 a).asInt|
            ∧ (std_get 1 b).asInt - (std_get 1 a).asInt < 0) := Or.inr ⟨hlt, hneg⟩
      have hS' : ¬ ((|(std_get 0 b).asInt - (std_get 0 a).asInt|
            ≥ |(std_get 1 b).asInt - (std_get 1 a).asInt|
            ∧ (std_get 0 a).asInt - (std_get 0 b).asInt < 0)
          ∨ (|(std_get 0 b).asInt - (std_get 0 a).asInt|
            < |(std_get 1 b).asInt - (std_get 1 a).asInt|
            ∧ (std_get 1 a).asInt - (std_get 1 b).asInt < 0)) := by
        intro h
        rcases h with h | h
        · exact hsh h.1
        · have := h.2; omega
      rw [if_pos hS, if_neg hS']
    · have hS : ¬ ((|(std_get 0 b).asInt - (std_get 0 a).asInt|
            ≥ |(std_get 1 b).asInt - (std_get 1 a).asInt|
            ∧ (std_get 0 b).asInt - (std_get 0 a).asInt < 0)
          ∨ (|(std_get 0 b).asInt - (std_get 0 a).asInt|
            < |(std_get 1 b).asInt - (std_get 1 a).asInt|
            ∧ (std_get 1 b).asInt - (std_get 1 a).asInt < 0)) := by
        intro h
        rcases h with h | h
        · exact hsh h.1
        · exact hneg h.2
      have hS' : (|(std_get 0 b).asInt - (std_get 0 a).asInt|
            ≥ |(std_get 1 b).asInt - (std_get 1 a).asInt|
            ∧ (std_get 0 a).asInt - (std_get 0 b).asInt < 0)
          ∨ (|(std_get 0 b).asInt - (std_get 0 a).asInt|
            < |(std_get 1 b).asInt - (std_get 1 a).asInt|
            ∧ (std_get 1 a).asInt - (std_get 1 b).asInt < 0) := by
        right
        refine ⟨hlt, ?_⟩
        have ax := abs_nonneg ((std_get 0 b).asInt - (std_get 0 a).asInt)
        by_cases h0 : (std_get 1 b).asInt - (std_get 1 a).asInt = 0
        · rw [h0, abs_zero] at hlt; omega
        · omega
      rw [if_neg hS, if_pos hS']

/-- C36: `DrawLine` is symmetric in its endpoints.  For every pair of points `a`
and `b` (integer `x`, `y` and depth; fuel above `|dx| + |dy|`) `DrawLine(a, b, c)`
and `DrawLine(b, a, c)` both return and write to the same pixel positions, in the
same order; when `a` and `b` differ in `x` or `y` the two calls are the same
computation: the same sequence of `(x, y, depth)` writes and the same canvas. -/
theorem C36_DrawLine_symmetric (T : List Bool) (a b : PointType)
    (ha : IsTPoint T a) (hb : IsTPoint T b)
    (u : Indeterminate) (fuel : Nat) (t : TracedCanvas) (i_color : Color)
    (hfuel : |(std_get 0 b).asInt - (std_get 0 a).asInt|
      + |(std_get 1 b).asInt - (std_get 1 a).asInt| < (fuel : Int)) :
    (∃ (t1 t2 : TracedCanvas) (extra1 extra2 : List SetCall),
      Canvas.DrawLine u fuel t a b i_color = .ok t1 ∧
      Canvas.DrawLine u fuel t b a i_color = .ok t2 ∧
      t1.calls = t.calls ++ extra1 ∧ t2.calls = t.calls ++ extra2 ∧
      extra1.map SetCall.position = extra2.map SetCall.position) ∧
    (((std_get 0 a).asInt ≠ (std_get 0 b).asInt ∨ (std_get 1 a).asInt ≠ (std_get 1 b).asInt) →
      Canvas.DrawLine u fuel t a b i_color = Canvas.DrawLine u fuel t b a i_color) := by
  constructor
  · obtain ⟨e1, he1⟩ := Canvas.DrawLine.closedForm_line_calls_extend u t a b i_color
    obtain ⟨e2, he2⟩ := Canvas.DrawLine.closedForm_line_calls_extend u t b a i_color
    have hp1 := Canvas.DrawLine.closedForm_positions T a b ha hb u t i_color
    have hp2 := Canvas.DrawLine.closedForm_positions T b a hb ha u t i_color
    rw [he1, List.map_append, List.append_cancel_left_eq] at hp1
    rw [he2, List.map_append, List.append_cancel_left_eq] at hp2
    refine ⟨_, _, e1, e2, Canvas.DrawLine_eq_closedForm u fuel t a b i_color hfuel,
      Canvas.DrawLine_eq_closedForm u fuel t b a i_color
        (by rw [abs_sub_comm (std_get 0 a).asInt, abs_sub_comm (std_get 1 a).asInt]
            exact hfuel),
      he1, he2, ?_⟩
    rw [hp1, hp2]
    exact Canvas.DrawLine.pixels_comm _ _ _ _
  · intro hne
    exact Canvas.DrawLine_comm_of_ne u fuel t a b i_color hne

end Graphics

namespace Graphics

open Geometry Geometry.LinearInterpolationIterator

theorem C35_DrawLine_gap_free_witness :
    ∃ (t' : TracedCanvas) (extra : List SetCall),
      Canvas.DrawLine ⟨0, 0, 0⟩ 5 ⟨sampleCanvas, []⟩ [.int 3, .int 1, .int 1]
        [.int 0, .int 0, .int 1] ⟨255, 0, 0⟩ = .ok t' ∧
      t'.calls = [] ++ extra ∧
      (extra.length : Int) = 4 ∧
      (extra.map SetCall.position).Chain' (fun p q => q.1 = p.1 + 1 ∧ |q.2 - p.2| ≤ 1) := by
  obtain ⟨t', extra, hr, hc, hl, -, hx, -⟩ := C35_DrawLine_gap_free [true, true, true]
    [.int 3, .int 1, .int 1] [.int 0, .int 0, .int 1] (by decide) (by decide) ⟨0, 0, 0⟩ 5
    ⟨sampleCanvas, []⟩ ⟨255, 0, 0⟩ (by decide)
  exact ⟨t', extra, hr, hc, hl.trans (by decide), hx (by decide)⟩

theorem C36_DrawLine_symmetric_witness :
    (∃ (t1 t2 : TracedCanvas) (extra1 extra2 : List SetCall),
      Canvas.DrawLine ⟨0, 0, 0⟩ 5 ⟨sampleCanvas, []⟩ [.int 3, .int 1, .int 1]
        [.int 0, .int 0, .int 2] ⟨255, 0, 0⟩ = .ok t1 ∧
      Canvas.DrawLine ⟨0, 0, 0⟩ 5 ⟨sampleCanvas, []⟩ [.int 0, .int 0, .int 2]
        [.int 3, .int 1, .int 1] ⟨255, 0, 0⟩ = .ok t2 ∧
      t1.calls = [] ++ extra1 ∧ t2.calls = [] ++ extra2 ∧
      extra1.map SetCall.position = extra2.map SetCall.position) ∧
    Canvas.DrawLine ⟨0, 0, 0⟩ 5 ⟨sampleCanvas, []⟩ [.int 3, .int 1, .int 1]
        [.int 0, .int 0, .int 2] ⟨255, 0, 0⟩
      = Canvas.DrawLine ⟨0, 0, 0⟩ 5 ⟨sampleCanvas, []⟩ [.int 0, .int 0, .int 2]
        [.int 3, .int 1, .int 1] ⟨255, 0, 0⟩ :=
  ⟨(C36_DrawLine_symmetric [true, true, true] [.int 3, .int 1, .int 1] [.int 0, .int 0, .int 2]
      (by decide) (by decide) ⟨0, 0, 0⟩ 5 ⟨sampleCanvas, []⟩ ⟨255, 0, 0⟩ (by decide)).1,
   (C36_DrawLine_symmetric [true, true, true] [.int 3, .int 1, .int 1] [.int 0, .int 0, .int 2]
      (by decide) (by decide) ⟨0, 0, 0⟩ 5 ⟨sampleCanvas, []⟩ ⟨255, 0, 0⟩ (by decide)).2
      (Or.inl (by decide))⟩

end Graphics

/-! ## `Matrix::operator*` -/

namespace Geometry

/-- Row-major indices of a square matrix are different for different entries. -/
theorem Matrix.flat_index_inj (N i j r c : Nat) (hj : j < N) (hc : c < N)
    (h : i * N + j = r * N + c) : i = r ∧ j = c := by
  have hi : i = r := by
    rcases lt_trichotomy i r with hlt | heq | hgt
    · have : (i + 1) * N ≤ r * N := Nat.mul_le_mul_right N hlt
      have e : (i + 1) * N = i * N + N := by ring
      omega
    · exact heq
    · have : (r + 1) * N ≤ i * N := Nat.mul_le_mul_right N hgt
      have e : (r + 1) * N = r * N + N := by ring
      omega
  subst hi
  exact ⟨rfl, by omega⟩

theorem Matrix.flat_index_lt (N r c : Nat) (hr : r < N) (hc : c < N) : r * N + c < N * N := by
  have : (r + 1) * N ≤ N * N := Nat.mul_le_mul_right N hr
  have e : (r + 1) * N = r * N + N := by ring
  omega

/-- Reading an entry after one assignment. -/
theorem Matrix.operator_call_assign_spec (M : Matrix) (N r c : Nat) (v : Int)
    (hN : M.RowsCount = N) (hlen : M.m_data.length = N * N) (hr : r < N) (hc : c < N) :
    (M.operator_call_assign r c v).RowsCount = N ∧
    (M.operator_call_assign r c v).ColumnsCount = M.ColumnsCount ∧
    (M.operator_call_assign r c v).m_data.length = N * N ∧
    ∀ i j : Nat, j < N →
      (M.operator_call_assign r c v).operator_call i j
        = if i = r ∧ j = c then v else M.operator_call i j := by
  refine ⟨hN, rfl, ?_, ?_⟩
  · unfold Matrix.operator_call_assign
    simp only [List.length_set]
    exact hlen
  · intro i j hj
    unfold Matrix.operator_call Matrix.operator_call_assign
    simp only [hN]
    rw [List.getD_eq_getElem?_getD, List.getD_eq_getElem?_getD, List.getElem?_set]
    have hlt := Matrix.flat_index_lt N r c hr hc
    by_cases h : i = r ∧ j = c
    · obtain ⟨rfl, rfl⟩ := h
      simp [hlen, hlt]
    · rw [if_neg h, if_neg]
      intro e
      exact h (Matrix.flat_index_inj N i j r c hj hc e.symm)

/-- The inner loop of `operator*` for one entry: every pass overwrites the entry,
so after the loop it holds the product of the last pass (`0` if there is none). -/
theorem Matrix.operator_mul_inner (res : Matrix) (row column : Nat) (g : Nat → Int) (n : Nat) :
    (List.range n).foldl
        (fun (res : Matrix) (inner : Nat) => res.operator_call_assign row column (g inner))
        (res.operator_call_assign row column 0)
      = res.operator_call_assign row column (if n = 0 then 0 else g (n - 1)) := by
  induction n with
  | zero => rfl
  | succ n ih =>
    rw [List.range_succ, List.foldl_append, ih]
    simp only [List.foldl_cons, List.foldl_nil, Nat.add_sub_cancel, Nat.succ_ne_zero, if_false]
    unfold Matrix.operator_call_assign
    simp only [List.set_set]

/-- The loop over the columns of one row, for any right-hand sides `w`. -/
theorem Matrix.assign_row_spec (N row : Nat) (hrow : row < N) (w : Nat → Int) :
    ∀ (c : Nat), c ≤ N → ∀ (M : Matrix), M.RowsCount = N → M.m_data.length = N * N →
      ((List.range c).foldl
          (fun (res : Matrix) (column : Nat) => res.operator_call_assign row column (w column))
          M).RowsCount = N ∧
      ((List.range c).foldl
          (fun (res : Matrix) (column : Nat) => res.operator_call_assign row column (w column))
          M).ColumnsCount = M.ColumnsCount ∧
      ((List.range c).foldl
          (fun (res : Matrix) (column : Nat) => res.operator_call_assign row column (w column))
          M).m_data.length = N * N ∧
      ∀ i j : Nat, j < N →
        ((List.range c).foldl
          (fun (res : Matrix) (column : Nat) => res.operator_call_assign row column (w column))
          M).operator_call i j
          = if i = row ∧ j < c then w j else M.operator_call i j := by
  intro c
  induction c with
  | zero =>
    intro _ M hN hlen
    refine ⟨hN, rfl, hlen, ?_⟩
    intro i j _
    simp
  | succ c ih =>
    intro hc M hN hlen
    obtain ⟨h1, h2, h3, h4⟩ := ih (by omega) M hN hlen
    rw [List.range_succ, List.foldl_append, List.foldl_cons, List.foldl_nil]
    obtain ⟨g1, g2, g3, g4⟩ := Matrix.operator_call_assign_spec _ N row c (w c) h1 h3 hrow
      (by omega)
    refine ⟨g1, g2.trans h2, g3, ?_⟩
    intro i j hj
    rw [g4 i j hj, h4 i j hj]
    by_cases hi : i = row
    · subst hi
      by_cases hjc : j = c
      · subst hjc
        simp
      · by_cases hlt : j < c
        · have : j < c + 1 := by omega
          simp [hjc, hlt, this]
        · have : ¬ j < c + 1 := by omega
          simp [hjc, hlt, this]
    · simp [hi]

/-- The loop over the rows, for any right-hand sides `w`. -/
theorem Matrix.assign_rows_spec (N : Nat) (w : Nat → Nat → Int) :
    ∀ (r : Nat), r ≤ N → ∀ (M : Matrix), M.RowsCount = N → M.m_data.length = N * N →
      ((List.range r).foldl
          (fun (res : Matrix) (row : Nat) =>
            (List.range N).foldl
              (fun (res : Matrix) (column : Nat) =>
                res.operator_call_assign row column (w row column)) res)
          M).RowsCount = N ∧
      ((List.range r).foldl
          (fun (res : Matrix) (row : Nat) =>
            (List.range N).foldl
              (fun (res : Matrix) (column : Nat) =>
                res.operator_call_assign row column (w row column)) res)
          M).ColumnsCount = M.ColumnsCount ∧
      ((List.range r).foldl
          (fun (res : Matrix) (row : Nat) =>
            (List.range N).foldl
              (fun (res : Matrix) (column : Nat) =>
                res.operator_call_assign row column (w row column)) res)
          M).m_data.length = N * N ∧
      ∀ i j : Nat, j < N →
        ((List.range r).foldl
          (fun (res : Matrix) (row : Nat) =>
            (List.range N).foldl
              (fun (res : Matrix) (column : Nat) =>
                res.operator_call_assign row column (w row column)) res)
          M).operator_call i j
          = if i < r then w i j else M.operator_call i j := by
  intro r
  induction r with
  | zero =>
    intro _ M hN hlen
    refine ⟨hN, rfl, hlen, ?_⟩
    intro i j _
    simp
  | succ r ih =>
    intro hr M hN hlen
    obtain ⟨h1, h2, h3, h4⟩ := ih (by omega) M hN hlen
    rw [List.range_succ, List.foldl_append, List.foldl_cons, List.foldl_nil]
    obtain ⟨g1, g2, g3, g4⟩ := Matrix.assign_row_spec N r (by omega) (w r) N le_rfl _ h1 h3
    refine ⟨g1, g2.trans h2, g3, ?_⟩
    intro i j hj
    rw [g4 i j hj, h4 i j hj]
    by_cases hi : i = r
    · subst hi
      simp [hj]
    · by_cases hlt : i < r
      · have : i < r + 1 := by omega
        simp [hi, hlt, this]
      · have : ¬ i < r + 1 := by omega
        simp [hi, hlt, this]

/-- What `operator*` computes for square matrices of size `N ≥ 1`: entry `(i, j)` of
the result is the single product `A(i, N - 1) * B(N - 1, j)`, the last one of the
inner loop, and not the sum over `k` of `A(i, k) * B(k, j)`. -/
theorem Matrix.operator_mul_entry (A B : Matrix) (N : Nat) (res_storage : List Int)
    (hN : 0 < N) (hA : A.RowsCount = N ∧ A.ColumnsCount = N)
    (hB : B.RowsCount = N ∧ B.ColumnsCount = N) (hres : res_storage.length = N * N)
    (i j : Nat) (hi : i < N) (hj : j < N) :
    (A.operator_mul B res_storage).operator_call i j
      = A.operator_call i (N - 1) * B.operator_call (N - 1) j := by
  unfold Matrix.operator_mul
  simp only [Matrix.operator_mul_inner, hA.1, hA.2, hB.2]
  obtain ⟨-, -, -, h⟩ := Matrix.assign_rows_spec N
    (fun row column => if N = 0 then 0
      else A.operator_call row (N - 1) * B.operator_call (N - 1) column)
    N le_rfl ⟨N, N, res_storage⟩ rfl hres
  rw [h i j hj, if_pos hi, if_neg (by omega)]

end Geometry

namespace Geometry

/-- C39, failing input: the `2 × 2` matrix `A = [[1, 2], [3, 4]]` times the matrix
produced by `MakeIdentity`.  The inner loop of `operator*` assigns each product
`self(row, inner) * i_matrix(inner, column)` to `res(row, column)` instead of
adding it, so the result holds the last product only: `A * I = [[0, 2], [0, 4]]`,
not `A`, and entry `(0, 0)` is `0` where the sum over `k` is `1`. -/
theorem C39_matrix_product_failing_input :
    (Matrix.MakeIdentity ⟨2, 2, [7, 7, 7, 7]⟩) = ⟨2, 2, [1, 0, 0, 1]⟩ ∧
    Matrix.operator_mul ⟨2, 2, [1, 2, 3, 4]⟩ (Matrix.MakeIdentity ⟨2, 2, [7, 7, 7, 7]⟩)
        [9, 9, 9, 9]
      = ⟨2, 2, [0, 2, 0, 4]⟩ ∧
    (Matrix.operator_mul ⟨2, 2, [1, 2, 3, 4]⟩ (Matrix.MakeIdentity ⟨2, 2, [7, 7, 7, 7]⟩)
        [9, 9, 9, 9]).operator_call 0 0 = 0 ∧
    Matrix.specProductEntry ⟨2, 2, [1, 2, 3, 4]⟩ (Matrix.MakeIdentity ⟨2, 2, [7, 7, 7, 7]⟩) 0 0
      = 1 := by
  decide

end Geometry

/-! ## Vertex order -/

namespace Geometry

namespace LinearInterpolationIterator

end LinearInterpolationIterator

end Geometry

namespace Graphics

open Geometry Geometry.LinearInterpolationIterator

end Graphics

namespace Graphics

open Geometry Geometry.LinearInterpolationIterator

end Graphics

namespace Graphics

open Geometry Geometry.LinearInterpolationIterator

end Graphics

namespace Graphics

open Geometry Geometry.LinearInterpolationIterator

end Graphics

namespace Graphics

open Geometry Geometry.LinearInterpolationIterator

end Graphics
